import Mathlib

/-!
Verification development of zkevm-bridge-service.

Shallow embedding of the parts of the bridge service that the specification
makes claims about, followed by the theorems that settle those claims.

* `etherman/etherman.go`: `DecodeGlobalIndex`, `GenerateGlobalIndex`
* `server/service.go`: `getNode`, `getProof`, `getRollupExitProof`,
  `GetClaimProof`, `GetClaimProofbyGER`, `emptyProof`, `GetDepositStatus`
* `synchronizer/synchronizer.go`: `processBlockRange` and the `process*` handlers,
  `resetState`, `checkReorg`, `syncBlocks`, `syncTrustedState` and the loop of `Sync`
* `claimtxman/claimtxman.go`: the loop of `Start`, `updateDepositsStatus`,
  `processDepositStatus`, `isDepositMessageAllowed`, `addClaimTx`, `ReviewMonitoredTx`

Conventions. A Go byte is a `Nat` (below 256 wherever the code produces it), a
byte slice is a `List Nat`, a `uint32`/`uint64` is a `Nat` with the wrap-around
written out where the code can overflow, a `*big.Int` is an `Int`.  A Go call
that may return an error or abort with a run-time panic returns an `Outcome`.
A loop without a bound known in advance is unfolded up to a given number of
iterations, and its result is `none` when that number is used up.
-/

namespace Bridge

/-! ## Outcomes and errors -/

/-- Errors the modelled code returns.  `sentinel` values are the package-level
error variables (`gerror.ErrDepositNotSynced`, `gerror.ErrStorageNotFound`),
`other` is any error produced by a collaborator, `wrapped` is a `fmt.Errorf`
built around another error and `msg` a `fmt.Errorf` without an inner error. -/
inductive Err where
  | depositNotSynced : Err
  | storageNotFound : Err
  | other : Nat → Err
  | wrapped : String → Err → Err
  | msg : String → Err
  deriving DecidableEq, Repr

/-- Result of a Go call: a value, a returned error, or a run-time panic. -/
inductive Outcome (α : Type) where
  | ok : α → Outcome α
  | error : Err → Outcome α
  | panic : String → Outcome α
  deriving DecidableEq, Repr

/-! ## Global index (`etherman/etherman.go`) -/

/-- The `len` big-endian bytes of `n` (the low `len` bytes when `n` is larger). -/
def bytesBE (n len : Nat) : List Nat :=
  (List.range len).map (fun i => (n / 256 ^ (len - 1 - i)) % 256)

/-- Model of `big.Int.SetBytes`: the value of a big-endian byte slice. -/
def setBytes (bs : List Nat) : Nat :=
  bs.foldl (fun acc b => acc * 256 + b) 0

/-- Model of `big.Int.FillBytes` into a buffer of `len` bytes: the absolute value,
zero-extended and big-endian; it panics when the value does not fit. -/
def fillBytes (x : Int) (len : Nat) : Outcome (List Nat) :=
  if x.natAbs < 256 ^ len then Outcome.ok (bytesBE x.natAbs len)
  else Outcome.panic "math/big: buffer too small to fit value"

/-- Model of `big.Int.Bytes`: the minimal big-endian bytes of the absolute value. -/
def bigBytes (x : Int) : List Nat :=
  (Nat.digits 256 x.natAbs).reverse

/-- Model of `big.Int.Uint64` of a non-negative value: its low 64 bits. -/
def toUint64 (n : Nat) : Nat := n % 2 ^ 64

/-- Model of `math.MaxUint32`. -/
def maxUint32 : Nat := 2 ^ 32 - 1

/-- Model of `DecodeGlobalIndex` of `etherman/etherman.go`. -/
def DecodeGlobalIndex (globalIndex : Int) : Outcome (Bool × Nat × Nat) :=
  match fillBytes globalIndex 32 with
  | Outcome.panic p => Outcome.panic p
  | Outcome.error e => Outcome.error e
  | Outcome.ok gIBytes =>
    if gIBytes.length ≠ 32 then
      Outcome.error (Err.msg "invalid globaIndex length. Should be 32")
    else
      let mainnetFlag : Bool := decide (toUint64 (setBytes [gIBytes.getD 23 0]) = 1)
      let rollupIndex := setBytes ((gIBytes.drop 24).take 4)
      let localRootIndex := setBytes ((gIBytes.drop 28).take 4)
      if toUint64 rollupIndex > maxUint32 then
        Outcome.error (Err.msg "invalid rollupIndex length. Should be fit into uint32 type")
      else if toUint64 localRootIndex > maxUint32 then
        Outcome.error (Err.msg "invalid localRootIndex length. Should be fit into uint32 type")
      else
        Outcome.ok (mainnetFlag, toUint64 rollupIndex % 2 ^ 32, toUint64 localRootIndex % 2 ^ 32)

/-- Model of `GenerateGlobalIndex` of `etherman/etherman.go`; `rollupIndex` and
`localExitRootIndex` are `uint32` values.  The four-byte `FillBytes` calls
cannot panic on a `uint32`, so the panic branch yields no bytes. -/
def GenerateGlobalIndex (mainnetFlag : Bool) (rollupIndex localExitRootIndex : Nat) : Int :=
  let fill4 (v : Nat) : List Nat :=
    match fillBytes (Int.ofNat (v % 2 ^ 32)) 4 with
    | Outcome.ok bs => bs
    | _ => []
  let globalIndexBytes : List Nat :=
    if mainnetFlag then bigBytes 1 ++ fill4 0
    else fill4 rollupIndex
  let globalIndexBytes := globalIndexBytes ++ fill4 localExitRootIndex
  Int.ofNat (setBytes globalIndexBytes)

/-- Byte `i` (0 is the most significant) of the 32-byte big-endian form of `x`. -/
def byteAt (x : Nat) (i : Nat) : Nat := (x / 256 ^ (31 - i)) % 256

/-- The big-endian `uint32` held in bytes `i .. i+3` of the 32-byte form of `x`. -/
def be32At (x : Nat) (i : Nat) : Nat :=
  byteAt x i * 2 ^ 24 + byteAt x (i + 1) * 2 ^ 16 + byteAt x (i + 2) * 2 ^ 8 + byteAt x (i + 3)

/-! ## Data model (`etherman/types.go`) -/

/-- A byte slice or fixed-size byte array (`[]byte`, `common.Hash`, `[32]byte`). -/
abbrev Bytes := List Nat

/-- Handle of a database transaction (`pgx.Tx`); a nil `dbTx` is `none`. -/
abbrev Tx := Nat

/-- Model of `copy(dst[:], src)` into a zeroed `[32]byte`: the first 32 bytes of `src`,
padded with zeros. -/
def copy32 (src : Bytes) : Bytes :=
  src.take 32 ++ List.replicate (32 - src.length) 0

/-- The zero value `common.Hash{}`. -/
def zeroHash : Bytes := List.replicate 32 0

/-- Model of `etherman.GlobalExitRoot`. -/
structure GlobalExitRoot where
  BlockID : Nat
  BlockNumber : Nat
  ExitRoots : List Bytes
  GlobalExitRoot : Bytes
  NetworkID : Nat
  ID : Nat
  deriving DecidableEq, Repr

/-- Model of `etherman.Deposit`. -/
structure Deposit where
  Id : Nat
  LeafType : Nat
  OriginalNetwork : Nat
  OriginalAddress : Bytes
  Amount : Int
  DestinationNetwork : Nat
  DestinationAddress : Bytes
  DepositCount : Nat
  BlockID : Nat
  BlockNumber : Nat
  NetworkID : Nat
  TxHash : Bytes
  Metadata : Bytes
  ReadyForClaim : Bool
  deriving DecidableEq, Repr

/-- Model of `etherman.Claim`. -/
structure Claim where
  MainnetFlag : Bool
  RollupIndex : Nat
  Index : Nat
  OriginalNetwork : Nat
  OriginalAddress : Bytes
  Amount : Int
  DestinationAddress : Bytes
  BlockID : Nat
  BlockNumber : Nat
  NetworkID : Nat
  TxHash : Bytes
  deriving DecidableEq, Repr

/-- Model of `etherman.TokenWrapped` (with the embedded `TokenMetadata`). -/
structure TokenWrapped where
  Name : String
  Symbol : String
  Decimals : Nat
  OriginalNetwork : Nat
  OriginalTokenAddress : Bytes
  WrappedTokenAddress : Bytes
  BlockID : Nat
  BlockNumber : Nat
  NetworkID : Nat
  deriving DecidableEq, Repr

/-- Model of `etherman.VerifiedBatch`. -/
structure VerifiedBatch where
  BlockNumber : Nat
  BatchNumber : Nat
  RollupID : Nat
  LocalExitRoot : Bytes
  TxHash : Bytes
  StateRoot : Bytes
  Aggregator : Bytes
  deriving DecidableEq, Repr

/-- Model of `etherman.RollupExitLeaf`. -/
structure RollupExitLeaf where
  ID : Nat
  BlockID : Nat
  Leaf : Bytes
  RollupId : Nat
  Root : Bytes
  deriving DecidableEq, Repr

/-- Model of `etherman.Block`. -/
structure Block where
  ID : Nat
  BlockNumber : Nat
  BlockHash : Bytes
  ParentHash : Bytes
  NetworkID : Nat
  GlobalExitRoots : List GlobalExitRoot
  RemoveL2GER : List GlobalExitRoot
  Deposits : List Deposit
  Claims : List Claim
  Tokens : List TokenWrapped
  VerifiedBatches : List VerifiedBatch
  ActivateEtrog : List Bool
  ReceivedAt : Nat
  deriving DecidableEq, Repr

/-- Model of `etherman.Order`: the kind of an event (`EventOrder` is a Go string type)
and its index in the block's array of that kind (`Pos` is a Go `int`). -/
structure Order where
  Name : String
  Pos : Int
  deriving DecidableEq, Repr

/-- Model of `etherman.GlobalExitRootsOrder`. -/
def GlobalExitRootsOrder : String := "GlobalExitRoot"
/-- Model of `etherman.RemoveL2GEROrder`. -/
def RemoveL2GEROrder : String := "RemoveL2GEROrder"
/-- Model of `etherman.DepositsOrder`. -/
def DepositsOrder : String := "Deposit"
/-- Model of `etherman.ClaimsOrder`. -/
def ClaimsOrder : String := "Claim"
/-- Model of `etherman.TokensOrder`. -/
def TokensOrder : String := "TokenWrapped"
/-- Model of `etherman.VerifyBatchOrder`. -/
def VerifyBatchOrder : String := "VerifyBatch"

/-! ## Proof service (`server/service.go`) -/

/-- The methods of `bridgeServiceStorage` (`server/interfaces.go`) that the
proof functions call, as results of a storage state. -/
structure bridgeServiceStorage where
  Get : Bytes → Option Tx → Except Err (List Bytes)
  GetDeposit : Nat → Nat → Option Tx → Except Err Deposit
  GetLatestExitRoot : Nat → Nat → Option Tx → Except Err GlobalExitRoot
  GetL1ExitRootByGER : Bytes → Option Tx → Except Err GlobalExitRoot
  GetRollupExitLeavesByRoot : Bytes → Option Tx → Except Err (List RollupExitLeaf)

/-- A call made on the storage by the proof service, with its arguments. -/
inductive StorageRead where
  | Get : Bytes → Option Tx → StorageRead
  | GetDeposit : Nat → Nat → Option Tx → StorageRead
  | GetLatestExitRoot : Nat → Nat → Option Tx → StorageRead
  | GetL1ExitRootByGER : Bytes → Option Tx → StorageRead
  | GetRollupExitLeavesByRoot : Bytes → Option Tx → StorageRead
  deriving DecidableEq, Repr

/-- The LRU cache of the service (`lru.Cache[string, [][]byte]` of
hashicorp/golang-lru): at most `size` entries, most recently used first. -/
structure LRU where
  size : Nat
  items : List (Bytes × List Bytes)
  deriving DecidableEq, Repr

/-- Model of `Cache.Get`: the value stored under the key, which becomes the most
recently used entry. -/
def LRU.Get (c : LRU) (key : Bytes) : Option (List Bytes) × LRU :=
  match c.items.find? (fun e => decide (e.1 = key)) with
  | some e => (some e.2, { c with items := e :: c.items.filter (fun x => decide (x.1 ≠ key)) })
  | none => (none, c)

/-- Model of `Cache.Add`: stores the value under the key as the most recently used
entry and evicts the least recently used entry when the cache is over size. -/
def LRU.Add (c : LRU) (key : Bytes) (value : List Bytes) : LRU :=
  if c.items.any (fun e => decide (e.1 = key)) then
    { c with items := (key, value) :: c.items.filter (fun x => decide (x.1 ≠ key)) }
  else
    let items := (key, value) :: c.items
    { c with items := if items.length > c.size then items.dropLast else items }

/-- The immutable fields of `bridgeService` that the proof functions use.
`height` is a `uint8`.  `ComputeSiblings` stands for
`bridgectrl.ComputeSiblings`, whose source file is not part of the sources
at hand; it is a parameter of the model. -/
structure bridgeService where
  storage : bridgeServiceStorage
  height : Nat
  ComputeSiblings : Nat → List Bytes → Nat → Except Err (List Bytes × Bytes)

/-- The mutable state around a call of the proof service: the LRU cache and
the log of storage calls made so far. -/
structure SvcState where
  cache : LRU
  reads : List StorageRead
  deriving DecidableEq, Repr

/-- The tail of `getNode`: `copy(left[:], value[0]); copy(right[:], value[1])`,
which panics when `value` has fewer than two elements. -/
def getNodeCopy (value : List Bytes) : Outcome (Bytes × Bytes) :=
  match value with
  | v0 :: v1 :: _ => Outcome.ok (copy32 v0, copy32 v1)
  | _ => Outcome.panic "index out of range"

/-- Model of `bridgeService.getNode`: the children of `parentHash`, from the cache or
else from the storage (and then added to the cache). -/
def getNode (s : bridgeService) (parentHash : Bytes) (dbTx : Option Tx) (st : SvcState) :
    Outcome (Bytes × Bytes) × SvcState :=
  match st.cache.Get parentHash with
  | (some value, cache1) => (getNodeCopy value, { st with cache := cache1 })
  | (none, cache1) =>
    let reads1 := st.reads ++ [StorageRead.Get parentHash dbTx]
    match s.storage.Get parentHash dbTx with
    | Except.error e =>
      (Outcome.error (Err.wrapped "parentHash: %s, error: %v" e), { cache := cache1, reads := reads1 })
    | Except.ok value =>
      (getNodeCopy value, { cache := cache1.Add parentHash value, reads := reads1 })

/-- The first loop of `getProof`, with `n` iterations left: the iteration run
now has `h = n - 1`.  `index` is a `uint32`, so `1<<h` is computed in 32 bits.
Returns the siblings from the top down and the node the walk ends on. -/
def getProofLoop (s : bridgeService) (index : Nat) (dbTx : Option Tx) :
    Nat → Bytes → List Bytes → SvcState → Outcome (List Bytes × Bytes) × SvcState
  | 0, cur, siblings, st => (Outcome.ok (siblings, cur), st)
  | h + 1, cur, siblings, st =>
    match getNode s cur dbTx st with
    | (Outcome.error e, st1) =>
      (Outcome.error (Err.wrapped "height: %d, cur: %s, error: %v" e), st1)
    | (Outcome.panic p, st1) => (Outcome.panic p, st1)
    | (Outcome.ok (left, right), st1) =>
      if (index % 2 ^ 32) &&& (2 ^ h % 2 ^ 32) > 0 then
        getProofLoop s index dbTx h right (siblings ++ [left]) st1
      else
        getProofLoop s index dbTx h left (siblings ++ [right]) st1

/-- Number of iterations of the loop `for h := int(s.height - 1); h >= 0; h--`:
the subtraction is done in `uint8`. -/
def proofLevels (height : Nat) : Nat := (height % 256 + 255) % 256 + 1

/-- Model of `bridgeService.getProof` together with the last value of `cur`: the
siblings from the leaves to the top, and the level-0 node the walk reached. -/
def getProofWalk (s : bridgeService) (index : Nat) (root : Bytes) (dbTx : Option Tx)
    (st : SvcState) : Outcome (List Bytes × Bytes) × SvcState :=
  match getProofLoop s index dbTx (proofLevels s.height) root [] st with
  | (Outcome.ok (siblings, cur), st1) => (Outcome.ok (siblings.reverse, cur), st1)
  | r => r

/-- Model of `bridgeService.getProof`: the merkle proof for a given index and root. -/
def getProof (s : bridgeService) (index : Nat) (root : Bytes) (dbTx : Option Tx)
    (st : SvcState) : Outcome (List Bytes) × SvcState :=
  match getProofWalk s index root dbTx st with
  | (Outcome.ok (siblings, _), st1) => (Outcome.ok siblings, st1)
  | (Outcome.error e, st1) => (Outcome.error e, st1)
  | (Outcome.panic p, st1) => (Outcome.panic p, st1)

/-- Model of `bridgeService.getRollupExitProof`.  On its last error return the Go
function also hands back the siblings; every caller drops them. -/
def getRollupExitProof (s : bridgeService) (rollupIndex : Nat) (root : Bytes)
    (dbTx : Option Tx) (st : SvcState) : Outcome (List Bytes × Bytes) × SvcState :=
  let st1 : SvcState :=
    { st with reads := st.reads ++ [StorageRead.GetRollupExitLeavesByRoot root dbTx] }
  match s.storage.GetRollupExitLeavesByRoot root dbTx with
  | Except.error e =>
    (Outcome.error (Err.wrapped "error getting leaves by ger: %s, error: %w" e), st1)
  | Except.ok leaves =>
    let ls : List Bytes := leaves.map (fun l => copy32 l.Leaf)
    match s.ComputeSiblings rollupIndex ls s.height with
    | Except.error e => (Outcome.error e, st1)
    | Except.ok (siblings, r) =>
      if root ≠ r then
        (Outcome.error (Err.msg "error checking calculated root: required:%s, calculated: %s"), st1)
      else if siblings.length = 0 ∨ ls.length = 0 then
        (Outcome.error (Err.msg "no siblings found for root: %s"), st1)
      else if ls.length ≤ rollupIndex then
        (Outcome.error (Err.msg "error getting rollupLeaf. Not synced yet"), st1)
      else
        (Outcome.ok (siblings, ls.getD rollupIndex zeroHash), st1)

/-- Model of `emptyProof`: 32 appended zero hashes. -/
def emptyProof : List Bytes :=
  (List.range 32).foldl (fun proof _ => proof ++ [zeroHash]) []

/-- Model of `globalExitRoot.ExitRoots[i]`, which panics when the index is out of range. -/
def exitRootAt (g : GlobalExitRoot) (i : Nat) : Outcome Bytes :=
  match g.ExitRoots.get? i with
  | some r => Outcome.ok r
  | none => Outcome.panic "index out of range"

/-- The part that `GetClaimProof` and `GetClaimProofbyGER` have in common
after the global exit root is loaded: the two proofs of the mainnet branch
(`networkID == 0`) or of the rollup branch.  `errProof` and `errRollup` are
the format strings of the `fmt.Errorf` calls, which differ between the two. -/
def claimProofs (s : bridgeService) (depositCnt networkID : Nat) (globalExitRoot : GlobalExitRoot)
    (dbTx : Option Tx) (errMainnet errRollup errRollupProof : String) (st : SvcState) :
    Outcome (GlobalExitRoot × List Bytes × List Bytes) × SvcState :=
  if networkID = 0 then
    match exitRootAt globalExitRoot 0 with
    | Outcome.panic p => (Outcome.panic p, st)
    | Outcome.error e => (Outcome.error e, st)
    | Outcome.ok root =>
      match getProof s depositCnt root dbTx st with
      | (Outcome.panic p, st1) => (Outcome.panic p, st1)
      | (Outcome.error e, st1) => (Outcome.error (Err.wrapped errMainnet e), st1)
      | (Outcome.ok merkleProof, st1) =>
        (Outcome.ok (globalExitRoot, merkleProof, emptyProof), st1)
  else
    match exitRootAt globalExitRoot 1 with
    | Outcome.panic p => (Outcome.panic p, st)
    | Outcome.error e => (Outcome.error e, st)
    | Outcome.ok root =>
      match getRollupExitProof s ((networkID + 2 ^ 32 - 1) % 2 ^ 32) root dbTx st with
      | (Outcome.panic p, st1) => (Outcome.panic p, st1)
      | (Outcome.error e, st1) => (Outcome.error (Err.wrapped errRollupProof e), st1)
      | (Outcome.ok (rollupMerkleProof, rollupLeaf), st1) =>
        match getProof s depositCnt rollupLeaf dbTx st1 with
        | (Outcome.panic p, st2) => (Outcome.panic p, st2)
        | (Outcome.error e, st2) => (Outcome.error (Err.wrapped errRollup e), st2)
        | (Outcome.ok merkleProof, st2) =>
          (Outcome.ok (globalExitRoot, merkleProof, rollupMerkleProof), st2)

/-- Model of `bridgeService.GetClaimProof`.  Every error return of the Go function is
`nil, nil, nil, err`: an `Outcome.error` carries no exit root and no proof. -/
def GetClaimProof (s : bridgeService) (depositCnt networkID : Nat) (dbTx : Option Tx)
    (st : SvcState) : Outcome (GlobalExitRoot × List Bytes × List Bytes) × SvcState :=
  let st1 : SvcState :=
    { st with reads := st.reads ++ [StorageRead.GetDeposit depositCnt networkID dbTx] }
  match s.storage.GetDeposit depositCnt networkID dbTx with
  | Except.error e => (Outcome.error e, st1)
  | Except.ok deposit =>
    if !deposit.ReadyForClaim then
      (Outcome.error Err.depositNotSynced, st1)
    else
      let st2 : SvcState :=
        { st1 with reads := st1.reads ++
            [StorageRead.GetLatestExitRoot networkID deposit.DestinationNetwork dbTx] }
      match s.storage.GetLatestExitRoot networkID deposit.DestinationNetwork dbTx with
      | Except.error e => (Outcome.error e, st2)
      | Except.ok globalExitRoot =>
        claimProofs s depositCnt networkID globalExitRoot dbTx
          "getting the proof failed, error: %v, network: %d"
          "getting the proof failed, error: %v, network: %d"
          "getting the rollup proof failed, error: %v, network: %d" st2

/-- The steps of `GetClaimProofbyGER` from `GetL1ExitRootByGER` on. -/
def claimProofByGERTail (s : bridgeService) (depositCnt networkID : Nat) (GER : Bytes)
    (dbTx : Option Tx) (st : SvcState) :
    Outcome (GlobalExitRoot × List Bytes × List Bytes) × SvcState :=
  let st2 : SvcState :=
    { st with reads := st.reads ++ [StorageRead.GetL1ExitRootByGER GER dbTx] }
  match s.storage.GetL1ExitRootByGER GER dbTx with
  | Except.error e =>
    (Outcome.error (Err.wrapped "error getting GlobalExitRoot data for GER: %s. Err: %w" e), st2)
  | Except.ok globalExitRoot =>
    claimProofs s depositCnt networkID globalExitRoot dbTx
      "getting the proof failed (MAINNET), error: %v, network: %d"
      "getting the proof failed (ROLLUP), error: %v, network: %d"
      "getting the rollupexit proof failed, error: %v, network: %d" st2

/-- Model of `bridgeService.GetClaimProofbyGER`.  With a nil `dbTx` the deposit is
loaded first; a deposit that is not ready for claim is only logged (the
`return` of `ErrDepositNotSynced` is commented out in the source). -/
def GetClaimProofbyGER (s : bridgeService) (depositCnt networkID : Nat) (GER : Bytes)
    (dbTx : Option Tx) (st : SvcState) :
    Outcome (GlobalExitRoot × List Bytes × List Bytes) × SvcState :=
  match dbTx with
  | none =>
    let st1 : SvcState :=
      { st with reads := st.reads ++ [StorageRead.GetDeposit depositCnt networkID none] }
    match s.storage.GetDeposit depositCnt networkID none with
    | Except.error e =>
      (Outcome.error (Err.wrapped "error getting deposit %d for network: %d. Err: %w" e), st1)
    | Except.ok _ => claimProofByGERTail s depositCnt networkID GER none st1
  | some tx => claimProofByGERTail s depositCnt networkID GER (some tx) st

/-- The steps of `GetClaimProofForCompressed` from `GetL1ExitRootByGER` on: the
error of the storage is returned as it is. -/
def claimProofForCompressedTail (s : bridgeService) (ger : Bytes) (depositCnt networkID : Nat)
    (dbTx : Option Tx) (st : SvcState) :
    Outcome (GlobalExitRoot × List Bytes × List Bytes) × SvcState :=
  let st2 : SvcState :=
    { st with reads := st.reads ++ [StorageRead.GetL1ExitRootByGER ger dbTx] }
  match s.storage.GetL1ExitRootByGER ger dbTx with
  | Except.error e => (Outcome.error e, st2)
  | Except.ok globalExitRoot =>
    claimProofs s depositCnt networkID globalExitRoot dbTx
      "getting the proof failed, error: %v, network: %d"
      "getting the proof failed, error: %v, network: %d"
      "getting the rollup proof failed, error: %v, network: %d" st2

/-- Model of `bridgeService.GetClaimProofForCompressed`.  With a nil `dbTx` the
deposit is loaded first and has to be ready for claim. -/
def GetClaimProofForCompressed (s : bridgeService) (ger : Bytes) (depositCnt networkID : Nat)
    (dbTx : Option Tx) (st : SvcState) :
    Outcome (GlobalExitRoot × List Bytes × List Bytes) × SvcState :=
  match dbTx with
  | none =>
    let st1 : SvcState :=
      { st with reads := st.reads ++ [StorageRead.GetDeposit depositCnt networkID none] }
    match s.storage.GetDeposit depositCnt networkID none with
    | Except.error e => (Outcome.error e, st1)
    | Except.ok deposit =>
      if !deposit.ReadyForClaim then
        (Outcome.error Err.depositNotSynced, st1)
      else claimProofForCompressedTail s ger depositCnt networkID none st1
  | some tx => claimProofForCompressedTail s ger depositCnt networkID (some tx) st

/-! ## Synchronizer (`synchronizer/synchronizer.go`) -/

/-- Model of `errors.Is(err, gerror.ErrStorageNotFound)`: the sentinel itself, or an
error that wraps it with the `%w` verb. -/
def isStorageNotFound : Err → Bool
  | Err.storageNotFound => true
  | Err.wrapped format inner =>
    decide ((format.splitOn "%w").length > 1) && isStorageNotFound inner
  | _ => false

/-- What the synchronizer does to its collaborators, in order: the calls on
the storage (`storageInterface`), on the bridge controller
(`bridgectrlInterface`), on the chain client (`ethermanInterface`) and on the
trusted node (`zkEVMClientInterface`), the sends on the exit root channels,
and the entry into each `process*` handler with the arguments it is given. -/
inductive Action where
  | BeginDBTransaction : Action
  | AddBlock : Block → Tx → Action
  | Rollback : Tx → Action
  | Commit : Tx → Action
  | GetL2ExitRootsByGER : Bytes → Action
  | UpdateL2GER : GlobalExitRoot → Tx → Action
  | AddGlobalExitRoot : GlobalExitRoot → Tx → Action
  | GetL1ExitRootByGER : Bytes → Action
  | AddDeposit : Deposit → Tx → Action
  | BridgeAddDeposit : Deposit → Nat → Tx → Action
  | AddClaim : Claim → Tx → Action
  | AddTokenWrapped : TokenWrapped → Tx → Action
  | AddRemoveL2GER : GlobalExitRoot → Tx → Action
  | CheckIfRootExists : Bytes → Nat → Tx → Action
  | AddRollupExitLeaf : RollupExitLeaf → Tx → Action
  | GetLatestL1SyncedExitRoot : Action
  | SendExitRootEventL2 : GlobalExitRoot → Action
  | SendExitRootEvent : Nat → GlobalExitRoot → Action
  | processGlobalExitRoot : GlobalExitRoot → Nat → Tx → Action
  | processRemoveL2GlobalExitRoot : GlobalExitRoot → Nat → Tx → Action
  | processDeposit : Deposit → Nat → Tx → Action
  | processClaim : Claim → Nat → Tx → Action
  | processTokenWrapped : TokenWrapped → Nat → Tx → Action
  | processVerifyBatch : VerifiedBatch → Nat → Tx → Action
  | Reset : Nat → Nat → Tx → Action
  | GetNumberDeposits : Nat → Nat → Tx → Action
  | ReorgMT : Nat → Nat → Tx → Action
  | HeaderByNumber : Option Nat → Action
  | GetPreviousBlock : Nat → Nat → Action
  | GetLastBlock : Nat → Action
  | GetRollupInfoByBlockRange : Nat → Nat → Action
  | GetLatestGlobalExitRoot : Action
  | ExitRootsByGER : Bytes → Action
  | AddTrustedGlobalExitRoot : GlobalExitRoot → Action
  deriving DecidableEq, Repr

/-- The collaborators of the synchronizer: each method of `storageInterface`
and `bridgectrlInterface` that `processBlockRange` reaches answers from a
state `σ` and may change it.  A Go `error` result is an `Option Err`
(`none` is nil); `GetL2ExitRootsByGER` returns its slice next to the error. -/
structure SyncEnv (σ : Type) where
  BeginDBTransaction : σ → Except Err Tx × σ
  AddBlock : Block → Tx → σ → Except Err Nat × σ
  Rollback : Tx → σ → Option Err × σ
  Commit : Tx → σ → Option Err × σ
  GetL2ExitRootsByGER : Bytes → σ → (List GlobalExitRoot × Option Err) × σ
  UpdateL2GER : GlobalExitRoot → Tx → σ → Option Err × σ
  AddGlobalExitRoot : GlobalExitRoot → Tx → σ → Option Err × σ
  GetL1ExitRootByGER : Bytes → σ → Except Err GlobalExitRoot × σ
  AddDeposit : Deposit → Tx → σ → Except Err Nat × σ
  BridgeAddDeposit : Deposit → Nat → Tx → σ → Option Err × σ
  AddClaim : Claim → Tx → σ → Option Err × σ
  AddTokenWrapped : TokenWrapped → Tx → σ → Option Err × σ
  AddRemoveL2GER : GlobalExitRoot → Tx → σ → Option Err × σ
  CheckIfRootExists : Bytes → Nat → Tx → σ → Except Err Bool × σ
  AddRollupExitLeaf : RollupExitLeaf → Tx → σ → Option Err × σ
  GetLatestL1SyncedExitRoot : σ → Except Err GlobalExitRoot × σ

/-- The fields of `ClientSynchronizer` that do not change during a run:
`numExitRootChannels` is `len(s.chsExitRootEvent)` and `SyncChunkSize` is
`s.cfg.SyncChunkSize`. -/
structure ClientSynchronizer where
  networkID : Nat
  allNetworkIDs : List Nat
  numExitRootChannels : Nat
  genBlockNumber : Nat
  SyncChunkSize : Nat
  sovereignChain : Bool

/-- The state around a run: the state of the collaborators, the actions done
so far, and the mutable field `l1RollupExitRoot` of the synchronizer. -/
structure World (σ : Type) where
  db : σ
  trace : List Action
  l1RollupExitRoot : Bytes

/-- Appends one action to the trace and installs the new collaborator state. -/
def World.step {σ : Type} (w : World σ) (a : Action) (db : σ) : World σ :=
  { w with db := db, trace := w.trace ++ [a] }

/-- The error path repeated after every failing call inside a handler:
`rollbackErr := s.storage.Rollback(s.ctx, dbTx)`, then `return rollbackErr`
when it is not nil and `return err` otherwise. -/
def rollbackAndReturn {σ : Type} (env : SyncEnv σ) (dbTx : Tx) (err : Err) (w : World σ) :
    Option Err × World σ :=
  match env.Rollback dbTx w.db with
  | (some rollbackErr, db1) => (some rollbackErr, w.step (Action.Rollback dbTx) db1)
  | (none, db1) => (some err, w.step (Action.Rollback dbTx) db1)

/-- The loop `for _, ger := range gers` of `processGlobalExitRoot`. -/
def updateL2GERs {σ : Type} (env : SyncEnv σ) (exitRoots : List Bytes) (dbTx : Tx) :
    List GlobalExitRoot → World σ → Option Err × World σ
  | [], w => (none, w)
  | ger :: rest, w =>
    let ger1 : GlobalExitRoot := { ger with ExitRoots := exitRoots }
    match env.UpdateL2GER ger1 dbTx w.db with
    | (some err, db1) => rollbackAndReturn env dbTx err (w.step (Action.UpdateL2GER ger1 dbTx) db1)
    | (none, db1) => updateL2GERs env exitRoots dbTx rest (w.step (Action.UpdateL2GER ger1 dbTx) db1)

/-- Model of `ClientSynchronizer.processGlobalExitRoot`. -/
def processGlobalExitRoot {σ : Type} (env : SyncEnv σ) (s : ClientSynchronizer)
    (globalExitRoot : GlobalExitRoot) (blockID : Nat) (dbTx : Tx) (w0 : World σ) :
    Option Err × World σ :=
  let w := w0.step (Action.processGlobalExitRoot globalExitRoot blockID dbTx) w0.db
  let globalExitRoot : GlobalExitRoot :=
    { globalExitRoot with BlockID := blockID, NetworkID := s.networkID }
  if globalExitRoot.ExitRoots.length = 2 then
    match env.GetL2ExitRootsByGER globalExitRoot.GlobalExitRoot w.db with
    | ((gers, err), db1) =>
      let w1 := w.step (Action.GetL2ExitRootsByGER globalExitRoot.GlobalExitRoot) db1
      match (match err with
             | some e => if isStorageNotFound e then none else some e
             | none => none) with
      | some e => rollbackAndReturn env dbTx e w1
      | none =>
        match updateL2GERs env globalExitRoot.ExitRoots dbTx gers w1 with
        | (some e, w2) => (some e, w2)
        | (none, w2) =>
          match env.AddGlobalExitRoot globalExitRoot dbTx w2.db with
          | (some e, db3) =>
            rollbackAndReturn env dbTx e (w2.step (Action.AddGlobalExitRoot globalExitRoot dbTx) db3)
          | (none, db3) => (none, w2.step (Action.AddGlobalExitRoot globalExitRoot dbTx) db3)
  else if globalExitRoot.ExitRoots.length = 0 then
    match env.GetL1ExitRootByGER globalExitRoot.GlobalExitRoot w.db with
    | (res, db1) =>
      let w1 := w.step (Action.GetL1ExitRootByGER globalExitRoot.GlobalExitRoot) db1
      let continueWith (g : GlobalExitRoot) : Option Err × World σ :=
        match env.AddGlobalExitRoot g dbTx w1.db with
        | (some e, db2) => rollbackAndReturn env dbTx e (w1.step (Action.AddGlobalExitRoot g dbTx) db2)
        | (none, db2) =>
          (none, ((w1.step (Action.AddGlobalExitRoot g dbTx) db2).step
            (Action.SendExitRootEventL2 g) db2))
      match res with
      | Except.error e =>
        if isStorageNotFound e then continueWith globalExitRoot
        else rollbackAndReturn env dbTx e w1
      | Except.ok ger => continueWith { globalExitRoot with ExitRoots := ger.ExitRoots }
  else
    (some (Err.msg "networkID: %d, error exitRoots have a wrong length. Length: %d"), w)

/-- Model of `ClientSynchronizer.processDeposit`. -/
def processDeposit {σ : Type} (env : SyncEnv σ) (s : ClientSynchronizer) (deposit : Deposit)
    (blockID : Nat) (dbTx : Tx) (w0 : World σ) : Option Err × World σ :=
  let w := w0.step (Action.processDeposit deposit blockID dbTx) w0.db
  let deposit : Deposit := { deposit with BlockID := blockID, NetworkID := s.networkID }
  match env.AddDeposit deposit dbTx w.db with
  | (Except.error e, db1) => rollbackAndReturn env dbTx e (w.step (Action.AddDeposit deposit dbTx) db1)
  | (Except.ok depositID, db1) =>
    let w1 := w.step (Action.AddDeposit deposit dbTx) db1
    match env.BridgeAddDeposit deposit depositID dbTx w1.db with
    | (some e, db2) =>
      rollbackAndReturn env dbTx e (w1.step (Action.BridgeAddDeposit deposit depositID dbTx) db2)
    | (none, db2) => (none, w1.step (Action.BridgeAddDeposit deposit depositID dbTx) db2)

/-- Model of `ClientSynchronizer.processClaim`. -/
def processClaim {σ : Type} (env : SyncEnv σ) (s : ClientSynchronizer) (claim : Claim)
    (blockID : Nat) (dbTx : Tx) (w0 : World σ) : Option Err × World σ :=
  let w := w0.step (Action.processClaim claim blockID dbTx) w0.db
  let claim : Claim := { claim with BlockID := blockID, NetworkID := s.networkID }
  match env.AddClaim claim dbTx w.db with
  | (some e, db1) => rollbackAndReturn env dbTx e (w.step (Action.AddClaim claim dbTx) db1)
  | (none, db1) => (none, w.step (Action.AddClaim claim dbTx) db1)

/-- Model of `ClientSynchronizer.processTokenWrapped`. -/
def processTokenWrapped {σ : Type} (env : SyncEnv σ) (s : ClientSynchronizer)
    (tokenWrapped : TokenWrapped) (blockID : Nat) (dbTx : Tx) (w0 : World σ) :
    Option Err × World σ :=
  let w := w0.step (Action.processTokenWrapped tokenWrapped blockID dbTx) w0.db
  let tokenWrapped : TokenWrapped :=
    { tokenWrapped with BlockID := blockID, NetworkID := s.networkID }
  match env.AddTokenWrapped tokenWrapped dbTx w.db with
  | (some e, db1) =>
    rollbackAndReturn env dbTx e (w.step (Action.AddTokenWrapped tokenWrapped dbTx) db1)
  | (none, db1) => (none, w.step (Action.AddTokenWrapped tokenWrapped dbTx) db1)

/-- Model of `ClientSynchronizer.processRemoveL2GlobalExitRoot`. -/
def processRemoveL2GlobalExitRoot {σ : Type} (env : SyncEnv σ) (s : ClientSynchronizer)
    (ger : GlobalExitRoot) (blockID : Nat) (dbTx : Tx) (w0 : World σ) : Option Err × World σ :=
  let w := w0.step (Action.processRemoveL2GlobalExitRoot ger blockID dbTx) w0.db
  let ger : GlobalExitRoot := { ger with BlockID := blockID, NetworkID := s.networkID }
  match env.AddRemoveL2GER ger dbTx w.db with
  | (some e, db1) => rollbackAndReturn env dbTx e (w.step (Action.AddRemoveL2GER ger dbTx) db1)
  | (none, db1) => (none, w.step (Action.AddRemoveL2GER ger dbTx) db1)

/-- Model of `ClientSynchronizer.processVerifyBatch`. -/
def processVerifyBatch {σ : Type} (env : SyncEnv σ) (s : ClientSynchronizer)
    (verifyBatch : VerifiedBatch) (blockID : Nat) (dbTx : Tx) (w0 : World σ) :
    Option Err × World σ :=
  let w := w0.step (Action.processVerifyBatch verifyBatch blockID dbTx) w0.db
  if verifyBatch.LocalExitRoot = zeroHash then (none, w)
  else
    let addLeaf (w1 : World σ) : Option Err × World σ :=
      let rollupLeaf : RollupExitLeaf :=
        { ID := 0, BlockID := blockID, Leaf := verifyBatch.LocalExitRoot,
          RollupId := verifyBatch.RollupID, Root := zeroHash }
      match env.AddRollupExitLeaf rollupLeaf dbTx w1.db with
      | (some e, db2) =>
        rollbackAndReturn env dbTx e (w1.step (Action.AddRollupExitLeaf rollupLeaf dbTx) db2)
      | (none, db2) => (none, w1.step (Action.AddRollupExitLeaf rollupLeaf dbTx) db2)
    let isRollupSyncing : Bool := s.allNetworkIDs.any (fun n => decide (verifyBatch.RollupID = n))
    if isRollupSyncing then
      match env.CheckIfRootExists verifyBatch.LocalExitRoot verifyBatch.RollupID dbTx w.db with
      | (res, db1) =>
        let w1 := w.step
          (Action.CheckIfRootExists verifyBatch.LocalExitRoot verifyBatch.RollupID dbTx) db1
        match res with
        | Except.error e => rollbackAndReturn env dbTx e w1
        | Except.ok false =>
          rollbackAndReturn env dbTx (Err.msg "networkID: %d, Root: %s doesn't exist!") w1
        | Except.ok true => addLeaf w1
    else addLeaf w

/-- A slice index `arr[pos]` with a Go `int` position: `none` stands for the
run-time panic of an index out of range. -/
def indexAt {α : Type} (arr : List α) (pos : Int) : Option α :=
  if 0 ≤ pos then arr.get? pos.toNat else none

/-- One iteration of the `switch element.Name` of `processBlockRange`.  The
last component is the value of `isNewGer` after the iteration. -/
def processElement {σ : Type} (env : SyncEnv σ) (s : ClientSynchronizer) (block : Block)
    (blockID : Nat) (dbTx : Tx) (element : Order) (isNewGer : Bool) (w : World σ) :
    Outcome Unit × World σ × Bool :=
  let run {α : Type} (arr : List α) (isNewGer1 : Bool)
      (handler : α → Nat → Tx → World σ → Option Err × World σ) :
      Outcome Unit × World σ × Bool :=
    match indexAt arr element.Pos with
    | none => (Outcome.panic "index out of range", w, isNewGer1)
    | some x =>
      match handler x blockID dbTx w with
      | (some e, w1) => (Outcome.error e, w1, isNewGer1)
      | (none, w1) => (Outcome.ok (), w1, isNewGer1)
  if element.Name = GlobalExitRootsOrder then
    run block.GlobalExitRoots true (processGlobalExitRoot env s)
  else if element.Name = RemoveL2GEROrder then
    run block.RemoveL2GER isNewGer (processRemoveL2GlobalExitRoot env s)
  else if element.Name = DepositsOrder then
    run block.Deposits isNewGer (processDeposit env s)
  else if element.Name = ClaimsOrder then
    run block.Claims isNewGer (processClaim env s)
  else if element.Name = TokensOrder then
    run block.Tokens isNewGer (processTokenWrapped env s)
  else if element.Name = VerifyBatchOrder then
    run block.VerifiedBatches isNewGer (processVerifyBatch env s)
  else (Outcome.ok (), w, isNewGer)

/-- The loop `for _, element := range order[blocks[i].BlockHash]`. -/
def processElements {σ : Type} (env : SyncEnv σ) (s : ClientSynchronizer) (block : Block)
    (blockID : Nat) (dbTx : Tx) :
    List Order → Bool → World σ → Outcome Unit × World σ × Bool
  | [], isNewGer, w => (Outcome.ok (), w, isNewGer)
  | element :: rest, isNewGer, w =>
    match processElement env s block blockID dbTx element isNewGer w with
    | (Outcome.ok (), w1, isNewGer1) => processElements env s block blockID dbTx rest isNewGer1 w1
    | r => r

/-- The body of the loop `for i := range blocks` of `processBlockRange`. -/
def processBlock {σ : Type} (env : SyncEnv σ) (s : ClientSynchronizer)
    (order : Bytes → List Order) (block : Block) (isNewGer : Bool) (w : World σ) :
    Outcome Unit × World σ × Bool :=
  match env.BeginDBTransaction w.db with
  | (Except.error e, db1) => (Outcome.error e, w.step Action.BeginDBTransaction db1, isNewGer)
  | (Except.ok dbTx, db1) =>
    let w1 := w.step Action.BeginDBTransaction db1
    let block : Block := { block with NetworkID := s.networkID }
    match env.AddBlock block dbTx w1.db with
    | (Except.error e, db2) =>
      match rollbackAndReturn env dbTx e (w1.step (Action.AddBlock block dbTx) db2) with
      | (some e1, w3) => (Outcome.error e1, w3, isNewGer)
      | (none, w3) => (Outcome.ok (), w3, isNewGer)
    | (Except.ok blockID, db2) =>
      let w2 := w1.step (Action.AddBlock block dbTx) db2
      match processElements env s block blockID dbTx (order block.BlockHash) isNewGer w2 with
      | (Outcome.ok (), w3, isNewGer1) =>
        match env.Commit dbTx w3.db with
        | (some e, db4) =>
          match rollbackAndReturn env dbTx e (w3.step (Action.Commit dbTx) db4) with
          | (some e1, w5) => (Outcome.error e1, w5, isNewGer1)
          | (none, w5) => (Outcome.ok (), w5, isNewGer1)
        | (none, db4) => (Outcome.ok (), w3.step (Action.Commit dbTx) db4, isNewGer1)
      | r => r

/-- The loop `for i := range blocks` of `processBlockRange`. -/
def processBlocks {σ : Type} (env : SyncEnv σ) (s : ClientSynchronizer)
    (order : Bytes → List Order) :
    List Block → Bool → World σ → Outcome Unit × World σ × Bool
  | [], isNewGer, w => (Outcome.ok (), w, isNewGer)
  | block :: rest, isNewGer, w =>
    match processBlock env s order block isNewGer w with
    | (Outcome.ok (), w1, isNewGer1) => processBlocks env s order rest isNewGer1 w1
    | r => r

/-- The loop `for _, ch := range s.chsExitRootEvent { ch <- ger }`. -/
def sendExitRootEvents {σ : Type} (n : Nat) (ger : GlobalExitRoot) (w : World σ) : World σ :=
  (List.range n).foldl (fun w1 i => w1.step (Action.SendExitRootEvent i ger) w1.db) w

/-- Model of `ClientSynchronizer.processBlockRange`; `order` is the Go map, a missing
key giving the empty list. -/
def processBlockRange {σ : Type} (env : SyncEnv σ) (s : ClientSynchronizer)
    (blocks : List Block) (order : Bytes → List Order) (w : World σ) :
    Outcome Unit × World σ :=
  match processBlocks env s order blocks false w with
  | (Outcome.ok (), w1, true) =>
    match env.GetLatestL1SyncedExitRoot w1.db with
    | (Except.error e, db2) => (Outcome.error e, w1.step Action.GetLatestL1SyncedExitRoot db2)
    | (Except.ok ger, db2) =>
      let w2 := w1.step Action.GetLatestL1SyncedExitRoot db2
      match ger.ExitRoots.get? 1 with
      | none => (Outcome.panic "index out of range", w2)
      | some rollupRoot =>
        if w2.l1RollupExitRoot ≠ rollupRoot then
          (Outcome.ok (),
            sendExitRootEvents s.numExitRootChannels ger { w2 with l1RollupExitRoot := rollupRoot })
        else (Outcome.ok (), w2)
  | (r, w1, _) => (r, w1)

/-- The fields of a chain header (`types.Header`) the synchronizer reads:
`Number` (a `*big.Int` that is never negative), `Hash()` and `ParentHash`; the
event ingester also reads `Time`. -/
structure Header where
  Number : Nat
  Hash : Bytes
  ParentHash : Bytes
  Time : Nat := 0
  deriving DecidableEq, Repr

/-- The further collaborators of the synchronizer, answering from the state
`σ`: the chain client (`HeaderByNumber`, with `none` for a nil block number,
and `GetRollupInfoByBlockRange`), the storage calls of the reorg handling, the
bridge controller's `ReorgMT`, the trusted node, and `s.ctx.Err() != nil`
(`ctxErr`).  `ExitRootsByGER` returns a pointer (`none` is nil) to the pair
`MainnetExitRoot`, `RollupExitRoot`. -/
structure ChainEnv (σ : Type) where
  HeaderByNumber : Option Nat → σ → Except Err Header × σ
  GetRollupInfoByBlockRange : Nat → Nat → σ → Except Err (List Block × (Bytes → List Order)) × σ
  GetPreviousBlock : Nat → Nat → σ → Except Err Block × σ
  GetLastBlock : Nat → σ → Except Err Block × σ
  Reset : Nat → Nat → Tx → σ → Option Err × σ
  GetNumberDeposits : Nat → Nat → Tx → σ → Except Err Nat × σ
  ReorgMT : Nat → Nat → Tx → σ → Option Err × σ
  GetLatestGlobalExitRoot : σ → Except Err Bytes × σ
  ExitRootsByGER : Bytes → σ → Except Err (Option (Bytes × Bytes)) × σ
  AddTrustedGlobalExitRoot : GlobalExitRoot → σ → Except Err Bool × σ
  ctxErr : σ → Bool

/-- The zero value `etherman.Block{}`. -/
def emptyBlock : Block :=
  { ID := 0, BlockNumber := 0, BlockHash := zeroHash, ParentHash := zeroHash, NetworkID := 0,
    GlobalExitRoots := [], RemoveL2GER := [], Deposits := [], Claims := [], Tokens := [],
    VerifiedBatches := [], ActivateEtrog := [], ReceivedAt := 0 }

/-- Model of `ClientSynchronizer.resetState`. -/
def resetState {σ : Type} (env : SyncEnv σ) (chain : ChainEnv σ) (s : ClientSynchronizer)
    (blockNumber : Nat) (w : World σ) : Option Err × World σ :=
  match env.BeginDBTransaction w.db with
  | (Except.error err, db1) => (some err, w.step Action.BeginDBTransaction db1)
  | (Except.ok dbTx, db1) =>
    let w1 := w.step Action.BeginDBTransaction db1
    match chain.Reset blockNumber s.networkID dbTx w1.db with
    | (some err, db2) =>
      rollbackAndReturn env dbTx err (w1.step (Action.Reset blockNumber s.networkID dbTx) db2)
    | (none, db2) =>
      let w2 := w1.step (Action.Reset blockNumber s.networkID dbTx) db2
      match chain.GetNumberDeposits s.networkID blockNumber dbTx w2.db with
      | (Except.error err, db3) =>
        rollbackAndReturn env dbTx err
          (w2.step (Action.GetNumberDeposits s.networkID blockNumber dbTx) db3)
      | (Except.ok depositCnt, db3) =>
        let w3 := w2.step (Action.GetNumberDeposits s.networkID blockNumber dbTx) db3
        match chain.ReorgMT depositCnt s.networkID dbTx w3.db with
        | (some err, db4) =>
          rollbackAndReturn env dbTx err (w3.step (Action.ReorgMT depositCnt s.networkID dbTx) db4)
        | (none, db4) =>
          let w4 := w3.step (Action.ReorgMT depositCnt s.networkID dbTx) db4
          match env.Commit dbTx w4.db with
          | (some err, db5) => rollbackAndReturn env dbTx err (w4.step (Action.Commit dbTx) db5)
          | (none, db5) => (none, w4.step (Action.Commit dbTx) db5)

/-- The first part of the loop body of `checkReorg`: with no `block` at hand
(`block == nil`), the header of `reorgedBlock.BlockNumber` is fetched from the
chain and turned into a block; a header with another number is an error. -/
def checkReorgBlock {σ : Type} (chain : ChainEnv σ) (reorgedBlock : Block)
    (block : Option Block) (w : World σ) : Except Err Block × World σ :=
  match block with
  | some b => (Except.ok b, w)
  | none =>
    match chain.HeaderByNumber (some reorgedBlock.BlockNumber) w.db with
    | (Except.error err, db1) =>
      (Except.error err, w.step (Action.HeaderByNumber (some reorgedBlock.BlockNumber)) db1)
    | (Except.ok b, db1) =>
      let w1 := w.step (Action.HeaderByNumber (some reorgedBlock.BlockNumber)) db1
      let block : Block :=
        { emptyBlock with
          BlockNumber := toUint64 b.Number, BlockHash := b.Hash, ParentHash := b.ParentHash }
      if block.BlockNumber ≠ reorgedBlock.BlockNumber then
        (Except.error (Err.msg ("networkID: %d, wrong ethereum block retrieved from blockchain. " ++
          "Block numbers don\x27t match. BlockNumber stored: %d. BlockNumber retrieved: %d")), w1)
      else (Except.ok block, w1)

/-- The loop of `checkReorg` and the statements after it.  The arguments are
the values of `latestStoredEthBlock`, `reorgedBlock`, `depth` (a `uint64`) and
`block` at the start of an iteration; the first argument bounds the number of
iterations that are unfolded, and the result is `none` when it is used up. -/
def checkReorgLoop {σ : Type} (chain : ChainEnv σ) (s : ClientSynchronizer)
    (latestStoredEthBlock : Block) :
    Nat → Block → Nat → Option Block → World σ → Option (Except Err (Option Block)) × World σ
  | 0, _, _, _, w => (none, w)
  | fuel + 1, reorgedBlock, depth, block, w =>
    match checkReorgBlock chain reorgedBlock block w with
    | (Except.error err, w1) => (some (Except.error err), w1)
    | (Except.ok block, w1) =>
      if (block.BlockHash ≠ reorgedBlock.BlockHash ∨ block.ParentHash ≠ reorgedBlock.ParentHash) ∧
          reorgedBlock.BlockNumber > s.genBlockNumber then
        let depth := (depth + 1) % 2 ^ 64
        match chain.GetPreviousBlock s.networkID depth w1.db with
        | (Except.error err, db2) =>
          if isStorageNotFound err then
            (some (Except.ok (some { emptyBlock with BlockNumber := s.genBlockNumber })),
              w1.step (Action.GetPreviousBlock s.networkID depth) db2)
          else (some (Except.error err), w1.step (Action.GetPreviousBlock s.networkID depth) db2)
        | (Except.ok lb, db2) =>
          checkReorgLoop chain s latestStoredEthBlock fuel lb depth none
            (w1.step (Action.GetPreviousBlock s.networkID depth) db2)
      else if latestStoredEthBlock.BlockHash ≠ reorgedBlock.BlockHash then
        (some (Except.ok (some reorgedBlock)), w1)
      else (some (Except.ok none), w1)

/-- Model of `ClientSynchronizer.checkReorg`, unfolding at most `fuel` iterations
of its loop. -/
def checkReorg {σ : Type} (chain : ChainEnv σ) (s : ClientSynchronizer) (fuel : Nat)
    (latestStoredBlock : Block) (syncedBlock : Option Block) (w : World σ) :
    Option (Except Err (Option Block)) × World σ :=
  checkReorgLoop chain s latestStoredBlock fuel latestStoredBlock 0 syncedBlock w

/-- The state of a run of the synchronizer: the world, the field `s.synced`, and
the network ids sent on the channel `s.chSynced`, in order. -/
structure SyncRun (σ : Type) where
  w : World σ
  synced : Bool
  chSynced : List Nat

/-- The statements `s.synced = true` and `s.chSynced <- s.networkID`. -/
def SyncRun.markSynced {σ : Type} (s : ClientSynchronizer) (r : SyncRun σ) : SyncRun σ :=
  { r with synced := true, chSynced := r.chSynced ++ [s.networkID] }

/-- How one iteration of the loop of `syncBlocks` ends: with a `return` of a
block and an error (`ret`, also for `break`, which is followed by
`return lastBlockSynced, nil`), with the values of `fromBlock`, `toBlock` and
`lastBlockSynced` for the next iteration (`next`), or unfinished because the
bound on the iterations of `checkReorg` was used up (`outOfFuel`). -/
inductive LoopStep where
  | ret : Block → Outcome Unit → LoopStep
  | next : Nat → Nat → Block → LoopStep
  | outOfFuel : LoopStep

/-- Model of `ClientSynchronizer.syncTrustedState`. -/
def syncTrustedState {σ : Type} (chain : ChainEnv σ) (s : ClientSynchronizer) (w : World σ) :
    Option Err × World σ :=
  match chain.GetLatestGlobalExitRoot w.db with
  | (Except.error err, db1) => (some err, w.step Action.GetLatestGlobalExitRoot db1)
  | (Except.ok lastGER, db1) =>
    let w1 := w.step Action.GetLatestGlobalExitRoot db1
    if lastGER = zeroHash then (none, w1)
    else
      match chain.ExitRootsByGER lastGER w1.db with
      | (Except.error err, db2) => (some err, w1.step (Action.ExitRootsByGER lastGER) db2)
      | (Except.ok none, db2) => (none, w1.step (Action.ExitRootsByGER lastGER) db2)
      | (Except.ok (some (mainnetExitRoot, rollupExitRoot)), db2) =>
        let w2 := w1.step (Action.ExitRootsByGER lastGER) db2
        let ger : GlobalExitRoot :=
          { BlockID := 0, BlockNumber := 0, ExitRoots := [mainnetExitRoot, rollupExitRoot],
            GlobalExitRoot := lastGER, NetworkID := s.networkID, ID := 0 }
        match chain.AddTrustedGlobalExitRoot ger w2.db with
        | (Except.error err, db3) => (some err, w2.step (Action.AddTrustedGlobalExitRoot ger) db3)
        | (Except.ok isUpdated, db3) =>
          let w3 := w2.step (Action.AddTrustedGlobalExitRoot ger) db3
          if isUpdated = true then (none, w3.step (Action.SendExitRootEventL2 ger) w3.db)
          else (none, w3)

/-- The end of an iteration of the loop of `syncBlocks`: `processBlockRange`,
the update of `lastBlockSynced` (the last block, whose `NetworkID` was set by
`processBlockRange`), and the choice of the next interval. -/
def syncBlocksProcess {σ : Type} (env : SyncEnv σ) (s : ClientSynchronizer)
    (lastKnownBlock toBlock : Nat) (lastBlockSynced : Block) (blocks : List Block)
    (order : Bytes → List Order) (r : SyncRun σ) : LoopStep × SyncRun σ :=
  match processBlockRange env s blocks order r.w with
  | (Outcome.error err, w1) => (LoopStep.ret lastBlockSynced (Outcome.error err), { r with w := w1 })
  | (Outcome.panic p, w1) => (LoopStep.ret lastBlockSynced (Outcome.panic p), { r with w := w1 })
  | (Outcome.ok _, w1) =>
    let r1 : SyncRun σ := { r with w := w1 }
    let lastBlockSynced : Block :=
      match blocks.getLast? with
      | some b => { b with NetworkID := s.networkID }
      | none => lastBlockSynced
    if lastKnownBlock ≤ toBlock then
      if r1.synced = false then (LoopStep.ret lastBlockSynced (Outcome.ok ()), r1.markSynced s)
      else (LoopStep.ret lastBlockSynced (Outcome.ok ()), r1)
    else if r1.synced = false then
      (LoopStep.next ((toBlock + 1) % 2 ^ 64)
        (((toBlock + 1) % 2 ^ 64 + s.SyncChunkSize) % 2 ^ 64) lastBlockSynced, r1)
    else
      (LoopStep.next lastBlockSynced.BlockNumber ((toBlock + s.SyncChunkSize) % 2 ^ 64)
        lastBlockSynced, r1)

/-- The branch of `syncBlocks` taken when the synchronizer is synced and the
range holds no block (`Reorg detected`): the state is reset to the previous
stored block, or to the block `checkReorg` finds from it. -/
def syncBlocksReorg {σ : Type} (env : SyncEnv σ) (chain : ChainEnv σ) (s : ClientSynchronizer)
    (fuel : Nat) (lastBlockSynced : Block) (r : SyncRun σ) : LoopStep × SyncRun σ :=
  match chain.GetPreviousBlock s.networkID 1 r.w.db with
  | (res, db1) =>
    let w1 := r.w.step (Action.GetPreviousBlock s.networkID 1) db1
    let prev : Except Err Block :=
      match res with
      | Except.error err => if isStorageNotFound err then Except.ok emptyBlock else Except.error err
      | Except.ok b => Except.ok b
    match prev with
    | Except.error err => (LoopStep.ret lastBlockSynced (Outcome.error err), { r with w := w1 })
    | Except.ok prevBlock =>
      match checkReorg chain s fuel prevBlock none w1 with
      | (none, w2) => (LoopStep.outOfFuel, { r with w := w2 })
      | (some (Except.error err), w2) =>
        (LoopStep.ret lastBlockSynced (Outcome.error err), { r with w := w2 })
      | (some (Except.ok found), w2) =>
        let blockReorged : Block := found.getD prevBlock
        match resetState env chain s blockReorged.BlockNumber w2 with
        | (some _, w3) =>
          (LoopStep.ret lastBlockSynced
            (Outcome.error (Err.msg "error resetting the state to a previous block")),
            { r with w := w3 })
        | (none, w3) => (LoopStep.ret blockReorged (Outcome.ok ()), { r with w := w3 })

/-- One iteration of the loop `for` of `syncBlocks`, entered with the values of
`fromBlock`, `toBlock` (both `uint64`) and `lastBlockSynced`; `lastKnownBlock`
is the number of the header read at the start of `syncBlocks`. -/
def syncBlocksBody {σ : Type} (env : SyncEnv σ) (chain : ChainEnv σ) (s : ClientSynchronizer)
    (fuel : Nat) (lastKnownBlock fromBlock toBlock : Nat) (lastBlockSynced : Block)
    (r : SyncRun σ) : LoopStep × SyncRun σ :=
  let beyond : Prop := toBlock > toUint64 lastKnownBlock
  let toBlock : Nat := if beyond then toUint64 lastKnownBlock else toBlock
  let fromBlock : Nat :=
    if beyond ∧ r.synced = false then lastBlockSynced.BlockNumber else fromBlock
  let r0 : SyncRun σ := if beyond ∧ r.synced = false then r.markSynced s else r
  if fromBlock > toBlock then (LoopStep.ret lastBlockSynced (Outcome.ok ()), r0)
  else
    match chain.GetRollupInfoByBlockRange fromBlock toBlock r0.w.db with
    | (Except.error err, db1) =>
      (LoopStep.ret lastBlockSynced (Outcome.error err),
        { r0 with w := r0.w.step (Action.GetRollupInfoByBlockRange fromBlock toBlock) db1 })
    | (Except.ok (blocks, order), db1) =>
      let r1 : SyncRun σ :=
        { r0 with w := r0.w.step (Action.GetRollupInfoByBlockRange fromBlock toBlock) db1 }
      if fromBlock ≠ s.genBlockNumber ∧ fromBlock < s.genBlockNumber then
        (LoopStep.ret lastBlockSynced
          (Outcome.error
            (Err.msg "networkID: %d. fromBlock %d is lower than the genesisBlockNumber %d")), r1)
      else
        let blocks : List Block :=
          if fromBlock = s.genBlockNumber ∧
              (blocks.length = 0 ∨
                (blocks.length ≠ 0 ∧ blocks.head?.map (fun b => b.BlockNumber) ≠
                  some s.genBlockNumber)) then
            emptyBlock :: blocks
          else blocks
        if r1.synced = true then
          match blocks with
          | [] => syncBlocksReorg env chain s fuel lastBlockSynced r1
          | initBlockReceived :: rest =>
            match checkReorg chain s fuel lastBlockSynced (some initBlockReceived) r1.w with
            | (none, w2) => (LoopStep.outOfFuel, { r1 with w := w2 })
            | (some (Except.error _), w2) =>
              (LoopStep.ret lastBlockSynced
                (Outcome.error (Err.msg "networkID: %d, error checking reorgs")),
                { r1 with w := w2 })
            | (some (Except.ok (some block)), w2) =>
              match resetState env chain s block.BlockNumber w2 with
              | (some _, w3) =>
                (LoopStep.ret lastBlockSynced
                  (Outcome.error
                    (Err.msg "networkID: %d, error resetting the state to a previous block")),
                  { r1 with w := w3 })
              | (none, w3) => (LoopStep.ret block (Outcome.ok ()), { r1 with w := w3 })
            | (some (Except.ok none), w2) =>
              syncBlocksProcess env s lastKnownBlock toBlock lastBlockSynced rest order
                { r1 with w := w2 }
        else syncBlocksProcess env s lastKnownBlock toBlock lastBlockSynced blocks order r1

/-- The loop `for` of `syncBlocks`; the first argument bounds the number of
iterations that are unfolded, and the result is `none` when it is used up (or
the bound of `checkReorg` is). -/
def syncBlocksLoop {σ : Type} (env : SyncEnv σ) (chain : ChainEnv σ) (s : ClientSynchronizer)
    (fuel : Nat) (lastKnownBlock : Nat) :
    Nat → Nat → Nat → Block → SyncRun σ → Option (Block × Outcome Unit) × SyncRun σ
  | 0, _, _, _, r => (none, r)
  | n + 1, fromBlock, toBlock, lastBlockSynced, r =>
    match syncBlocksBody env chain s fuel lastKnownBlock fromBlock toBlock lastBlockSynced r with
    | (LoopStep.ret block err, r1) => (some (block, err), r1)
    | (LoopStep.outOfFuel, r1) => (none, r1)
    | (LoopStep.next fromBlock1 toBlock1 lastBlockSynced1, r1) =>
      syncBlocksLoop env chain s fuel lastKnownBlock n fromBlock1 toBlock1 lastBlockSynced1 r1

/-- Model of `ClientSynchronizer.syncBlocks`: the block and the error it
returns, with at most `fuel` iterations of each loop unfolded. -/
def syncBlocks {σ : Type} (env : SyncEnv σ) (chain : ChainEnv σ) (s : ClientSynchronizer)
    (fuel : Nat) (lastBlockSynced : Block) (r : SyncRun σ) :
    Option (Block × Outcome Unit) × SyncRun σ :=
  match chain.HeaderByNumber none r.w.db with
  | (Except.error err, db1) =>
    (some (lastBlockSynced, Outcome.error err),
      { r with w := r.w.step (Action.HeaderByNumber none) db1 })
  | (Except.ok header, db1) =>
    let lastKnownBlock := header.Number
    match checkReorg chain s fuel lastBlockSynced none
        (r.w.step (Action.HeaderByNumber none) db1) with
    | (none, w2) => (none, { r with w := w2 })
    | (some (Except.error _), w2) =>
      (some (lastBlockSynced, Outcome.error (Err.msg "networkID: %d, error checking reorgs")),
        { r with w := w2 })
    | (some (Except.ok (some block)), w2) =>
      match resetState env chain s block.BlockNumber w2 with
      | (some _, w3) =>
        (some (lastBlockSynced,
          Outcome.error (Err.msg "networkID: %d, error resetting the state to a previous block")),
          { r with w := w3 })
      | (none, w3) => (some (block, Outcome.ok ()), { r with w := w3 })
    | (some (Except.ok none), w2) =>
      let fromBlock : Nat :=
        if r.synced = true then lastBlockSynced.BlockNumber
        else (lastBlockSynced.BlockNumber + 1) % 2 ^ 64
      let toBlock : Nat := (fromBlock + s.SyncChunkSize) % 2 ^ 64
      syncBlocksLoop env chain s fuel lastKnownBlock fuel fromBlock toBlock lastBlockSynced
        { r with w := w2 }

/-- The statements of the `case <-time.After(waitDuration)` of `Sync` after the
call of `syncBlocks`, entered with the value of `lastBlockSynced`: the check
against the chain tip while not synced, and the trusted state when synced.
The result is the `lastBlockSynced` of the next round, or the abort of the
process by `log.Fatalf`. -/
def syncCheck {σ : Type} (env : SyncEnv σ) (chain : ChainEnv σ) (s : ClientSynchronizer)
    (lastBlockSynced : Block) (r : SyncRun σ) : Outcome Block × SyncRun σ :=
  if r.synced = false then
    match chain.HeaderByNumber none r.w.db with
    | (Except.error _, db1) =>
      (Outcome.ok lastBlockSynced, { r with w := r.w.step (Action.HeaderByNumber none) db1 })
    | (Except.ok header, db1) =>
      let r1 : SyncRun σ := { r with w := r.w.step (Action.HeaderByNumber none) db1 }
      let lastKnownBlock := toUint64 header.Number
      let r2 : SyncRun σ :=
        if lastBlockSynced.BlockNumber = lastKnownBlock ∧ r1.synced = false then r1.markSynced s
        else r1
      if lastBlockSynced.BlockNumber > lastKnownBlock then
        if s.networkID = 0 then
          (Outcome.panic ("networkID: %d, error: latest Synced BlockNumber (%d) is higher than " ++
            "the latest Proposed block (%d) in the network"), r2)
        else
          match resetState env chain s lastKnownBlock r2.w with
          | (_, w3) => (Outcome.ok lastBlockSynced, { r2 with w := w3 })
      else (Outcome.ok lastBlockSynced, r2)
  else if s.networkID = 0 ∨ s.sovereignChain = true then (Outcome.ok lastBlockSynced, r)
  else
    match syncTrustedState chain s r.w with
    | (_, w1) => (Outcome.ok lastBlockSynced, { r with w := w1 })

/-- One round of the loop of `ClientSynchronizer.Sync` in the case
`<-time.After(waitDuration)`, entered with the value of `lastBlockSynced`.
The result is the `lastBlockSynced` of the next round, a panic, or the abort
of the process by `log.Fatalf` (also a `panic` outcome); it is `none` when
the bound `fuel` on the loops is used up. -/
def syncRound {σ : Type} (env : SyncEnv σ) (chain : ChainEnv σ) (s : ClientSynchronizer)
    (fuel : Nat) (lastBlockSynced : Block) (r : SyncRun σ) :
    Option (Outcome Block) × SyncRun σ :=
  match syncBlocks env chain s fuel lastBlockSynced r with
  | (none, r1) => (none, r1)
  | (some (_, Outcome.panic p), r1) => (some (Outcome.panic p), r1)
  | (some (block, Outcome.ok _), r1) =>
    match syncCheck env chain s block r1 with
    | (res, r2) => (some res, r2)
  | (some (_, Outcome.error _), r1) =>
    match chain.GetLastBlock s.networkID r1.w.db with
    | (res, db2) =>
      let r2 : SyncRun σ := { r1 with w := r1.w.step (Action.GetLastBlock s.networkID) db2 }
      let last : Outcome Block :=
        match res with
        | Except.ok b => Outcome.ok b
        | Except.error err =>
          if isStorageNotFound err then
            Outcome.ok { emptyBlock with BlockNumber := s.genBlockNumber, NetworkID := s.networkID }
          else
            Outcome.panic ("networkID: %d, error getting lastBlockSynced to resume the " ++
              "synchronization... Error: ")
      match last with
      | Outcome.ok block =>
        if chain.ctxErr r2.w.db = true then (some (Outcome.ok block), r2)
        else
          match syncCheck env chain s block r2 with
          | (res, r3) => (some res, r3)
      | Outcome.error err => (some (Outcome.error err), r2)
      | Outcome.panic p => (some (Outcome.panic p), r2)

/-! ## Claim transaction manager (`claimtxman/claimtxman.go`) -/

/-- Model of `ethereum.CallMsg` with the fields the manager fills in; `To` and
`Value` are pointers (`none` is nil). -/
structure CallMsg where
  From : Bytes
  To : Option Bytes
  Value : Option Int
  Data : Bytes
  deriving DecidableEq, Repr

/-- The fields of `ctmtypes.MonitoredTx` that `addClaimTx` sets in its struct
literal and that `ReviewMonitoredTx` reads and updates. -/
structure MonitoredTx where
  DepositID : Nat
  From : Bytes
  To : Option Bytes
  Nonce : Nat
  Value : Option Int
  Data : Bytes
  Gas : Nat
  Status : String
  GlobalExitRoot : Bytes
  deriving DecidableEq, Repr

/-- The transaction `BuildSendClaim` returns, read through `tx.To()` and `tx.Data()`. -/
structure ClaimTx where
  To : Option Bytes
  Data : Bytes
  deriving DecidableEq, Repr

/-- Model of `claimtxman.Config` with the fields the modelled code reads.
`RetryNumber` is a Go `int`; `GroupingClaimsEnabled` is `GroupingClaims.Enabled`. -/
structure claimtxman.Config where
  RetryNumber : Int
  AuthorizedClaimMessageAddresses : List Bytes
  AreClaimsBetweenL2sEnabled : Bool
  GroupingClaimsEnabled : Bool
  deriving DecidableEq, Repr

/-- The fields of `ClaimTxManager` that do not change during a run: `authFrom`
is `tm.auth.From`, and `MonitoredTxStatusCreated` is the value of the constant
`ctmtypes.MonitoredTxStatusCreated`. -/
structure ClaimTxManager where
  l2NetworkID : Nat
  rollupID : Nat
  authFrom : Bytes
  cfg : claimtxman.Config
  MonitoredTxStatusCreated : String
  deriving DecidableEq, Repr

/-- What the claim transaction manager does to its collaborators, in order:
calls on the storage, on the bridge service, on the L2 node, on the nonce
cache, and `time.Sleep(tm.cfg.RetryInterval.Duration)`. -/
inductive TxAction where
  | BeginDBTransaction : TxAction
  | Rollback : Tx → TxAction
  | Commit : Tx → TxAction
  | UpdateL2DepositsStatus : Bytes → Nat → Nat → Tx → TxAction
  | GetDepositsFromOtherL2ToClaim : Nat → Tx → TxAction
  | GetLatestTrustedGERByDeposit : Nat → Nat → Nat → Tx → TxAction
  | UpdateL1DepositsStatus : Bytes → Nat → Tx → TxAction
  | GetClaim : Nat → Nat → Nat → TxAction
  | GetClaimProofForCompressed : Bytes → Nat → Nat → Tx → TxAction
  | BuildSendClaim : Deposit → List Bytes → List Bytes → GlobalExitRoot → TxAction
  | EstimateGas : CallMsg → TxAction
  | Sleep : TxAction
  | BlockByNumber : TxAction
  | GetNextNonce : Bytes → TxAction
  | AddClaimTx : MonitoredTx → Tx → TxAction
  deriving DecidableEq, Repr

/-- The collaborators of the claim transaction manager, answering from a state
`σ` that they may change: `StorageInterface`, the storage behind
`bridgeService.GetDepositStatus` (`GetClaim`), `bridgeServiceInterface`
(`GetClaimProofForCompressed`), the L2 node (`BuildSendClaim`, `EstimateGas`,
`BlockByNumber`) and the nonce cache.  `errorText` is `err.Error()` and
`ErrExecutionReverted` is `runtime.ErrExecutionReverted.Error()`. -/
structure ClaimEnv (σ : Type) where
  BeginDBTransaction : σ → Except Err Tx × σ
  Rollback : Tx → σ → Option Err × σ
  Commit : Tx → σ → Option Err × σ
  UpdateL2DepositsStatus : Bytes → Nat → Nat → Tx → σ → Option Err × σ
  GetDepositsFromOtherL2ToClaim : Nat → Tx → σ → Except Err (List Deposit) × σ
  GetLatestTrustedGERByDeposit : Nat → Nat → Nat → Tx → σ → (Bytes × Option Err) × σ
  UpdateL1DepositsStatus : Bytes → Nat → Tx → σ → Except Err (List Deposit) × σ
  GetClaim : Nat → Nat → Nat → σ → Except Err Claim × σ
  GetClaimProofForCompressed :
    Bytes → Nat → Nat → Tx → σ → Except Err (GlobalExitRoot × List Bytes × List Bytes) × σ
  BuildSendClaim :
    Deposit → List Bytes → List Bytes → GlobalExitRoot → σ → Except Err ClaimTx × σ
  EstimateGas : CallMsg → σ → Except Err Nat × σ
  BlockByNumber : σ → Except Err Nat × σ
  GetNextNonce : Bytes → σ → Except Err Nat × σ
  AddClaimTx : MonitoredTx → Tx → σ → Option Err × σ
  errorText : Err → String
  ErrExecutionReverted : String

/-- The state around a run of the manager: the state of the collaborators and
the actions done so far. -/
structure TxWorld (σ : Type) where
  db : σ
  trace : List TxAction

/-- Appends one action to the trace and installs the new collaborator state. -/
def TxWorld.step {σ : Type} (w : TxWorld σ) (a : TxAction) (db : σ) : TxWorld σ :=
  { db := db, trace := w.trace ++ [a] }

/-- The retry loop shared by `addClaimTx` and `ReviewMonitoredTx`:
`for i := 1; err != nil && err.Error() != runtime.ErrExecutionReverted.Error() &&
i < tm.cfg.RetryNumber; i++ { time.Sleep(...); gas, err = tm.l2Node.EstimateGas(tm.ctx, tx) }`,
entered with the result of the first estimation.  The first argument bounds
the number of iterations that are unfolded. -/
def estimateGasLoop {σ : Type} (env : ClaimEnv σ) (tm : ClaimTxManager) (tx : CallMsg) :
    Nat → Int → Except Err Nat → TxWorld σ → Except Err Nat × TxWorld σ
  | 0, _, res, w => (res, w)
  | fuel + 1, i, res, w =>
    match res with
    | Except.ok gas => (Except.ok gas, w)
    | Except.error err =>
      if env.errorText err ≠ env.ErrExecutionReverted ∧ i < tm.cfg.RetryNumber then
        let w1 := w.step TxAction.Sleep w.db
        match env.EstimateGas tx w1.db with
        | (res1, db1) =>
          estimateGasLoop env tm tx fuel (i + 1) res1 (w1.step (TxAction.EstimateGas tx) db1)
      else (Except.error err, w)

/-- The first estimation followed by the retry loop:
`gas, err := tm.l2Node.EstimateGas(tm.ctx, tx)` and the `for` statement after
it.  The loop runs fewer than `RetryNumber` times, so `RetryNumber` iterations
are enough to unfold. -/
def estimateGas {σ : Type} (env : ClaimEnv σ) (tm : ClaimTxManager) (tx : CallMsg)
    (w : TxWorld σ) : Except Err Nat × TxWorld σ :=
  match env.EstimateGas tx w.db with
  | (res, db1) =>
    estimateGasLoop env tm tx tm.cfg.RetryNumber.toNat 1 res (w.step (TxAction.EstimateGas tx) db1)

/-- Model of `ClaimTxManager.addClaimTx`; `sender` and `toAddr` are the Go
parameters `from` and `to`. -/
def addClaimTx {σ : Type} (env : ClaimEnv σ) (tm : ClaimTxManager) (depositID : Nat)
    (sender : Bytes) (toAddr : Option Bytes) (value : Option Int) (data : Bytes) (ger : Bytes)
    (dbTx : Tx) (w : TxWorld σ) : Option Err × TxWorld σ :=
  let tx : CallMsg := { From := sender, To := toAddr, Value := value, Data := data }
  match estimateGas env tm tx w with
  | (Except.error _, w1) =>
    match env.BlockByNumber w1.db with
    | (_, db2) => (none, w1.step TxAction.BlockByNumber db2)
  | (Except.ok gas, w1) =>
    match env.GetNextNonce sender w1.db with
    | (Except.error err, db2) =>
      (some (Err.wrapped "rollupID: %d, failed to get current nonce: %v" err),
        w1.step (TxAction.GetNextNonce sender) db2)
    | (Except.ok nonce, db2) =>
      let w2 := w1.step (TxAction.GetNextNonce sender) db2
      let mTx : MonitoredTx :=
        { DepositID := depositID, From := sender, To := toAddr, Nonce := nonce, Value := value,
          Data := data, Gas := gas, Status := tm.MonitoredTxStatusCreated,
          GlobalExitRoot := ger }
      match env.AddClaimTx mTx dbTx w2.db with
      | (some err, db3) =>
        (some (Err.wrapped "rollupID: %d, failed to add tx to get monitored: %v" err),
          w2.step (TxAction.AddClaimTx mTx dbTx) db3)
      | (none, db3) => (none, w2.step (TxAction.AddClaimTx mTx dbTx) db3)

/-- Model of `ClaimTxManager.ReviewMonitoredTx`; the monitored transaction is
passed by pointer and updated in place, so the updated value is returned. -/
def ReviewMonitoredTx {σ : Type} (env : ClaimEnv σ) (tm : ClaimTxManager) (mTx : MonitoredTx)
    (reviewNonce : Bool) (w : TxWorld σ) : (Option Err × MonitoredTx) × TxWorld σ :=
  let tx : CallMsg := { From := mTx.From, To := mTx.To, Value := mTx.Value, Data := mTx.Data }
  match estimateGas env tm tx w with
  | (Except.error err, w1) =>
    ((some (Err.wrapped "failed to estimate gas. Error: %v, Data: %s" err), mTx), w1)
  | (Except.ok gas, w1) =>
    let mTx1 : MonitoredTx := if gas > mTx.Gas then { mTx with Gas := gas } else mTx
    if reviewNonce then
      match env.GetNextNonce mTx1.From w1.db with
      | (Except.error err, db2) =>
        ((some (Err.wrapped "failed to get nonce: %v" err), mTx1),
          w1.step (TxAction.GetNextNonce mTx1.From) db2)
      | (Except.ok nonce, db2) =>
        let mTx2 : MonitoredTx := if nonce > mTx1.Nonce then { mTx1 with Nonce := nonce } else mTx1
        ((none, mTx2), w1.step (TxAction.GetNextNonce mTx1.From) db2)
    else ((none, mTx1), w1)

/-- Model of `common.Hash.String()`: `0x` followed by two lower-case hexadecimal
digits for every byte. -/
def hashString (h : Bytes) : String :=
  "0x" ++ String.join
    (h.map fun b => String.mk (Nat.toDigits 16 (b / 16 % 16) ++ Nat.toDigits 16 (b % 16)))

/-- Model of `bridgeService.GetDepositStatus` (`server/service.go`), the
implementation behind `tm.bridgeService.GetDepositStatus`: the hash of the
claim transaction as text, or the empty string when storage has no claim
(`err != gerror.ErrStorageNotFound` compares with the sentinel itself). -/
def GetDepositStatus {σ : Type} (env : ClaimEnv σ) (depositCount originNetworkID destNetworkID : Nat)
    (w : TxWorld σ) : Except Err String × TxWorld σ :=
  match env.GetClaim depositCount originNetworkID destNetworkID w.db with
  | (Except.error err, db1) =>
    if err ≠ Err.storageNotFound then
      (Except.error err, w.step (TxAction.GetClaim depositCount originNetworkID destNetworkID) db1)
    else (Except.ok "", w.step (TxAction.GetClaim depositCount originNetworkID destNetworkID) db1)
  | (Except.ok claim, db1) =>
    (Except.ok (hashString claim.TxHash),
      w.step (TxAction.GetClaim depositCount originNetworkID destNetworkID) db1)

/-- Model of the constant `LeafTypeMessage = uint8(1)`. -/
def LeafTypeMessage : Nat := 1

/-- Model of the constant `mtHeight = 32`. -/
def mtHeight : Nat := 32

/-- Model of `ClaimTxManager.isDepositMessageAllowed`: the loop over
`tm.cfg.AuthorizedClaimMessageAddresses` that returns true at the first
address equal to `deposit.OriginalAddress`. -/
def isDepositMessageAllowedLoop (deposit : Deposit) : List Bytes → Bool
  | [] => false
  | addr :: rest =>
    if deposit.OriginalAddress = addr then true else isDepositMessageAllowedLoop deposit rest

/-- Model of `ClaimTxManager.isDepositMessageAllowed`. -/
def isDepositMessageAllowed (tm : ClaimTxManager) (deposit : Deposit) : Bool :=
  isDepositMessageAllowedLoop deposit tm.cfg.AuthorizedClaimMessageAddresses

/-- The body of the loop `for _, deposit := range deposits` of
`processDepositStatus`; `Outcome.ok ()` stands for reaching the end of the body
or a `continue`.  Indexing `proof[i]`, `rollupProof[i]` for `i < mtHeight` and
`ger.ExitRoots[0]`, `ger.ExitRoots[1]` panics when the slice is too short. -/
def claimDeposit {σ : Type} (env : ClaimEnv σ) (tm : ClaimTxManager) (globalExitRoot : Bytes)
    (dbTx : Tx) (deposit : Deposit) (w : TxWorld σ) : Outcome Unit × TxWorld σ :=
  if tm.l2NetworkID ≠ deposit.DestinationNetwork then (Outcome.ok (), w)
  else
    match GetDepositStatus env deposit.DepositCount deposit.NetworkID deposit.DestinationNetwork w with
    | (Except.error err, w1) => (Outcome.error err, w1)
    | (Except.ok claimHash, w1) =>
      if claimHash.utf8ByteSize > 0 ∨
          (deposit.LeafType = LeafTypeMessage ∧ ¬ (isDepositMessageAllowed tm deposit = true)) then
        (Outcome.ok (), w1)
      else
        match env.GetClaimProofForCompressed globalExitRoot deposit.DepositCount deposit.NetworkID
            dbTx w1.db with
        | (Except.error err, db2) =>
          (Outcome.error err,
            w1.step (TxAction.GetClaimProofForCompressed globalExitRoot deposit.DepositCount
              deposit.NetworkID dbTx) db2)
        | (Except.ok (ger, proof, rollupProof), db2) =>
          let w2 := w1.step (TxAction.GetClaimProofForCompressed globalExitRoot
            deposit.DepositCount deposit.NetworkID dbTx) db2
          if proof.length < mtHeight ∨ rollupProof.length < mtHeight then
            (Outcome.panic "index out of range", w2)
          else
            let mtProof := proof.take mtHeight
            let mtRollupProof := rollupProof.take mtHeight
            match ger.ExitRoots.get? 0, ger.ExitRoots.get? 1 with
            | some root0, some root1 =>
              let claimGER : GlobalExitRoot :=
                { BlockID := 0, BlockNumber := 0, ExitRoots := [root0, root1],
                  GlobalExitRoot := zeroHash, NetworkID := 0, ID := 0 }
              match env.BuildSendClaim deposit mtProof mtRollupProof claimGER w2.db with
              | (Except.error err, db3) =>
                (Outcome.error err,
                  w2.step (TxAction.BuildSendClaim deposit mtProof mtRollupProof claimGER) db3)
              | (Except.ok tx, db3) =>
                let w3 := w2.step (TxAction.BuildSendClaim deposit mtProof mtRollupProof claimGER) db3
                match addClaimTx env tm deposit.Id tm.authFrom tx.To none tx.Data ger.GlobalExitRoot
                    dbTx w3 with
                | (some err, w4) => (Outcome.error err, w4)
                | (none, w4) => (Outcome.ok (), w4)
            | _, _ => (Outcome.panic "index out of range", w2)

/-- The loop `for _, deposit := range deposits` of `processDepositStatus`: it
stops at the first deposit whose body returns an error (or panics). -/
def claimDeposits {σ : Type} (env : ClaimEnv σ) (tm : ClaimTxManager) (globalExitRoot : Bytes)
    (dbTx : Tx) : List Deposit → TxWorld σ → Outcome Unit × TxWorld σ
  | [], w => (Outcome.ok (), w)
  | deposit :: rest, w =>
    match claimDeposit env tm globalExitRoot dbTx deposit w with
    | (Outcome.ok _, w1) => claimDeposits env tm globalExitRoot dbTx rest w1
    | (r, w1) => (r, w1)

/-- The two calls of `GetLatestTrustedGERByDeposit` in `processDepositStatus`
for the first of the deposits from other L2s: the result is the global exit
root to use, or the error to return.  A first answer `ErrStorageNotFound` is
followed by a sleep and a second call, whose `ErrStorageNotFound` is only
logged. -/
def latestTrustedGER {σ : Type} (env : ClaimEnv σ) (d0 : Deposit) (dbTx : Tx) (w : TxWorld σ) :
    Except Err Bytes × TxWorld σ :=
  match env.GetLatestTrustedGERByDeposit d0.DepositCount d0.NetworkID d0.DestinationNetwork dbTx
      w.db with
  | ((g1, err1), db1) =>
    let w1 := w.step (TxAction.GetLatestTrustedGERByDeposit d0.DepositCount d0.NetworkID
      d0.DestinationNetwork dbTx) db1
    match err1 with
    | none => (Except.ok g1, w1)
    | some e1 =>
      if isStorageNotFound e1 then
        let w2 := w1.step TxAction.Sleep w1.db
        match env.GetLatestTrustedGERByDeposit d0.DepositCount d0.NetworkID d0.DestinationNetwork
            dbTx w2.db with
        | ((g2, err2), db3) =>
          let w3 := w2.step (TxAction.GetLatestTrustedGERByDeposit d0.DepositCount d0.NetworkID
            d0.DestinationNetwork dbTx) db3
          match err2 with
          | none => (Except.ok g2, w3)
          | some e2 => if isStorageNotFound e2 then (Except.ok g2, w3) else (Except.error e2, w3)
      else (Except.error e1, w1)

/-- Model of `ClaimTxManager.processDepositStatus`. -/
def processDepositStatus {σ : Type} (env : ClaimEnv σ) (tm : ClaimTxManager)
    (ger : GlobalExitRoot) (dbTx : Tx) (w : TxWorld σ) : Outcome Unit × TxWorld σ :=
  let globalExitRoot := ger.GlobalExitRoot
  if ger.BlockID ≠ 0 ∧ ger.NetworkID = 0 then
    match ger.ExitRoots.get? 1 with
    | none => (Outcome.panic "index out of range", w)
    | some root1 =>
      match env.UpdateL2DepositsStatus root1 tm.rollupID tm.l2NetworkID dbTx w.db with
      | (some err, db1) =>
        (Outcome.error err,
          w.step (TxAction.UpdateL2DepositsStatus root1 tm.rollupID tm.l2NetworkID dbTx) db1)
      | (none, db1) =>
        let w1 := w.step (TxAction.UpdateL2DepositsStatus root1 tm.rollupID tm.l2NetworkID dbTx) db1
        if tm.cfg.AreClaimsBetweenL2sEnabled then
          match env.GetDepositsFromOtherL2ToClaim tm.l2NetworkID dbTx w1.db with
          | (Except.error err, db2) =>
            (Outcome.error err,
              w1.step (TxAction.GetDepositsFromOtherL2ToClaim tm.l2NetworkID dbTx) db2)
          | (Except.ok deposits, db2) =>
            let w2 := w1.step (TxAction.GetDepositsFromOtherL2ToClaim tm.l2NetworkID dbTx) db2
            match deposits with
            | [] => claimDeposits env tm globalExitRoot dbTx [] w2
            | d0 :: rest =>
              match latestTrustedGER env d0 dbTx w2 with
              | (Except.error err, w3) => (Outcome.error err, w3)
              | (Except.ok g, w3) => claimDeposits env tm g dbTx (d0 :: rest) w3
        else claimDeposits env tm globalExitRoot dbTx [] w1
  else
    match ger.ExitRoots.get? 0 with
    | none => (Outcome.panic "index out of range", w)
    | some root0 =>
      match env.UpdateL1DepositsStatus root0 tm.l2NetworkID dbTx w.db with
      | (Except.error err, db1) =>
        (Outcome.error err, w.step (TxAction.UpdateL1DepositsStatus root0 tm.l2NetworkID dbTx) db1)
      | (Except.ok deposits, db1) =>
        claimDeposits env tm globalExitRoot dbTx deposits
          (w.step (TxAction.UpdateL1DepositsStatus root0 tm.l2NetworkID dbTx) db1)

/-- Model of `ClaimTxManager.updateDepositsStatus`.  A panic of
`processDepositStatus` ends the goroutine before any further call. -/
def updateDepositsStatus {σ : Type} (env : ClaimEnv σ) (tm : ClaimTxManager)
    (ger : GlobalExitRoot) (w : TxWorld σ) : Outcome Unit × TxWorld σ :=
  match env.BeginDBTransaction w.db with
  | (Except.error err, db1) => (Outcome.error err, w.step TxAction.BeginDBTransaction db1)
  | (Except.ok dbTx, db1) =>
    match processDepositStatus env tm ger dbTx (w.step TxAction.BeginDBTransaction db1) with
    | (Outcome.panic p, w2) => (Outcome.panic p, w2)
    | (Outcome.error err, w2) =>
      match env.Rollback dbTx w2.db with
      | (some rollbackErr, db3) => (Outcome.error rollbackErr, w2.step (TxAction.Rollback dbTx) db3)
      | (none, db3) => (Outcome.error err, w2.step (TxAction.Rollback dbTx) db3)
    | (Outcome.ok _, w2) =>
      match env.Commit dbTx w2.db with
      | (some err, db3) =>
        let w3 := w2.step (TxAction.Commit dbTx) db3
        match env.Rollback dbTx w3.db with
        | (some rollbackErr, db4) =>
          (Outcome.error rollbackErr, w3.step (TxAction.Rollback dbTx) db4)
        | (none, db4) => (Outcome.error err, w3.step (TxAction.Rollback dbTx) db4)
      | (none, db3) => (Outcome.ok (), w2.step (TxAction.Commit dbTx) db3)

/-- What the `select` statement of `ClaimTxManager.Start` receives in one
round of its loop: `tm.ctx.Done()`, a network id from `tm.chSynced`, a global
exit root from `tm.chExitRootEvent`, a tick of `compressorTicker` or a tick of
`ticker`. -/
inductive ManagerEvent where
  | Done : ManagerEvent
  | Synced : Nat → ManagerEvent
  | ExitRoot : GlobalExitRoot → ManagerEvent
  | CompressorTick : ManagerEvent
  | Tick : ManagerEvent
  deriving DecidableEq, Repr

/-- What `Start` sets off: a goroutine running `tm.updateDepositsStatus(ger)`,
recorded with the value of `ger` when it is started, or a call of
`tm.monitorTxs.MonitorTxs`. -/
inductive Started where
  | updateDepositsStatus : GlobalExitRoot → Started
  | MonitorTxs : Started
  deriving DecidableEq, Repr

/-- The variables of `Start`: the field `tm.l2Synced`, the locals `ger` and
`latestProcessedGer`, what has been set off so far, and whether the loop has
returned. -/
structure StartState where
  l2Synced : Bool
  ger : GlobalExitRoot
  latestProcessedGer : Bytes
  started : List Started
  returned : Bool
  deriving DecidableEq, Repr

/-- The state in which `Start` enters its loop: `tm.l2Synced` is false in a new
manager, `ger` is `&etherman.GlobalExitRoot{}` and `latestProcessedGer` is the
zero hash. -/
def StartState.init : StartState :=
  { l2Synced := false,
    ger := { BlockID := 0, BlockNumber := 0, ExitRoots := [], GlobalExitRoot := zeroHash,
             NetworkID := 0, ID := 0 },
    latestProcessedGer := zeroHash, started := [], returned := false }

/-- One round of the loop of `ClaimTxManager.Start`: the case of the `select`
statement chosen by the event. -/
def startStep (tm : ClaimTxManager) (st : StartState) : ManagerEvent → StartState
  | ManagerEvent.Done => { st with returned := true }
  | ManagerEvent.Synced netID =>
    if netID = tm.l2NetworkID ∧ ¬ (st.l2Synced = true) then { st with l2Synced := true } else st
  | ManagerEvent.ExitRoot g =>
    let st1 := { st with ger := g }
    if st1.l2Synced = true then
      if tm.cfg.GroupingClaimsEnabled = true then st1
      else { st1 with started := st1.started ++ [Started.updateDepositsStatus st1.ger] }
    else st1
  | ManagerEvent.CompressorTick =>
    if st.l2Synced = true ∧ tm.cfg.GroupingClaimsEnabled = true ∧
        st.ger.GlobalExitRoot ≠ st.latestProcessedGer then
      { st with
        started := st.started ++ [Started.updateDepositsStatus st.ger],
        latestProcessedGer := st.ger.GlobalExitRoot }
    else st
  | ManagerEvent.Tick => { st with started := st.started ++ [Started.MonitorTxs] }

/-- Model of `ClaimTxManager.Start` on a sequence of events: the loop runs one
round per event until it returns on `Done`. -/
def Start (tm : ClaimTxManager) : List ManagerEvent → StartState → StartState
  | [], st => st
  | ev :: rest, st =>
    if st.returned = true then st else Start tm rest (startStep tm st ev)

/-! ## REST endpoints of the bridge service (`server/service.go`) -/

/-- The statements with which `GetBridge`, `GetBridges` and
`GetPendingBridgesToClaim` (`server/service.go`) compute the global index of a
deposit of their response: `mainnetFlag := deposit.NetworkID == 0`,
`var rollupIndex uint32; if !mainnetFlag { rollupIndex = deposit.NetworkID - 1 }`,
`localExitRootIndex := deposit.DepositCount`, and the call of
`GenerateGlobalIndex`.  The `GlobalIndex` field of the response is the decimal
text (`.String()`) of the value returned here. -/
def depositGlobalIndex (deposit : Deposit) : Int :=
  let mainnetFlag : Bool := decide (deposit.NetworkID = 0)
  let rollupIndex : Nat :=
    if !mainnetFlag then (deposit.NetworkID + 2 ^ 32 - 1) % 2 ^ 32 else 0
  let localExitRootIndex := deposit.DepositCount
  GenerateGlobalIndex mainnetFlag rollupIndex localExitRootIndex

/-- The global indexes of the entries that the loops of `GetBridges` and
`GetPendingBridgesToClaim` append for the deposits read from storage, in
order. -/
def depositsGlobalIndexes (deposits : List Deposit) : List Int :=
  deposits.foldl (fun pbDeposits deposit => pbDeposits ++ [depositGlobalIndex deposit]) []

/-- Model of `pb.Proof`, the content of a `pb.GetProofResponse`. -/
structure ProofResponse where
  RollupMerkleProof : List String
  MerkleProof : List String
  MainExitRoot : String
  RollupExitRoot : String
  deriving DecidableEq, Repr

/-- The loop of `GetProof` and `GetProofByGER`,
`for i := 0; i < len(merkleProof); i++ { proof = append(proof, "0x"+hex(merkleProof[i]));
rollupProof = append(rollupProof, "0x"+hex(rollupMerkleProof[i])) }`, with `n` iterations
left and the counter at `i`.  An index past the end of a slice panics. -/
def encodeProofs (merkleProof rollupMerkleProof : List Bytes) :
    Nat → Nat → List String → List String → Outcome (List String × List String)
  | 0, _, proof, rollupProof => Outcome.ok (proof, rollupProof)
  | n + 1, i, proof, rollupProof =>
    match merkleProof.get? i with
    | none => Outcome.panic "index out of range"
    | some m =>
      match rollupMerkleProof.get? i with
      | none => Outcome.panic "index out of range"
      | some r =>
        encodeProofs merkleProof rollupMerkleProof n (i + 1) (proof ++ [hashString m])
          (rollupProof ++ [hashString r])

/-- What `GetProof` and `GetProofByGER` do with the result of the claim-proof
lookup: they declare the empty slices `proof` and `rollupProof`, compare the
lengths of these two, run the loop and build the response.  `hashString` is
also the text of `common.Hash.Hex()`. -/
def proofResponse (globalExitRoot : GlobalExitRoot) (merkleProof rollupMerkleProof : List Bytes) :
    Outcome ProofResponse :=
  let proof : List String := []
  let rollupProof : List String := []
  if proof.length ≠ rollupProof.length then
    Outcome.error
      (Err.msg "proofs have different lengths. MerkleProof: %d. RollupMerkleProof: %d")
  else
    match encodeProofs merkleProof rollupMerkleProof merkleProof.length 0 proof rollupProof with
    | Outcome.panic p => Outcome.panic p
    | Outcome.error e => Outcome.error e
    | Outcome.ok (proof, rollupProof) =>
      match exitRootAt globalExitRoot 0 with
      | Outcome.panic p => Outcome.panic p
      | Outcome.error e => Outcome.error e
      | Outcome.ok mainExitRoot =>
        match exitRootAt globalExitRoot 1 with
        | Outcome.panic p => Outcome.panic p
        | Outcome.error e => Outcome.error e
        | Outcome.ok rollupExitRoot =>
          Outcome.ok
            { RollupMerkleProof := rollupProof, MerkleProof := proof,
              MainExitRoot := hashString mainExitRoot,
              RollupExitRoot := hashString rollupExitRoot }

/-- Model of the endpoint `bridgeService.GetProof`. -/
def GetProof (s : bridgeService) (depositCnt netId : Nat) (st : SvcState) :
    Outcome ProofResponse × SvcState :=
  match GetClaimProof s depositCnt netId none st with
  | (Outcome.panic p, st1) => (Outcome.panic p, st1)
  | (Outcome.error e, st1) => (Outcome.error e, st1)
  | (Outcome.ok (globalExitRoot, merkleProof, rollupMerkleProof), st1) =>
    (proofResponse globalExitRoot merkleProof rollupMerkleProof, st1)

/-- Model of the endpoint `bridgeService.GetProofByGER`; `ger` is
`common.HexToHash(req.Ger)`. -/
def GetProofByGER (s : bridgeService) (depositCnt netId : Nat) (ger : Bytes) (st : SvcState) :
    Outcome ProofResponse × SvcState :=
  match GetClaimProofbyGER s depositCnt netId ger none st with
  | (Outcome.panic p, st1) => (Outcome.panic p, st1)
  | (Outcome.error e, st1) => (Outcome.error e, st1)
  | (Outcome.ok (globalExitRoot, merkleProof, rollupMerkleProof), st1) =>
    (proofResponse globalExitRoot merkleProof rollupMerkleProof, st1)

/-! ## Storage queries (`db/pgstorage/pgstorage.go`)

A table is the list of its rows, and a query is evaluated on the content of
the tables: `WHERE` keeps rows, a join pairs the rows of two tables that
satisfy its `ON` condition, `ORDER BY` sorts, `LIMIT` and `OFFSET` take and
drop, and `QueryRow(...).Scan` reads the first row of the result.  Failures of
the connection are not part of the model. -/

/-- Rows in the order `ORDER BY key ASC`; rows with equal keys, whose order SQL
leaves open, keep the order they have. -/
def orderByAsc {α : Type} (key : α → Nat) (rows : List α) : List α :=
  rows.insertionSort (fun a b => key a ≤ key b)

/-- Rows in the order `ORDER BY key DESC`; rows with equal keys keep the order
they have. -/
def orderByDesc {α : Type} (key : α → Nat) (rows : List α) : List α :=
  rows.insertionSort (fun a b => key b ≤ key a)

/-- The aggregate `MAX` over the values of a group, which is never empty. -/
def sqlMax (values : List Nat) : Nat := values.foldr max 0

/-- The subquery `SELECT distinct rollup_id, MAX(id) AS maxid FROM mt.rollup_exit
GROUP BY rollup_id` of `GetLatestRollupExitLeaves`: one row `(rollup_id, maxid)`
per group. -/
def groupedre (rollup_exit : List RollupExitLeaf) : List (Nat × Nat) :=
  ((rollup_exit.map fun re => re.RollupId).dedup.map fun r =>
    (r, sqlMax ((rollup_exit.filter fun re => re.RollupId = r).map fun re => re.ID))).dedup

/-- Model of `PostgresStorage.GetLatestRollupExitLeaves` on the content of
`mt.rollup_exit`: the rows `re` joined with `groupedre` on
`re.id = groupedre.maxid`, the selected columns of `re` (all five) made
distinct, ordered by `rollup_id`. -/
def GetLatestRollupExitLeaves (rollup_exit : List RollupExitLeaf) : List RollupExitLeaf :=
  let joined : List RollupExitLeaf :=
    (rollup_exit.map fun re =>
      (groupedre rollup_exit).filterMap fun g =>
        if re.ID = g.2 then some re else none).flatten
  orderByAsc (fun re => re.RollupId) joined.dedup

/-- A row of `sync.block`. -/
structure BlockRow where
  id : Nat
  block_num : Nat
  block_hash : Bytes
  parent_hash : Bytes
  network_id : Nat
  received_at : Nat
  deriving DecidableEq, Repr

/-- A row of `sync.deposit`. -/
structure DepositRow where
  id : Nat
  leaf_type : Nat
  network_id : Nat
  orig_net : Nat
  orig_addr : Bytes
  amount : Int
  dest_net : Nat
  dest_addr : Bytes
  block_id : Nat
  deposit_cnt : Nat
  tx_hash : Bytes
  metadata : Bytes
  ready_for_claim : Bool
  deriving DecidableEq, Repr

/-- A row of `sync.claim`. -/
structure ClaimRow where
  network_id : Nat
  index : Nat
  orig_net : Nat
  orig_addr : Bytes
  amount : Int
  dest_addr : Bytes
  block_id : Nat
  tx_hash : Bytes
  rollup_index : Nat
  mainnet_flag : Bool
  deriving DecidableEq, Repr

/-- A row of `sync.exit_root`. -/
structure ExitRootRow where
  id : Nat
  block_id : Nat
  global_exit_root : Bytes
  exit_roots : List Bytes
  network_id : Nat
  allowed : Bool
  deriving DecidableEq, Repr

/-- A row of `sync.remove_exit_root`. -/
structure RemoveExitRootRow where
  block_id : Nat
  global_exit_root : Bytes
  network_id : Nat
  deriving DecidableEq, Repr

/-- A row of `mt.root`. -/
structure RootRow where
  root : Bytes
  deposit_id : Nat
  network : Nat
  deriving DecidableEq, Repr

/-- The content of the tables that the modelled queries read and write. -/
structure Database where
  block : List BlockRow
  deposit : List DepositRow
  claim : List ClaimRow
  exit_root : List ExitRootRow
  remove_exit_root : List RemoveExitRootRow
  root : List RootRow
  deriving DecidableEq, Repr

/-- The zero value `common.Address{}`. -/
def zeroAddress : Bytes := List.replicate 20 0

/-- The `WHERE` clause shared by the two queries of `GetPendingDepositsToClaim`:
`dest_net = $1 AND ready_for_claim = true AND leaf_type = $2`, the condition
`AND dest_addr = decode(...)` that is added when `destAddress` is not the zero
address, and `AND deposit_cnt NOT IN (SELECT index FROM sync.claim WHERE
sync.claim.network_id = $1)`. -/
def pendingWhere (db : Database) (destAddress : Bytes) (destNetwork leafType : Nat)
    (d : DepositRow) : Bool :=
  decide (d.dest_net = destNetwork) && d.ready_for_claim && decide (d.leaf_type = leafType) &&
  (if destAddress ≠ zeroAddress then decide (d.dest_addr = destAddress) else true) &&
  !((db.claim.filter fun c => c.network_id = destNetwork).map fun c => c.index).contains
    d.deposit_cnt

/-- The deposit that `parseDeposits(rows, true)` scans from a row of the join
of `sync.deposit` with `sync.block`. -/
def scanDeposit (d : DepositRow) (b : BlockRow) : Deposit :=
  { Id := d.id, LeafType := d.leaf_type, OriginalNetwork := d.orig_net,
    OriginalAddress := d.orig_addr, Amount := d.amount, DestinationNetwork := d.dest_net,
    DestinationAddress := d.dest_addr, DepositCount := d.deposit_cnt, BlockID := d.block_id,
    BlockNumber := b.block_num, NetworkID := d.network_id, TxHash := d.tx_hash,
    Metadata := d.metadata, ReadyForClaim := d.ready_for_claim }

/-- Model of `PostgresStorage.GetPendingDepositsToClaim`: the deposits of the
page and, second, `totalCount`. -/
def GetPendingDepositsToClaim (db : Database) (destAddress : Bytes)
    (destNetwork leafType limit offset : Nat) : List Deposit × Nat :=
  let totalCount := (db.deposit.filter (pendingWhere db destAddress destNetwork leafType)).length
  let joined : List (DepositRow × BlockRow) :=
    (db.deposit.map fun d =>
      db.block.filterMap fun b => if d.block_id = b.id then some (d, b) else none).flatten
  let rows := orderByAsc (fun r => r.1.deposit_cnt)
    (joined.filter fun r => pendingWhere db destAddress destNetwork leafType r.1)
  (((rows.drop offset).take limit).map fun r => scanDeposit r.1 r.2, totalCount)

/-- Model of `PostgresStorage.GetClaim`: the first row of `sync.claim` with
`index = $1 AND mainnet_flag AND network_id = $2` when the origin is network 0,
and with `index = $1 AND NOT mainnet_flag AND rollup_index + 1 = $2 AND
network_id = $3` otherwise; `ErrStorageNotFound` when there is none. -/
def PostgresStorage.GetClaim (db : Database) (depositCount originNetworkID networkID : Nat) :
    Except Err ClaimRow :=
  let rows :=
    if originNetworkID = 0 then
      db.claim.filter fun c =>
        decide (c.index = depositCount) && c.mainnet_flag && decide (c.network_id = networkID)
    else
      db.claim.filter fun c =>
        decide (c.index = depositCount) && !c.mainnet_flag &&
          decide (c.rollup_index + 1 = originNetworkID) && decide (c.network_id = networkID)
  match rows with
  | [] => Except.error Err.storageNotFound
  | row :: _ => Except.ok row

/-- The error `pgx.ErrNoRows` of a `QueryRow(...).Scan` whose query has no row. -/
def errNoRows : Err := Err.msg "no rows in result set"

/-- Model of `PostgresStorage.GetDepositCountByGER`: the `id` and `deposit_cnt`
of the first row of `sync.deposit` joined with `mt.root` on
`deposit.id = root.deposit_id` and with `sync.exit_root` on
`root.root = exit_root.exit_roots[$1]` (SQL arrays count from 1), where
`exit_root.global_exit_root = $2`, `exit_root.network_id = $3` and
`root.network = $4`; `ErrStorageNotFound` when there is no row. -/
def GetDepositCountByGER (db : Database) (ger : Bytes) (network : Nat) (rollupsTree : Bool) :
    Except Err (Nat × Nat) :=
  let arrayIndex : Nat := if rollupsTree then 2 else 1
  let rootNetwork : Nat := if rollupsTree then network else 0
  let rows : List (Nat × Nat) :=
    (db.deposit.map fun d =>
      (db.root.map fun r =>
        db.exit_root.filterMap fun e =>
          if d.id = r.deposit_id ∧ e.exit_roots.get? (arrayIndex - 1) = some r.root ∧
              e.global_exit_root = ger ∧ e.network_id = network ∧ r.network = rootNetwork
          then some (d.id, d.deposit_cnt) else none).flatten).flatten
  match rows with
  | [] => Except.error Err.storageNotFound
  | row :: _ => Except.ok row

/-- The two uses of `GetDepositCountByGER` in `AddRemoveL2GER`: the deposit id,
`fallback` when the error is `ErrStorageNotFound`, and any other error
returned. -/
def depositIDByGER (db : Database) (ger : Bytes) (network fallback : Nat) : Except Err Nat :=
  match GetDepositCountByGER db ger network false with
  | Except.error err => if isStorageNotFound err then Except.ok fallback else Except.error err
  | Except.ok (depositID, _) => Except.ok depositID

/-- The `WHERE` clause of the statement `UPDATE sync.exit_root SET allowed = false
WHERE global_exit_root = $1 AND network_id = $2 RETURNING id`. -/
def removedGER (globalExitRoot : GlobalExitRoot) (e : ExitRootRow) : Bool :=
  decide (e.global_exit_root = globalExitRoot.GlobalExitRoot) &&
    decide (e.network_id = globalExitRoot.NetworkID)

/-- The `WHERE` clause of the statement `UPDATE sync.deposit SET ready_for_claim =
false WHERE id > $1 AND id <= $2 AND network_id = 0 AND dest_net = $3`. -/
def rewound (prevDepositID CurrentDepositID destNet : Nat) (d : DepositRow) : Bool :=
  decide (d.id > prevDepositID) && decide (d.id ≤ CurrentDepositID) &&
    decide (d.network_id = 0) && decide (d.dest_net = destNet)

/-- Model of `PostgresStorage.AddRemoveL2GER`: the returned error and the
content of the tables after the statements that were executed. -/
def AddRemoveL2GER (db : Database) (globalExitRoot : GlobalExitRoot) : Option Err × Database :=
  let db1 : Database :=
    { db with remove_exit_root := db.remove_exit_root ++
        [{ block_id := globalExitRoot.BlockID, global_exit_root := globalExitRoot.GlobalExitRoot,
           network_id := globalExitRoot.NetworkID }] }
  let db2 : Database :=
    { db1 with exit_root := db1.exit_root.map fun e =>
        if removedGER globalExitRoot e then { e with allowed := false } else e }
  match db1.exit_root.filter (removedGER globalExitRoot) with
  | [] => (some errNoRows, db2)
  | row :: _ =>
    let gerID := row.id
    match orderByDesc (fun e => e.id)
        (db2.exit_root.filter fun e => e.network_id = globalExitRoot.NetworkID ∧ e.id < gerID) with
    | [] => (some errNoRows, db2)
    | prev :: _ =>
      let prevGer := prev.global_exit_root
      match depositIDByGER db2 prevGer globalExitRoot.NetworkID 0 with
      | Except.error err => (some err, db2)
      | Except.ok prevDepositID =>
        match depositIDByGER db2 globalExitRoot.GlobalExitRoot globalExitRoot.NetworkID
            (2 ^ 64 - 1) with
        | Except.error err => (some err, db2)
        | Except.ok CurrentDepositID =>
          (none,
            { db2 with deposit := db2.deposit.map fun d =>
                if rewound prevDepositID CurrentDepositID globalExitRoot.NetworkID d then
                  { d with ready_for_claim := false }
                else d })

/-! ## Event ingestion (`etherman/etherman.go`) -/

/-- The fields of a log (`types.Log`) that the ingester reads. -/
structure Log where
  Topics : List Bytes
  Data : Bytes
  BlockNumber : Nat
  TxHash : Bytes
  BlockHash : Bytes
  deriving DecidableEq, Repr

/-- Model of `ethereum.FilterQuery`. -/
structure FilterQuery where
  FromBlock : Nat
  ToBlock : Option Nat
  Addresses : List Bytes
  Topics : List (List Bytes)
  deriving DecidableEq, Repr

/-- What `ParseBridgeEvent` returns. -/
structure ParsedBridgeEvent where
  LeafType : Nat
  OriginNetwork : Nat
  OriginAddress : Bytes
  DestinationNetwork : Nat
  DestinationAddress : Bytes
  Amount : Int
  Metadata : Bytes
  DepositCount : Nat
  deriving DecidableEq, Repr

/-- What `PolygonBridgeV2.ParseClaimEvent` returns. -/
structure ParsedClaimEvent where
  GlobalIndex : Int
  OriginNetwork : Nat
  OriginAddress : Bytes
  DestinationAddress : Bytes
  Amount : Int
  deriving DecidableEq, Repr

/-- What `OldPolygonBridge.ParseClaimEvent` returns. -/
structure ParsedOldClaimEvent where
  Index : Nat
  OriginNetwork : Nat
  OriginAddress : Bytes
  DestinationAddress : Bytes
  Amount : Int
  deriving DecidableEq, Repr

/-- What `ParseNewWrappedToken` returns. -/
structure ParsedNewWrappedToken where
  OriginNetwork : Nat
  OriginTokenAddress : Bytes
  WrappedTokenAddress : Bytes
  Metadata : Bytes
  deriving DecidableEq, Repr

/-- What `ParseUpdateL1InfoTree` returns. -/
structure ParsedUpdateL1InfoTree where
  MainnetExitRoot : Bytes
  RollupExitRoot : Bytes
  deriving DecidableEq, Repr

/-- What `ParseVerifyBatchesTrustedAggregator` and `ParseVerifyBatches` return. -/
structure ParsedVerifyBatches where
  RollupID : Nat
  NumBatch : Nat
  StateRoot : Bytes
  ExitRoot : Bytes
  Aggregator : Bytes
  deriving DecidableEq, Repr

/-- The collaborators of `etherman.Client`: the node (`FilterLogs` and
`HeaderByHash`, answering from a state `σ`), the parsers of the contract
bindings, and the Keccak hash of two words (`hash`). -/
structure EventClient (σ : Type) where
  FilterLogs : FilterQuery → σ → Except Err (List Log) × σ
  HeaderByHash : Bytes → σ → Except Err Header × σ
  ParseUpdateL1InfoTree : Log → Except Err ParsedUpdateL1InfoTree
  ParseBridgeEvent : Log → Except Err ParsedBridgeEvent
  ParseClaimEvent : Log → Except Err ParsedClaimEvent
  ParseOldClaimEvent : Log → Except Err ParsedOldClaimEvent
  ParseNewWrappedToken : Log → Except Err ParsedNewWrappedToken
  ParseVerifyBatchesTrustedAggregator : Log → Except Err ParsedVerifyBatches
  ParseVerifyBatches : Log → Except Err ParsedVerifyBatches
  ParseInsertGlobalExitRoot : Log → Except Err Bytes
  ParseRemoveLastGlobalExitRoot : Log → Except Err Bytes
  hash : Bytes → Bytes → Bytes

/-- The values of the signature hashes that `processEvent` compares the first
topic with, in the order of its `switch`: the six that come first, the cases
that are ignored before `verifyBatchesTrustedAggregatorSignatureHash`, the two
for verified batches, the cases that are ignored before
`insertGlobalExitRootSignatureHash`, and the two of the sovereign chain.  The
cases after these are ignored, like every other topic. -/
structure SignatureHashes where
  updateGlobalExitRootSignatureHash : Bytes
  updateL1InfoTreeSignatureHash : Bytes
  depositEventSignatureHash : Bytes
  claimEventSignatureHash : Bytes
  oldClaimEventSignatureHash : Bytes
  newWrappedTokenEventSignatureHash : Bytes
  ignoredBeforeVerifyBatches : List Bytes
  verifyBatchesTrustedAggregatorSignatureHash : Bytes
  rollupManagerVerifyBatchesSignatureHash : Bytes
  ignoredBeforeInsertGlobalExitRoot : List Bytes
  insertGlobalExitRootSignatureHash : Bytes
  removeLastGlobalExitRootSignatureHash : Bytes
  deriving DecidableEq, Repr

/-- An event built by a handler, tagged with the array of the block that the
handler appends it to. -/
inductive Event where
  | GlobalExitRoots : GlobalExitRoot → Event
  | RemoveL2GER : GlobalExitRoot → Event
  | Deposits : Deposit → Event
  | Claims : Claim → Event
  | Tokens : TokenWrapped → Event
  | VerifiedBatches : VerifiedBatch → Event
  deriving DecidableEq, Repr

/-- The `Name` a handler gives to the order entry of its event. -/
def Event.Name : Event → String
  | Event.GlobalExitRoots _ => GlobalExitRootsOrder
  | Event.RemoveL2GER _ => RemoveL2GEROrder
  | Event.Deposits _ => DepositsOrder
  | Event.Claims _ => ClaimsOrder
  | Event.Tokens _ => TokensOrder
  | Event.VerifiedBatches _ => VerifyBatchOrder

/-- The statement `block.X = append(block.X, event)` of a handler. -/
def Block.append (block : Block) : Event → Block
  | Event.GlobalExitRoots e => { block with GlobalExitRoots := block.GlobalExitRoots ++ [e] }
  | Event.RemoveL2GER e => { block with RemoveL2GER := block.RemoveL2GER ++ [e] }
  | Event.Deposits e => { block with Deposits := block.Deposits ++ [e] }
  | Event.Claims e => { block with Claims := block.Claims ++ [e] }
  | Event.Tokens e => { block with Tokens := block.Tokens ++ [e] }
  | Event.VerifiedBatches e => { block with VerifiedBatches := block.VerifiedBatches ++ [e] }

/-- The expression `len(block.X)` of a handler, for the array of its event. -/
def Block.len (block : Block) : Event → Nat
  | Event.GlobalExitRoots _ => block.GlobalExitRoots.length
  | Event.RemoveL2GER _ => block.RemoveL2GER.length
  | Event.Deposits _ => block.Deposits.length
  | Event.Claims _ => block.Claims.length
  | Event.Tokens _ => block.Tokens.length
  | Event.VerifiedBatches _ => block.VerifiedBatches.length

/-- Model of `prepareBlock`; `t` is `time.Unix(int64(fullBlock.Time), 0)`. -/
def prepareBlock (vLog : Log) (t : Nat) (fullBlock : Header) : Block :=
  { emptyBlock with
    BlockNumber := vLog.BlockNumber, BlockHash := vLog.BlockHash,
    ParentHash := fullBlock.ParentHash, ReceivedAt := t }

/-- The state of a run of `readEvents`: the state of the node and the values
of `blocks` and `blocksOrder`. -/
structure Ingest (σ : Type) where
  db : σ
  blocks : List Block
  blocksOrder : Bytes → List Order

/-- The last statements of every handler: the entry `or` with the position
`len(last.X) - 1` is appended to `blocksOrder[last.BlockHash]`, where `last` is
the last block. -/
def recordOrder {σ : Type} (ev : Event) (last : Block) (st : Ingest σ) : Ingest σ :=
  let or : Order := { Name := ev.Name, Pos := Int.ofNat (last.len ev) - 1 }
  { st with blocksOrder := fun h =>
      if h = last.BlockHash then st.blocksOrder last.BlockHash ++ [or] else st.blocksOrder h }

/-- The first branch of the statement below: the header of the block of the
log is fetched, and a new block with the event is appended to `blocks`. -/
def appendBlock {σ : Type} (c : EventClient σ) (vLog : Log) (ev : Event) (st : Ingest σ) :
    Outcome Unit × Ingest σ :=
  match c.HeaderByHash vLog.BlockHash st.db with
  | (Except.error err, db1) =>
    (Outcome.error (Err.wrapped "error getting hashParent. BlockNumber: %d. Error: %v" err),
      { st with db := db1 })
  | (Except.ok fullBlock, db1) =>
    let block := (prepareBlock vLog fullBlock.Time fullBlock).append ev
    (Outcome.ok (), recordOrder ev block { st with db := db1, blocks := st.blocks ++ [block] })

/-- The statement that every handler runs on the event it has built:
`if len(*blocks) == 0 || (last.BlockHash != vLog.BlockHash || last.BlockNumber !=
vLog.BlockNumber) { ... } else if last.BlockHash == vLog.BlockHash &&
last.BlockNumber == vLog.BlockNumber { ... } else { return fmt.Errorf(...) }`,
followed by the order entry.  `errText` is the text of the last branch. -/
def appendEvent {σ : Type} (c : EventClient σ) (vLog : Log) (ev : Event) (errText : String)
    (st : Ingest σ) : Outcome Unit × Ingest σ :=
  match st.blocks.getLast? with
  | none => appendBlock c vLog ev st
  | some last =>
    if last.BlockHash ≠ vLog.BlockHash ∨ last.BlockNumber ≠ vLog.BlockNumber then
      appendBlock c vLog ev st
    else if last.BlockHash = vLog.BlockHash ∧ last.BlockNumber = vLog.BlockNumber then
      let last1 := last.append ev
      (Outcome.ok (), recordOrder ev last1 { st with blocks := st.blocks.dropLast ++ [last1] })
    else (Outcome.error (Err.msg errText), st)

/-- Model of `Client.processUpdateGlobalExitRootEvent`. -/
def processUpdateGlobalExitRootEvent {σ : Type} (c : EventClient σ)
    (mainnetExitRoot rollupExitRoot : Bytes) (vLog : Log) (st : Ingest σ) :
    Outcome Unit × Ingest σ :=
  let gExitRoot : GlobalExitRoot :=
    { BlockID := 0, BlockNumber := vLog.BlockNumber,
      ExitRoots := [mainnetExitRoot, rollupExitRoot],
      GlobalExitRoot := c.hash mainnetExitRoot rollupExitRoot, NetworkID := 0, ID := 0 }
  appendEvent c vLog (Event.GlobalExitRoots gExitRoot)
    "error processing UpdateGlobalExitRoot event" st

/-- Model of `Client.updateGlobalExitRootEvent`: the two exit roots are
`vLog.Topics[1]` and `vLog.Topics[2]`. -/
def updateGlobalExitRootEvent {σ : Type} (c : EventClient σ) (vLog : Log) (st : Ingest σ) :
    Outcome Unit × Ingest σ :=
  match vLog.Topics.get? 1, vLog.Topics.get? 2 with
  | some mainnetExitRoot, some rollupExitRoot =>
    processUpdateGlobalExitRootEvent c mainnetExitRoot rollupExitRoot vLog st
  | _, _ => (Outcome.panic "index out of range", st)

/-- Model of `Client.updateL1InfoTreeEvent`. -/
def updateL1InfoTreeEvent {σ : Type} (c : EventClient σ) (vLog : Log) (st : Ingest σ) :
    Outcome Unit × Ingest σ :=
  match c.ParseUpdateL1InfoTree vLog with
  | Except.error err => (Outcome.error err, st)
  | Except.ok globalExitRoot =>
    processUpdateGlobalExitRootEvent c globalExitRoot.MainnetExitRoot
      globalExitRoot.RollupExitRoot vLog st

/-- Model of `Client.depositEvent`. -/
def depositEvent {σ : Type} (c : EventClient σ) (vLog : Log) (st : Ingest σ) :
    Outcome Unit × Ingest σ :=
  match c.ParseBridgeEvent vLog with
  | Except.error err => (Outcome.error err, st)
  | Except.ok d =>
    let deposit : Deposit :=
      { Id := 0, LeafType := d.LeafType, OriginalNetwork := d.OriginNetwork,
        OriginalAddress := d.OriginAddress, Amount := d.Amount,
        DestinationNetwork := d.DestinationNetwork, DestinationAddress := d.DestinationAddress,
        DepositCount := d.DepositCount, BlockID := 0, BlockNumber := vLog.BlockNumber,
        NetworkID := 0, TxHash := vLog.TxHash, Metadata := d.Metadata, ReadyForClaim := false }
    appendEvent c vLog (Event.Deposits deposit) "error processing Deposit event" st

/-- Model of `Client.claimEvent`. -/
def claimEvent {σ : Type} (c : EventClient σ) (vLog : Log) (amount : Int)
    (destinationAddress originAddress : Bytes) (Index originNetwork rollupIndex : Nat)
    (mainnetFlag : Bool) (st : Ingest σ) : Outcome Unit × Ingest σ :=
  let claim : Claim :=
    { MainnetFlag := mainnetFlag, RollupIndex := rollupIndex, Index := Index,
      OriginalNetwork := originNetwork, OriginalAddress := originAddress, Amount := amount,
      DestinationAddress := destinationAddress, BlockID := 0, BlockNumber := vLog.BlockNumber,
      NetworkID := 0, TxHash := vLog.TxHash }
  appendEvent c vLog (Event.Claims claim) "error processing claim event" st

/-- Model of `Client.oldClaimEvent`. -/
def oldClaimEvent {σ : Type} (c : EventClient σ) (vLog : Log) (st : Ingest σ) :
    Outcome Unit × Ingest σ :=
  match c.ParseOldClaimEvent vLog with
  | Except.error err => (Outcome.error err, st)
  | Except.ok ev =>
    claimEvent c vLog ev.Amount ev.DestinationAddress ev.OriginAddress ev.Index ev.OriginNetwork
      0 false st

/-- Model of `Client.newClaimEvent`. -/
def newClaimEvent {σ : Type} (c : EventClient σ) (vLog : Log) (st : Ingest σ) :
    Outcome Unit × Ingest σ :=
  match c.ParseClaimEvent vLog with
  | Except.error err => (Outcome.error err, st)
  | Except.ok ev =>
    match DecodeGlobalIndex ev.GlobalIndex with
    | Outcome.panic p => (Outcome.panic p, st)
    | Outcome.error err => (Outcome.error err, st)
    | Outcome.ok (mainnetFlag, rollupIndex, localExitRootIndex) =>
      claimEvent c vLog ev.Amount ev.DestinationAddress ev.OriginAddress localExitRootIndex
        ev.OriginNetwork rollupIndex mainnetFlag st

/-- Model of `Client.tokenWrappedEvent`. -/
def tokenWrappedEvent {σ : Type} (c : EventClient σ) (vLog : Log) (st : Ingest σ) :
    Outcome Unit × Ingest σ :=
  match c.ParseNewWrappedToken vLog with
  | Except.error err => (Outcome.error err, st)
  | Except.ok tw =>
    let tokenWrapped : TokenWrapped :=
      { Name := "", Symbol := "", Decimals := 0, OriginalNetwork := tw.OriginNetwork,
        OriginalTokenAddress := tw.OriginTokenAddress,
        WrappedTokenAddress := tw.WrappedTokenAddress, BlockID := 0,
        BlockNumber := vLog.BlockNumber, NetworkID := 0 }
    appendEvent c vLog (Event.Tokens tokenWrapped) "error processing TokenWrapped event" st

/-- Model of `Client.verifyBatches`. -/
def verifyBatches {σ : Type} (c : EventClient σ) (vLog : Log) (rollupID batchNum : Nat)
    (stateRoot localExitRoot aggregator : Bytes) (st : Ingest σ) : Outcome Unit × Ingest σ :=
  let verifyBatch : VerifiedBatch :=
    { BlockNumber := vLog.BlockNumber, BatchNumber := batchNum, RollupID := rollupID,
      LocalExitRoot := localExitRoot, TxHash := vLog.TxHash, StateRoot := stateRoot,
      Aggregator := aggregator }
  appendEvent c vLog (Event.VerifiedBatches verifyBatch) "error processing verifyBatch event" st

/-- Model of `Client.verifyBatchesTrustedAggregatorEvent`. -/
def verifyBatchesTrustedAggregatorEvent {σ : Type} (c : EventClient σ) (vLog : Log)
    (st : Ingest σ) : Outcome Unit × Ingest σ :=
  match c.ParseVerifyBatchesTrustedAggregator vLog with
  | Except.error err => (Outcome.error err, st)
  | Except.ok vb =>
    verifyBatches c vLog vb.RollupID vb.NumBatch vb.StateRoot vb.ExitRoot vb.Aggregator st

/-- Model of `Client.verifyBatchesEvent`. -/
def verifyBatchesEvent {σ : Type} (c : EventClient σ) (vLog : Log) (st : Ingest σ) :
    Outcome Unit × Ingest σ :=
  match c.ParseVerifyBatches vLog with
  | Except.error err => (Outcome.error err, st)
  | Except.ok vb =>
    verifyBatches c vLog vb.RollupID vb.NumBatch vb.StateRoot vb.ExitRoot vb.Aggregator st

/-- Model of `Client.insertSovereignChainL2GER`. -/
def insertSovereignChainL2GER {σ : Type} (c : EventClient σ) (vLog : Log) (st : Ingest σ) :
    Outcome Unit × Ingest σ :=
  match c.ParseInsertGlobalExitRoot vLog with
  | Except.error err => (Outcome.error err, st)
  | Except.ok NewGlobalExitRoot =>
    let gExitRoot : GlobalExitRoot :=
      { BlockID := 0, BlockNumber := vLog.BlockNumber, ExitRoots := [],
        GlobalExitRoot := NewGlobalExitRoot, NetworkID := 0, ID := 0 }
    appendEvent c vLog (Event.GlobalExitRoots gExitRoot)
      "error processing UpdateGlobalExitRoot event" st

/-- Model of `Client.removeLastL2GER`. -/
def removeLastL2GER {σ : Type} (c : EventClient σ) (vLog : Log) (st : Ingest σ) :
    Outcome Unit × Ingest σ :=
  match c.ParseRemoveLastGlobalExitRoot vLog with
  | Except.error err => (Outcome.error err, st)
  | Except.ok RemovedGlobalExitRoot =>
    let gExitRoot : GlobalExitRoot :=
      { BlockID := 0, BlockNumber := vLog.BlockNumber, ExitRoots := [],
        GlobalExitRoot := RemovedGlobalExitRoot, NetworkID := 0, ID := 0 }
    appendEvent c vLog (Event.RemoveL2GER gExitRoot)
      "error processing UpdateGlobalExitRoot event" st

/-- Model of `Client.processEvent`: the `switch vLog.Topics[0]`, whose cases
are tried in order. -/
def processEvent {σ : Type} (c : EventClient σ) (sigs : SignatureHashes) (vLog : Log)
    (st : Ingest σ) : Outcome Unit × Ingest σ :=
  match vLog.Topics.get? 0 with
  | none => (Outcome.panic "index out of range", st)
  | some topic =>
    if topic = sigs.updateGlobalExitRootSignatureHash then updateGlobalExitRootEvent c vLog st
    else if topic = sigs.updateL1InfoTreeSignatureHash then updateL1InfoTreeEvent c vLog st
    else if topic = sigs.depositEventSignatureHash then depositEvent c vLog st
    else if topic = sigs.claimEventSignatureHash then newClaimEvent c vLog st
    else if topic = sigs.oldClaimEventSignatureHash then oldClaimEvent c vLog st
    else if topic = sigs.newWrappedTokenEventSignatureHash then tokenWrappedEvent c vLog st
    else if topic ∈ sigs.ignoredBeforeVerifyBatches then (Outcome.ok (), st)
    else if topic = sigs.verifyBatchesTrustedAggregatorSignatureHash then
      verifyBatchesTrustedAggregatorEvent c vLog st
    else if topic = sigs.rollupManagerVerifyBatchesSignatureHash then
      verifyBatchesEvent c vLog st
    else if topic ∈ sigs.ignoredBeforeInsertGlobalExitRoot then (Outcome.ok (), st)
    else if topic = sigs.insertGlobalExitRootSignatureHash then
      insertSovereignChainL2GER c vLog st
    else if topic = sigs.removeLastGlobalExitRootSignatureHash then removeLastL2GER c vLog st
    else (Outcome.ok (), st)

/-- The loop `for _, vLog := range logs` of `readEvents`, which stops at the
first error. -/
def processEvents {σ : Type} (c : EventClient σ) (sigs : SignatureHashes) :
    List Log → Ingest σ → Outcome Unit × Ingest σ
  | [], st => (Outcome.ok (), st)
  | vLog :: rest, st =>
    match processEvent c sigs vLog st with
    | (Outcome.ok (), st1) => processEvents c sigs rest st1
    | r => r

/-- Model of `Client.readEvents`: the blocks and their order lists, or the
error (with nil results). -/
def readEvents {σ : Type} (c : EventClient σ) (sigs : SignatureHashes) (query : FilterQuery)
    (db : σ) : Outcome (List Block × (Bytes → List Order)) × σ :=
  match c.FilterLogs query db with
  | (Except.error err, db1) => (Outcome.error err, db1)
  | (Except.ok logs, db1) =>
    match processEvents c sigs logs { db := db1, blocks := [], blocksOrder := fun _ => [] } with
    | (Outcome.ok (), st) => (Outcome.ok (st.blocks, st.blocksOrder), st.db)
    | (Outcome.error err, st) => (Outcome.error err, st.db)
    | (Outcome.panic p, st) => (Outcome.panic p, st.db)

/-! ## Properties used to state the theorems -/

/-- Every entry of the cache satisfies `P`. -/
def CacheAll (P : Bytes → List Bytes → Prop) (c : LRU) : Prop :=
  ∀ e, e ∈ c.items → P e.1 e.2

/-- Every value the storage returns for a key satisfies `P`. -/
def StoreAll (P : Bytes → List Bytes → Prop) (store : bridgeServiceStorage) : Prop :=
  ∀ key dbTx value, store.Get key dbTx = Except.ok value → P key value

/-- A stored value is a node of the reverse hash table under `key`: a pair
`(l, r)` of 32-byte values with `hash (l ‖ r) = key`. -/
def NodeOK (hash : Bytes → Bytes) (key : Bytes) (value : List Bytes) : Prop :=
  ∃ l r, value = [l, r] ∧ l.length = 32 ∧ r.length = 32 ∧ hash (l ++ r) = key

/-- One step of the bottom-up recomputation at level `h`: the sibling goes on
the left when bit `h` of `index` is 1, on the right otherwise. -/
def combineAt (hash : Bytes → Bytes) (index h : Nat) (cur sibling : Bytes) : Bytes :=
  if index.testBit h then hash (sibling ++ cur) else hash (cur ++ sibling)

/-- The standard bottom-up recomputation of a root: starting at level `h` from
`cur`, combine with the siblings in order, one level per sibling. -/
def recomputeRoot (hash : Bytes → Bytes) (index : Nat) : Nat → Bytes → List Bytes → Bytes
  | _, cur, [] => cur
  | h, cur, sibling :: rest =>
    recomputeRoot hash index (h + 1) (combineAt hash index h cur sibling) rest

/-- A storage with one Merkle node, stored under the zero hash with two zero
children, one deposit `(0, 0)` (ready for claim or not), and one global exit
root with two zero exit roots whatever the lookup. -/
def exampleStorage (ready : Bool) : bridgeServiceStorage where
  Get := fun key _ =>
    if key = zeroHash then Except.ok [zeroHash, zeroHash] else Except.error Err.storageNotFound
  GetDeposit := fun cnt net _ =>
    if cnt = 0 ∧ net = 0 then
      Except.ok
        { Id := 1, LeafType := 0, OriginalNetwork := 0, OriginalAddress := [], Amount := 10,
          DestinationNetwork := 1, DestinationAddress := [], DepositCount := 0, BlockID := 1,
          BlockNumber := 1, NetworkID := 0, TxHash := [], Metadata := [], ReadyForClaim := ready }
    else Except.error Err.storageNotFound
  GetLatestExitRoot := fun _ _ _ =>
    Except.ok { BlockID := 1, BlockNumber := 1, ExitRoots := [zeroHash, zeroHash],
                GlobalExitRoot := zeroHash, NetworkID := 0, ID := 1 }
  GetL1ExitRootByGER := fun _ _ =>
    Except.ok { BlockID := 1, BlockNumber := 1, ExitRoots := [zeroHash, zeroHash],
                GlobalExitRoot := zeroHash, NetworkID := 0, ID := 1 }
  GetRollupExitLeavesByRoot := fun _ _ => Except.ok []

/-- A service of height 2 over `exampleStorage`. -/
def exampleService (ready : Bool) : bridgeService where
  storage := exampleStorage ready
  height := 2
  ComputeSiblings := fun _ _ _ => Except.error (Err.msg "no leaves")

/-- An empty cache of size 32 and an empty log of storage calls. -/
def emptyState : SvcState := { cache := { size := 32, items := [] }, reads := [] }

/-- The storage mock of `TestGetClaimProofbyGER` (`server/service_test.go`):
`GetDeposit` returns the zero deposit, `GetL1ExitRootByGER` an exit root with
two zero hashes, and `Get` the node `[][]byte{{}, {}}`. -/
def mockStorage : bridgeServiceStorage where
  Get := fun _ _ => Except.ok [[], []]
  GetDeposit := fun _ _ _ =>
    Except.ok
      { Id := 0, LeafType := 0, OriginalNetwork := 0, OriginalAddress := [], Amount := 0,
        DestinationNetwork := 0, DestinationAddress := [], DepositCount := 0, BlockID := 0,
        BlockNumber := 0, NetworkID := 0, TxHash := [], Metadata := [], ReadyForClaim := false }
  GetLatestExitRoot := fun _ _ _ => Except.error (Err.other 0)
  GetL1ExitRootByGER := fun _ _ =>
    Except.ok { BlockID := 0, BlockNumber := 0, ExitRoots := [zeroHash, zeroHash],
                GlobalExitRoot := [], NetworkID := 0, ID := 0 }
  GetRollupExitLeavesByRoot := fun _ _ => Except.error (Err.other 0)

/-- The service under test in `TestGetClaimProofbyGER`: height 32. -/
def mockService : bridgeService where
  storage := mockStorage
  height := 32
  ComputeSiblings := fun _ _ _ => Except.error (Err.other 0)

/-- A stored value has exactly two elements. -/
def TwoElems (_key : Bytes) (value : List Bytes) : Prop :=
  ∃ a b, value = [a, b]

/-- Two results agree up to the wording of a returned error: the same value,
an error in both, or the same panic. -/
def SameOutcome {α : Type} : Outcome α → Outcome α → Prop
  | Outcome.ok a, Outcome.ok b => a = b
  | Outcome.error _, Outcome.error _ => True
  | Outcome.panic p, Outcome.panic q => p = q
  | _, _ => False

/-- Two services read the same Merkle nodes and rollup exit leaves and have
the same height. -/
def SameNodes (s t : bridgeService) : Prop :=
  t.storage.Get = s.storage.Get ∧
  t.storage.GetRollupExitLeavesByRoot = s.storage.GetRollupExitLeavesByRoot ∧
  t.height = s.height ∧ t.ComputeSiblings = s.ComputeSiblings

/-- The service over the same storage in which every deposit is marked ready
for claim. -/
def markReady (s : bridgeService) : bridgeService :=
  { s with storage :=
      { s.storage with GetDeposit := fun cnt net tx =>
          match s.storage.GetDeposit cnt net tx with
          | Except.ok d => Except.ok { d with ReadyForClaim := true }
          | Except.error e => Except.error e } }

/-- The steps of `processBlockRange` that the ordering claims speak about:
the transaction brackets and the handler calls, without transaction handles
and block ids. -/
inductive Step where
  | beginTx : Step
  | addBlock : Block → Step
  | commit : Step
  | rollback : Step
  | globalExitRoot : GlobalExitRoot → Step
  | removeL2GER : GlobalExitRoot → Step
  | deposit : Deposit → Step
  | claim : Claim → Step
  | tokenWrapped : TokenWrapped → Step
  | verifyBatch : VerifiedBatch → Step
  deriving DecidableEq, Repr

/-- The step an action stands for, if any: the calls made inside a handler
other than `Rollback` are not steps. -/
def Action.toStep : Action → Option Step
  | Action.BeginDBTransaction => some Step.beginTx
  | Action.AddBlock b _ => some (Step.addBlock b)
  | Action.Commit _ => some Step.commit
  | Action.Rollback _ => some Step.rollback
  | Action.processGlobalExitRoot g _ _ => some (Step.globalExitRoot g)
  | Action.processRemoveL2GlobalExitRoot g _ _ => some (Step.removeL2GER g)
  | Action.processDeposit d _ _ => some (Step.deposit d)
  | Action.processClaim c _ _ => some (Step.claim c)
  | Action.processTokenWrapped t _ _ => some (Step.tokenWrapped t)
  | Action.processVerifyBatch v _ _ => some (Step.verifyBatch v)
  | _ => none

/-- The steps done so far in a world. -/
def World.steps {σ : Type} (w : World σ) : List Step :=
  w.trace.filterMap Action.toStep

/-- The handler call an entry of the order list asks for: the handler of the
kind named by the entry, on the element at index `Pos` of the array of that
kind; an entry with another name asks for none. -/
def elementStep (block : Block) (o : Order) : Option Step :=
  if o.Name = GlobalExitRootsOrder then (indexAt block.GlobalExitRoots o.Pos).map Step.globalExitRoot
  else if o.Name = RemoveL2GEROrder then (indexAt block.RemoveL2GER o.Pos).map Step.removeL2GER
  else if o.Name = DepositsOrder then (indexAt block.Deposits o.Pos).map Step.deposit
  else if o.Name = ClaimsOrder then (indexAt block.Claims o.Pos).map Step.claim
  else if o.Name = TokensOrder then (indexAt block.Tokens o.Pos).map Step.tokenWrapped
  else if o.Name = VerifyBatchOrder then (indexAt block.VerifiedBatches o.Pos).map Step.verifyBatch
  else none

/-- The steps of one block in an ordered application: begin, add the block
(with the network id of the synchronizer), one handler call per entry of the
order list of the block, commit. -/
def expectedSteps (s : ClientSynchronizer) (order : Bytes → List Order) (block : Block) :
    List Step :=
  [Step.beginTx, Step.addBlock { block with NetworkID := s.networkID }] ++
    (order block.BlockHash).filterMap (elementStep block) ++ [Step.commit]

/-- An entry of the order list is in range: its `Pos` is an index of the array
its `Name` names; for a global exit root event the element moreover carries
two exit roots or none. -/
def ElementOK (block : Block) (o : Order) : Prop :=
  (o.Name = GlobalExitRootsOrder →
    ∃ g, indexAt block.GlobalExitRoots o.Pos = some g ∧
      (g.ExitRoots.length = 2 ∨ g.ExitRoots.length = 0)) ∧
  (o.Name = RemoveL2GEROrder → ∃ g, indexAt block.RemoveL2GER o.Pos = some g) ∧
  (o.Name = DepositsOrder → ∃ d, indexAt block.Deposits o.Pos = some d) ∧
  (o.Name = ClaimsOrder → ∃ c, indexAt block.Claims o.Pos = some c) ∧
  (o.Name = TokensOrder → ∃ t, indexAt block.Tokens o.Pos = some t) ∧
  (o.Name = VerifyBatchOrder → ∃ v, indexAt block.VerifiedBatches o.Pos = some v)

/-- Every call on the storage and on the bridge controller that
`processBlockRange` makes inside the transaction of a block returns no error
(`Rollback` and the final `GetLatestL1SyncedExitRoot` are left free). -/
structure AllSucceed {σ : Type} (env : SyncEnv σ) : Prop where
  beginTx : ∀ db, ∃ tx, (env.BeginDBTransaction db).1 = Except.ok tx
  addBlock : ∀ b tx db, ∃ id, (env.AddBlock b tx db).1 = Except.ok id
  commit : ∀ tx db, (env.Commit tx db).1 = none
  getL2 : ∀ g db, (env.GetL2ExitRootsByGER g db).1.2 = none
  updateL2 : ∀ g tx db, (env.UpdateL2GER g tx db).1 = none
  addGER : ∀ g tx db, (env.AddGlobalExitRoot g tx db).1 = none
  getL1 : ∀ g db, ∃ r, (env.GetL1ExitRootByGER g db).1 = Except.ok r
  addDeposit : ∀ d tx db, ∃ id, (env.AddDeposit d tx db).1 = Except.ok id
  bridgeAddDeposit : ∀ d id tx db, (env.BridgeAddDeposit d id tx db).1 = none
  addClaim : ∀ c tx db, (env.AddClaim c tx db).1 = none
  addToken : ∀ t tx db, (env.AddTokenWrapped t tx db).1 = none
  addRemove : ∀ g tx db, (env.AddRemoveL2GER g tx db).1 = none
  checkRoot : ∀ r n tx db, ∃ b, (env.CheckIfRootExists r n tx db).1 = Except.ok b
  addLeaf : ∀ l tx db, (env.AddRollupExitLeaf l tx db).1 = none

/-- Model of `CheckIfRootExists` always answers that the root exists. -/
def RootsExist {σ : Type} (env : SyncEnv σ) : Prop :=
  ∀ r n tx db, (env.CheckIfRootExists r n tx db).1 = Except.ok true

/-- Collaborators whose every call succeeds: the state counts the calls, a new
transaction gets the count as handle, and `CheckIfRootExists` answers
`rootExists`. -/
def okEnv (rootExists : Bool) : SyncEnv Nat where
  BeginDBTransaction := fun db => (Except.ok db, db + 1)
  AddBlock := fun _ _ db => (Except.ok db, db + 1)
  Rollback := fun _ db => (none, db + 1)
  Commit := fun _ db => (none, db + 1)
  GetL2ExitRootsByGER := fun _ db => (([], none), db + 1)
  UpdateL2GER := fun _ _ db => (none, db + 1)
  AddGlobalExitRoot := fun _ _ db => (none, db + 1)
  GetL1ExitRootByGER := fun g db =>
    (Except.ok { BlockID := 1, BlockNumber := 1, ExitRoots := [zeroHash, zeroHash],
                 GlobalExitRoot := g, NetworkID := 0, ID := 1 }, db + 1)
  AddDeposit := fun _ _ db => (Except.ok db, db + 1)
  BridgeAddDeposit := fun _ _ _ db => (none, db + 1)
  AddClaim := fun _ _ db => (none, db + 1)
  AddTokenWrapped := fun _ _ db => (none, db + 1)
  AddRemoveL2GER := fun _ _ db => (none, db + 1)
  CheckIfRootExists := fun _ _ _ db => (Except.ok rootExists, db + 1)
  AddRollupExitLeaf := fun _ _ db => (none, db + 1)
  GetLatestL1SyncedExitRoot := fun db =>
    (Except.ok { BlockID := 1, BlockNumber := 1, ExitRoots := [zeroHash, zeroHash],
                 GlobalExitRoot := zeroHash, NetworkID := 0, ID := 1 }, db + 1)

/-- A synchronizer of network 0 that also syncs network 1, with one exit root
channel. -/
def exampleSync : ClientSynchronizer :=
  { networkID := 0, allNetworkIDs := [0, 1], numExitRootChannels := 1, genBlockNumber := 0,
    SyncChunkSize := 100, sovereignChain := false }

/-- The world before a run: no call made yet. -/
def emptyWorld : World Nat := { db := 0, trace := [], l1RollupExitRoot := zeroHash }

/-- A global exit root event carrying `roots` as exit roots. -/
def exampleGER (roots : List Bytes) : GlobalExitRoot :=
  { BlockID := 0, BlockNumber := 7, ExitRoots := roots, GlobalExitRoot := [1], NetworkID := 0,
    ID := 0 }

/-- A verified batch of rollup 1 with a non-zero local exit root. -/
def exampleBatch : VerifiedBatch :=
  { BlockNumber := 7, BatchNumber := 1, RollupID := 1, LocalExitRoot := [9], TxHash := [],
    StateRoot := [], Aggregator := [] }

/-- A claim event. -/
def exampleClaim : Claim :=
  { MainnetFlag := false, RollupIndex := 0, Index := 0, OriginalNetwork := 0,
    OriginalAddress := [], Amount := 1, DestinationAddress := [], BlockID := 0,
    BlockNumber := 7, NetworkID := 0, TxHash := [] }

/-- Block 7 with hash `[7]`, holding the given global exit root events, one
verified batch and one claim. -/
def exampleBlock (gers : List GlobalExitRoot) : Block :=
  { ID := 0, BlockNumber := 7, BlockHash := [7], ParentHash := [6], NetworkID := 0,
    GlobalExitRoots := gers, RemoveL2GER := [], Deposits := [], Claims := [exampleClaim],
    Tokens := [], VerifiedBatches := [exampleBatch], ActivateEtrog := [], ReceivedAt := 0 }

/-- An order map that gives `entries` for the block hash `[7]`. -/
def exampleOrder (entries : List Order) : Bytes → List Order :=
  fun hash => if hash = [7] then entries else []

/-- The last action done in a world is the `Rollback` of the transaction. -/
def EndsWithRollback {σ : Type} (dbTx : Tx) (w : World σ) : Prop :=
  w.trace.getLast? = some (Action.Rollback dbTx)

/-- The error of the last branch of `processGlobalExitRoot`. -/
def wrongLengthErr : Err :=
  Err.msg "networkID: %d, error exitRoots have a wrong length. Length: %d"

/-- The actions of `k` rounds of the retry loop on `tx`: a sleep and a new
estimation per round. -/
def retryTrace (tx : CallMsg) : Nat → List TxAction
  | 0 => []
  | k + 1 => TxAction.Sleep :: TxAction.EstimateGas tx :: retryTrace tx k

/-- Every gas estimation of `tx` fails with an error other than the revert error. -/
def EstimationFails {σ : Type} (env : ClaimEnv σ) (tx : CallMsg) : Prop :=
  ∀ db, ∃ e, (env.EstimateGas tx db).1 = Except.error e ∧
    env.errorText e ≠ env.ErrExecutionReverted

/-- The answers of the example collaborators of the manager. -/
structure ClaimStub where
  Begin : Except Err Tx
  RollbackErr : Option Err
  CommitErr : Option Err
  UpdateL2Err : Option Err
  OtherL2Deposits : Except Err (List Deposit)
  TrustedGER : Bytes × Option Err
  L1Deposits : Except Err (List Deposit)
  Claims : Nat → Nat → Nat → Except Err Claim
  Proof : Except Err (GlobalExitRoot × List Bytes × List Bytes)
  Built : Except Err ClaimTx
  Gas : Except Err Nat
  Nonce : Except Err Nat
  AddErr : Option Err

/-- Example error text: the message of a `fmt.Errorf` without inner error, and
a fixed text for every other error. -/
def exampleErrorText : Err → String
  | Err.msg s => s
  | _ => "error"

/-- Example collaborators of the manager answering as `a` says; the state
counts the calls. -/
def stubEnv (a : ClaimStub) : ClaimEnv Nat where
  BeginDBTransaction := fun db => (a.Begin, db + 1)
  Rollback := fun _ db => (a.RollbackErr, db + 1)
  Commit := fun _ db => (a.CommitErr, db + 1)
  UpdateL2DepositsStatus := fun _ _ _ _ db => (a.UpdateL2Err, db + 1)
  GetDepositsFromOtherL2ToClaim := fun _ _ db => (a.OtherL2Deposits, db + 1)
  GetLatestTrustedGERByDeposit := fun _ _ _ _ db => (a.TrustedGER, db + 1)
  UpdateL1DepositsStatus := fun _ _ _ db => (a.L1Deposits, db + 1)
  GetClaim := fun c o d db => (a.Claims c o d, db + 1)
  GetClaimProofForCompressed := fun _ _ _ _ db => (a.Proof, db + 1)
  BuildSendClaim := fun _ _ _ _ db => (a.Built, db + 1)
  EstimateGas := fun _ db => (a.Gas, db + 1)
  BlockByNumber := fun db => (Except.ok 100, db + 1)
  GetNextNonce := fun _ db => (a.Nonce, db + 1)
  AddClaimTx := fun _ _ db => (a.AddErr, db + 1)
  errorText := exampleErrorText
  ErrExecutionReverted := "execution reverted"

/-- Answers with which every call succeeds: no deposit has a claim, each
deposit list is empty, and the proofs have 32 entries. -/
def okStub : ClaimStub where
  Begin := Except.ok 7
  RollbackErr := none
  CommitErr := none
  UpdateL2Err := none
  OtherL2Deposits := Except.ok []
  TrustedGER := ([2], none)
  L1Deposits := Except.ok []
  Claims := fun _ _ _ => Except.error Err.storageNotFound
  Proof := Except.ok
    ({ BlockID := 1, BlockNumber := 1, ExitRoots := [zeroHash, zeroHash], GlobalExitRoot := [2],
       NetworkID := 0, ID := 1 },
     List.replicate 32 zeroHash, List.replicate 32 zeroHash)
  Built := Except.ok { To := some [5], Data := [6] }
  Gas := Except.ok 21000
  Nonce := Except.ok 3
  AddErr := none

/-- A manager of network 1 with `RetryNumber` as given and one authorized
message sender. -/
def exampleManager (retryNumber : Int) : ClaimTxManager :=
  { l2NetworkID := 1, rollupID := 1, authFrom := [4],
    cfg := { RetryNumber := retryNumber, AuthorizedClaimMessageAddresses := [[8]],
             AreClaimsBetweenL2sEnabled := true, GroupingClaimsEnabled := false },
    MonitoredTxStatusCreated := "created" }

/-- The manager's world before a run. -/
def emptyTxWorld : TxWorld Nat := { db := 0, trace := [] }

/-- An example call message. -/
def exampleCall : CallMsg := { From := [4], To := some [5], Value := none, Data := [6] }

/-- An example monitored transaction built from `exampleCall`. -/
def exampleMTx : MonitoredTx :=
  { DepositID := 1, From := [4], To := some [5], Nonce := 0, Value := none, Data := [6],
    Gas := 0, Status := "created", GlobalExitRoot := [2] }

/-- The trace of `w1` is the trace of `w` followed by actions that all satisfy `P`. -/
def TxWorld.Adds {σ : Type} (P : TxAction → Prop) (w w1 : TxWorld σ) : Prop :=
  ∃ t, w1.trace = w.trace ++ t ∧ ∀ a, a ∈ t → P a

/-- The deposit passes the filter of the claim loop: it is for the manager's
network and, if it is a message, its sender is authorized. -/
def Eligible (tm : ClaimTxManager) (d : Deposit) : Prop :=
  d.DestinationNetwork = tm.l2NetworkID ∧
    (d.LeafType = LeafTypeMessage → d.OriginalAddress ∈ tm.cfg.AuthorizedClaimMessageAddresses)

/-- The action is not a write of a monitored transaction, or it writes one for
a deposit of `ds` that passes the filter. -/
def AddsOnlyEligible (tm : ClaimTxManager) (ds : List Deposit) (a : TxAction) : Prop :=
  ∀ mTx tx, a = TxAction.AddClaimTx mTx tx → ∃ d, d ∈ ds ∧ mTx.DepositID = d.Id ∧ Eligible tm d

/-- An example deposit of network 0 for network 1 with the given leaf type and sender. -/
def exampleDeposit (leafType : Nat) (sender : Bytes) : Deposit :=
  { Id := 11, LeafType := leafType, OriginalNetwork := 0, OriginalAddress := sender, Amount := 5,
    DestinationNetwork := 1, DestinationAddress := [3], DepositCount := 4, BlockID := 1,
    BlockNumber := 1, NetworkID := 0, TxHash := [], Metadata := [], ReadyForClaim := true }

/-- An example claim with transaction hash `[171]`. -/
def exampleClaimRow : Claim :=
  { MainnetFlag := true, RollupIndex := 0, Index := 4, OriginalNetwork := 0,
    OriginalAddress := [8], Amount := 5, DestinationAddress := [3], BlockID := 2,
    BlockNumber := 2, NetworkID := 1, TxHash := [171] }

/-- The action neither builds claim calldata nor writes a monitored transaction. -/
def NoClaimAction (a : TxAction) : Prop :=
  (∀ d p r g, a ≠ TxAction.BuildSendClaim d p r g) ∧ (∀ mTx tx, a ≠ TxAction.AddClaimTx mTx tx)

/-- What `processDepositStatus` is in terms of its loop: it selects a global
exit root and a list of deposits with actions that build and write no claim,
and then either is the loop over these deposits, or returns before the loop
without a nil result. -/
def SelectsThenClaims {σ : Type} (env : ClaimEnv σ) (tm : ClaimTxManager) (ger : GlobalExitRoot)
    (dbTx : Tx) (w : TxWorld σ) : Prop :=
  ∃ g deposits w1, w.Adds NoClaimAction w1 ∧
    (processDepositStatus env tm ger dbTx w = claimDeposits env tm g dbTx deposits w1 ∨
      ((processDepositStatus env tm ger dbTx w).2 = w1 ∧
        (processDepositStatus env tm ger dbTx w).1 ≠ Outcome.ok ()))

/-- Answers as in `okStub`, but the deposit with deposit count 4 has a claim. -/
def claimedStub : ClaimStub :=
  { okStub with
    Claims := fun c _ _ =>
      if c = 4 then Except.ok exampleClaimRow else Except.error Err.storageNotFound }

/-- What a handler of the synchronizer has done when it returns `res` from
the world `w0` after a failure: the actions `acts`, the last of which failed
with `e` and left the collaborators in `dbFail`, then `Rollback` and nothing
more; it returns the error of `Rollback` if there is one and `e` otherwise. -/
def RollsBackAfter {σ : Type} (env : SyncEnv σ) (dbTx : Tx) (e : Err) (acts : List Action)
    (dbFail : σ) (w0 : World σ) (res : Option Err × World σ) : Prop :=
  res.1 = some ((env.Rollback dbTx dbFail).1.getD e) ∧
  res.2.trace = w0.trace ++ acts ++ [Action.Rollback dbTx] ∧
  res.2.db = (env.Rollback dbTx dbFail).2

/-- The same for `updateDepositsStatus` of the claim transaction manager. -/
def TxRollsBackAfter {σ : Type} (env : ClaimEnv σ) (dbTx : Tx) (e : Err) (acts : List TxAction)
    (dbFail : σ) (w0 : TxWorld σ) (res : Outcome Unit × TxWorld σ) : Prop :=
  res.1 = Outcome.error ((env.Rollback dbTx dbFail).1.getD e) ∧
  res.2.trace = w0.trace ++ acts ++ [TxAction.Rollback dbTx] ∧
  res.2.db = (env.Rollback dbTx dbFail).2

/-- Collaborators of the synchronizer as in `okEnv true`, except that
`AddDeposit` and `Commit` fail and `Rollback` answers `rollbackErr`. -/
def failingEnv (rollbackErr : Option Err) : SyncEnv Nat :=
  { okEnv true with
    AddDeposit := fun _ _ db => (Except.error (Err.other 1), db + 1)
    Commit := fun _ db => (some (Err.other 2), db + 1)
    Rollback := fun _ db => (rollbackErr, db + 1) }

/-- Example chain collaborators: the chain has the header `chainAt n` at number
`n` and its tip at number `tip`, storage has the block `stored d` at depth `d`,
and every other call succeeds with an empty answer; the state counts the
calls. -/
def exampleChain (chainAt : Nat → Except Err Header) (stored : Nat → Except Err Block)
    (tip : Nat) : ChainEnv Nat where
  HeaderByNumber := fun n db =>
    (match n with
     | some k => chainAt k
     | none => chainAt tip, db + 1)
  GetRollupInfoByBlockRange := fun _ _ db => (Except.ok ([], fun _ => []), db + 1)
  GetPreviousBlock := fun _ d db => (stored d, db + 1)
  GetLastBlock := fun _ db => (stored 0, db + 1)
  Reset := fun _ _ _ db => (none, db + 1)
  GetNumberDeposits := fun _ _ _ db => (Except.ok 0, db + 1)
  ReorgMT := fun _ _ _ db => (none, db + 1)
  GetLatestGlobalExitRoot := fun db => (Except.ok zeroHash, db + 1)
  ExitRootsByGER := fun _ db => (Except.ok none, db + 1)
  AddTrustedGlobalExitRoot := fun _ db => (Except.ok false, db + 1)
  ctxErr := fun _ => false

/-- A chain whose header at number `n` has hash `[n]` and parent hash `[n - 1]`. -/
def goodChain (n : Nat) : Except Err Header :=
  Except.ok { Number := n, Hash := [n], ParentHash := [n - 1] }

/-- A block as the synchronizer stores it for the header with the given
number, hash and parent hash. -/
def storedBlock (number : Nat) (hash parent : Bytes) : Block :=
  { emptyBlock with BlockNumber := number, BlockHash := hash, ParentHash := parent }

/-- Answers as in `okStub`, but there is a deposit from another L2 to claim and
storage has no trusted global exit root for it. -/
def notFoundStub : ClaimStub :=
  { okStub with
    OtherL2Deposits := Except.ok [exampleDeposit 0 [8]]
    TrustedGER := (zeroHash, some Err.storageNotFound) }

/-- A global exit root event of the L1 synchronizer with a block id. -/
def exampleL2Update : GlobalExitRoot :=
  { BlockID := 1, BlockNumber := 7, ExitRoots := [zeroHash, zeroHash], GlobalExitRoot := [1],
    NetworkID := 0, ID := 0 }

/-- The global exit roots for which `updateDepositsStatus` has been started. -/
def updatesStarted (l : List Started) : List GlobalExitRoot :=
  l.filterMap fun a =>
    match a with
    | Started.updateDepositsStatus g => some g
    | Started.MonitorTxs => none

/-- The event is not the arrival of a global exit root. -/
def NoExitRoot (ev : ManagerEvent) : Prop := ∀ g, ev ≠ ManagerEvent.ExitRoot g

/-- A manager as `exampleManager 10`, working in grouping mode. -/
def groupingManager : ClaimTxManager :=
  { exampleManager 10 with
    cfg := { (exampleManager 10).cfg with GroupingClaimsEnabled := true } }

/-- The global exit roots sent on the channels of `chsExitRootEvent` so far,
each with the index of its channel. -/
def World.sent {σ : Type} (w : World σ) : List (Nat × GlobalExitRoot) :=
  w.trace.filterMap fun a =>
    match a with
    | Action.SendExitRootEvent i g => some (i, g)
    | _ => none

/-- From `w` to `w1` nothing is sent on the channels of `chsExitRootEvent` and
the cached `l1RollupExitRoot` is not changed. -/
def World.Keeps {σ : Type} (w w1 : World σ) : Prop :=
  w1.l1RollupExitRoot = w.l1RollupExitRoot ∧ w1.sent = w.sent

/-- Some block of the range has an entry of kind `GlobalExitRootsOrder` in its
order list. -/
def HasGlobalExitRootEvent (order : Bytes → List Order) (blocks : List Block) : Prop :=
  ∃ b, b ∈ blocks ∧ ∃ o, o ∈ order b.BlockHash ∧ o.Name = GlobalExitRootsOrder

/-- The world before a run in which the cached `l1RollupExitRoot` is `[1]`. -/
def staleWorld : World Nat := { db := 0, trace := [], l1RollupExitRoot := [1] }

/-- The latest L1-synced global exit root that `okEnv` returns. -/
def latestGER : GlobalExitRoot :=
  { BlockID := 1, BlockNumber := 1, ExitRoots := [zeroHash, zeroHash], GlobalExitRoot := zeroHash,
    NetworkID := 0, ID := 1 }

/-- The chain header at the number of the stored block `b` has that number and
the hash and parent hash of `b`. -/
def HeaderMatches (chainAt : Nat → Except Err Header) (b : Block) : Prop :=
  ∃ h, chainAt b.BlockNumber = Except.ok h ∧ toUint64 h.Number = b.BlockNumber ∧
    h.Hash = b.BlockHash ∧ h.ParentHash = b.ParentHash

/-- The walk of `checkReorg` ends at the stored block `b`: its hash and parent
hash are those of the chain header at its number, or its number is not above
the genesis block number. -/
def WalkEndsAt (s : ClientSynchronizer) (chainAt : Nat → Except Err Header) (b : Block) : Prop :=
  HeaderMatches chainAt b ∨ b.BlockNumber ≤ s.genBlockNumber

/-- The chain client and the storage answer as the functions `chainAt` (header
by number) and `stored` (block by depth) say, whatever happened before. -/
def ReadsFrom {σ : Type} (chain : ChainEnv σ) (s : ClientSynchronizer)
    (chainAt : Nat → Except Err Header) (stored : Nat → Except Err Block) : Prop :=
  (∀ n db, (chain.HeaderByNumber (some n) db).1 = chainAt n) ∧
  (∀ d db, (chain.GetPreviousBlock s.networkID d db).1 = stored d)

/-- A store for a chain that was reorganised at block 8: depth 0 and 1 hold
the blocks 9 and 8 of the old fork, depth 2 holds block 7 of `goodChain`, and
there is nothing deeper. -/
def forkedStore : Nat → Except Err Block
  | 0 => Except.ok (storedBlock 9 [90] [80])
  | 1 => Except.ok (storedBlock 8 [80] [7])
  | 2 => Except.ok (storedBlock 7 [7] [6])
  | _ => Except.error Err.storageNotFound

/-- From `r` to `r1` the flag `synced` does not go from true to false, and the
network id is sent on `chSynced` once if the flag goes from false to true and
not at all otherwise. -/
def SyncedOnce {σ : Type} (s : ClientSynchronizer) (r r1 : SyncRun σ) : Prop :=
  (r.synced = true → r1.synced = true ∧ r1.chSynced = r.chSynced) ∧
  (r.synced = false →
    (r1.synced = false ∧ r1.chSynced = r.chSynced) ∨
    (r1.synced = true ∧ r1.chSynced = r.chSynced ++ [s.networkID]))

/-- A step of a run of the synchronizer: a call of `syncBlocks` or a round of
the loop of `Sync`, each with its bound on the loops and its value of
`lastBlockSynced`. -/
inductive SyncCall where
  | syncBlocks : Nat → Block → SyncCall
  | round : Nat → Block → SyncCall

/-- The state after one step of a run. -/
def runCall {σ : Type} (env : SyncEnv σ) (chain : ChainEnv σ) (s : ClientSynchronizer) :
    SyncCall → SyncRun σ → SyncRun σ
  | SyncCall.syncBlocks fuel lastBlockSynced, r => (syncBlocks env chain s fuel lastBlockSynced r).2
  | SyncCall.round fuel lastBlockSynced, r => (syncRound env chain s fuel lastBlockSynced r).2

/-- The state after a sequence of steps of a run. -/
def runCalls {σ : Type} (env : SyncEnv σ) (chain : ChainEnv σ) (s : ClientSynchronizer) :
    List SyncCall → SyncRun σ → SyncRun σ
  | [], r => r
  | call :: rest, r => runCalls env chain s rest (runCall env chain s call r)

/-- The state in which a synchronizer starts: not synced, nothing sent. -/
def SyncRun.init {σ : Type} (w : World σ) : SyncRun σ :=
  { w := w, synced := false, chSynced := [] }

/-- The storage call is not a read of the deposit row. -/
def NoDepositRead : StorageRead → Prop
  | StorageRead.GetDeposit _ _ _ => False
  | _ => True

/-- The storage calls of `st1` are those of `st` followed by calls that all
satisfy `P`. -/
def SvcState.ReadsOnly (P : StorageRead → Prop) (st st1 : SvcState) : Prop :=
  ∃ t, st1.reads = st.reads ++ t ∧ ∀ a, a ∈ t → P a

/-- The action is a call of `GetPreviousBlock`. -/
def isGetPreviousBlock : Action → Bool
  | Action.GetPreviousBlock _ _ => true
  | _ => false

/-- The number of calls of `GetPreviousBlock` made so far. -/
def World.previousBlockCalls {σ : Type} (w : World σ) : Nat :=
  w.trace.countP isGetPreviousBlock

/-- The block store holds at most `n` blocks of the network of `s`: for every
offset from `n` on, `GetPreviousBlock` reports that the block is not found. -/
def StoreHolds {σ : Type} (chain : ChainEnv σ) (s : ClientSynchronizer) (n : Nat) : Prop :=
  ∀ d db, n ≤ d →
    ∃ e, (chain.GetPreviousBlock s.networkID d db).1 = Except.error e ∧
      isStorageNotFound e = true

/-- The content of `mt.rollup_exit` in `TestGetLeaves`
(`db/pgstorage/pgstorage_test.go`), with the ids 1 to 8 the table assigns;
the hashes are shortened to their last byte. -/
def testRollupExit : List RollupExitLeaf :=
  [{ ID := 1, BlockID := 1, Leaf := [0xF5], RollupId := 1, Root := [0x21] },
   { ID := 2, BlockID := 1, Leaf := [0x0F], RollupId := 2, Root := [0x21] },
   { ID := 3, BlockID := 1, Leaf := [0x5D], RollupId := 3, Root := [0x21] },
   { ID := 4, BlockID := 1, Leaf := [0x42], RollupId := 4, Root := [0x21] },
   { ID := 5, BlockID := 2, Leaf := [0xF6], RollupId := 1, Root := [0x22] },
   { ID := 6, BlockID := 2, Leaf := [0x43], RollupId := 4, Root := [0x22] },
   { ID := 7, BlockID := 2, Leaf := [0x5E], RollupId := 3, Root := [0x22] },
   { ID := 8, BlockID := 1, Leaf := [0x10], RollupId := 2, Root := [0x22] }]

/-- The claim row matches the deposit at the destination `destNet`, in the
words of the specification: its `network_id` is `destNet`, its `index` is the
deposit count, and its origin is the network of the deposit (`mainnet_flag`
when that network is 0, otherwise `rollup_index + 1` equal to it). -/
def specMatchingClaim (destNet : Nat) (d : DepositRow) (c : ClaimRow) : Bool :=
  decide (c.network_id = destNet) && decide (c.index = d.deposit_cnt) &&
  (if d.network_id = 0 then c.mainnet_flag else decide (c.rollup_index + 1 = d.network_id))

/-- The deposits that are pending in the words of the specification: to
`destNet`, of the leaf type, ready for claim, to `destAddr` when that is not
the zero address, and without a matching claim row. -/
def specPending (db : Database) (destAddr : Bytes) (destNet leafType : Nat) : List DepositRow :=
  db.deposit.filter fun d =>
    decide (d.dest_net = destNet) && decide (d.leaf_type = leafType) && d.ready_for_claim &&
    (decide (destAddr = zeroAddress) || decide (d.dest_addr = destAddr)) &&
    !(db.claim.any (specMatchingClaim destNet d))

/-- A deposit of network 0 with deposit count 5 to network 1, ready for claim,
and a claim on network 1 of the deposit with count 5 of rollup 2
(`rollup_index = 1`, no `mainnet_flag`). -/
def crossOriginDb : Database :=
  { block := [{ id := 1, block_num := 1, block_hash := [1], parent_hash := [0], network_id := 0,
                received_at := 0 }]
    deposit := [{ id := 1, leaf_type := 0, network_id := 0, orig_net := 0, orig_addr := [],
                  amount := 9, dest_net := 1, dest_addr := [3], block_id := 1, deposit_cnt := 5,
                  tx_hash := [7], metadata := [], ready_for_claim := true }]
    claim := [{ network_id := 1, index := 5, orig_net := 0, orig_addr := [], amount := 9,
                dest_addr := [3], block_id := 1, tx_hash := [8], rollup_index := 1,
                mainnet_flag := false }]
    exit_root := [], remove_exit_root := [], root := [] }

/-- The content of the tables in `TestGetPendingDepositsToClaim`
(`db/pgstorage/pgstorage_test.go`); addresses and hashes are shortened to two
bytes. -/
def testPendingDb : Database :=
  { block := [{ id := 1, block_num := 1, block_hash := [0x78, 0x31], parent_hash := [0x78, 0x30],
                network_id := 0, received_at := 0 }]
    deposit :=
      [{ id := 1, leaf_type := 0, network_id := 0, orig_net := 0, orig_addr := zeroAddress,
         amount := 90000000000000000, dest_net := 1, dest_addr := [0xF3, 0x9F], block_id := 1,
         deposit_cnt := 0, tx_hash := [0xCB, 0xE7], metadata := [], ready_for_claim := true },
       { id := 2, leaf_type := 0, network_id := 0, orig_net := 0, orig_addr := zeroAddress,
         amount := 90000000000000000, dest_net := 1, dest_addr := [0xF3, 0x9F], block_id := 1,
         deposit_cnt := 1, tx_hash := [0x62, 0x82], metadata := [], ready_for_claim := true },
       { id := 3, leaf_type := 0, network_id := 0, orig_net := 0, orig_addr := zeroAddress,
         amount := 90000000000000000, dest_net := 1, dest_addr := [0xF3, 0x8F], block_id := 1,
         deposit_cnt := 2, tx_hash := [0x62, 0x82], metadata := [], ready_for_claim := true }]
    claim := [{ network_id := 1, index := 0, orig_net := 0, orig_addr := zeroAddress,
                amount := 90000000000000000, dest_addr := [0xF3, 0x9F], block_id := 1,
                tx_hash := [0xBF, 0x2C], rollup_index := 0, mainnet_flag := true }]
    exit_root := [], remove_exit_root := [], root := [] }

/-- Two global exit roots of network 1, witnessing the deposits with ids 1 and
3 of network 0, and between them the deposit with id 2 that rollup 2 sends to
network 1. -/
def removeGerDb : Database :=
  { block := []
    deposit :=
      [{ id := 1, leaf_type := 0, network_id := 0, orig_net := 0, orig_addr := [], amount := 9,
         dest_net := 1, dest_addr := [3], block_id := 1, deposit_cnt := 0, tx_hash := [7],
         metadata := [], ready_for_claim := true },
       { id := 2, leaf_type := 0, network_id := 2, orig_net := 0, orig_addr := [], amount := 9,
         dest_net := 1, dest_addr := [3], block_id := 1, deposit_cnt := 0, tx_hash := [8],
         metadata := [], ready_for_claim := true },
       { id := 3, leaf_type := 0, network_id := 0, orig_net := 0, orig_addr := [], amount := 9,
         dest_net := 1, dest_addr := [3], block_id := 1, deposit_cnt := 1, tx_hash := [9],
         metadata := [], ready_for_claim := true }]
    claim := []
    exit_root :=
      [{ id := 1, block_id := 1, global_exit_root := [1], exit_roots := [[11], [0]],
         network_id := 1, allowed := true },
       { id := 2, block_id := 1, global_exit_root := [2], exit_roots := [[12], [0]],
         network_id := 1, allowed := true }]
    remove_exit_root := []
    root := [{ root := [11], deposit_id := 1, network := 0 },
             { root := [12], deposit_id := 3, network := 0 }] }

/-- The marker that removes the second global exit root of `removeGerDb`. -/
def removeGerMarker : GlobalExitRoot :=
  { BlockID := 5, BlockNumber := 9, ExitRoots := [], GlobalExitRoot := [2], NetworkID := 1,
    ID := 0 }

/-- The event decoded from a log: the event that the handler chosen by
`processEvent` parses and builds, with the text of its last error branch;
`none` for a log that `processEvent` ignores. -/
def decodeEvent {σ : Type} (c : EventClient σ) (sigs : SignatureHashes) (vLog : Log) :
    Outcome (Option (Event × String)) :=
  let gerEvent (mainnetExitRoot rollupExitRoot : Bytes) : Outcome (Option (Event × String)) :=
    Outcome.ok (some (Event.GlobalExitRoots
      { BlockID := 0, BlockNumber := vLog.BlockNumber,
        ExitRoots := [mainnetExitRoot, rollupExitRoot],
        GlobalExitRoot := c.hash mainnetExitRoot rollupExitRoot, NetworkID := 0, ID := 0 },
      "error processing UpdateGlobalExitRoot event"))
  let claimOf (amount : Int) (destinationAddress originAddress : Bytes)
      (Index originNetwork rollupIndex : Nat) (mainnetFlag : Bool) :
      Outcome (Option (Event × String)) :=
    Outcome.ok (some (Event.Claims
      { MainnetFlag := mainnetFlag, RollupIndex := rollupIndex, Index := Index,
        OriginalNetwork := originNetwork, OriginalAddress := originAddress, Amount := amount,
        DestinationAddress := destinationAddress, BlockID := 0, BlockNumber := vLog.BlockNumber,
        NetworkID := 0, TxHash := vLog.TxHash }, "error processing claim event"))
  let batchOf (vb : ParsedVerifyBatches) : Outcome (Option (Event × String)) :=
    Outcome.ok (some (Event.VerifiedBatches
      { BlockNumber := vLog.BlockNumber, BatchNumber := vb.NumBatch, RollupID := vb.RollupID,
        LocalExitRoot := vb.ExitRoot, TxHash := vLog.TxHash, StateRoot := vb.StateRoot,
        Aggregator := vb.Aggregator }, "error processing verifyBatch event"))
  match vLog.Topics.get? 0 with
  | none => Outcome.panic "index out of range"
  | some topic =>
    if topic = sigs.updateGlobalExitRootSignatureHash then
      match vLog.Topics.get? 1, vLog.Topics.get? 2 with
      | some mainnetExitRoot, some rollupExitRoot => gerEvent mainnetExitRoot rollupExitRoot
      | _, _ => Outcome.panic "index out of range"
    else if topic = sigs.updateL1InfoTreeSignatureHash then
      match c.ParseUpdateL1InfoTree vLog with
      | Except.error err => Outcome.error err
      | Except.ok g => gerEvent g.MainnetExitRoot g.RollupExitRoot
    else if topic = sigs.depositEventSignatureHash then
      match c.ParseBridgeEvent vLog with
      | Except.error err => Outcome.error err
      | Except.ok d =>
        Outcome.ok (some (Event.Deposits
          { Id := 0, LeafType := d.LeafType, OriginalNetwork := d.OriginNetwork,
            OriginalAddress := d.OriginAddress, Amount := d.Amount,
            DestinationNetwork := d.DestinationNetwork,
            DestinationAddress := d.DestinationAddress, DepositCount := d.DepositCount,
            BlockID := 0, BlockNumber := vLog.BlockNumber, NetworkID := 0,
            TxHash := vLog.TxHash, Metadata := d.Metadata, ReadyForClaim := false },
          "error processing Deposit event"))
    else if topic = sigs.claimEventSignatureHash then
      match c.ParseClaimEvent vLog with
      | Except.error err => Outcome.error err
      | Except.ok ev =>
        match DecodeGlobalIndex ev.GlobalIndex with
        | Outcome.panic p => Outcome.panic p
        | Outcome.error err => Outcome.error err
        | Outcome.ok (mainnetFlag, rollupIndex, localExitRootIndex) =>
          claimOf ev.Amount ev.DestinationAddress ev.OriginAddress localExitRootIndex
            ev.OriginNetwork rollupIndex mainnetFlag
    else if topic = sigs.oldClaimEventSignatureHash then
      match c.ParseOldClaimEvent vLog with
      | Except.error err => Outcome.error err
      | Except.ok ev =>
        claimOf ev.Amount ev.DestinationAddress ev.OriginAddress ev.Index ev.OriginNetwork 0 false
    else if topic = sigs.newWrappedTokenEventSignatureHash then
      match c.ParseNewWrappedToken vLog with
      | Except.error err => Outcome.error err
      | Except.ok tw =>
        Outcome.ok (some (Event.Tokens
          { Name := "", Symbol := "", Decimals := 0, OriginalNetwork := tw.OriginNetwork,
            OriginalTokenAddress := tw.OriginTokenAddress,
            WrappedTokenAddress := tw.WrappedTokenAddress, BlockID := 0,
            BlockNumber := vLog.BlockNumber, NetworkID := 0 },
          "error processing TokenWrapped event"))
    else if topic ∈ sigs.ignoredBeforeVerifyBatches then Outcome.ok none
    else if topic = sigs.verifyBatchesTrustedAggregatorSignatureHash then
      match c.ParseVerifyBatchesTrustedAggregator vLog with
      | Except.error err => Outcome.error err
      | Except.ok vb => batchOf vb
    else if topic = sigs.rollupManagerVerifyBatchesSignatureHash then
      match c.ParseVerifyBatches vLog with
      | Except.error err => Outcome.error err
      | Except.ok vb => batchOf vb
    else if topic ∈ sigs.ignoredBeforeInsertGlobalExitRoot then Outcome.ok none
    else if topic = sigs.insertGlobalExitRootSignatureHash then
      match c.ParseInsertGlobalExitRoot vLog with
      | Except.error err => Outcome.error err
      | Except.ok NewGlobalExitRoot =>
        Outcome.ok (some (Event.GlobalExitRoots
          { BlockID := 0, BlockNumber := vLog.BlockNumber, ExitRoots := [],
            GlobalExitRoot := NewGlobalExitRoot, NetworkID := 0, ID := 0 },
          "error processing UpdateGlobalExitRoot event"))
    else if topic = sigs.removeLastGlobalExitRootSignatureHash then
      match c.ParseRemoveLastGlobalExitRoot vLog with
      | Except.error err => Outcome.error err
      | Except.ok RemovedGlobalExitRoot =>
        Outcome.ok (some (Event.RemoveL2GER
          { BlockID := 0, BlockNumber := vLog.BlockNumber, ExitRoots := [],
            GlobalExitRoot := RemovedGlobalExitRoot, NetworkID := 0, ID := 0 },
          "error processing UpdateGlobalExitRoot event"))
    else Outcome.ok none

/-- The recognised event logs of a sequence of logs, each with the event
decoded from it, in log order. -/
def recognised {σ : Type} (c : EventClient σ) (sigs : SignatureHashes) (logs : List Log) :
    List (Log × Event) :=
  logs.filterMap fun vLog =>
    match decodeEvent c sigs vLog with
    | Outcome.ok (some (ev, _)) => some (vLog, ev)
    | _ => none

/-- The block of a log: its block hash and block number. -/
def Log.key (vLog : Log) : Bytes × Nat := (vLog.BlockHash, vLog.BlockNumber)

/-- The block hash and block number of a block. -/
def Block.key (block : Block) : Bytes × Nat := (block.BlockHash, block.BlockNumber)

/-- The element that an order entry points to: the element at index `Pos` of
the array of the block that `Name` names. -/
def Block.eventAt (block : Block) (o : Order) : Option Event :=
  if o.Name = GlobalExitRootsOrder then
    (indexAt block.GlobalExitRoots o.Pos).map Event.GlobalExitRoots
  else if o.Name = RemoveL2GEROrder then (indexAt block.RemoveL2GER o.Pos).map Event.RemoveL2GER
  else if o.Name = DepositsOrder then (indexAt block.Deposits o.Pos).map Event.Deposits
  else if o.Name = ClaimsOrder then (indexAt block.Claims o.Pos).map Event.Claims
  else if o.Name = TokensOrder then (indexAt block.Tokens o.Pos).map Event.Tokens
  else if o.Name = VerifyBatchOrder then
    (indexAt block.VerifiedBatches o.Pos).map Event.VerifiedBatches
  else none

/-- The logs of one block are adjacent: a log between two logs of the same
block is a log of that block. -/
def BlockLogsAdjacent (logs : List Log) : Prop :=
  ∀ a m b : Log, [a, m, b].Sublist logs → a.key = b.key → m.key = a.key

/-- The block hash of a log determines its block number. -/
def HashFixesNumber (logs : List Log) : Prop :=
  ∀ a b : Log, a ∈ logs → b ∈ logs → a.BlockHash = b.BlockHash → a.BlockNumber = b.BlockNumber

/-- What a run has to satisfy after the logs `logs`: the blocks have
different keys, which are the keys of the recognised logs; the order list of
every block points, entry by entry, to the events of the recognised logs of
that block; the last block is the block of the last recognised log; and a
hash that is the hash of no block has no order entry. -/
def Ingested {σ : Type} (c : EventClient σ) (sigs : SignatureHashes) (logs : List Log)
    (blocks : List Block) (blocksOrder : Bytes → List Order) : Prop :=
  (blocks.map Block.key).Nodup ∧
  (∀ k, k ∈ blocks.map Block.key ↔ k ∈ (recognised c sigs logs).map fun p => p.1.key) ∧
  (∀ b, b ∈ blocks →
    (blocksOrder b.BlockHash).map b.eventAt =
      ((recognised c sigs logs).filter fun p => p.1.key = b.key).map fun p => some p.2) ∧
  (∀ b, blocks.getLast? = some b →
    ∃ p, (recognised c sigs logs).getLast? = some p ∧ p.1.key = b.key) ∧
  (∀ h, (∀ b, b ∈ blocks → b.BlockHash ≠ h) → blocksOrder h = [])

/-- Example signature hashes: one byte each. -/
def exampleSignatures : SignatureHashes :=
  { updateGlobalExitRootSignatureHash := [1], updateL1InfoTreeSignatureHash := [2],
    depositEventSignatureHash := [3], claimEventSignatureHash := [4],
    oldClaimEventSignatureHash := [5], newWrappedTokenEventSignatureHash := [6],
    ignoredBeforeVerifyBatches := [[20], [21]],
    verifyBatchesTrustedAggregatorSignatureHash := [7],
    rollupManagerVerifyBatchesSignatureHash := [8],
    ignoredBeforeInsertGlobalExitRoot := [[22]],
    insertGlobalExitRootSignatureHash := [9], removeLastGlobalExitRootSignatureHash := [10] }

/-- An example client: `FilterLogs` returns `logs`, every header lookup
succeeds, and every parser succeeds, reading the deposit count and the claim
index from the length of the data of the log. -/
def exampleClient (logs : List Log) : EventClient Nat where
  FilterLogs := fun _ db => (Except.ok logs, db + 1)
  HeaderByHash := fun h db =>
    (Except.ok { Number := 0, Hash := h, ParentHash := [0], Time := 5 }, db + 1)
  ParseUpdateL1InfoTree := fun l =>
    Except.ok { MainnetExitRoot := l.Data, RollupExitRoot := l.Data }
  ParseBridgeEvent := fun l =>
    Except.ok { LeafType := 0, OriginNetwork := 0, OriginAddress := [], DestinationNetwork := 1,
                DestinationAddress := [3], Amount := 5, Metadata := [],
                DepositCount := l.Data.length }
  ParseClaimEvent := fun l =>
    Except.ok { GlobalIndex := Int.ofNat l.Data.length, OriginNetwork := 0, OriginAddress := [],
                DestinationAddress := [3], Amount := 5 }
  ParseOldClaimEvent := fun l =>
    Except.ok { Index := l.Data.length, OriginNetwork := 0, OriginAddress := [],
                DestinationAddress := [3], Amount := 5 }
  ParseNewWrappedToken := fun _ =>
    Except.ok { OriginNetwork := 0, OriginTokenAddress := [1], WrappedTokenAddress := [2],
                Metadata := [] }
  ParseVerifyBatchesTrustedAggregator := fun _ =>
    Except.ok { RollupID := 1, NumBatch := 1, StateRoot := [], ExitRoot := [9], Aggregator := [] }
  ParseVerifyBatches := fun _ =>
    Except.ok { RollupID := 1, NumBatch := 1, StateRoot := [], ExitRoot := [9], Aggregator := [] }
  ParseInsertGlobalExitRoot := fun l => Except.ok l.Data
  ParseRemoveLastGlobalExitRoot := fun l => Except.ok l.Data
  hash := fun a b => a ++ b

/-- A log of block 7 (hash `[70]`) or of another block `n` (hash `[n]`) with
the given first topic and data. -/
def exampleLog (topic : Nat) (data : Bytes) (blockNumber : Nat) : Log :=
  { Topics := [[topic]], Data := data, BlockNumber := blockNumber, TxHash := [topic],
    BlockHash := [blockNumber] }

/-- The deposit that the example client decodes from a deposit log. -/
def exampleDepositEvent (depositCount blockNumber : Nat) : Deposit :=
  { Id := 0, LeafType := 0, OriginalNetwork := 0, OriginalAddress := [], Amount := 5,
    DestinationNetwork := 1, DestinationAddress := [3], DepositCount := depositCount,
    BlockID := 0, BlockNumber := blockNumber, NetworkID := 0, TxHash := [3], Metadata := [],
    ReadyForClaim := false }

/-- The claim that the example client decodes from an old claim log. -/
def exampleClaimEvent (index blockNumber : Nat) : Claim :=
  { MainnetFlag := false, RollupIndex := 0, Index := index, OriginalNetwork := 0,
    OriginalAddress := [], Amount := 5, DestinationAddress := [3], BlockID := 0,
    BlockNumber := blockNumber, NetworkID := 0, TxHash := [5] }

/-- The 32-byte word that holds `n` in its first two bytes. -/
def levelWord (n : Nat) : Bytes := [n / 256 % 256, n % 256] ++ List.replicate 30 0

/-- The number held in the first two bytes of `b`. -/
def levelOf (b : Bytes) : Nat := b.getD 0 0 * 256 + b.getD 1 0

/-- An example hash function: the word of the number of its argument plus one. -/
def levelHash (b : Bytes) : Bytes := levelWord (levelOf b + 1)

/-- A node store holding a left spine: under the word of `n ≥ 1` the pair of
the word of `n - 1` and the zero hash.  With `levelHash` every stored key is
the hash of its pair. -/
def levelStorage : bridgeServiceStorage :=
  { exampleStorage true with
    Get := fun key _ =>
      if key = levelWord (levelOf key) ∧ 1 ≤ levelOf key then
        Except.ok [levelWord (levelOf key - 1), zeroHash]
      else Except.error Err.storageNotFound }

/-- A service configured with height 0 over `levelStorage`. -/
def levelService : bridgeService where
  storage := levelStorage
  height := 0
  ComputeSiblings := fun _ _ _ => Except.error (Err.msg "no leaves")

/-- The service `exampleService true` configured with height 0. -/
def heightZeroService : bridgeService := { exampleService true with height := 0 }

/-- A block hash identifies the stored block: a block stored at depth 1 or
more that has the hash of `L` has the number and the parent hash of `L` too.
The table `sync.block` keeps one row per block hash (`AddBlock` inserts with
`ON CONFLICT (block_hash) DO NOTHING`), so this holds whenever `L` is itself a
row of the store, at any depth. -/
def HashIdentifiesBlock (stored : Nat → Except Err Block) (L : Block) : Prop :=
  ∀ d b, 1 ≤ d → stored d = Except.ok b → b.BlockHash = L.BlockHash →
    b.BlockNumber = L.BlockNumber ∧ b.ParentHash = L.ParentHash

/-- Every global exit root event of the blocks carries two exit roots or none.
The handlers of `etherman` build no other global exit root event:
`processUpdateGlobalExitRootEvent` sets the two exit roots it is given, and
`insertSovereignChainL2GER` sets none. -/
def ExitRootsPaired (blocks : List Block) : Prop :=
  ∀ b, b ∈ blocks → ∀ g, g ∈ b.GlobalExitRoots →
    g.ExitRoots.length = 2 ∨ g.ExitRoots.length = 0

/-- An event that is a global exit root carries two exit roots or none. -/
def Event.Paired : Event → Prop
  | Event.GlobalExitRoots g => g.ExitRoots.length = 2 ∨ g.ExitRoots.length = 0
  | _ => True

/-- Collaborators of the synchronizer as in `okEnv true`, except that the read
of the latest L1-synced exit root fails. -/
def latestFailsEnv : SyncEnv Nat :=
  { okEnv true with
    GetLatestL1SyncedExitRoot := fun db => (Except.error (Err.other 3), db + 1) }

/-- Two deposit logs with the same block hash `[7]` and the block numbers 7
and 8. -/
def sameHashLogs : List Log :=
  [exampleLog 3 [] 7, { exampleLog 3 [1] 8 with BlockHash := [7] }]

/-! ## Theorems: global index -/

theorem setBytes_four (a b c d : Nat) :
    setBytes [a, b, c, d] = a * 2 ^ 24 + b * 2 ^ 16 + c * 2 ^ 8 + d := by
  simp [setBytes]; ring

theorem bytesBE_four (n : Nat) :
    bytesBE n 4 = [n / 256 ^ 3 % 256, n / 256 ^ 2 % 256, n / 256 % 256, n % 256] := by
  simp [bytesBE, List.range_succ]

theorem setBytes_bytesBE_four (n : Nat) (h : n < 2 ^ 32) : setBytes (bytesBE n 4) = n := by
  rw [bytesBE_four, setBytes_four]
  omega


theorem bytesBE_length (n len : Nat) : (bytesBE n len).length = len := by
  simp [bytesBE]

theorem fillBytes_ofNat (n len : Nat) (h : n < 256 ^ len) :
    fillBytes (Int.ofNat n) len = Outcome.ok (bytesBE n len) := by
  unfold fillBytes
  rw [if_pos (by simpa using h)]
  rfl

theorem DecodeGlobalIndex_layout_aux (n : Nat) (h1 : n < 2 ^ 256) :
    DecodeGlobalIndex (Int.ofNat n) =
      Outcome.ok (decide (byteAt n 23 = 1), be32At n 24, be32At n 28) := by
  have hfit : n < 256 ^ 32 := by
    have : (256 : Nat) ^ 32 = 2 ^ 256 := by norm_num
    omega
  simp only [DecodeGlobalIndex, fillBytes_ofNat n 32 hfit, bytesBE_length]
  simp only [bytesBE, List.range_succ, List.range_zero]
  simp [setBytes, toUint64, maxUint32, byteAt, be32At]
  rw [if_neg (by omega), if_neg (by omega)]
  simp only [Outcome.ok.injEq, Prod.mk.injEq, decide_eq_decide]
  refine ⟨?_, ?_, ?_⟩ <;> omega

theorem bigBytes_one : bigBytes 1 = [1] := by
  simp [bigBytes]

theorem GenerateGlobalIndex_value (flag : Bool) (ri li : Nat) (hr : ri < 2 ^ 32) (hl : li < 2 ^ 32) :
    GenerateGlobalIndex flag ri li = Int.ofNat (if flag then 2 ^ 64 + li else ri * 2 ^ 32 + li) := by
  have h4 : ∀ v : Nat, v < 2 ^ 32 → fillBytes (Int.ofNat (v % 2 ^ 32)) 4 = Outcome.ok (bytesBE v 4) := by
    intro v hv
    rw [Nat.mod_eq_of_lt hv]
    exact fillBytes_ofNat v 4 (by norm_num at hv ⊢; omega)
  unfold GenerateGlobalIndex
  simp only [h4 ri hr, h4 li hl, h4 0 (by norm_num), bigBytes_one]
  cases flag
  · simp [bytesBE_four, setBytes]
    omega
  · simp [bytesBE_four, setBytes]
    omega

theorem decode_generate (flag : Bool) (ri li : Nat) (hr : ri < 2 ^ 32) (hl : li < 2 ^ 32) :
    DecodeGlobalIndex (GenerateGlobalIndex flag ri li) =
      Outcome.ok (flag, if flag then 0 else ri, li) := by
  rw [GenerateGlobalIndex_value flag ri li hr hl]
  cases flag
  · rw [DecodeGlobalIndex_layout_aux _ (by simp; omega)]
    simp only [Outcome.ok.injEq, Prod.mk.injEq, byteAt, be32At]
    simp
    refine ⟨?_, ?_, ?_⟩ <;> omega
  · rw [DecodeGlobalIndex_layout_aux _ (by simp; omega)]
    simp only [Outcome.ok.injEq, Prod.mk.injEq, byteAt, be32At]
    simp
    refine ⟨?_, ?_, ?_⟩ <;> omega

theorem generate_decode (x : Nat) (h65 : x < 2 ^ 65)
    (hmain : byteAt x 23 = 1 → be32At x 24 = 0) :
    GenerateGlobalIndex (decide (byteAt x 23 = 1)) (be32At x 24) (be32At x 28) = Int.ofNat x := by
  have hr : be32At x 24 < 2 ^ 32 := by simp [be32At, byteAt]; omega
  have hl : be32At x 28 < 2 ^ 32 := by simp [be32At, byteAt]; omega
  rw [GenerateGlobalIndex_value _ _ _ hr hl]
  congr 1
  by_cases hb : byteAt x 23 = 1
  · have hz := hmain hb
    simp only [hb, decide_True, if_true]
    simp [be32At, byteAt] at hz hb ⊢
    omega
  · simp only [hb, decide_False]
    simp [be32At, byteAt] at hb ⊢
    omega

theorem lt_of_high_bytes_zero (x : Nat) (hx : x < 2 ^ 256) (hz : ∀ i, i < 23 → byteAt x i = 0)
    (h23 : byteAt x 23 = 0 ∨ byteAt x 23 = 1) : x < 2 ^ 65 := by
  have e0 := hz 0 (by norm_num)
  have e1 := hz 1 (by norm_num)
  have e2 := hz 2 (by norm_num)
  have e3 := hz 3 (by norm_num)
  have e4 := hz 4 (by norm_num)
  have e5 := hz 5 (by norm_num)
  have e6 := hz 6 (by norm_num)
  have e7 := hz 7 (by norm_num)
  have e8 := hz 8 (by norm_num)
  have e9 := hz 9 (by norm_num)
  have e10 := hz 10 (by norm_num)
  have e11 := hz 11 (by norm_num)
  have e12 := hz 12 (by norm_num)
  have e13 := hz 13 (by norm_num)
  have e14 := hz 14 (by norm_num)
  have e15 := hz 15 (by norm_num)
  have e16 := hz 16 (by norm_num)
  have e17 := hz 17 (by norm_num)
  have e18 := hz 18 (by norm_num)
  have e19 := hz 19 (by norm_num)
  have e20 := hz 20 (by norm_num)
  have e21 := hz 21 (by norm_num)
  have e22 := hz 22 (by norm_num)
  simp [byteAt] at e0 e1 e2 e3 e4 e5 e6 e7 e8 e9 e10 e11 e12 e13 e14 e15 e16 e17 e18 e19 e20 e21 e22 h23
  norm_num at hx ⊢
  omega

/-- C3 (as stated, refuted): with the mainnet flag set the encoder writes a zero
rollup index, so a non-zero rollup index does not survive the round trip. -/
theorem C3_roundtrip_fields_counterexample :
    (1 : Nat) < 2 ^ 32 ∧ (0 : Nat) < 2 ^ 32 ∧
    DecodeGlobalIndex (GenerateGlobalIndex true 1 0) = Outcome.ok (true, 0, 0) ∧
    DecodeGlobalIndex (GenerateGlobalIndex true 1 0) ≠ Outcome.ok (true, 1, 0) := by
  have h := decode_generate true 1 0 (by norm_num) (by norm_num)
  refine ⟨by norm_num, by norm_num, ?_, ?_⟩
  · simpa using h
  · rw [h]
    intro hc
    simp only [Outcome.ok.injEq, Prod.mk.injEq, if_true] at hc
    exact absurd hc.2.1 (by decide)

/-- C3 (amended): for every flag and all `rollupIndex`, `localExitRootIndex`
below `2^32`, decoding the generated global index succeeds and returns the flag,
the local index, and the rollup index when the flag is false, zero when it is
true. -/
theorem C3_roundtrip_fields (mainnetFlag : Bool) (rollupIndex localExitRootIndex : Nat)
    (hr : rollupIndex < 2 ^ 32) (hl : localExitRootIndex < 2 ^ 32) :
    DecodeGlobalIndex (GenerateGlobalIndex mainnetFlag rollupIndex localExitRootIndex) =
      Outcome.ok (mainnetFlag, if mainnetFlag then 0 else rollupIndex, localExitRootIndex) :=
  decode_generate mainnetFlag rollupIndex localExitRootIndex hr hl

theorem C3_roundtrip_fields_witness :
    (5 : Nat) < 2 ^ 32 ∧ (7 : Nat) < 2 ^ 32 ∧
    DecodeGlobalIndex (GenerateGlobalIndex false 5 7) =
      Outcome.ok (false, if false then 0 else 5, 7) :=
  ⟨by norm_num, by norm_num, C3_roundtrip_fields false 5 7 (by norm_num) (by norm_num)⟩

/-- C4 (as stated, refuted): the value with byte 23 equal to 1 and byte 27 equal
to 1 has zero bytes 0..22, decodes to `(true, 1, 0)`, and the encoder maps that
triple to another value. -/
theorem C4_roundtrip_bytes_counterexample :
    (2 ^ 64 + 2 ^ 32 : Nat) < 2 ^ 256 ∧
    (∀ i, i < 23 → byteAt (2 ^ 64 + 2 ^ 32) i = 0) ∧
    byteAt (2 ^ 64 + 2 ^ 32) 23 = 1 ∧
    DecodeGlobalIndex (Int.ofNat (2 ^ 64 + 2 ^ 32)) = Outcome.ok (true, 1, 0) ∧
    GenerateGlobalIndex true 1 0 ≠ Int.ofNat (2 ^ 64 + 2 ^ 32) := by
  refine ⟨by norm_num, by decide, by decide, ?_, ?_⟩
  · rw [DecodeGlobalIndex_layout_aux _ (by norm_num)]
    simp only [Outcome.ok.injEq, Prod.mk.injEq]
    refine ⟨?_, ?_, ?_⟩ <;> decide
  · rw [GenerateGlobalIndex_value true 1 0 (by norm_num) (by norm_num)]
    simp

/-- C4 (amended): for every 32-byte big-endian value `x` whose bytes 0..22 are
zero, whose byte 23 is 0 or 1 and whose bytes 24..27 are zero when byte 23 is 1,
if `DecodeGlobalIndex x` returns `(flag, rollupIndex, localIndex)` then
`GenerateGlobalIndex flag rollupIndex localIndex` is `x`. -/
theorem C4_roundtrip_bytes (x : Nat) (hx : x < 2 ^ 256)
    (hz : ∀ i, i < 23 → byteAt x i = 0)
    (h23 : byteAt x 23 = 0 ∨ byteAt x 23 = 1)
    (hmain : byteAt x 23 = 1 → be32At x 24 = 0)
    (flag : Bool) (rollupIndex localIndex : Nat)
    (hdec : DecodeGlobalIndex (Int.ofNat x) = Outcome.ok (flag, rollupIndex, localIndex)) :
    GenerateGlobalIndex flag rollupIndex localIndex = Int.ofNat x := by
  rw [DecodeGlobalIndex_layout_aux x hx] at hdec
  simp only [Outcome.ok.injEq, Prod.mk.injEq] at hdec
  obtain ⟨hf, hr, hl⟩ := hdec
  rw [← hf, ← hr, ← hl]
  exact generate_decode x (lt_of_high_bytes_zero x hx hz h23) hmain

theorem C4_roundtrip_bytes_witness :
    GenerateGlobalIndex false 3 9 = Int.ofNat (3 * 2 ^ 32 + 9) :=
  C4_roundtrip_bytes (3 * 2 ^ 32 + 9) (by norm_num) (by decide) (by decide) (by decide)
    false 3 9
    (by
      rw [DecodeGlobalIndex_layout_aux _ (by norm_num)]
      simp only [Outcome.ok.injEq, Prod.mk.injEq]
      refine ⟨?_, ?_, ?_⟩ <;> decide)

/-- C5: for every integer `x` with `0 ≤ x < 2^256`, `DecodeGlobalIndex`
returns no error and no panic; the flag is `byte 23 = 1`, the rollup index is
the big-endian `uint32` of bytes 24..27 and the local exit root index the
big-endian `uint32` of bytes 28..31 of the 32-byte big-endian form of `x`. -/
theorem C5_decode_layout_total (x : Int) (h0 : 0 ≤ x) (h1 : x < 2 ^ 256) :
    DecodeGlobalIndex x =
      Outcome.ok (decide (byteAt x.toNat 23 = 1), be32At x.toNat 24, be32At x.toNat 28) := by
  obtain ⟨n, rfl⟩ := Int.eq_ofNat_of_zero_le h0
  have hn : n < 2 ^ 256 := by exact_mod_cast h1
  simpa using DecodeGlobalIndex_layout_aux n hn

theorem C5_decode_layout_total_witness :
    DecodeGlobalIndex (2 ^ 64 + 7) =
      Outcome.ok (decide (byteAt (2 ^ 64 + 7 : Int).toNat 23 = 1),
        be32At (2 ^ 64 + 7 : Int).toNat 24, be32At (2 ^ 64 + 7 : Int).toNat 28) :=
  C5_decode_layout_total (2 ^ 64 + 7) (by norm_num) (by norm_num)

/-! ## Theorems: proof service -/

theorem LRU_Get_some {P : Bytes → List Bytes → Prop} {c c1 : LRU} {key : Bytes}
    {value : List Bytes} (hc : CacheAll P c) (h : c.Get key = (some value, c1)) :
    P key value ∧ CacheAll P c1 := by
  unfold LRU.Get at h
  cases hf : c.items.find? (fun e => decide (e.1 = key)) with
  | none => rw [hf] at h; simp at h
  | some e =>
    rw [hf] at h
    simp only [Prod.mk.injEq, Option.some.injEq] at h
    obtain ⟨hv, hc1⟩ := h
    have hmem : e ∈ c.items := List.mem_of_find?_eq_some hf
    have hkey : e.1 = key := by
      have := List.find?_some hf
      simpa using this
    refine ⟨?_, ?_⟩
    · rw [← hv, ← hkey]; exact hc e hmem
    · intro x hx
      rw [← hc1] at hx
      simp only [List.mem_cons, List.mem_filter] at hx
      rcases hx with rfl | ⟨hx, _⟩
      · exact hc _ hmem
      · exact hc x hx

theorem LRU_Get_none {c c1 : LRU} {key : Bytes} (h : c.Get key = (none, c1)) : c1 = c := by
  unfold LRU.Get at h
  cases hf : c.items.find? (fun e => decide (e.1 = key)) with
  | none => rw [hf] at h; simp at h; exact h.symm
  | some e => rw [hf] at h; simp at h

theorem LRU_Add_all {P : Bytes → List Bytes → Prop} {c : LRU} {key : Bytes}
    {value : List Bytes} (hc : CacheAll P c) (hv : P key value) :
    CacheAll P (c.Add key value) := by
  intro x hx
  unfold LRU.Add at hx
  split at hx
  · simp only [List.mem_cons, List.mem_filter] at hx
    rcases hx with rfl | ⟨hx, _⟩
    · exact hv
    · exact hc x hx
  · simp only at hx
    split at hx
    · have := List.dropLast_subset _ hx
      simp only [List.mem_cons] at this
      rcases this with rfl | hx
      · exact hv
      · exact hc x hx
    · simp only [List.mem_cons] at hx
      rcases hx with rfl | hx
      · exact hv
      · exact hc x hx

/-- What `getNode` returns when the cache and the storage hold only values
satisfying `P`: the cache keeps that property, and a returned pair is the copy
of a value that satisfies `P` at the requested key. -/
theorem getNode_spec {P : Bytes → List Bytes → Prop} (s : bridgeService) (key : Bytes)
    (dbTx : Option Tx) (st : SvcState) (hc : CacheAll P st.cache) (hs : StoreAll P s.storage) :
    CacheAll P (getNode s key dbTx st).2.cache ∧
    (∀ lr, (getNode s key dbTx st).1 = Outcome.ok lr →
      ∃ value, P key value ∧ getNodeCopy value = Outcome.ok lr) ∧
    (∀ p, (getNode s key dbTx st).1 = Outcome.panic p →
      ∃ value, P key value ∧ getNodeCopy value = Outcome.panic p) ∧
    (∀ e, (getNode s key dbTx st).1 = Outcome.error e →
      ∃ e0, s.storage.Get key dbTx = Except.error e0) := by
  unfold getNode
  cases hg : st.cache.Get key with
  | mk hit cache1 =>
    cases hit with
    | some value =>
      obtain ⟨hP, hc1⟩ := LRU_Get_some hc hg
      refine ⟨hc1, ?_, ?_, ?_⟩
      · intro lr h; exact ⟨value, hP, h⟩
      · intro p h; exact ⟨value, hP, h⟩
      · intro e h
        simp only at h
        unfold getNodeCopy at h
        split at h <;> simp at h
    | none =>
      have hc1 : cache1 = st.cache := LRU_Get_none hg
      subst hc1
      cases hsg : s.storage.Get key dbTx with
      | error e0 =>
        refine ⟨hc, ?_, ?_, ?_⟩
        · intro lr h; simp at h
        · intro p h; simp at h
        · intro e _; exact ⟨e0, rfl⟩
      | ok value =>
        have hP := hs key dbTx value hsg
        refine ⟨LRU_Add_all hc hP, ?_, ?_, ?_⟩
        · intro lr h; exact ⟨value, hP, h⟩
        · intro p h; exact ⟨value, hP, h⟩
        · intro e h
          simp only at h
          unfold getNodeCopy at h
          split at h <;> simp at h

theorem and_two_pow_eq (x h : Nat) : x &&& 2 ^ h = if x.testBit h then 2 ^ h else 0 := by
  apply Nat.eq_of_testBit_eq
  intro i
  rw [Nat.testBit_and, Nat.testBit_two_pow]
  by_cases hi : h = i
  · subst hi
    by_cases hb : x.testBit h
    · simp [hb]
    · simp [hb]
  · by_cases hb : x.testBit h
    · simp [hb, hi, Nat.testBit_two_pow]
    · simp [hb, hi]

/-- The test `index&(1<<h) > 0` of `getProof`, done in 32 bits, reads bit `h`
of a `uint32` index. -/
theorem bit_test_eq (index h : Nat) (hi : index < 2 ^ 32) :
    ((index % 2 ^ 32) &&& (2 ^ h % 2 ^ 32) > 0) ↔ index.testBit h = true := by
  rw [Nat.mod_eq_of_lt hi]
  by_cases hh : h < 32
  · have hlt : 2 ^ h < 2 ^ 32 := Nat.pow_lt_pow_right (by norm_num) hh
    rw [Nat.mod_eq_of_lt hlt, and_two_pow_eq]
    by_cases hb : index.testBit h
    · simp [hb]
    · simp [hb]
  · have h32 : 32 ≤ h := by omega
    have hz : 2 ^ h % 2 ^ 32 = 0 := by
      obtain ⟨k, rfl⟩ := Nat.exists_eq_add_of_le h32
      rw [Nat.pow_add]
      exact Nat.mul_mod_right _ _
    have hf : index.testBit h = false :=
      Nat.testBit_lt_two_pow (lt_of_lt_of_le hi (Nat.pow_le_pow_right (by norm_num) h32))
    rw [hz, hf]
    simp

theorem recomputeRoot_append (hash : Bytes → Bytes) (index : Nat) (xs : List Bytes) :
    ∀ (h : Nat) (cur s : Bytes),
      recomputeRoot hash index h cur (xs ++ [s]) =
        combineAt hash index (h + xs.length) (recomputeRoot hash index h cur xs) s := by
  induction xs with
  | nil => intro h cur s; simp [recomputeRoot]
  | cons x xs ih =>
    intro h cur s
    show recomputeRoot hash index (h + 1) (combineAt hash index h cur x) (xs ++ [s]) = _
    rw [ih]
    simp only [recomputeRoot, List.length_cons]
    congr 1
    omega

theorem copy32_of_length {b : Bytes} (h : b.length = 32) : copy32 b = b := by
  unfold copy32
  rw [h]
  simp [List.take_of_length_le (le_of_eq h)]

theorem getNodeCopy_nodeOK {hash : Bytes → Bytes} {key : Bytes} {value : List Bytes}
    {left right : Bytes} (hv : NodeOK hash key value)
    (hc : getNodeCopy value = Outcome.ok (left, right)) :
    hash (left ++ right) = key := by
  obtain ⟨l, r, rfl, hl, hr, hk⟩ := hv
  simp only [getNodeCopy, copy32_of_length hl, copy32_of_length hr, Outcome.ok.injEq,
    Prod.mk.injEq] at hc
  rw [← hc.1, ← hc.2]
  exact hk

/-- Invariant of the walk of `getProof`: the siblings added by `n` iterations,
read from the last one to the first, recompute the node the iterations
started from out of the node they end on. -/
theorem getProofLoop_verifies (hash : Bytes → Bytes) (s : bridgeService) (index : Nat)
    (hi : index < 2 ^ 32) (dbTx : Option Tx) (hs : StoreAll (NodeOK hash) s.storage) :
    ∀ (n : Nat) (cur : Bytes) (sibs : List Bytes) (st : SvcState),
      CacheAll (NodeOK hash) st.cache →
      ∀ (sibs1 : List Bytes) (leaf : Bytes) (st1 : SvcState),
        getProofLoop s index dbTx n cur sibs st = (Outcome.ok (sibs1, leaf), st1) →
        ∃ added, sibs1 = sibs ++ added ∧ added.length = n ∧
          recomputeRoot hash index 0 leaf added.reverse = cur ∧
          CacheAll (NodeOK hash) st1.cache := by
  intro n
  induction n with
  | zero =>
    intro cur sibs st hc sibs1 leaf st1 h
    simp only [getProofLoop, Prod.mk.injEq, Outcome.ok.injEq] at h
    obtain ⟨⟨h1, h2⟩, h3⟩ := h
    subst h1 h2 h3
    exact ⟨[], by simp, rfl, rfl, hc⟩
  | succ h ih =>
    intro cur sibs st hc sibs1 leaf st1 hrun
    obtain ⟨hc1, hok, _, _⟩ := getNode_spec (P := NodeOK hash) s cur dbTx st hc hs
    unfold getProofLoop at hrun
    cases hg : getNode s cur dbTx st with
    | mk res stn =>
      rw [hg] at hrun hc1 hok
      cases res with
      | error e => simp at hrun
      | panic p => simp at hrun
      | ok lr =>
        obtain ⟨left, right⟩ := lr
        obtain ⟨value, hv, hcopy⟩ := hok (left, right) rfl
        have hkey : hash (left ++ right) = cur := getNodeCopy_nodeOK hv hcopy
        simp only at hrun
        by_cases hb : index.testBit h = true
        · rw [if_pos ((bit_test_eq index h hi).mpr hb)] at hrun
          obtain ⟨added, ha, hlen, hrec, hcf⟩ := ih right (sibs ++ [left]) stn hc1 sibs1 leaf st1 hrun
          refine ⟨left :: added, by simp [ha], by simp [hlen], ?_, hcf⟩
          rw [List.reverse_cons, recomputeRoot_append, hrec]
          simp [combineAt, hlen, hb, hkey]
        · rw [if_neg (fun hc0 => hb ((bit_test_eq index h hi).mp hc0))] at hrun
          obtain ⟨added, ha, hlen, hrec, hcf⟩ := ih left (sibs ++ [right]) stn hc1 sibs1 leaf st1 hrun
          refine ⟨right :: added, by simp [ha], by simp [hlen], ?_, hcf⟩
          rw [List.reverse_cons, recomputeRoot_append, hrec]
          simp [combineAt, hlen, hb, hkey]

theorem proofLevels_eq (height : Nat) (h1 : 1 ≤ height) (h2 : height < 256) :
    proofLevels height = height := by
  unfold proofLevels
  omega

theorem proofLevels_wrap (height : Nat) (h2 : height < 256) :
    proofLevels height = (if height = 0 then 256 else height) := by
  unfold proofLevels
  split <;> omega

theorem getProof_ok_iff_walk (s : bridgeService) (index : Nat) (root : Bytes) (dbTx : Option Tx)
    (st : SvcState) (siblings : List Bytes) (st1 : SvcState)
    (h : getProof s index root dbTx st = (Outcome.ok siblings, st1)) :
    ∃ leaf, getProofWalk s index root dbTx st = (Outcome.ok (siblings, leaf), st1) := by
  unfold getProof at h
  cases hw : getProofWalk s index root dbTx st with
  | mk res stw =>
    rw [hw] at h
    cases res with
    | ok sl =>
      obtain ⟨sibs, leaf⟩ := sl
      simp only [Prod.mk.injEq, Outcome.ok.injEq] at h
      exact ⟨leaf, by rw [h.1, h.2]⟩
    | error e => simp at h
    | panic p => simp at h

theorem getProofWalk_ok (s : bridgeService) (index : Nat) (root : Bytes) (dbTx : Option Tx)
    (st : SvcState) (siblings : List Bytes) (leaf : Bytes) (st1 : SvcState)
    (h : getProofWalk s index root dbTx st = (Outcome.ok (siblings, leaf), st1)) :
    getProofLoop s index dbTx (proofLevels s.height) root [] st =
      (Outcome.ok (siblings.reverse, leaf), st1) := by
  unfold getProofWalk at h
  cases hl : getProofLoop s index dbTx (proofLevels s.height) root [] st with
  | mk res stl =>
    rw [hl] at h
    cases res with
    | ok sl =>
      obtain ⟨sibs, lf⟩ := sl
      simp only [Prod.mk.injEq, Outcome.ok.injEq] at h
      obtain ⟨⟨h1, h2⟩, h3⟩ := h
      rw [← h1, ← h2, ← h3]
      simp
    | error e => simp at h
    | panic p => simp at h

/-- C1: `getProof` returns a verifying proof.  For a service whose height is
any `uint8` value, a `uint32` index, and a node store (storage and cache) in
which every stored key `k` maps to a pair `(l, r)` of 32-byte values with
`hash (l ‖ r) = k`: if `getProof index root` succeeds then it returns `height`
siblings when `height ≥ 1` and 256 siblings when `height = 0`, and the
bottom-up recomputation from the level-0 node the walk reached, combining for
every `h` below the number of returned siblings with the `h`-th sibling (on the
left when bit `h` of `index` is 1, on the right otherwise), yields `root`. -/
theorem C1_getProof_verifies (hash : Bytes → Bytes) (s : bridgeService) (index : Nat)
    (root : Bytes) (dbTx : Option Tx) (st : SvcState)
    (hi : index < 2 ^ 32) (hh2 : s.height < 256)
    (hs : StoreAll (NodeOK hash) s.storage) (hc : CacheAll (NodeOK hash) st.cache)
    (siblings : List Bytes) (st1 : SvcState)
    (hok : getProof s index root dbTx st = (Outcome.ok siblings, st1)) :
    ∃ leaf, getProofWalk s index root dbTx st = (Outcome.ok (siblings, leaf), st1) ∧
      siblings.length = (if s.height = 0 then 256 else s.height) ∧
      recomputeRoot hash index 0 leaf siblings = root := by
  obtain ⟨leaf, hw⟩ := getProof_ok_iff_walk s index root dbTx st siblings st1 hok
  have hl := getProofWalk_ok s index root dbTx st siblings leaf st1 hw
  obtain ⟨added, ha, hlen, hrec, _⟩ :=
    getProofLoop_verifies hash s index hi dbTx hs (proofLevels s.height) root [] st hc _ _ _ hl
  simp only [List.nil_append] at ha
  have hsib : siblings = added.reverse := by
    rw [← ha]; simp
  refine ⟨leaf, hw, ?_, ?_⟩
  · rw [hsib, List.length_reverse, hlen, proofLevels_wrap _ hh2]
  · rw [hsib]; exact hrec

theorem exampleStorage_nodeOK (ready : Bool) :
    StoreAll (NodeOK (fun _ => zeroHash)) (exampleService ready).storage := by
  intro key dbTx value h
  simp only [exampleService, exampleStorage] at h
  split at h
  · rename_i hk
    simp only [Except.ok.injEq] at h
    exact ⟨zeroHash, zeroHash, h.symm, by simp [zeroHash], by simp [zeroHash], hk.symm⟩
  · simp at h

theorem C1_getProof_verifies_witness :
    ∃ leaf, getProofWalk (exampleService true) 1 zeroHash none emptyState =
        (Outcome.ok ([zeroHash, zeroHash], leaf),
          (getProof (exampleService true) 1 zeroHash none emptyState).2) ∧
      [zeroHash, zeroHash].length =
        (if (exampleService true).height = 0 then 256 else (exampleService true).height) ∧
      recomputeRoot (fun _ => zeroHash) 1 0 leaf [zeroHash, zeroHash] = zeroHash :=
  C1_getProof_verifies (fun _ => zeroHash) (exampleService true) 1 zeroHash none emptyState
    (by norm_num) (by decide) (exampleStorage_nodeOK true)
    (by intro e he; simp [emptyState] at he) [zeroHash, zeroHash] _ (by rfl)

theorem levelOf_levelWord (m : Nat) (t : Bytes) (hm : m < 65536) :
    levelOf (levelWord m ++ t) = m := by
  simp only [levelOf, levelWord, List.cons_append, List.getD_cons_zero, List.getD_cons_succ]
  omega

theorem levelStorage_nodeOK : StoreAll (NodeOK levelHash) levelService.storage := by
  intro key dbTx value h
  simp only [levelService, levelStorage] at h
  split at h
  · rename_i hk
    cases h
    obtain ⟨hkey, hpos⟩ := hk
    refine ⟨_, _, rfl, by simp [levelWord], by simp [zeroHash], ?_⟩
    have hlt : levelOf key < 65536 := by
      have h0 : key.getD 0 0 = levelOf key / 256 % 256 := by
        conv_lhs => rw [hkey]
        simp [levelWord]
      have h1 : key.getD 1 0 = levelOf key % 256 := by
        conv_lhs => rw [hkey]
        simp [levelWord]
      have : levelOf key = key.getD 0 0 * 256 + key.getD 1 0 := rfl
      omega
    rw [levelHash, levelOf_levelWord _ _ (by omega)]
    conv_rhs => rw [hkey]
    congr 1
    omega
  · cases h

set_option maxRecDepth 1000000 in
/-- C1, counterexample: a service of height 0 over a node store in which every
stored key is the hash of its pair.  `getProof 0 root` succeeds with 256
siblings; the recomputation over `h = 0 .. height-1`, here over no sibling at
all, stops on the level-0 node the walk reached, which is not `root`, whereas
the recomputation over the 256 returned siblings yields `root`. -/
theorem C1_getProof_verifies_counterexample :
    levelService.height = 0 ∧
    StoreAll (NodeOK levelHash) levelService.storage ∧
    CacheAll (NodeOK levelHash) emptyState.cache ∧
    (getProof levelService 0 (levelWord 256) none emptyState).1 =
      Outcome.ok (List.replicate 256 zeroHash) ∧
    (getProofWalk levelService 0 (levelWord 256) none emptyState).1 =
      Outcome.ok (List.replicate 256 zeroHash, levelWord 0) ∧
    (List.replicate 256 zeroHash).length ≠ levelService.height ∧
    recomputeRoot levelHash 0 0 (levelWord 0)
      ((List.replicate 256 zeroHash).take levelService.height) ≠ levelWord 256 ∧
    recomputeRoot levelHash 0 0 (levelWord 0) (List.replicate 256 zeroHash) = levelWord 256 :=
  ⟨rfl, levelStorage_nodeOK, by intro e he; simp [emptyState] at he, by rfl, by rfl,
    by decide, by decide, by rfl⟩

/-- C2: whenever the stored deposit for `(depositCnt, networkID)` is not ready
for claim, `GetClaimProof` fails with `ErrDepositNotSynced` (an error return
carries no exit root and no proofs); the only storage call made is
`GetDeposit`, and the node cache is left as it was: no exit root row and no
Merkle node is read. -/
theorem C2_not_ready_fails (s : bridgeService) (depositCnt networkID : Nat) (dbTx : Option Tx)
    (st : SvcState) (deposit : Deposit)
    (hd : s.storage.GetDeposit depositCnt networkID dbTx = Except.ok deposit)
    (hr : deposit.ReadyForClaim = false) :
    GetClaimProof s depositCnt networkID dbTx st =
      (Outcome.error Err.depositNotSynced,
        { cache := st.cache,
          reads := st.reads ++ [StorageRead.GetDeposit depositCnt networkID dbTx] }) := by
  unfold GetClaimProof
  simp only [hd, hr, Bool.not_false, if_true]

theorem C2_not_ready_fails_witness :
    GetClaimProof (exampleService false) 0 0 none emptyState =
      (Outcome.error Err.depositNotSynced,
        { cache := emptyState.cache,
          reads := emptyState.reads ++ [StorageRead.GetDeposit 0 0 none] }) :=
  C2_not_ready_fails (exampleService false) 0 0 none emptyState
    { Id := 1, LeafType := 0, OriginalNetwork := 0, OriginalAddress := [], Amount := 10,
      DestinationNetwork := 1, DestinationAddress := [], DepositCount := 0, BlockID := 1,
      BlockNumber := 1, NetworkID := 0, TxHash := [], Metadata := [], ReadyForClaim := false }
    (by rfl) (by rfl)

theorem getProofLoop_length (s : bridgeService) (index : Nat) (dbTx : Option Tx) :
    ∀ (n : Nat) (cur : Bytes) (sibs : List Bytes) (st : SvcState) (sibs1 : List Bytes)
      (leaf : Bytes) (st1 : SvcState),
      getProofLoop s index dbTx n cur sibs st = (Outcome.ok (sibs1, leaf), st1) →
      sibs1.length = sibs.length + n := by
  intro n
  induction n with
  | zero =>
    intro cur sibs st sibs1 leaf st1 h
    simp only [getProofLoop, Prod.mk.injEq, Outcome.ok.injEq] at h
    rw [← h.1.1]; rfl
  | succ h ih =>
    intro cur sibs st sibs1 leaf st1 hrun
    unfold getProofLoop at hrun
    cases hg : getNode s cur dbTx st with
    | mk res stn =>
      rw [hg] at hrun
      cases res with
      | error e => simp at hrun
      | panic p => simp at hrun
      | ok lr =>
        obtain ⟨left, right⟩ := lr
        simp only at hrun
        split at hrun
        · have := ih _ _ _ _ _ _ hrun
          simp at this; omega
        · have := ih _ _ _ _ _ _ hrun
          simp at this; omega

theorem getProof_length (s : bridgeService) (index : Nat) (root : Bytes) (dbTx : Option Tx)
    (st : SvcState) (siblings : List Bytes) (st1 : SvcState)
    (h : getProof s index root dbTx st = (Outcome.ok siblings, st1)) :
    siblings.length = proofLevels s.height := by
  obtain ⟨leaf, hw⟩ := getProof_ok_iff_walk s index root dbTx st siblings st1 h
  have hl := getProofWalk_ok s index root dbTx st siblings leaf st1 hw
  have := getProofLoop_length s index dbTx _ _ _ _ _ _ _ hl
  simpa using this

/-- With a cache and a storage whose node values all have two elements, and a
storage whose `Get` never fails, the walk of `getProof` succeeds. -/
theorem getProofLoop_total (s : bridgeService) (index : Nat) (dbTx : Option Tx)
    (hs : ∀ key tx, ∃ a b, s.storage.Get key tx = Except.ok [a, b]) :
    ∀ (n : Nat) (cur : Bytes) (sibs : List Bytes) (st : SvcState),
      CacheAll TwoElems st.cache →
      ∃ sibs1 leaf st1,
        getProofLoop s index dbTx n cur sibs st = (Outcome.ok (sibs1, leaf), st1) ∧
        CacheAll TwoElems st1.cache := by
  have hstore : StoreAll TwoElems s.storage := by
    intro key tx value h
    obtain ⟨a, b, hab⟩ := hs key tx
    rw [hab] at h
    simp only [Except.ok.injEq] at h
    exact ⟨a, b, h.symm⟩
  intro n
  induction n with
  | zero =>
    intro cur sibs st hc
    exact ⟨sibs, cur, st, rfl, hc⟩
  | succ h ih =>
    intro cur sibs st hc
    obtain ⟨hc1, _, hpanic, herr⟩ := getNode_spec (P := TwoElems) s cur dbTx st hc hstore
    unfold getProofLoop
    cases hg : getNode s cur dbTx st with
    | mk res stn =>
      rw [hg] at hc1 hpanic herr
      cases res with
      | error e =>
        obtain ⟨e0, he0⟩ := herr e rfl
        obtain ⟨a, b, hab⟩ := hs cur dbTx
        rw [hab] at he0
        simp at he0
      | panic p =>
        obtain ⟨value, ⟨a, b, hv⟩, hcp⟩ := hpanic p rfl
        rw [hv] at hcp
        simp [getNodeCopy] at hcp
      | ok lr =>
        obtain ⟨left, right⟩ := lr
        simp only
        split
        · exact ih _ _ _ hc1
        · exact ih _ _ _ hc1

theorem getProof_total (s : bridgeService) (index : Nat) (root : Bytes) (dbTx : Option Tx)
    (st : SvcState) (hs : ∀ key tx, ∃ a b, s.storage.Get key tx = Except.ok [a, b])
    (hc : CacheAll TwoElems st.cache) :
    ∃ siblings st1, getProof s index root dbTx st = (Outcome.ok siblings, st1) := by
  obtain ⟨sibs1, leaf, st1, hl, _⟩ :=
    getProofLoop_total s index dbTx hs (proofLevels s.height) root [] st hc
  refine ⟨sibs1.reverse, st1, ?_⟩
  unfold getProof getProofWalk
  rw [hl]

theorem proofLevels_pos (height : Nat) : 0 < proofLevels height := by
  unfold proofLevels
  omega

theorem emptyProof_eq : emptyProof = List.replicate 32 (List.replicate 32 0) := by
  decide

/-- C7: for source network 0 and a nil `dbTx`, whenever `GetDeposit` returns a
deposit (whatever its `ReadyForClaim` flag), `GetL1ExitRootByGER` returns an
exit root carrying two exit roots and every node lookup (storage and cache)
gives a two-element value, `GetClaimProofbyGER` returns no error, together
with that exit root, a non-nil Merkle proof and a non-nil rollup proof. -/
theorem C7_byGER_succeeds (s : bridgeService) (depositCnt : Nat) (GER : Bytes) (st : SvcState)
    (deposit : Deposit) (g : GlobalExitRoot)
    (hd : s.storage.GetDeposit depositCnt 0 none = Except.ok deposit)
    (hg : s.storage.GetL1ExitRootByGER GER none = Except.ok g)
    (hlen : g.ExitRoots.length = 2)
    (hnode : ∀ key tx, ∃ a b, s.storage.Get key tx = Except.ok [a, b])
    (hcache : CacheAll TwoElems st.cache) :
    ∃ merkleProof rollupProof st1,
      GetClaimProofbyGER s depositCnt 0 GER none st =
        (Outcome.ok (g, merkleProof, rollupProof), st1) ∧
      merkleProof ≠ [] ∧ rollupProof ≠ [] := by
  obtain ⟨r0, r1, hroots⟩ : ∃ r0 r1, g.ExitRoots = [r0, r1] := by
    match hE : g.ExitRoots, hlen with
    | [a, b], _ => exact ⟨a, b, rfl⟩
  have hroot : exitRootAt g 0 = Outcome.ok r0 := by
    simp [exitRootAt, hroots]
  obtain ⟨siblings, st1, hp⟩ := getProof_total s depositCnt r0 none
    { cache := st.cache,
      reads := st.reads ++ [StorageRead.GetDeposit depositCnt 0 none] ++
        [StorageRead.GetL1ExitRootByGER GER none] } hnode hcache
  refine ⟨siblings, emptyProof, st1, ?_, ?_, ?_⟩
  · simp only [GetClaimProofbyGER, hd, claimProofByGERTail, hg, claimProofs, if_true, hroot]
    rw [hp]
  · have hl := getProof_length s depositCnt r0 none _ siblings st1 hp
    have hpos := proofLevels_pos s.height
    intro hnil
    rw [hnil] at hl
    simp at hl
    omega
  · rw [emptyProof_eq]
    simp

theorem C7_byGER_succeeds_witness :
    ∃ merkleProof rollupProof st1,
      GetClaimProofbyGER mockService 0 0 zeroHash none emptyState =
        (Outcome.ok
          ({ BlockID := 0, BlockNumber := 0, ExitRoots := [zeroHash, zeroHash],
             GlobalExitRoot := [], NetworkID := 0, ID := 0 }, merkleProof, rollupProof), st1) ∧
      merkleProof ≠ [] ∧ rollupProof ≠ [] :=
  C7_byGER_succeeds mockService 0 zeroHash emptyState
    { Id := 0, LeafType := 0, OriginalNetwork := 0, OriginalAddress := [], Amount := 0,
      DestinationNetwork := 0, DestinationAddress := [], DepositCount := 0, BlockID := 0,
      BlockNumber := 0, NetworkID := 0, TxHash := [], Metadata := [], ReadyForClaim := false }
    _ (by rfl) (by rfl) (by rfl) (fun _ _ => ⟨[], [], rfl⟩)
    (by intro e he; simp [emptyState] at he)

/-- C8: for `networkID = 0`, a deposit that is ready for claim and a service
whose height is any `uint8` value, whenever `GetClaimProof` succeeds the
returned exit root is the one the storage gives as latest exit root for
`(0, deposit.DestinationNetwork)`, the Merkle proof is what `getProof` returns
for `depositCnt` and `ExitRoots[0]` and has exactly `height` entries when
`height ≥ 1` and 256 entries when `height = 0`, and the rollup proof is exactly
32 entries of 32 zero bytes each. -/
theorem C8_l1_proof_composition (s : bridgeService) (depositCnt : Nat) (dbTx : Option Tx)
    (st : SvcState) (deposit : Deposit)
    (hh2 : s.height < 256)
    (hd : s.storage.GetDeposit depositCnt 0 dbTx = Except.ok deposit)
    (hr : deposit.ReadyForClaim = true)
    (ger : GlobalExitRoot) (merkleProof rollupProof : List Bytes) (st1 : SvcState)
    (hok : GetClaimProof s depositCnt 0 dbTx st =
      (Outcome.ok (ger, merkleProof, rollupProof), st1)) :
    s.storage.GetLatestExitRoot 0 deposit.DestinationNetwork dbTx = Except.ok ger ∧
    (∃ root, ger.ExitRoots.get? 0 = some root ∧
      getProof s depositCnt root dbTx
        { cache := st.cache,
          reads := st.reads ++ [StorageRead.GetDeposit depositCnt 0 dbTx] ++
            [StorageRead.GetLatestExitRoot 0 deposit.DestinationNetwork dbTx] } =
        (Outcome.ok merkleProof, st1)) ∧
    merkleProof.length = (if s.height = 0 then 256 else s.height) ∧
    rollupProof = List.replicate 32 (List.replicate 32 0) := by
  simp only [GetClaimProof, hd, hr, Bool.not_true] at hok
  cases hl : s.storage.GetLatestExitRoot 0 deposit.DestinationNetwork dbTx with
  | error e => rw [hl] at hok; simp at hok
  | ok g =>
    rw [hl] at hok
    simp only [claimProofs, if_true, Bool.false_eq_true, if_false] at hok
    cases hroot : exitRootAt g 0 with
    | error e => rw [hroot] at hok; simp at hok
    | panic p => rw [hroot] at hok; simp at hok
    | ok root =>
      rw [hroot] at hok
      simp only at hok
      cases hp : getProof s depositCnt root dbTx
          { cache := st.cache,
            reads := st.reads ++ [StorageRead.GetDeposit depositCnt 0 dbTx] ++
              [StorageRead.GetLatestExitRoot 0 deposit.DestinationNetwork dbTx] } with
      | mk res stp =>
        rw [hp] at hok
        cases res with
        | error e => simp at hok
        | panic p => simp at hok
        | ok mp =>
          simp only [Prod.mk.injEq, Outcome.ok.injEq] at hok
          obtain ⟨⟨hg, hmp, hrp⟩, hst⟩ := hok
          subst hg hmp hst
          have hget : g.ExitRoots.get? 0 = some root := by
            unfold exitRootAt at hroot
            cases hq : g.ExitRoots.get? 0 with
            | none => rw [hq] at hroot; simp at hroot
            | some r => rw [hq] at hroot; simp at hroot; rw [hroot]
          refine ⟨rfl, ⟨root, hget, hp⟩, ?_, ?_⟩
          · rw [getProof_length s depositCnt root dbTx _ mp stp hp, proofLevels_wrap _ hh2]
          · rw [← hrp, emptyProof_eq]

theorem C8_l1_proof_composition_witness :
    (exampleService true).storage.GetLatestExitRoot 0 1 none =
      Except.ok { BlockID := 1, BlockNumber := 1, ExitRoots := [zeroHash, zeroHash],
                  GlobalExitRoot := zeroHash, NetworkID := 0, ID := 1 } ∧
    (∃ root, ([zeroHash, zeroHash] : List Bytes).get? 0 = some root ∧
      getProof (exampleService true) 0 root none
        { cache := emptyState.cache,
          reads := emptyState.reads ++ [StorageRead.GetDeposit 0 0 none] ++
            [StorageRead.GetLatestExitRoot 0 1 none] } =
        (Outcome.ok [zeroHash, zeroHash],
          (GetClaimProof (exampleService true) 0 0 none emptyState).2)) ∧
    ([zeroHash, zeroHash] : List Bytes).length =
      (if (exampleService true).height = 0 then 256 else (exampleService true).height) ∧
    emptyProof = List.replicate 32 (List.replicate 32 0) :=
  C8_l1_proof_composition (exampleService true) 0 none emptyState
    { Id := 1, LeafType := 0, OriginalNetwork := 0, OriginalAddress := [], Amount := 10,
      DestinationNetwork := 1, DestinationAddress := [], DepositCount := 0, BlockID := 1,
      BlockNumber := 1, NetworkID := 0, TxHash := [], Metadata := [], ReadyForClaim := true }
    (by decide) (by rfl) (by rfl)
    { BlockID := 1, BlockNumber := 1, ExitRoots := [zeroHash, zeroHash],
      GlobalExitRoot := zeroHash, NetworkID := 0, ID := 1 }
    [zeroHash, zeroHash] emptyProof _ (by rfl)

set_option maxRecDepth 1000000 in
/-- C8, counterexample: with height 0 and the ready deposit `(0, 0)`,
`GetClaimProof` succeeds for `networkID = 0` and its Merkle proof has 256
entries, not `height = 0` entries. -/
theorem C8_l1_proof_composition_counterexample :
    heightZeroService.height = 0 ∧
    (∃ deposit, heightZeroService.storage.GetDeposit 0 0 none = Except.ok deposit ∧
      deposit.ReadyForClaim = true) ∧
    (GetClaimProof heightZeroService 0 0 none emptyState).1 =
      Outcome.ok
        ({ BlockID := 1, BlockNumber := 1, ExitRoots := [zeroHash, zeroHash],
           GlobalExitRoot := zeroHash, NetworkID := 0, ID := 1 },
         List.replicate 256 zeroHash, emptyProof) ∧
    (List.replicate 256 zeroHash).length ≠ heightZeroService.height :=
  ⟨rfl, ⟨_, rfl, rfl⟩, by rfl, by decide⟩

theorem SameOutcome_refl {α : Type} (a : Outcome α) : SameOutcome a a := by
  cases a <;> simp [SameOutcome]

theorem getNode_indep (s t : bridgeService) (hS : SameNodes s t) (key : Bytes)
    (dbTx : Option Tx) (st st' : SvcState) (hc : st.cache = st'.cache) :
    (getNode s key dbTx st).1 = (getNode t key dbTx st').1 ∧
    (getNode s key dbTx st).2.cache = (getNode t key dbTx st').2.cache := by
  obtain ⟨hGet, _, _, _⟩ := hS
  unfold getNode
  rw [hGet, ← hc]
  cases hg : st.cache.Get key with
  | mk hit c1 =>
    cases hit with
    | some v => exact ⟨rfl, rfl⟩
    | none =>
      cases hs : s.storage.Get key dbTx with
      | error e => exact ⟨rfl, rfl⟩
      | ok v => exact ⟨rfl, rfl⟩

theorem getProofLoop_indep (s t : bridgeService) (hS : SameNodes s t) (index : Nat)
    (dbTx : Option Tx) :
    ∀ (n : Nat) (cur : Bytes) (sibs : List Bytes) (st st' : SvcState),
      st.cache = st'.cache →
      (getProofLoop s index dbTx n cur sibs st).1 = (getProofLoop t index dbTx n cur sibs st').1 ∧
      (getProofLoop s index dbTx n cur sibs st).2.cache =
        (getProofLoop t index dbTx n cur sibs st').2.cache := by
  intro n
  induction n with
  | zero =>
    intro cur sibs st st' hc
    exact ⟨rfl, hc⟩
  | succ h ih =>
    intro cur sibs st st' hc
    obtain ⟨h1, h2⟩ := getNode_indep s t hS cur dbTx st st' hc
    unfold getProofLoop
    cases hg : getNode s cur dbTx st with
    | mk res stn =>
      cases hg' : getNode t cur dbTx st' with
      | mk res' stn' =>
        rw [hg, hg'] at h1 h2
        simp only at h1 h2
        subst h1
        cases res with
        | error e => exact ⟨rfl, h2⟩
        | panic p => exact ⟨rfl, h2⟩
        | ok lr =>
          obtain ⟨left, right⟩ := lr
          simp only
          split
          · exact ih _ _ _ _ h2
          · exact ih _ _ _ _ h2

theorem getProof_indep (s t : bridgeService) (hS : SameNodes s t) (index : Nat) (root : Bytes)
    (dbTx : Option Tx) (st st' : SvcState) (hc : st.cache = st'.cache) :
    (getProof s index root dbTx st).1 = (getProof t index root dbTx st').1 ∧
    (getProof s index root dbTx st).2.cache = (getProof t index root dbTx st').2.cache := by
  obtain ⟨h1, h2⟩ := getProofLoop_indep s t hS index dbTx (proofLevels s.height) root [] st st' hc
  unfold getProof getProofWalk
  rw [hS.2.2.1]
  cases hl : getProofLoop s index dbTx (proofLevels s.height) root [] st with
  | mk res stl =>
    cases hl' : getProofLoop t index dbTx (proofLevels s.height) root [] st' with
    | mk res' stl' =>
      rw [hl, hl'] at h1 h2
      simp only at h1 h2
      subst h1
      cases res with
      | error e => exact ⟨rfl, h2⟩
      | panic p => exact ⟨rfl, h2⟩
      | ok sl => exact ⟨rfl, h2⟩

theorem getRollupExitProof_indep (s t : bridgeService) (hS : SameNodes s t) (rollupIndex : Nat)
    (root : Bytes) (dbTx : Option Tx) (st st' : SvcState) (hc : st.cache = st'.cache) :
    (getRollupExitProof s rollupIndex root dbTx st).1 =
      (getRollupExitProof t rollupIndex root dbTx st').1 ∧
    (getRollupExitProof s rollupIndex root dbTx st).2.cache =
      (getRollupExitProof t rollupIndex root dbTx st').2.cache := by
  obtain ⟨_, hL, hH, hC⟩ := hS
  unfold getRollupExitProof
  rw [hL, hH, hC]
  cases hl : s.storage.GetRollupExitLeavesByRoot root dbTx with
  | error e => exact ⟨rfl, hc⟩
  | ok leaves =>
    simp only
    cases hcs : s.ComputeSiblings rollupIndex (List.map (fun l => copy32 l.Leaf) leaves) s.height with
    | error e => exact ⟨rfl, hc⟩
    | ok sr =>
      obtain ⟨siblings, r⟩ := sr
      simp only
      split
      · exact ⟨rfl, hc⟩
      · split
        · exact ⟨rfl, hc⟩
        · split
          · exact ⟨rfl, hc⟩
          · exact ⟨rfl, hc⟩

theorem claimProofs_same (s t : bridgeService) (hS : SameNodes s t) (depositCnt networkID : Nat)
    (g : GlobalExitRoot) (dbTx : Option Tx) (e1 e2 e3 f1 f2 f3 : String) (st st' : SvcState)
    (hc : st.cache = st'.cache) :
    SameOutcome (claimProofs s depositCnt networkID g dbTx e1 e2 e3 st).1
      (claimProofs t depositCnt networkID g dbTx f1 f2 f3 st').1 ∧
    (claimProofs s depositCnt networkID g dbTx e1 e2 e3 st).2.cache =
      (claimProofs t depositCnt networkID g dbTx f1 f2 f3 st').2.cache := by
  unfold claimProofs
  by_cases hn : networkID = 0
  · simp only [hn, if_true]
    cases hr : exitRootAt g 0 with
    | error e => exact ⟨trivial, hc⟩
    | panic p => exact ⟨rfl, hc⟩
    | ok root =>
      obtain ⟨h1, h2⟩ := getProof_indep s t hS depositCnt root dbTx st st' hc
      simp only
      cases hp : getProof s depositCnt root dbTx st with
      | mk res stp =>
        cases hp' : getProof t depositCnt root dbTx st' with
        | mk res' stp' =>
          rw [hp, hp'] at h1 h2
          simp only at h1 h2
          subst h1
          cases res with
          | error e => exact ⟨trivial, h2⟩
          | panic p => exact ⟨rfl, h2⟩
          | ok mp => exact ⟨rfl, h2⟩
  · simp only [hn, if_false]
    cases hr : exitRootAt g 1 with
    | error e => exact ⟨trivial, hc⟩
    | panic p => exact ⟨rfl, hc⟩
    | ok root =>
      obtain ⟨h1, h2⟩ := getRollupExitProof_indep s t hS
        ((networkID + 2 ^ 32 - 1) % 2 ^ 32) root dbTx st st' hc
      simp only
      cases hq : getRollupExitProof s ((networkID + 2 ^ 32 - 1) % 2 ^ 32) root dbTx st with
      | mk res stq =>
        cases hq' : getRollupExitProof t ((networkID + 2 ^ 32 - 1) % 2 ^ 32) root dbTx st' with
        | mk res' stq' =>
          rw [hq, hq'] at h1 h2
          simp only at h1 h2
          subst h1
          cases res with
          | error e => exact ⟨trivial, h2⟩
          | panic p => exact ⟨rfl, h2⟩
          | ok rl =>
            obtain ⟨rollupProof, rollupLeaf⟩ := rl
            obtain ⟨h3, h4⟩ := getProof_indep s t hS depositCnt rollupLeaf dbTx stq stq' h2
            simp only
            cases hp : getProof s depositCnt rollupLeaf dbTx stq with
            | mk res2 stp =>
              cases hp' : getProof t depositCnt rollupLeaf dbTx stq' with
              | mk res2' stp' =>
                rw [hp, hp'] at h3 h4
                simp only at h3 h4
                subst h3
                cases res2 with
                | error e => exact ⟨trivial, h4⟩
                | panic p => exact ⟨rfl, h4⟩
                | ok mp => exact ⟨rfl, h4⟩

theorem byGER_eq_tail (s : bridgeService) (depositCnt networkID : Nat) (GER : Bytes)
    (dbTx : Option Tx) (st : SvcState) (deposit : Deposit)
    (hd : s.storage.GetDeposit depositCnt networkID dbTx = Except.ok deposit) :
    ∃ st0 : SvcState, st0.cache = st.cache ∧
      GetClaimProofbyGER s depositCnt networkID GER dbTx st =
        claimProofByGERTail s depositCnt networkID GER dbTx st0 := by
  cases dbTx with
  | none =>
    refine ⟨{ st with reads := st.reads ++ [StorageRead.GetDeposit depositCnt networkID none] },
      rfl, ?_⟩
    simp only [GetClaimProofbyGER, hd]
  | some tx => exact ⟨st, rfl, rfl⟩

theorem byGER_same (s t : bridgeService) (hS : SameNodes s t) (depositCnt networkID : Nat)
    (GER : Bytes) (dbTx : Option Tx) (st : SvcState) (deposit depositT : Deposit)
    (row : GlobalExitRoot)
    (hd : s.storage.GetDeposit depositCnt networkID dbTx = Except.ok deposit)
    (hdT : t.storage.GetDeposit depositCnt networkID dbTx = Except.ok depositT)
    (hrT : depositT.ReadyForClaim = true)
    (h2 : t.storage.GetLatestExitRoot networkID depositT.DestinationNetwork dbTx = Except.ok row)
    (hg : s.storage.GetL1ExitRootByGER GER dbTx = Except.ok row) :
    SameOutcome (GetClaimProofbyGER s depositCnt networkID GER dbTx st).1
      (GetClaimProof t depositCnt networkID dbTx st).1 ∧
    (GetClaimProofbyGER s depositCnt networkID GER dbTx st).2.cache =
      (GetClaimProof t depositCnt networkID dbTx st).2.cache := by
  obtain ⟨st0, hc0, heq⟩ := byGER_eq_tail s depositCnt networkID GER dbTx st deposit hd
  rw [heq]
  simp only [claimProofByGERTail, hg, GetClaimProof, hdT, hrT, Bool.not_true, h2,
    Bool.false_eq_true, if_false]
  exact claimProofs_same s t hS depositCnt networkID row dbTx _ _ _ _ _ _ _ _ (by simp [hc0])

/-- C6 (as stated, refuted): on a storage whose latest exit root is the row of
the pinned GER, for a deposit that is not ready for claim, `GetClaimProof`
fails with `ErrDepositNotSynced` while `GetClaimProofbyGER` returns the exit
root and the proofs. -/
theorem C6_byGER_pins_counterexample :
    (exampleService false).storage.GetLatestExitRoot 0 1 none =
      (exampleService false).storage.GetL1ExitRootByGER zeroHash none ∧
    (GetClaimProof (exampleService false) 0 0 none emptyState).1 =
      Outcome.error Err.depositNotSynced ∧
    (GetClaimProofbyGER (exampleService false) 0 0 zeroHash none emptyState).1 =
      Outcome.ok
        ({ BlockID := 1, BlockNumber := 1, ExitRoots := [zeroHash, zeroHash],
           GlobalExitRoot := zeroHash, NetworkID := 0, ID := 1 },
          [zeroHash, zeroHash], emptyProof) ∧
    ¬ SameOutcome (GetClaimProofbyGER (exampleService false) 0 0 zeroHash none emptyState).1
        (GetClaimProof (exampleService false) 0 0 none emptyState).1 := by
  have h1 : (GetClaimProof (exampleService false) 0 0 none emptyState).1 =
      Outcome.error Err.depositNotSynced := by rfl
  have h2 : (GetClaimProofbyGER (exampleService false) 0 0 zeroHash none emptyState).1 =
      Outcome.ok
        ({ BlockID := 1, BlockNumber := 1, ExitRoots := [zeroHash, zeroHash],
           GlobalExitRoot := zeroHash, NetworkID := 0, ID := 1 },
          [zeroHash, zeroHash], emptyProof) := by rfl
  refine ⟨rfl, h1, h2, ?_⟩
  rw [h1, h2]
  simp [SameOutcome]

/-- C6 (amended): `GetClaimProofbyGER` is `GetClaimProof` with the GER pinned
and without the ready-for-claim check.  For every storage state, deposit
count, source network, `dbTx` and GER `g` whose deposit is found: when the
step-2 lookup of `GetClaimProof` yields the row of `g`,
`GetClaimProofbyGER` gives the result `GetClaimProof` gives on the same
storage with the deposit marked ready (the same exit root and proofs, an error
in both, or the same panic; only the wording of the error differs) and leaves
the same cache; so it agrees with `GetClaimProof` itself for a deposit that is
ready for claim. -/
theorem C6_byGER_pins (s : bridgeService) (depositCnt networkID : Nat) (GER : Bytes)
    (dbTx : Option Tx) (st : SvcState) (deposit : Deposit) (row : GlobalExitRoot)
    (hd : s.storage.GetDeposit depositCnt networkID dbTx = Except.ok deposit)
    (h2 : s.storage.GetLatestExitRoot networkID deposit.DestinationNetwork dbTx = Except.ok row)
    (hg : s.storage.GetL1ExitRootByGER GER dbTx = Except.ok row) :
    (SameOutcome (GetClaimProofbyGER s depositCnt networkID GER dbTx st).1
        (GetClaimProof (markReady s) depositCnt networkID dbTx st).1 ∧
      (GetClaimProofbyGER s depositCnt networkID GER dbTx st).2.cache =
        (GetClaimProof (markReady s) depositCnt networkID dbTx st).2.cache) ∧
    (deposit.ReadyForClaim = true →
      SameOutcome (GetClaimProofbyGER s depositCnt networkID GER dbTx st).1
        (GetClaimProof s depositCnt networkID dbTx st).1 ∧
      (GetClaimProofbyGER s depositCnt networkID GER dbTx st).2.cache =
        (GetClaimProof s depositCnt networkID dbTx st).2.cache) := by
  refine ⟨?_, ?_⟩
  · refine byGER_same s (markReady s) ⟨rfl, rfl, rfl, rfl⟩ depositCnt networkID GER dbTx st
      deposit { deposit with ReadyForClaim := true } row hd ?_ rfl h2 hg
    simp [markReady, hd]
  · intro hr
    exact byGER_same s s ⟨rfl, rfl, rfl, rfl⟩ depositCnt networkID GER dbTx st
      deposit deposit row hd hd hr h2 hg

theorem C6_byGER_pins_witness :
    (SameOutcome (GetClaimProofbyGER (exampleService true) 0 0 zeroHash none emptyState).1
        (GetClaimProof (markReady (exampleService true)) 0 0 none emptyState).1 ∧
      (GetClaimProofbyGER (exampleService true) 0 0 zeroHash none emptyState).2.cache =
        (GetClaimProof (markReady (exampleService true)) 0 0 none emptyState).2.cache) ∧
    (true = true →
      SameOutcome (GetClaimProofbyGER (exampleService true) 0 0 zeroHash none emptyState).1
        (GetClaimProof (exampleService true) 0 0 none emptyState).1 ∧
      (GetClaimProofbyGER (exampleService true) 0 0 zeroHash none emptyState).2.cache =
        (GetClaimProof (exampleService true) 0 0 none emptyState).2.cache) :=
  C6_byGER_pins (exampleService true) 0 0 zeroHash none emptyState
    { Id := 1, LeafType := 0, OriginalNetwork := 0, OriginalAddress := [], Amount := 10,
      DestinationNetwork := 1, DestinationAddress := [], DepositCount := 0, BlockID := 1,
      BlockNumber := 1, NetworkID := 0, TxHash := [], Metadata := [], ReadyForClaim := true }
    { BlockID := 1, BlockNumber := 1, ExitRoots := [zeroHash, zeroHash],
      GlobalExitRoot := zeroHash, NetworkID := 0, ID := 1 }
    (by rfl) (by rfl) (by rfl)

/-! ## Theorems: synchronizer -/

/-- The last branch of `processGlobalExitRoot`, on a block whose only event is
a global exit root carrying one exit root, which no handler of `etherman`
builds.  Every collaborator call succeeds, the transaction of the block is
opened, `processBlockRange` returns the wrong-length error, and neither
`Rollback` nor `Commit` is ever called on the transaction. -/
theorem processBlockRange_wrong_length :
    (processBlockRange (okEnv true) exampleSync [exampleBlock [exampleGER [zeroHash]]]
        (exampleOrder [{ Name := GlobalExitRootsOrder, Pos := 0 }]) emptyWorld).1 =
      Outcome.error (Err.msg "networkID: %d, error exitRoots have a wrong length. Length: %d") ∧
    (processBlockRange (okEnv true) exampleSync [exampleBlock [exampleGER [zeroHash]]]
        (exampleOrder [{ Name := GlobalExitRootsOrder, Pos := 0 }]) emptyWorld).2.trace =
      [Action.BeginDBTransaction,
       Action.AddBlock (exampleBlock [exampleGER [zeroHash]]) 0,
       Action.processGlobalExitRoot (exampleGER [zeroHash]) 1 0] ∧
    Action.Rollback 0 ∉
      (processBlockRange (okEnv true) exampleSync [exampleBlock [exampleGER [zeroHash]]]
        (exampleOrder [{ Name := GlobalExitRootsOrder, Pos := 0 }]) emptyWorld).2.trace := by
  refine ⟨by rfl, by rfl, ?_⟩
  have h : (processBlockRange (okEnv true) exampleSync [exampleBlock [exampleGER [zeroHash]]]
        (exampleOrder [{ Name := GlobalExitRootsOrder, Pos := 0 }]) emptyWorld).2.trace =
      [Action.BeginDBTransaction,
       Action.AddBlock (exampleBlock [exampleGER [zeroHash]]) 0,
       Action.processGlobalExitRoot (exampleGER [zeroHash]) 1 0] := by rfl
  rw [h]
  simp

theorem steps_step {σ : Type} (w : World σ) (a : Action) (db : σ) :
    (w.step a db).steps = w.steps ++ (a.toStep).toList := by
  simp only [World.steps, World.step, List.filterMap_append]
  cases h : a.toStep <;> simp [List.filterMap, h]

theorem processClaim_ok {σ : Type} (env : SyncEnv σ) (hs : AllSucceed env)
    (s : ClientSynchronizer) (claim : Claim) (blockID : Nat) (dbTx : Tx) (w : World σ) :
    (processClaim env s claim blockID dbTx w).1 = none ∧
    (processClaim env s claim blockID dbTx w).2.steps = w.steps ++ [Step.claim claim] := by
  unfold processClaim
  simp only
  have h := hs.addClaim { claim with BlockID := blockID, NetworkID := s.networkID } dbTx
    (w.step (Action.processClaim claim blockID dbTx) w.db).db
  cases hc : env.AddClaim { claim with BlockID := blockID, NetworkID := s.networkID } dbTx
    (w.step (Action.processClaim claim blockID dbTx) w.db).db with
  | mk r db1 =>
    rw [hc] at h
    simp only at h
    subst h
    simp [steps_step, Action.toStep]

theorem processTokenWrapped_ok {σ : Type} (env : SyncEnv σ) (hs : AllSucceed env)
    (s : ClientSynchronizer) (token : TokenWrapped) (blockID : Nat) (dbTx : Tx) (w : World σ) :
    (processTokenWrapped env s token blockID dbTx w).1 = none ∧
    (processTokenWrapped env s token blockID dbTx w).2.steps =
      w.steps ++ [Step.tokenWrapped token] := by
  unfold processTokenWrapped
  simp only
  have h := hs.addToken { token with BlockID := blockID, NetworkID := s.networkID } dbTx
    (w.step (Action.processTokenWrapped token blockID dbTx) w.db).db
  cases hc : env.AddTokenWrapped { token with BlockID := blockID, NetworkID := s.networkID } dbTx
    (w.step (Action.processTokenWrapped token blockID dbTx) w.db).db with
  | mk r db1 =>
    rw [hc] at h
    simp only at h
    subst h
    simp [steps_step, Action.toStep]

theorem processRemoveL2GlobalExitRoot_ok {σ : Type} (env : SyncEnv σ) (hs : AllSucceed env)
    (s : ClientSynchronizer) (ger : GlobalExitRoot) (blockID : Nat) (dbTx : Tx) (w : World σ) :
    (processRemoveL2GlobalExitRoot env s ger blockID dbTx w).1 = none ∧
    (processRemoveL2GlobalExitRoot env s ger blockID dbTx w).2.steps =
      w.steps ++ [Step.removeL2GER ger] := by
  unfold processRemoveL2GlobalExitRoot
  simp only
  have h := hs.addRemove { ger with BlockID := blockID, NetworkID := s.networkID } dbTx
    (w.step (Action.processRemoveL2GlobalExitRoot ger blockID dbTx) w.db).db
  cases hc : env.AddRemoveL2GER { ger with BlockID := blockID, NetworkID := s.networkID } dbTx
    (w.step (Action.processRemoveL2GlobalExitRoot ger blockID dbTx) w.db).db with
  | mk r db1 =>
    rw [hc] at h
    simp only at h
    subst h
    simp [steps_step, Action.toStep]

theorem processDeposit_ok {σ : Type} (env : SyncEnv σ) (hs : AllSucceed env)
    (s : ClientSynchronizer) (deposit : Deposit) (blockID : Nat) (dbTx : Tx) (w : World σ) :
    (processDeposit env s deposit blockID dbTx w).1 = none ∧
    (processDeposit env s deposit blockID dbTx w).2.steps = w.steps ++ [Step.deposit deposit] := by
  unfold processDeposit
  simp only
  obtain ⟨id, h⟩ := hs.addDeposit { deposit with BlockID := blockID, NetworkID := s.networkID }
    dbTx (w.step (Action.processDeposit deposit blockID dbTx) w.db).db
  cases hc : env.AddDeposit { deposit with BlockID := blockID, NetworkID := s.networkID } dbTx
    (w.step (Action.processDeposit deposit blockID dbTx) w.db).db with
  | mk r db1 =>
    rw [hc] at h
    simp only at h
    subst h
    simp only
    have h2 := hs.bridgeAddDeposit { deposit with BlockID := blockID, NetworkID := s.networkID }
      id dbTx db1
    cases hb : env.BridgeAddDeposit { deposit with BlockID := blockID, NetworkID := s.networkID }
      id dbTx db1 with
    | mk r2 db2 =>
      rw [hb] at h2
      simp only at h2
      subst h2
      simp [World.step, hb, World.steps, Action.toStep, List.filterMap_append]

theorem processVerifyBatch_ok {σ : Type} (env : SyncEnv σ) (hs : AllSucceed env)
    (hr : RootsExist env) (s : ClientSynchronizer) (vb : VerifiedBatch) (blockID : Nat)
    (dbTx : Tx) (w : World σ) :
    (processVerifyBatch env s vb blockID dbTx w).1 = none ∧
    (processVerifyBatch env s vb blockID dbTx w).2.steps = w.steps ++ [Step.verifyBatch vb] := by
  have hleaf : ∀ (w1 : World σ) (leaf : RollupExitLeaf),
      (match env.AddRollupExitLeaf leaf dbTx w1.db with
        | (some e, db2) =>
          rollbackAndReturn env dbTx e (w1.step (Action.AddRollupExitLeaf leaf dbTx) db2)
        | (none, db2) => (none, w1.step (Action.AddRollupExitLeaf leaf dbTx) db2)).1 = none ∧
      (match env.AddRollupExitLeaf leaf dbTx w1.db with
        | (some e, db2) =>
          rollbackAndReturn env dbTx e (w1.step (Action.AddRollupExitLeaf leaf dbTx) db2)
        | (none, db2) => (none, w1.step (Action.AddRollupExitLeaf leaf dbTx) db2)).2.steps
        = w1.steps := by
    intro w1 leaf
    have h := hs.addLeaf leaf dbTx w1.db
    cases hc : env.AddRollupExitLeaf leaf dbTx w1.db with
    | mk r db2 =>
      rw [hc] at h
      simp only at h
      subst h
      simp [steps_step, Action.toStep]
  unfold processVerifyBatch
  simp only
  split
  · simp [steps_step, Action.toStep]
  · split
    · have h := hr vb.LocalExitRoot vb.RollupID dbTx
        (w.step (Action.processVerifyBatch vb blockID dbTx) w.db).db
      simp only [h]
      obtain ⟨h1, h2⟩ := hleaf
        ((w.step (Action.processVerifyBatch vb blockID dbTx) w.db).step
          (Action.CheckIfRootExists vb.LocalExitRoot vb.RollupID dbTx)
          (env.CheckIfRootExists vb.LocalExitRoot vb.RollupID dbTx
            (w.step (Action.processVerifyBatch vb blockID dbTx) w.db).db).2)
        { ID := 0, BlockID := blockID, Leaf := vb.LocalExitRoot, RollupId := vb.RollupID,
          Root := zeroHash }
      refine ⟨h1, ?_⟩
      rw [h2]
      simp [steps_step, Action.toStep]
    · obtain ⟨h1, h2⟩ := hleaf (w.step (Action.processVerifyBatch vb blockID dbTx) w.db)
        { ID := 0, BlockID := blockID, Leaf := vb.LocalExitRoot, RollupId := vb.RollupID,
          Root := zeroHash }
      refine ⟨h1, ?_⟩
      rw [h2]
      simp [steps_step, Action.toStep]

theorem updateL2GERs_ok {σ : Type} (env : SyncEnv σ) (hs : AllSucceed env)
    (exitRoots : List Bytes) (dbTx : Tx) :
    ∀ (gers : List GlobalExitRoot) (w : World σ),
      (updateL2GERs env exitRoots dbTx gers w).1 = none ∧
      (updateL2GERs env exitRoots dbTx gers w).2.steps = w.steps := by
  intro gers
  induction gers with
  | nil => intro w; exact ⟨rfl, rfl⟩
  | cons ger rest ih =>
    intro w
    unfold updateL2GERs
    simp only
    have h := hs.updateL2 { ger with ExitRoots := exitRoots } dbTx w.db
    cases hc : env.UpdateL2GER { ger with ExitRoots := exitRoots } dbTx w.db with
    | mk r db1 =>
      rw [hc] at h
      simp only at h
      subst h
      simp only
      obtain ⟨h1, h2⟩ := ih (w.step (Action.UpdateL2GER { ger with ExitRoots := exitRoots } dbTx) db1)
      refine ⟨h1, ?_⟩
      rw [h2]
      simp [steps_step, Action.toStep]

theorem processGlobalExitRoot_ok {σ : Type} (env : SyncEnv σ) (hs : AllSucceed env)
    (s : ClientSynchronizer) (g : GlobalExitRoot) (blockID : Nat) (dbTx : Tx) (w : World σ)
    (hlen : g.ExitRoots.length = 2 ∨ g.ExitRoots.length = 0) :
    (processGlobalExitRoot env s g blockID dbTx w).1 = none ∧
    (processGlobalExitRoot env s g blockID dbTx w).2.steps = w.steps ++ [Step.globalExitRoot g] := by
  unfold processGlobalExitRoot
  simp only
  rcases hlen with h2 | h0
  · rw [if_pos h2]
    have h := hs.getL2 g.GlobalExitRoot (w.step (Action.processGlobalExitRoot g blockID dbTx) w.db).db
    simp only [h]
    obtain ⟨hu1, hu2⟩ := updateL2GERs_ok env hs g.ExitRoots dbTx
      (env.GetL2ExitRootsByGER g.GlobalExitRoot
        (w.step (Action.processGlobalExitRoot g blockID dbTx) w.db).db).1.1
      ((w.step (Action.processGlobalExitRoot g blockID dbTx) w.db).step
        (Action.GetL2ExitRootsByGER g.GlobalExitRoot)
        (env.GetL2ExitRootsByGER g.GlobalExitRoot
          (w.step (Action.processGlobalExitRoot g blockID dbTx) w.db).db).2)
    cases hu : updateL2GERs env g.ExitRoots dbTx
      (env.GetL2ExitRootsByGER g.GlobalExitRoot
        (w.step (Action.processGlobalExitRoot g blockID dbTx) w.db).db).1.1
      ((w.step (Action.processGlobalExitRoot g blockID dbTx) w.db).step
        (Action.GetL2ExitRootsByGER g.GlobalExitRoot)
        (env.GetL2ExitRootsByGER g.GlobalExitRoot
          (w.step (Action.processGlobalExitRoot g blockID dbTx) w.db).db).2) with
    | mk ru wu =>
      rw [hu] at hu1 hu2
      simp only at hu1 hu2
      subst hu1
      dsimp only
      have ha := hs.addGER { g with BlockID := blockID, NetworkID := s.networkID } dbTx wu.db
      cases hadd : env.AddGlobalExitRoot { g with BlockID := blockID, NetworkID := s.networkID }
        dbTx wu.db with
      | mk ra db3 =>
        rw [hadd] at ha
        simp only at ha
        subst ha
        refine ⟨rfl, ?_⟩
        show (wu.step _ db3).steps = _
        rw [steps_step, hu2]
        simp [steps_step, Action.toStep]
  · have hne : ¬ g.ExitRoots.length = 2 := by omega
    rw [if_neg hne, if_pos h0]
    obtain ⟨row, h⟩ := hs.getL1 g.GlobalExitRoot
      (w.step (Action.processGlobalExitRoot g blockID dbTx) w.db).db
    simp only [h]
    have ha := hs.addGER
      { g with BlockID := blockID, NetworkID := s.networkID, ExitRoots := row.ExitRoots } dbTx
      ((w.step (Action.processGlobalExitRoot g blockID dbTx) w.db).step
        (Action.GetL1ExitRootByGER g.GlobalExitRoot)
        (env.GetL1ExitRootByGER g.GlobalExitRoot
          (w.step (Action.processGlobalExitRoot g blockID dbTx) w.db).db).2).db
    cases hadd : env.AddGlobalExitRoot
      { g with BlockID := blockID, NetworkID := s.networkID, ExitRoots := row.ExitRoots } dbTx
      ((w.step (Action.processGlobalExitRoot g blockID dbTx) w.db).step
        (Action.GetL1ExitRootByGER g.GlobalExitRoot)
        (env.GetL1ExitRootByGER g.GlobalExitRoot
          (w.step (Action.processGlobalExitRoot g blockID dbTx) w.db).db).2).db with
    | mk ra db2 =>
      rw [hadd] at ha
      simp only at ha
      subst ha
      refine ⟨rfl, ?_⟩
      simp [steps_step, Action.toStep]

theorem processElement_ok {σ : Type} (env : SyncEnv σ) (hs : AllSucceed env)
    (hr : RootsExist env) (s : ClientSynchronizer) (block : Block) (blockID : Nat) (dbTx : Tx)
    (o : Order) (isNewGer : Bool) (w : World σ) (hok : ElementOK block o) :
    ∃ w1 b, processElement env s block blockID dbTx o isNewGer w = (Outcome.ok (), w1, b) ∧
      w1.steps = w.steps ++ (elementStep block o).toList := by
  obtain ⟨hG, hR, hD, hC, hT, hV⟩ := hok
  unfold processElement elementStep
  simp only
  by_cases h0 : o.Name = GlobalExitRootsOrder
  · obtain ⟨x, hx, hlen⟩ := hG h0
    obtain ⟨e1, e2⟩ := processGlobalExitRoot_ok env hs s x blockID dbTx w hlen
    simp only [if_pos h0, hx, Option.map_some', Option.toList]
    cases hp : processGlobalExitRoot env s x blockID dbTx w with
    | mk r w1 =>
      rw [hp] at e1 e2
      simp only at e1 e2
      subst e1
      exact ⟨w1, true, rfl, e2⟩
  by_cases h1 : o.Name = RemoveL2GEROrder
  · obtain ⟨x, hx⟩ := hR h1
    obtain ⟨e1, e2⟩ := processRemoveL2GlobalExitRoot_ok env hs s x blockID dbTx w
    simp only [if_neg h0, if_pos h1, hx, Option.map_some', Option.toList]
    cases hp : processRemoveL2GlobalExitRoot env s x blockID dbTx w with
    | mk r w1 =>
      rw [hp] at e1 e2
      simp only at e1 e2
      subst e1
      exact ⟨w1, isNewGer, rfl, e2⟩
  by_cases h2 : o.Name = DepositsOrder
  · obtain ⟨x, hx⟩ := hD h2
    obtain ⟨e1, e2⟩ := processDeposit_ok env hs s x blockID dbTx w
    simp only [if_neg h0, if_neg h1, if_pos h2, hx, Option.map_some', Option.toList]
    cases hp : processDeposit env s x blockID dbTx w with
    | mk r w1 =>
      rw [hp] at e1 e2
      simp only at e1 e2
      subst e1
      exact ⟨w1, isNewGer, rfl, e2⟩
  by_cases h3 : o.Name = ClaimsOrder
  · obtain ⟨x, hx⟩ := hC h3
    obtain ⟨e1, e2⟩ := processClaim_ok env hs s x blockID dbTx w
    simp only [if_neg h0, if_neg h1, if_neg h2, if_pos h3, hx, Option.map_some', Option.toList]
    cases hp : processClaim env s x blockID dbTx w with
    | mk r w1 =>
      rw [hp] at e1 e2
      simp only at e1 e2
      subst e1
      exact ⟨w1, isNewGer, rfl, e2⟩
  by_cases h4 : o.Name = TokensOrder
  · obtain ⟨x, hx⟩ := hT h4
    obtain ⟨e1, e2⟩ := processTokenWrapped_ok env hs s x blockID dbTx w
    simp only [if_neg h0, if_neg h1, if_neg h2, if_neg h3, if_pos h4, hx, Option.map_some', Option.toList]
    cases hp : processTokenWrapped env s x blockID dbTx w with
    | mk r w1 =>
      rw [hp] at e1 e2
      simp only at e1 e2
      subst e1
      exact ⟨w1, isNewGer, rfl, e2⟩
  by_cases h5 : o.Name = VerifyBatchOrder
  · obtain ⟨x, hx⟩ := hV h5
    obtain ⟨e1, e2⟩ := processVerifyBatch_ok env hs hr s x blockID dbTx w
    simp only [if_neg h0, if_neg h1, if_neg h2, if_neg h3, if_neg h4, if_pos h5, hx, Option.map_some', Option.toList]
    cases hp : processVerifyBatch env s x blockID dbTx w with
    | mk r w1 =>
      rw [hp] at e1 e2
      simp only at e1 e2
      subst e1
      exact ⟨w1, isNewGer, rfl, e2⟩
  simp only [if_neg h0, if_neg h1, if_neg h2, if_neg h3, if_neg h4, if_neg h5, Option.toList]
  exact ⟨w, isNewGer, rfl, by simp⟩

theorem filterMap_toList {α β : Type} (f : α → Option β) (x : α) (xs : List α) :
    (x :: xs).filterMap f = (f x).toList ++ xs.filterMap f := by
  cases h : f x <;> simp [List.filterMap_cons, h]

theorem processElements_ok {σ : Type} (env : SyncEnv σ) (hs : AllSucceed env)
    (hr : RootsExist env) (s : ClientSynchronizer) (block : Block) (blockID : Nat) (dbTx : Tx) :
    ∀ (elements : List Order) (isNewGer : Bool) (w : World σ),
      (∀ o, o ∈ elements → ElementOK block o) →
      ∃ w1 b, processElements env s block blockID dbTx elements isNewGer w =
          (Outcome.ok (), w1, b) ∧
        w1.steps = w.steps ++ elements.filterMap (elementStep block) := by
  intro elements
  induction elements with
  | nil =>
    intro isNewGer w _
    exact ⟨w, isNewGer, rfl, by simp⟩
  | cons o rest ih =>
    intro isNewGer w hok
    obtain ⟨w1, b1, h1, hs1⟩ := processElement_ok env hs hr s block blockID dbTx o isNewGer w
      (hok o (List.mem_cons_self _ _))
    obtain ⟨w2, b2, h2, hs2⟩ := ih b1 w1 (fun o' ho' => hok o' (List.mem_cons_of_mem _ ho'))
    refine ⟨w2, b2, ?_, ?_⟩
    · unfold processElements
      rw [h1]
      exact h2
    · rw [hs2, hs1, filterMap_toList, List.append_assoc]

theorem elementStep_networkID (block : Block) (n : Nat) :
    elementStep { block with NetworkID := n } = elementStep block := by
  funext o
  rfl

theorem processBlock_ok {σ : Type} (env : SyncEnv σ) (hs : AllSucceed env)
    (hr : RootsExist env) (s : ClientSynchronizer) (order : Bytes → List Order) (block : Block)
    (isNewGer : Bool) (w : World σ)
    (hok : ∀ o, o ∈ order block.BlockHash → ElementOK block o) :
    ∃ w1 b, processBlock env s order block isNewGer w = (Outcome.ok (), w1, b) ∧
      w1.steps = w.steps ++ expectedSteps s order block := by
  unfold processBlock
  obtain ⟨tx, hb⟩ := hs.beginTx w.db
  cases hB : env.BeginDBTransaction w.db with
  | mk rb db1 =>
    rw [hB] at hb
    simp only at hb
    subst hb
    simp only
    obtain ⟨id, ha⟩ := hs.addBlock { block with NetworkID := s.networkID } tx
      (w.step Action.BeginDBTransaction db1).db
    cases hA : env.AddBlock { block with NetworkID := s.networkID } tx
      (w.step Action.BeginDBTransaction db1).db with
    | mk ra db2 =>
      rw [hA] at ha
      simp only at ha
      subst ha
      simp only
      obtain ⟨w3, b3, h3, hs3⟩ := processElements_ok env hs hr s
        { block with NetworkID := s.networkID } id tx (order block.BlockHash) isNewGer
        ((w.step Action.BeginDBTransaction db1).step
          (Action.AddBlock { block with NetworkID := s.networkID } tx) db2)
        (fun o ho => hok o ho)
      rw [h3]
      simp only
      have hc := hs.commit tx w3.db
      cases hC : env.Commit tx w3.db with
      | mk rc db4 =>
        rw [hC] at hc
        simp only at hc
        subst hc
        refine ⟨w3.step (Action.Commit tx) db4, b3, rfl, ?_⟩
        rw [steps_step, hs3, steps_step, steps_step, elementStep_networkID]
        simp [expectedSteps, Action.toStep]

theorem processBlocks_ok {σ : Type} (env : SyncEnv σ) (hs : AllSucceed env)
    (hr : RootsExist env) (s : ClientSynchronizer) (order : Bytes → List Order) :
    ∀ (blocks : List Block) (isNewGer : Bool) (w : World σ),
      (∀ b, b ∈ blocks → ∀ o, o ∈ order b.BlockHash → ElementOK b o) →
      ∃ w1 b, processBlocks env s order blocks isNewGer w = (Outcome.ok (), w1, b) ∧
        w1.steps = w.steps ++ blocks.flatMap (expectedSteps s order) := by
  intro blocks
  induction blocks with
  | nil =>
    intro isNewGer w _
    exact ⟨w, isNewGer, rfl, by simp⟩
  | cons block rest ih =>
    intro isNewGer w hok
    obtain ⟨w1, b1, h1, hs1⟩ := processBlock_ok env hs hr s order block isNewGer w
      (hok block (List.mem_cons_self _ _))
    obtain ⟨w2, b2, h2, hs2⟩ := ih b1 w1 (fun b hb => hok b (List.mem_cons_of_mem _ hb))
    refine ⟨w2, b2, ?_, ?_⟩
    · unfold processBlocks
      rw [h1]
      exact h2
    · rw [hs2, hs1, List.flatMap_cons, List.append_assoc]

theorem sendExitRootEvents_steps {σ : Type} (n : Nat) (ger : GlobalExitRoot) (w : World σ) :
    (sendExitRootEvents n ger w).steps = w.steps := by
  unfold sendExitRootEvents
  induction n generalizing w with
  | zero => simp
  | succ k ih =>
    rw [List.range_succ, List.foldl_append]
    simp only [List.foldl_cons, List.foldl_nil]
    rw [steps_step, ih]
    simp [Action.toStep]

theorem okEnv_allSucceed (rootExists : Bool) : AllSucceed (okEnv rootExists) where
  beginTx := fun db => ⟨db, rfl⟩
  addBlock := fun _ _ db => ⟨db, rfl⟩
  commit := fun _ _ => rfl
  getL2 := fun _ _ => rfl
  updateL2 := fun _ _ _ => rfl
  addGER := fun _ _ _ => rfl
  getL1 := fun _ _ => ⟨_, rfl⟩
  addDeposit := fun _ _ db => ⟨db, rfl⟩
  bridgeAddDeposit := fun _ _ _ _ => rfl
  addClaim := fun _ _ _ => rfl
  addToken := fun _ _ _ => rfl
  addRemove := fun _ _ _ => rfl
  checkRoot := fun _ _ _ _ => ⟨rootExists, rfl⟩
  addLeaf := fun _ _ _ => rfl

/-- C9 (as stated, refuted), on two inputs whose `Pos` values are in range and
on which every storage and bridge-controller call succeeds.  First: a block
with one global exit root event carrying one exit root; the handler returns the
wrong-length error and the block is never committed.  Second: a block with one
verified batch of a syncing rollup for which `CheckIfRootExists` answers
`false` without error; the handler rolls back and the block is never
committed. -/
theorem C9_ordered_application_counterexample :
    AllSucceed (okEnv true) ∧ AllSucceed (okEnv false) ∧
    indexAt (exampleBlock [exampleGER [zeroHash]]).GlobalExitRoots 0 =
      some (exampleGER [zeroHash]) ∧
    indexAt (exampleBlock []).VerifiedBatches 0 = some exampleBatch ∧
    (processBlockRange (okEnv true) exampleSync [exampleBlock [exampleGER [zeroHash]]]
        (exampleOrder [{ Name := GlobalExitRootsOrder, Pos := 0 }]) emptyWorld).2.steps =
      [Step.beginTx, Step.addBlock (exampleBlock [exampleGER [zeroHash]]),
       Step.globalExitRoot (exampleGER [zeroHash])] ∧
    (processBlockRange (okEnv false) exampleSync [exampleBlock []]
        (exampleOrder [{ Name := VerifyBatchOrder, Pos := 0 }]) emptyWorld).2.steps =
      [Step.beginTx, Step.addBlock (exampleBlock []), Step.verifyBatch exampleBatch,
       Step.rollback] ∧
    (processBlockRange (okEnv true) exampleSync [exampleBlock [exampleGER [zeroHash]]]
        (exampleOrder [{ Name := GlobalExitRootsOrder, Pos := 0 }]) emptyWorld).2.steps ≠
      emptyWorld.steps ++ [exampleBlock [exampleGER [zeroHash]]].flatMap
        (expectedSteps exampleSync (exampleOrder [{ Name := GlobalExitRootsOrder, Pos := 0 }])) ∧
    (processBlockRange (okEnv false) exampleSync [exampleBlock []]
        (exampleOrder [{ Name := VerifyBatchOrder, Pos := 0 }]) emptyWorld).2.steps ≠
      emptyWorld.steps ++ [exampleBlock []].flatMap
        (expectedSteps exampleSync (exampleOrder [{ Name := VerifyBatchOrder, Pos := 0 }])) := by
  refine ⟨okEnv_allSucceed true, okEnv_allSucceed false, by rfl, by rfl, by rfl, by rfl, ?_, ?_⟩
  · decide
  · decide

/-- C9 (amended): for every list of blocks and every order map in which each
entry naming one of the six event kinds has its `Pos` in range, if all storage
and bridge-controller calls succeed, every global exit root event carries two
exit roots or none, and `CheckIfRootExists` answers `true`, then the block loop
of `processBlockRange` ends without error and the steps performed are, for
each block in list order: `BeginDBTransaction`, `AddBlock`, one handler call
per entry of `order[block.BlockHash]` that names one of the six kinds (other
entries are skipped), in the order of that list and on the element at index
`Pos` of the array the entry names, then `Commit`; no `Rollback` occurs and no
event of a later block is applied before an event of an earlier block. -/
theorem C9_ordered_application {σ : Type} (env : SyncEnv σ) (hs : AllSucceed env)
    (hr : RootsExist env) (s : ClientSynchronizer) (blocks : List Block)
    (order : Bytes → List Order) (w : World σ)
    (hok : ∀ b, b ∈ blocks → ∀ o, o ∈ order b.BlockHash → ElementOK b o) :
    (∃ w1 b, processBlocks env s order blocks false w = (Outcome.ok (), w1, b)) ∧
    (processBlockRange env s blocks order w).2.steps =
      w.steps ++ blocks.flatMap (expectedSteps s order) := by
  obtain ⟨w1, b, h1, hs1⟩ := processBlocks_ok env hs hr s order blocks false w hok
  refine ⟨⟨w1, b, h1⟩, ?_⟩
  unfold processBlockRange
  rw [h1]
  cases b with
  | false => exact hs1
  | true =>
    simp only
    cases hg : env.GetLatestL1SyncedExitRoot w1.db with
    | mk r db2 =>
      cases r with
      | error e =>
        simp only
        rw [steps_step, hs1]
        simp [Action.toStep]
      | ok ger =>
        simp only
        cases hroot : ger.ExitRoots.get? 1 with
        | none =>
          simp only
          rw [steps_step, hs1]
          simp [Action.toStep]
        | some rollupRoot =>
          simp only
          split
          · simp only
            rw [sendExitRootEvents_steps]
            show (w1.step Action.GetLatestL1SyncedExitRoot db2).steps = _
            rw [steps_step, hs1]
            simp [Action.toStep]
          · simp only
            rw [steps_step, hs1]
            simp [Action.toStep]

theorem exampleOrder_elementOK :
    ∀ b, b ∈ [exampleBlock [exampleGER [zeroHash, zeroHash]]] →
      ∀ o, o ∈ exampleOrder
          [{ Name := GlobalExitRootsOrder, Pos := 0 }, { Name := "Unknown", Pos := 5 },
           { Name := VerifyBatchOrder, Pos := 0 }, { Name := ClaimsOrder, Pos := 0 }]
          b.BlockHash →
        ElementOK b o := by
  intro b hb o ho
  simp only [List.mem_singleton] at hb
  subst hb
  simp only [exampleOrder, exampleBlock, if_true, List.mem_cons, List.mem_singleton,
    List.not_mem_nil, or_false] at ho
  rcases ho with rfl | rfl | rfl | rfl
  · exact ⟨fun _ => ⟨_, rfl, Or.inl rfl⟩, fun h => absurd h (by decide),
      fun h => absurd h (by decide), fun h => absurd h (by decide),
      fun h => absurd h (by decide), fun h => absurd h (by decide)⟩
  · exact ⟨fun h => absurd h (by decide), fun h => absurd h (by decide),
      fun h => absurd h (by decide), fun h => absurd h (by decide),
      fun h => absurd h (by decide), fun h => absurd h (by decide)⟩
  · exact ⟨fun h => absurd h (by decide), fun h => absurd h (by decide),
      fun h => absurd h (by decide), fun h => absurd h (by decide),
      fun h => absurd h (by decide), fun _ => ⟨_, rfl⟩⟩
  · exact ⟨fun h => absurd h (by decide), fun h => absurd h (by decide),
      fun h => absurd h (by decide), fun _ => ⟨_, rfl⟩,
      fun h => absurd h (by decide), fun h => absurd h (by decide)⟩

theorem C9_ordered_application_witness :
    (∃ w1 b, processBlocks (okEnv true) exampleSync
        (exampleOrder
          [{ Name := GlobalExitRootsOrder, Pos := 0 }, { Name := "Unknown", Pos := 5 },
           { Name := VerifyBatchOrder, Pos := 0 }, { Name := ClaimsOrder, Pos := 0 }])
        [exampleBlock [exampleGER [zeroHash, zeroHash]]] false emptyWorld =
          (Outcome.ok (), w1, b)) ∧
    (processBlockRange (okEnv true) exampleSync [exampleBlock [exampleGER [zeroHash, zeroHash]]]
        (exampleOrder
          [{ Name := GlobalExitRootsOrder, Pos := 0 }, { Name := "Unknown", Pos := 5 },
           { Name := VerifyBatchOrder, Pos := 0 }, { Name := ClaimsOrder, Pos := 0 }])
        emptyWorld).2.steps =
      emptyWorld.steps ++ [exampleBlock [exampleGER [zeroHash, zeroHash]]].flatMap
        (expectedSteps exampleSync
          (exampleOrder
            [{ Name := GlobalExitRootsOrder, Pos := 0 }, { Name := "Unknown", Pos := 5 },
             { Name := VerifyBatchOrder, Pos := 0 }, { Name := ClaimsOrder, Pos := 0 }])) :=
  C9_ordered_application (okEnv true) (okEnv_allSucceed true) (fun _ _ _ _ => rfl) exampleSync
    [exampleBlock [exampleGER [zeroHash, zeroHash]]]
    (exampleOrder
      [{ Name := GlobalExitRootsOrder, Pos := 0 }, { Name := "Unknown", Pos := 5 },
       { Name := VerifyBatchOrder, Pos := 0 }, { Name := ClaimsOrder, Pos := 0 }])
    emptyWorld exampleOrder_elementOK

theorem rollbackAndReturn_ends {σ : Type} (env : SyncEnv σ) (dbTx : Tx) (err : Err)
    (w : World σ) (r : Option Err) (w1 : World σ)
    (h : rollbackAndReturn env dbTx err w = (r, w1)) : EndsWithRollback dbTx w1 := by
  unfold rollbackAndReturn at h
  split at h <;>
    (simp only [Prod.mk.injEq] at h
     rw [← h.2]
     simp [EndsWithRollback, World.step])

theorem processClaim_err {σ : Type} (env : SyncEnv σ) (s : ClientSynchronizer) (claim : Claim)
    (blockID : Nat) (dbTx : Tx) (w : World σ) (e : Err) (w1 : World σ)
    (h : processClaim env s claim blockID dbTx w = (some e, w1)) : EndsWithRollback dbTx w1 := by
  unfold processClaim at h
  simp only at h
  split at h
  · exact rollbackAndReturn_ends _ _ _ _ _ _ h
  · simp at h

theorem processTokenWrapped_err {σ : Type} (env : SyncEnv σ) (s : ClientSynchronizer)
    (token : TokenWrapped) (blockID : Nat) (dbTx : Tx) (w : World σ) (e : Err) (w1 : World σ)
    (h : processTokenWrapped env s token blockID dbTx w = (some e, w1)) :
    EndsWithRollback dbTx w1 := by
  unfold processTokenWrapped at h
  simp only at h
  split at h
  · exact rollbackAndReturn_ends _ _ _ _ _ _ h
  · simp at h

theorem processRemoveL2GlobalExitRoot_err {σ : Type} (env : SyncEnv σ) (s : ClientSynchronizer)
    (ger : GlobalExitRoot) (blockID : Nat) (dbTx : Tx) (w : World σ) (e : Err) (w1 : World σ)
    (h : processRemoveL2GlobalExitRoot env s ger blockID dbTx w = (some e, w1)) :
    EndsWithRollback dbTx w1 := by
  unfold processRemoveL2GlobalExitRoot at h
  simp only at h
  split at h
  · exact rollbackAndReturn_ends _ _ _ _ _ _ h
  · simp at h

theorem processDeposit_err {σ : Type} (env : SyncEnv σ) (s : ClientSynchronizer)
    (deposit : Deposit) (blockID : Nat) (dbTx : Tx) (w : World σ) (e : Err) (w1 : World σ)
    (h : processDeposit env s deposit blockID dbTx w = (some e, w1)) :
    EndsWithRollback dbTx w1 := by
  unfold processDeposit at h
  simp only at h
  split at h
  · exact rollbackAndReturn_ends _ _ _ _ _ _ h
  · split at h
    · exact rollbackAndReturn_ends _ _ _ _ _ _ h
    · simp at h

theorem processVerifyBatch_err {σ : Type} (env : SyncEnv σ) (s : ClientSynchronizer)
    (vb : VerifiedBatch) (blockID : Nat) (dbTx : Tx) (w : World σ) (e : Err) (w1 : World σ)
    (h : processVerifyBatch env s vb blockID dbTx w = (some e, w1)) :
    EndsWithRollback dbTx w1 := by
  unfold processVerifyBatch at h
  simp only at h
  split at h
  · simp at h
  · split at h
    · split at h
      · exact rollbackAndReturn_ends _ _ _ _ _ _ h
      · exact rollbackAndReturn_ends _ _ _ _ _ _ h
      · split at h
        · exact rollbackAndReturn_ends _ _ _ _ _ _ h
        · simp at h
    · split at h
      · exact rollbackAndReturn_ends _ _ _ _ _ _ h
      · simp at h

theorem updateL2GERs_err {σ : Type} (env : SyncEnv σ) (exitRoots : List Bytes) (dbTx : Tx) :
    ∀ (gers : List GlobalExitRoot) (w : World σ) (e : Err) (w1 : World σ),
      updateL2GERs env exitRoots dbTx gers w = (some e, w1) → EndsWithRollback dbTx w1 := by
  intro gers
  induction gers with
  | nil =>
    intro w e w1 h
    simp [updateL2GERs] at h
  | cons ger rest ih =>
    intro w e w1 h
    unfold updateL2GERs at h
    simp only at h
    split at h
    · exact rollbackAndReturn_ends _ _ _ _ _ _ h
    · exact ih _ _ _ h

theorem indexAt_mem {α : Type} {arr : List α} {pos : Int} {x : α}
    (h : indexAt arr pos = some x) : x ∈ arr := by
  unfold indexAt at h
  split at h
  · exact List.get?_mem h
  · cases h

theorem processGlobalExitRoot_err {σ : Type} (env : SyncEnv σ) (s : ClientSynchronizer)
    (g : GlobalExitRoot) (blockID : Nat) (dbTx : Tx) (w : World σ) (e : Err) (w1 : World σ)
    (h : processGlobalExitRoot env s g blockID dbTx w = (some e, w1)) :
    EndsWithRollback dbTx w1 ∨
      (e = wrongLengthErr ∧ g.ExitRoots.length ≠ 2 ∧ g.ExitRoots.length ≠ 0) := by
  unfold processGlobalExitRoot at h
  simp only at h
  split at h
  · left
    split at h
    · exact rollbackAndReturn_ends _ _ _ _ _ _ h
    · split at h
      · rename_i e2 w2 hu
        simp only [Prod.mk.injEq, Option.some.injEq] at h
        rw [← h.2]
        exact updateL2GERs_err _ _ _ _ _ _ _ hu
      · split at h
        · exact rollbackAndReturn_ends _ _ _ _ _ _ h
        · simp at h
  · split at h
    · left
      split at h
      · split at h
        · split at h
          · exact rollbackAndReturn_ends _ _ _ _ _ _ h
          · simp at h
        · exact rollbackAndReturn_ends _ _ _ _ _ _ h
      · split at h
        · exact rollbackAndReturn_ends _ _ _ _ _ _ h
        · simp at h
    · right
      rename_i h2 h0
      simp only [Prod.mk.injEq, Option.some.injEq] at h
      exact ⟨h.1.symm, h2, h0⟩

theorem processElement_err {σ : Type} (env : SyncEnv σ) (s : ClientSynchronizer) (block : Block)
    (blockID : Nat) (dbTx : Tx) (o : Order) (isNewGer : Bool) (w : World σ) (e : Err)
    (w1 : World σ) (b : Bool)
    (h : processElement env s block blockID dbTx o isNewGer w = (Outcome.error e, w1, b)) :
    EndsWithRollback dbTx w1 ∨
      (e = wrongLengthErr ∧
        ∃ g, g ∈ block.GlobalExitRoots ∧ g.ExitRoots.length ≠ 2 ∧ g.ExitRoots.length ≠ 0) := by
  unfold processElement at h
  simp only at h
  split at h
  · split at h
    · simp at h
    · split at h
      · rename_i x hx e1 w2 hp
        simp only [Prod.mk.injEq, Outcome.error.injEq] at h
        rw [← h.1, ← h.2.1]
        rcases processGlobalExitRoot_err _ _ _ _ _ _ _ _ hp with hr | ⟨hw, h2, h0⟩
        · exact Or.inl hr
        · exact Or.inr ⟨hw, _, indexAt_mem (by assumption), h2, h0⟩
      · simp at h
  · split at h
    · split at h
      · simp at h
      · split at h
        · rename_i x hx e1 w2 hp
          simp only [Prod.mk.injEq, Outcome.error.injEq] at h
          rw [← h.2.1]
          exact Or.inl (processRemoveL2GlobalExitRoot_err _ _ _ _ _ _ _ _ hp)
        · simp at h
    · split at h
      · split at h
        · simp at h
        · split at h
          · rename_i x hx e1 w2 hp
            simp only [Prod.mk.injEq, Outcome.error.injEq] at h
            rw [← h.2.1]
            exact Or.inl (processDeposit_err _ _ _ _ _ _ _ _ hp)
          · simp at h
      · split at h
        · split at h
          · simp at h
          · split at h
            · rename_i x hx e1 w2 hp
              simp only [Prod.mk.injEq, Outcome.error.injEq] at h
              rw [← h.2.1]
              exact Or.inl (processClaim_err _ _ _ _ _ _ _ _ hp)
            · simp at h
        · split at h
          · split at h
            · simp at h
            · split at h
              · rename_i x hx e1 w2 hp
                simp only [Prod.mk.injEq, Outcome.error.injEq] at h
                rw [← h.2.1]
                exact Or.inl (processTokenWrapped_err _ _ _ _ _ _ _ _ hp)
              · simp at h
          · split at h
            · split at h
              · simp at h
              · split at h
                · rename_i x hx e1 w2 hp
                  simp only [Prod.mk.injEq, Outcome.error.injEq] at h
                  rw [← h.2.1]
                  exact Or.inl (processVerifyBatch_err _ _ _ _ _ _ _ _ hp)
                · simp at h
            · simp at h

theorem processElements_err {σ : Type} (env : SyncEnv σ) (s : ClientSynchronizer)
    (block : Block) (blockID : Nat) (dbTx : Tx) :
    ∀ (elements : List Order) (isNewGer : Bool) (w : World σ) (e : Err) (w1 : World σ)
      (b : Bool),
      processElements env s block blockID dbTx elements isNewGer w = (Outcome.error e, w1, b) →
      EndsWithRollback dbTx w1 ∨
        (e = wrongLengthErr ∧
          ∃ g, g ∈ block.GlobalExitRoots ∧ g.ExitRoots.length ≠ 2 ∧ g.ExitRoots.length ≠ 0) := by
  intro elements
  induction elements with
  | nil =>
    intro isNewGer w e w1 b h
    simp [processElements] at h
  | cons o rest ih =>
    intro isNewGer w e w1 b h
    unfold processElements at h
    cases hp : processElement env s block blockID dbTx o isNewGer w with
    | mk r rest2 =>
      obtain ⟨w2, b2⟩ := rest2
      rw [hp] at h
      cases r with
      | ok u => exact ih _ _ _ _ _ h
      | error e2 =>
        simp only [Prod.mk.injEq, Outcome.error.injEq] at h
        obtain ⟨he, hw, _⟩ := h
        subst he hw
        exact processElement_err _ _ _ _ _ _ _ _ _ _ _ hp
      | panic p => simp at h

/-- What an error return of the body of the block loop means: the transaction
could not be opened, or it was opened and the last action is its `Rollback`,
or the error is the wrong-length error of `processGlobalExitRoot` and a global
exit root event of the block carries neither two exit roots nor none. -/
theorem processBlock_err {σ : Type} (env : SyncEnv σ) (s : ClientSynchronizer)
    (order : Bytes → List Order) (block : Block) (isNewGer : Bool) (w : World σ) (e : Err)
    (w1 : World σ) (b : Bool)
    (h : processBlock env s order block isNewGer w = (Outcome.error e, w1, b)) :
    (∃ db1, env.BeginDBTransaction w.db = (Except.error e, db1)) ∨
    (∃ dbTx db1, env.BeginDBTransaction w.db = (Except.ok dbTx, db1) ∧
      (EndsWithRollback dbTx w1 ∨
        (e = wrongLengthErr ∧
          ∃ g, g ∈ block.GlobalExitRoots ∧ g.ExitRoots.length ≠ 2 ∧ g.ExitRoots.length ≠ 0))) := by
  unfold processBlock at h
  cases hB : env.BeginDBTransaction w.db with
  | mk rb db1 =>
    rw [hB] at h
    cases rb with
    | error e0 =>
      left
      simp only [Prod.mk.injEq, Outcome.error.injEq] at h
      exact ⟨db1, by rw [h.1]⟩
    | ok dbTx =>
      right
      refine ⟨dbTx, db1, rfl, ?_⟩
      simp only at h
      split at h
      · split at h
        · rename_i e1 w3 hr
          simp only [Prod.mk.injEq, Outcome.error.injEq] at h
          rw [← h.2.1]
          exact Or.inl (rollbackAndReturn_ends _ _ _ _ _ _ hr)
        · simp at h
      · split at h
        · split at h
          · split at h
            · rename_i e1 w5 hr
              simp only [Prod.mk.injEq, Outcome.error.injEq] at h
              rw [← h.2.1]
              exact Or.inl (rollbackAndReturn_ends _ _ _ _ _ _ hr)
            · simp at h
          · simp at h
        · have hel := processElements_err _ _ _ _ _ _ _ _ _ _ _ h
          exact hel

/-- An error return of the block loop comes from exactly one block: the
blocks before it were processed without error, and the loop stopped in the
world that block left, so no later block of the range was processed. -/
theorem processBlocks_err {σ : Type} (env : SyncEnv σ) (s : ClientSynchronizer)
    (order : Bytes → List Order) :
    ∀ (blocks : List Block) (isNewGer : Bool) (w : World σ) (e : Err) (w1 : World σ)
      (b : Bool),
      processBlocks env s order blocks isNewGer w = (Outcome.error e, w1, b) →
      ∃ pre blk post wpre flag,
        blocks = pre ++ blk :: post ∧
        processBlocks env s order pre isNewGer w = (Outcome.ok (), wpre, flag) ∧
        processBlock env s order blk flag wpre = (Outcome.error e, w1, b) := by
  intro blocks
  induction blocks with
  | nil =>
    intro isNewGer w e w1 b h
    simp [processBlocks] at h
  | cons block rest ih =>
    intro isNewGer w e w1 b h
    unfold processBlocks at h
    cases hp : processBlock env s order block isNewGer w with
    | mk r rest2 =>
      obtain ⟨w2, b2⟩ := rest2
      rw [hp] at h
      cases r with
      | ok u =>
        obtain ⟨pre, blk, post, wpre, flag, hsplit, hpre, hblk⟩ := ih _ _ _ _ _ h
        refine ⟨block :: pre, blk, post, wpre, flag, by simp [hsplit], ?_, hblk⟩
        unfold processBlocks
        rw [hp]
        exact hpre
      | error e2 =>
        simp only [Prod.mk.injEq, Outcome.error.injEq] at h
        obtain ⟨he, hw, hb⟩ := h
        subst he hw hb
        exact ⟨[], block, rest, w, isNewGer, rfl, rfl, hp⟩
      | panic p => simp at h

/-- Rollback on failure, as far as the code goes: when the block loop of
`processBlockRange` returns an error, the blocks before the failing one were
processed without error, no later block was processed, and for the failing
block either its transaction could not be opened, or the last action done is
the `Rollback` of its transaction, or the error is the wrong-length error of
`processGlobalExitRoot` (the one path that returns without rolling back) and a
global exit root event of the block carries neither two exit roots nor none. -/
theorem processBlocks_error_rolls_back {σ : Type} (env : SyncEnv σ) (s : ClientSynchronizer)
    (order : Bytes → List Order) (blocks : List Block) (w : World σ) (e : Err) (w1 : World σ)
    (b : Bool) (h : processBlocks env s order blocks false w = (Outcome.error e, w1, b)) :
    ∃ pre blk post wpre flag,
      blocks = pre ++ blk :: post ∧
      processBlocks env s order pre false w = (Outcome.ok (), wpre, flag) ∧
      processBlock env s order blk flag wpre = (Outcome.error e, w1, b) ∧
      ((∃ db1, env.BeginDBTransaction wpre.db = (Except.error e, db1)) ∨
       (∃ dbTx db1, env.BeginDBTransaction wpre.db = (Except.ok dbTx, db1) ∧
         (EndsWithRollback dbTx w1 ∨
           (e = wrongLengthErr ∧
             ∃ g, g ∈ blk.GlobalExitRoots ∧ g.ExitRoots.length ≠ 2 ∧
               g.ExitRoots.length ≠ 0)))) := by
  obtain ⟨pre, blk, post, wpre, flag, hsplit, hpre, hblk⟩ :=
    processBlocks_err env s order blocks false w e w1 b h
  exact ⟨pre, blk, post, wpre, flag, hsplit, hpre, hblk,
    processBlock_err env s order blk flag wpre e w1 b hblk⟩

/-- C10, counterexample: one block with one global exit root event of two
exit roots, whose `Pos` is in range.  The transaction of the block is opened
and every call up to its `Commit` succeeds; the read of the latest exit root
after the loop fails, and `processBlockRange` returns that error.  `Rollback`
has not been invoked on the transaction of the block, which is committed. -/
theorem C10_rollback_on_failure_counterexample :
    ExitRootsPaired [exampleBlock [exampleGER [zeroHash, zeroHash]]] ∧
    indexAt (exampleBlock [exampleGER [zeroHash, zeroHash]]).GlobalExitRoots 0 =
      some (exampleGER [zeroHash, zeroHash]) ∧
    (processBlockRange latestFailsEnv exampleSync [exampleBlock [exampleGER [zeroHash, zeroHash]]]
        (exampleOrder [{ Name := GlobalExitRootsOrder, Pos := 0 }]) emptyWorld).1 =
      Outcome.error (Err.other 3) ∧
    (processBlockRange latestFailsEnv exampleSync [exampleBlock [exampleGER [zeroHash, zeroHash]]]
        (exampleOrder [{ Name := GlobalExitRootsOrder, Pos := 0 }]) emptyWorld).2.trace =
      [Action.BeginDBTransaction,
       Action.AddBlock (exampleBlock [exampleGER [zeroHash, zeroHash]]) 0,
       Action.processGlobalExitRoot (exampleGER [zeroHash, zeroHash]) 1 0,
       Action.GetL2ExitRootsByGER [1],
       Action.AddGlobalExitRoot { exampleGER [zeroHash, zeroHash] with BlockID := 1 } 0,
       Action.Commit 0,
       Action.GetLatestL1SyncedExitRoot] ∧
    Action.Rollback 0 ∉
      (processBlockRange latestFailsEnv exampleSync
        [exampleBlock [exampleGER [zeroHash, zeroHash]]]
        (exampleOrder [{ Name := GlobalExitRootsOrder, Pos := 0 }]) emptyWorld).2.trace := by
  refine ⟨?_, by rfl, by rfl, by rfl, ?_⟩
  · intro b hb g hg
    simp only [List.mem_singleton] at hb
    rw [hb] at hg
    simp only [exampleBlock, List.mem_singleton] at hg
    rw [hg]
    exact Or.inl rfl
  · have h : (processBlockRange latestFailsEnv exampleSync
        [exampleBlock [exampleGER [zeroHash, zeroHash]]]
        (exampleOrder [{ Name := GlobalExitRootsOrder, Pos := 0 }]) emptyWorld).2.trace =
      [Action.BeginDBTransaction,
       Action.AddBlock (exampleBlock [exampleGER [zeroHash, zeroHash]]) 0,
       Action.processGlobalExitRoot (exampleGER [zeroHash, zeroHash]) 1 0,
       Action.GetL2ExitRootsByGER [1],
       Action.AddGlobalExitRoot { exampleGER [zeroHash, zeroHash] with BlockID := 1 } 0,
       Action.Commit 0,
       Action.GetLatestL1SyncedExitRoot] := by rfl
    rw [h]
    simp

/-- C10: rollback on every failure.  For every list of blocks whose global
exit root events carry two exit roots or none, the only ones `readEvents`
builds, and every order map (an entry whose `Pos` is out of range makes the
run panic, not return an error): when `processBlockRange` returns an error,
either the error arose in the body of the loop for one block `blk`, or every
block was processed and committed and the error is that of the read of the
latest exit root after the loop.  In the first case the blocks before `blk`
were processed without error, the world returned is the one the body for
`blk` ended in, so that no later block of the range is processed, and either
`BeginDBTransaction` failed for `blk`, so that no transaction was opened for
it, or its transaction was opened and the last action before the return is
the `Rollback` of that transaction. -/
theorem C10_rollback_on_failure {σ : Type} (env : SyncEnv σ) (s : ClientSynchronizer)
    (blocks : List Block) (order : Bytes → List Order) (w : World σ) (e : Err) (w1 : World σ)
    (hger : ExitRootsPaired blocks)
    (h : processBlockRange env s blocks order w = (Outcome.error e, w1)) :
    (∃ pre blk post wpre flag b,
      blocks = pre ++ blk :: post ∧
      processBlocks env s order pre false w = (Outcome.ok (), wpre, flag) ∧
      processBlock env s order blk flag wpre = (Outcome.error e, w1, b) ∧
      ((∃ db1, env.BeginDBTransaction wpre.db = (Except.error e, db1)) ∨
       (∃ dbTx db1, env.BeginDBTransaction wpre.db = (Except.ok dbTx, db1) ∧
         EndsWithRollback dbTx w1))) ∨
    (∃ wl db2,
      processBlocks env s order blocks false w = (Outcome.ok (), wl, true) ∧
      env.GetLatestL1SyncedExitRoot wl.db = (Except.error e, db2) ∧
      w1 = wl.step Action.GetLatestL1SyncedExitRoot db2) := by
  unfold processBlockRange at h
  cases hp : processBlocks env s order blocks false w with
  | mk r rest =>
    obtain ⟨wl, flag⟩ := rest
    rw [hp] at h
    cases r with
    | panic p => simp at h
    | error e2 =>
      simp only [Prod.mk.injEq, Outcome.error.injEq] at h
      obtain ⟨he, hw⟩ := h
      subst he hw
      left
      obtain ⟨pre, blk, post, wpre, flg, hsplit, hpre, hblk, hcase⟩ :=
        processBlocks_error_rolls_back env s order blocks w e2 wl flag hp
      refine ⟨pre, blk, post, wpre, flg, flag, hsplit, hpre, hblk, ?_⟩
      rcases hcase with hb | ⟨dbTx, db1, hb, hr | ⟨_, g, hg, h2, h0⟩⟩
      · exact Or.inl hb
      · exact Or.inr ⟨dbTx, db1, hb, hr⟩
      · have hmem : blk ∈ blocks := by rw [hsplit]; simp
        rcases hger blk hmem g hg with h | h
        · exact absurd h h2
        · exact absurd h h0
    | ok u =>
      cases u
      cases flag with
      | false => simp at h
      | true =>
        simp only at h
        cases hg : env.GetLatestL1SyncedExitRoot wl.db with
        | mk rg db2 =>
          rw [hg] at h
          cases rg with
          | error e2 =>
            simp only [Prod.mk.injEq, Outcome.error.injEq] at h
            right
            exact ⟨wl, db2, rfl, by rw [hg, h.1], h.2.symm⟩
          | ok ger =>
            simp only at h
            split at h
            · simp at h
            · split at h <;> simp at h

theorem exampleBlocks_paired :
    ExitRootsPaired [exampleBlock [exampleGER [zeroHash, zeroHash]], exampleBlock []] := by
  intro b hb g hg
  simp only [List.mem_cons, List.mem_singleton, List.not_mem_nil, or_false] at hb
  rcases hb with hb | hb
  · rw [hb] at hg
    simp only [exampleBlock, List.mem_singleton] at hg
    rw [hg]
    exact Or.inl rfl
  · rw [hb] at hg
    cases hg

theorem C10_rollback_on_failure_witness :
    ExitRootsPaired [exampleBlock [exampleGER [zeroHash, zeroHash]], exampleBlock []] ∧
    (processBlockRange (failingEnv none) exampleSync
        [exampleBlock [exampleGER [zeroHash, zeroHash]], exampleBlock []]
        (exampleOrder [{ Name := GlobalExitRootsOrder, Pos := 0 }]) emptyWorld).1 =
      Outcome.error (Err.other 2) ∧
    (processBlockRange (failingEnv none) exampleSync
        [exampleBlock [exampleGER [zeroHash, zeroHash]], exampleBlock []]
        (exampleOrder [{ Name := GlobalExitRootsOrder, Pos := 0 }]) emptyWorld).2.trace.getLast? =
      some (Action.Rollback 0) ∧
    ((∃ pre blk post wpre flag b,
      [exampleBlock [exampleGER [zeroHash, zeroHash]], exampleBlock []] = pre ++ blk :: post ∧
      processBlocks (failingEnv none) exampleSync
        (exampleOrder [{ Name := GlobalExitRootsOrder, Pos := 0 }]) pre false emptyWorld =
          (Outcome.ok (), wpre, flag) ∧
      processBlock (failingEnv none) exampleSync
        (exampleOrder [{ Name := GlobalExitRootsOrder, Pos := 0 }]) blk flag wpre =
          (Outcome.error (Err.other 2),
            (processBlockRange (failingEnv none) exampleSync
              [exampleBlock [exampleGER [zeroHash, zeroHash]], exampleBlock []]
              (exampleOrder [{ Name := GlobalExitRootsOrder, Pos := 0 }]) emptyWorld).2, b) ∧
      ((∃ db1, (failingEnv none).BeginDBTransaction wpre.db =
          (Except.error (Err.other 2), db1)) ∨
       (∃ dbTx db1, (failingEnv none).BeginDBTransaction wpre.db = (Except.ok dbTx, db1) ∧
         EndsWithRollback dbTx
           (processBlockRange (failingEnv none) exampleSync
              [exampleBlock [exampleGER [zeroHash, zeroHash]], exampleBlock []]
              (exampleOrder [{ Name := GlobalExitRootsOrder, Pos := 0 }]) emptyWorld).2))) ∨
    (∃ wl db2,
      processBlocks (failingEnv none) exampleSync
        (exampleOrder [{ Name := GlobalExitRootsOrder, Pos := 0 }])
        [exampleBlock [exampleGER [zeroHash, zeroHash]], exampleBlock []] false emptyWorld =
          (Outcome.ok (), wl, true) ∧
      (failingEnv none).GetLatestL1SyncedExitRoot wl.db = (Except.error (Err.other 2), db2) ∧
      (processBlockRange (failingEnv none) exampleSync
          [exampleBlock [exampleGER [zeroHash, zeroHash]], exampleBlock []]
          (exampleOrder [{ Name := GlobalExitRootsOrder, Pos := 0 }]) emptyWorld).2 =
        wl.step Action.GetLatestL1SyncedExitRoot db2)) :=
  ⟨exampleBlocks_paired, rfl, rfl,
    C10_rollback_on_failure (failingEnv none) exampleSync
      [exampleBlock [exampleGER [zeroHash, zeroHash]], exampleBlock []]
      (exampleOrder [{ Name := GlobalExitRootsOrder, Pos := 0 }]) emptyWorld (Err.other 2) _
      exampleBlocks_paired rfl⟩

/-! ## Theorems: claim transaction manager -/

theorem estimateGasLoop_reverted {σ : Type} (env : ClaimEnv σ) (tm : ClaimTxManager)
    (tx : CallMsg) (fuel : Nat) (i : Int) (e : Err) (w : TxWorld σ)
    (h : env.errorText e = env.ErrExecutionReverted) :
    estimateGasLoop env tm tx fuel i (Except.error e) w = (Except.error e, w) := by
  cases fuel with
  | zero => rfl
  | succ n => simp [estimateGasLoop, h]

/-- The bound on the retry loop is enough: once it covers the rounds left up
to `RetryNumber`, a larger bound gives the same result. -/
theorem estimateGasLoop_enough {σ : Type} (env : ClaimEnv σ) (tm : ClaimTxManager)
    (tx : CallMsg) (extra : Nat) :
    ∀ (fuel : Nat) (i : Int) (res : Except Err Nat) (w : TxWorld σ),
      tm.cfg.RetryNumber ≤ fuel + i →
      estimateGasLoop env tm tx (fuel + extra) i res w = estimateGasLoop env tm tx fuel i res w := by
  intro fuel
  induction fuel with
  | zero =>
    intro i res w h
    cases extra with
    | zero => rfl
    | succ k =>
      rw [Nat.zero_add]
      cases res with
      | ok gas => rfl
      | error err =>
        have hi : ¬ (env.errorText err ≠ env.ErrExecutionReverted ∧ i < tm.cfg.RetryNumber) := by
          intro hc
          have := hc.2
          omega
        simp only [estimateGasLoop, if_neg hi]
  | succ n ih =>
    intro i res w h
    rw [Nat.add_right_comm]
    cases res with
    | ok gas => rfl
    | error err =>
      simp only [estimateGasLoop]
      split
      · exact ih (i + 1) _ _ (by push_cast at h ⊢; omega)
      · rfl

/-- C19: when the first gas estimation of `addClaimTx` fails with the revert
error, `addClaimTx` returns nil and its only actions are that one call to
`EstimateGas` and the `BlockByNumber` call made for the log message: the
estimation is not retried, no nonce is taken and no monitored transaction is
written. -/
theorem C19_reverted_estimation_skips {σ : Type} (env : ClaimEnv σ) (tm : ClaimTxManager)
    (depositID : Nat) (sender : Bytes) (toAddr : Option Bytes) (value : Option Int)
    (data ger : Bytes) (dbTx : Tx) (w : TxWorld σ) (e : Err) (db1 : σ)
    (hfirst : env.EstimateGas { From := sender, To := toAddr, Value := value, Data := data } w.db =
      (Except.error e, db1))
    (hrev : env.errorText e = env.ErrExecutionReverted) :
    (addClaimTx env tm depositID sender toAddr value data ger dbTx w).1 = none ∧
    (addClaimTx env tm depositID sender toAddr value data ger dbTx w).2.trace =
      w.trace ++ [TxAction.EstimateGas { From := sender, To := toAddr, Value := value, Data := data },
                  TxAction.BlockByNumber] ∧
    (addClaimTx env tm depositID sender toAddr value data ger dbTx w).2.db =
      (env.BlockByNumber db1).2 := by
  simp [addClaimTx, estimateGas, hfirst, estimateGasLoop_reverted _ _ _ _ _ _ _ hrev,
    TxWorld.step]

theorem C19_reverted_estimation_skips_witness :
    (addClaimTx (stubEnv { okStub with Gas := Except.error (Err.msg "execution reverted") })
        (exampleManager 10) 1 [4] (some [5]) none [6] [2] 7 emptyTxWorld).1 = none ∧
    (addClaimTx (stubEnv { okStub with Gas := Except.error (Err.msg "execution reverted") })
        (exampleManager 10) 1 [4] (some [5]) none [6] [2] 7 emptyTxWorld).2.trace =
      emptyTxWorld.trace ++
        [TxAction.EstimateGas { From := [4], To := some [5], Value := none, Data := [6] },
         TxAction.BlockByNumber] ∧
    (addClaimTx (stubEnv { okStub with Gas := Except.error (Err.msg "execution reverted") })
        (exampleManager 10) 1 [4] (some [5]) none [6] [2] 7 emptyTxWorld).2.db =
      ((stubEnv { okStub with Gas := Except.error (Err.msg "execution reverted") }).BlockByNumber
        1).2 :=
  C19_reverted_estimation_skips
    (stubEnv { okStub with Gas := Except.error (Err.msg "execution reverted") })
    (exampleManager 10) 1 [4] (some [5]) none [6] [2] 7 emptyTxWorld
    (Err.msg "execution reverted") 1 rfl rfl

theorem estimateGasLoop_fails {σ : Type} (env : ClaimEnv σ) (tm : ClaimTxManager)
    (tx : CallMsg) (hfail : EstimationFails env tx) :
    ∀ (fuel : Nat) (i : Int) (e : Err) (w : TxWorld σ),
      env.errorText e ≠ env.ErrExecutionReverted → tm.cfg.RetryNumber ≤ fuel + i →
      ∃ e1, env.errorText e1 ≠ env.ErrExecutionReverted ∧
        (estimateGasLoop env tm tx fuel i (Except.error e) w).1 = Except.error e1 ∧
        (estimateGasLoop env tm tx fuel i (Except.error e) w).2.trace =
          w.trace ++ retryTrace tx (tm.cfg.RetryNumber - i).toNat := by
  intro fuel
  induction fuel with
  | zero =>
    intro i e w he hle
    have h0 : (tm.cfg.RetryNumber - i).toNat = 0 := by omega
    refine ⟨e, he, rfl, ?_⟩
    rw [h0]
    simp [estimateGasLoop, retryTrace]
  | succ n ih =>
    intro i e w he hle
    by_cases hi : i < tm.cfg.RetryNumber
    · obtain ⟨e1, h1, h1t⟩ := hfail (w.step TxAction.Sleep w.db).db
      have hk : (tm.cfg.RetryNumber - i).toNat = (tm.cfg.RetryNumber - (i + 1)).toNat + 1 := by
        omega
      obtain ⟨e2, h2, h2r, h2t⟩ := ih (i + 1) e1
        ((w.step TxAction.Sleep w.db).step (TxAction.EstimateGas tx)
          (env.EstimateGas tx (w.step TxAction.Sleep w.db).db).2) h1t
        (by push_cast at hle ⊢; omega)
      refine ⟨e2, h2, ?_, ?_⟩
      · simp only [estimateGasLoop, ne_eq, he, not_false_eq_true, hi, and_self, if_true]
        rw [← h1] at h2r
        exact h2r
      · simp only [estimateGasLoop, ne_eq, he, not_false_eq_true, hi, and_self, if_true]
        rw [← h1] at h2t
        rw [h2t, hk]
        simp [retryTrace, TxWorld.step]
    · have h0 : (tm.cfg.RetryNumber - i).toNat = 0 := by omega
      refine ⟨e, he, ?_, ?_⟩
      · simp [estimateGasLoop, hi]
      · rw [h0]
        simp [estimateGasLoop, hi, retryTrace]

theorem estimateGas_fails {σ : Type} (env : ClaimEnv σ) (tm : ClaimTxManager)
    (tx : CallMsg) (hfail : EstimationFails env tx) (w : TxWorld σ) :
    ∃ e1, (estimateGas env tm tx w).1 = Except.error e1 ∧
      (estimateGas env tm tx w).2.trace =
        w.trace ++ TxAction.EstimateGas tx :: retryTrace tx (tm.cfg.RetryNumber - 1).toNat := by
  obtain ⟨e, he, het⟩ := hfail w.db
  obtain ⟨e1, _, h1r, h1t⟩ := estimateGasLoop_fails env tm tx hfail tm.cfg.RetryNumber.toNat 1 e
    (w.step (TxAction.EstimateGas tx) (env.EstimateGas tx w.db).2) het (by omega)
  refine ⟨e1, ?_, ?_⟩
  · simp only [estimateGas]
    rw [← he] at h1r
    exact h1r
  · simp only [estimateGas]
    rw [← he] at h1t
    rw [h1t]
    simp [TxWorld.step]
/-- C20 (what the code does): when every gas estimation fails with an error
other than the revert error, `addClaimTx` and `ReviewMonitoredTx` make the
initial estimation followed by `RetryNumber - 1` retries (none when
`RetryNumber` is at most 1), each retry after a sleep: `RetryNumber` counts the
initial attempt, so the estimation is re-attempted one time fewer than
`RetryNumber`.  `addClaimTx` then returns nil after `BlockByNumber`, and
`ReviewMonitoredTx` returns the wrapped error of the last estimation. -/
theorem C20_estimation_attempts {σ : Type} (env : ClaimEnv σ) (tm : ClaimTxManager)
    (mTx : MonitoredTx) (reviewNonce : Bool) (ger : Bytes) (dbTx : Tx) (w : TxWorld σ)
    (hfail : EstimationFails env
      { From := mTx.From, To := mTx.To, Value := mTx.Value, Data := mTx.Data }) :
    (addClaimTx env tm mTx.DepositID mTx.From mTx.To mTx.Value mTx.Data ger dbTx w).1 = none ∧
    (addClaimTx env tm mTx.DepositID mTx.From mTx.To mTx.Value mTx.Data ger dbTx w).2.trace =
      w.trace ++
        TxAction.EstimateGas { From := mTx.From, To := mTx.To, Value := mTx.Value, Data := mTx.Data } ::
          retryTrace { From := mTx.From, To := mTx.To, Value := mTx.Value, Data := mTx.Data }
            (tm.cfg.RetryNumber - 1).toNat ++ [TxAction.BlockByNumber] ∧
    (∃ e, (ReviewMonitoredTx env tm mTx reviewNonce w).1 =
      (some (Err.wrapped "failed to estimate gas. Error: %v, Data: %s" e), mTx)) ∧
    (ReviewMonitoredTx env tm mTx reviewNonce w).2.trace =
      w.trace ++
        TxAction.EstimateGas { From := mTx.From, To := mTx.To, Value := mTx.Value, Data := mTx.Data } ::
          retryTrace { From := mTx.From, To := mTx.To, Value := mTx.Value, Data := mTx.Data }
            (tm.cfg.RetryNumber - 1).toNat := by
  obtain ⟨e1, hr, ht⟩ := estimateGas_fails env tm _ hfail w
  have hpair : estimateGas env tm
      { From := mTx.From, To := mTx.To, Value := mTx.Value, Data := mTx.Data } w =
      (Except.error e1, (estimateGas env tm
        { From := mTx.From, To := mTx.To, Value := mTx.Value, Data := mTx.Data } w).2) := by
    rw [← hr]
  refine ⟨?_, ?_, ⟨e1, ?_⟩, ?_⟩
  · simp only [addClaimTx]; rw [hpair]
  · simp only [addClaimTx]; rw [hpair]; simp only [TxWorld.step]; rw [ht]
  · simp only [ReviewMonitoredTx]; rw [hpair]
  · simp only [ReviewMonitoredTx]; rw [hpair]; exact ht

theorem C20_estimation_attempts_witness :
    (addClaimTx (stubEnv { okStub with Gas := Except.error (Err.other 1) }) (exampleManager 3)
        1 [4] (some [5]) none [6] [2] 7 emptyTxWorld).1 = none ∧
    (addClaimTx (stubEnv { okStub with Gas := Except.error (Err.other 1) }) (exampleManager 3)
        1 [4] (some [5]) none [6] [2] 7 emptyTxWorld).2.trace =
      [TxAction.EstimateGas exampleCall,
       TxAction.Sleep, TxAction.EstimateGas exampleCall,
       TxAction.Sleep, TxAction.EstimateGas exampleCall,
       TxAction.BlockByNumber] ∧
    (∃ e, (ReviewMonitoredTx (stubEnv { okStub with Gas := Except.error (Err.other 1) })
        (exampleManager 3) exampleMTx true emptyTxWorld).1 =
      (some (Err.wrapped "failed to estimate gas. Error: %v, Data: %s" e), exampleMTx)) ∧
    (ReviewMonitoredTx (stubEnv { okStub with Gas := Except.error (Err.other 1) })
        (exampleManager 3) exampleMTx true emptyTxWorld).2.trace =
      [TxAction.EstimateGas exampleCall,
       TxAction.Sleep, TxAction.EstimateGas exampleCall,
       TxAction.Sleep, TxAction.EstimateGas exampleCall] :=
  C20_estimation_attempts (stubEnv { okStub with Gas := Except.error (Err.other 1) })
    (exampleManager 3) exampleMTx true [2] 7 emptyTxWorld
    (fun _ => ⟨Err.other 1, rfl, by decide⟩)

theorem TxWorld.Adds.adds_refl {σ : Type} (P : TxAction → Prop) (w : TxWorld σ) : w.Adds P w :=
  ⟨[], by simp, fun _ h => absurd h (List.not_mem_nil _)⟩

theorem TxWorld.Adds.adds_trans {σ : Type} {P : TxAction → Prop} {w w1 w2 : TxWorld σ}
    (h1 : w.Adds P w1) (h2 : w1.Adds P w2) : w.Adds P w2 := by
  obtain ⟨t1, e1, p1⟩ := h1
  obtain ⟨t2, e2, p2⟩ := h2
  refine ⟨t1 ++ t2, by rw [e2, e1, List.append_assoc], ?_⟩
  intro a ha
  rcases List.mem_append.1 ha with h | h
  · exact p1 a h
  · exact p2 a h

theorem TxWorld.Adds.adds_mono {σ : Type} {P Q : TxAction → Prop} {w w1 : TxWorld σ}
    (h : w.Adds P w1) (hPQ : ∀ a, P a → Q a) : w.Adds Q w1 := by
  obtain ⟨t, e, p⟩ := h
  exact ⟨t, e, fun a ha => hPQ a (p a ha)⟩

theorem TxWorld.Adds.adds_step {σ : Type} {P : TxAction → Prop} (w : TxWorld σ) (a : TxAction)
    (db : σ) (h : P a) : w.Adds P (w.step a db) :=
  ⟨[a], rfl, fun b hb => by rw [List.mem_singleton.1 hb]; exact h⟩

theorem TxWorld.Adds.adds_then {σ : Type} {P : TxAction → Prop} {w w1 : TxWorld σ}
    (h1 : w.Adds P w1) (a : TxAction) (db : σ) (h : P a) : w.Adds P (w1.step a db) :=
  h1.adds_trans (TxWorld.Adds.adds_step w1 a db h)

theorem estimateGasLoop_adds {σ : Type} (env : ClaimEnv σ) (tm : ClaimTxManager)
    (tx : CallMsg) :
    ∀ (fuel : Nat) (i : Int) (res : Except Err Nat) (w : TxWorld σ),
      w.Adds (fun a => a = TxAction.Sleep ∨ a = TxAction.EstimateGas tx)
        (estimateGasLoop env tm tx fuel i res w).2 := by
  intro fuel
  induction fuel with
  | zero => intro i res w; exact TxWorld.Adds.adds_refl _ _
  | succ n ih =>
    intro i res w
    cases res with
    | ok gas => exact TxWorld.Adds.adds_refl _ _
    | error err =>
      simp only [estimateGasLoop]
      split
      · exact ((TxWorld.Adds.adds_step w _ _ (Or.inl rfl)).adds_then _ _ (Or.inr rfl)).adds_trans
          (ih _ _ _)
      · exact TxWorld.Adds.adds_refl _ _

theorem estimateGas_adds {σ : Type} (env : ClaimEnv σ) (tm : ClaimTxManager)
    (tx : CallMsg) (w : TxWorld σ) :
    w.Adds (fun a => a = TxAction.Sleep ∨ a = TxAction.EstimateGas tx)
      (estimateGas env tm tx w).2 :=
  (TxWorld.Adds.adds_step w _ _ (Or.inr rfl)).adds_trans (estimateGasLoop_adds env tm tx _ _ _ _)

theorem addClaimTx_adds {σ : Type} (env : ClaimEnv σ) (tm : ClaimTxManager) (depositID : Nat)
    (sender : Bytes) (toAddr : Option Bytes) (value : Option Int) (data ger : Bytes) (dbTx : Tx)
    (w : TxWorld σ) :
    w.Adds (fun a => ∀ mTx tx, a = TxAction.AddClaimTx mTx tx → mTx.DepositID = depositID)
      (addClaimTx env tm depositID sender toAddr value data ger dbTx w).2 := by
  have hest := (estimateGas_adds env tm
    { From := sender, To := toAddr, Value := value, Data := data } w).adds_mono
    (Q := fun a => ∀ mTx tx, a = TxAction.AddClaimTx mTx tx → mTx.DepositID = depositID)
    (by
      intro a ha mTx tx h
      subst h
      rcases ha with h | h <;> exact absurd h (by simp))
  simp only [addClaimTx]
  cases hc : estimateGas env tm { From := sender, To := toAddr, Value := value, Data := data } w with
  | mk r w1 =>
    rw [hc] at hest
    simp only at hest
    have hno : ∀ (a : TxAction), (∀ mTx tx, a ≠ TxAction.AddClaimTx mTx tx) →
        ∀ mTx tx, a = TxAction.AddClaimTx mTx tx → mTx.DepositID = depositID :=
      fun a h mTx tx he => absurd he (h mTx tx)
    cases r with
    | error e =>
      exact hest.adds_then _ _ (hno _ (by intro _ _ h; cases h))
    | ok gas =>
      simp only
      have h2 := hest.adds_then (TxAction.GetNextNonce sender) (env.GetNextNonce sender w1.db).2
        (hno _ (by intro _ _ h; cases h))
      cases hn : env.GetNextNonce sender w1.db with
      | mk rn db2 =>
        rw [hn] at h2
        cases rn with
        | error e => exact h2
        | ok nonce =>
          simp only
          split
          · exact h2.adds_then _ _ (by
              intro m t h
              simp only [TxAction.AddClaimTx.injEq] at h
              rw [← h.1])
          · exact h2.adds_then _ _ (by
              intro m t h
              simp only [TxAction.AddClaimTx.injEq] at h
              rw [← h.1])
theorem GetDepositStatus_trace {σ : Type} (env : ClaimEnv σ) (c o d : Nat) (w : TxWorld σ) :
    (GetDepositStatus env c o d w).2.trace = w.trace ++ [TxAction.GetClaim c o d] := by
  simp only [GetDepositStatus]
  cases hc : env.GetClaim c o d w.db with
  | mk r db1 =>
    cases r with
    | error e => simp only; split <;> rfl
    | ok claim => rfl

theorem isDepositMessageAllowedLoop_iff (deposit : Deposit) (addrs : List Bytes) :
    isDepositMessageAllowedLoop deposit addrs = true ↔ deposit.OriginalAddress ∈ addrs := by
  induction addrs with
  | nil => simp [isDepositMessageAllowedLoop]
  | cons a rest ih =>
    simp only [isDepositMessageAllowedLoop, List.mem_cons]
    by_cases h : deposit.OriginalAddress = a
    · simp [h]
    · simp [h, ih]

theorem claimDeposit_adds {σ : Type} (env : ClaimEnv σ) (tm : ClaimTxManager)
    (globalExitRoot : Bytes) (dbTx : Tx) (deposit : Deposit) (w : TxWorld σ) :
    w.Adds (AddsOnlyEligible tm [deposit])
      (claimDeposit env tm globalExitRoot dbTx deposit w).2 := by
  have hno : ∀ (a : TxAction), (∀ mTx tx, a ≠ TxAction.AddClaimTx mTx tx) →
      AddsOnlyEligible tm [deposit] a :=
    fun a h mTx tx he => absurd he (h mTx tx)
  simp only [claimDeposit]
  split
  · exact TxWorld.Adds.adds_refl _ _
  · rename_i hnet
    have hst : w.Adds (AddsOnlyEligible tm [deposit])
        (GetDepositStatus env deposit.DepositCount deposit.NetworkID deposit.DestinationNetwork
          w).2 :=
      ⟨_, GetDepositStatus_trace env _ _ _ w, fun a ha => by
        rw [List.mem_singleton.1 ha]; exact hno _ (by intro _ _ h; cases h)⟩
    cases hs : GetDepositStatus env deposit.DepositCount deposit.NetworkID
        deposit.DestinationNetwork w with
    | mk r w1 =>
      rw [hs] at hst
      simp only at hst
      cases r with
      | error e => exact hst
      | ok claimHash =>
        simp only
        split
        · exact hst
        · rename_i hfilter
          have hel : Eligible tm deposit := by
            refine ⟨(not_not.1 hnet).symm, fun hl => ?_⟩
            by_contra hn
            apply hfilter
            right
            refine ⟨hl, ?_⟩
            intro hallowed
            exact hn ((isDepositMessageAllowedLoop_iff _ _).1 hallowed)
          cases hp : env.GetClaimProofForCompressed globalExitRoot deposit.DepositCount
              deposit.NetworkID dbTx w1.db with
          | mk rp db2 =>
            have h2 := hst.adds_then (TxAction.GetClaimProofForCompressed globalExitRoot
              deposit.DepositCount deposit.NetworkID dbTx) db2 (hno _ (by intro _ _ h; cases h))
            cases rp with
            | error e => exact h2
            | ok val =>
              obtain ⟨ger, proof, rollupProof⟩ := val
              simp only
              split
              · exact h2
              · split
                · rename_i root0 root1 _ _
                  split
                  · exact h2.adds_then _ _ (hno _ (by intro _ _ h; cases h))
                  · rename_i tx db3 hb
                    have h3 := h2.adds_then (TxAction.BuildSendClaim deposit
                      (List.take mtHeight proof) (List.take mtHeight rollupProof)
                      { BlockID := 0, BlockNumber := 0, ExitRoots := [root0, root1],
                        GlobalExitRoot := zeroHash, NetworkID := 0, ID := 0 }) db3
                      (hno _ (by intro _ _ h; cases h))
                    have h4 := h3.adds_trans ((addClaimTx_adds env tm deposit.Id tm.authFrom tx.To none
                      tx.Data ger.GlobalExitRoot dbTx _).adds_mono
                      (Q := AddsOnlyEligible tm [deposit])
                      (fun a ha mTx t he => ⟨deposit, List.mem_singleton.2 rfl, ha mTx t he, hel⟩))
                    split
                    · rename_i hadd; rw [hadd] at h4; exact h4
                    · rename_i hadd; rw [hadd] at h4; exact h4
                · exact h2
theorem claimDeposits_adds {σ : Type} (env : ClaimEnv σ) (tm : ClaimTxManager)
    (globalExitRoot : Bytes) (dbTx : Tx) :
    ∀ (deposits : List Deposit) (w : TxWorld σ),
      w.Adds (AddsOnlyEligible tm deposits)
        (claimDeposits env tm globalExitRoot dbTx deposits w).2 := by
  intro deposits
  induction deposits with
  | nil => intro w; exact TxWorld.Adds.adds_refl _ _
  | cons d rest ih =>
    intro w
    have h1 := (claimDeposit_adds env tm globalExitRoot dbTx d w).adds_mono
      (Q := AddsOnlyEligible tm (d :: rest))
      (fun a ha mTx t he => by
        obtain ⟨x, hx, hid, hel⟩ := ha mTx t he
        exact ⟨x, List.mem_cons.2 (Or.inl (List.mem_singleton.1 hx)), hid, hel⟩)
    simp only [claimDeposits]
    cases hc : claimDeposit env tm globalExitRoot dbTx d w with
    | mk r w1 =>
      rw [hc] at h1
      cases r with
      | ok u =>
        exact h1.adds_trans ((ih w1).adds_mono (fun a ha mTx t he => by
          obtain ⟨x, hx, hid, hel⟩ := ha mTx t he
          exact ⟨x, List.mem_cons_of_mem _ hx, hid, hel⟩))
      | error e => exact h1
      | panic p => exact h1

theorem claimDeposits_append {σ : Type} (env : ClaimEnv σ) (tm : ClaimTxManager)
    (globalExitRoot : Bytes) (dbTx : Tx) (post : List Deposit) :
    ∀ (pre : List Deposit) (w0 w1 : TxWorld σ),
      claimDeposits env tm globalExitRoot dbTx pre w0 = (Outcome.ok (), w1) →
      claimDeposits env tm globalExitRoot dbTx (pre ++ post) w0 =
        claimDeposits env tm globalExitRoot dbTx post w1 := by
  intro pre
  induction pre with
  | nil =>
    intro w0 w1 h
    simp only [claimDeposits, Prod.mk.injEq, true_and] at h
    rw [List.nil_append, h]
  | cons d rest ih =>
    intro w0 w1 h
    simp only [claimDeposits, List.cons_append] at h ⊢
    cases hc : claimDeposit env tm globalExitRoot dbTx d w0 with
    | mk r w2 =>
      rw [hc] at h
      cases r with
      | ok u => exact ih w2 w1 h
      | error e => simp at h
      | panic p => simp at h

theorem hashString_nonempty (h : Bytes) : (hashString h).utf8ByteSize > 0 := by
  unfold hashString
  generalize String.join _ = s
  cases s with
  | mk cs =>
    have e : "0x" ++ String.mk cs = String.mk ('0' :: 'x' :: cs) := rfl
    rw [e, String.utf8ByteSize_mk]
    simp only [String.utf8Len_cons]
    have := Char.utf8Size_pos '0'
    omega

theorem claimDeposit_claimed {σ : Type} (env : ClaimEnv σ) (tm : ClaimTxManager)
    (globalExitRoot : Bytes) (dbTx : Tx) (d : Deposit) (w1 w2 : TxWorld σ) (claimHash : String)
    (hstatus : GetDepositStatus env d.DepositCount d.NetworkID d.DestinationNetwork w1 =
      (Except.ok claimHash, w2))
    (hclaimed : claimHash.utf8ByteSize > 0) :
    claimDeposit env tm globalExitRoot dbTx d w1 =
      (Outcome.ok (), if tm.l2NetworkID ≠ d.DestinationNetwork then w1 else w2) := by
  simp only [claimDeposit]
  split
  · rfl
  · rw [hstatus]
    simp only [hclaimed, true_or, if_true]

theorem latestTrustedGER_adds {σ : Type} (env : ClaimEnv σ) (d0 : Deposit) (dbTx : Tx)
    (w : TxWorld σ) : w.Adds NoClaimAction (latestTrustedGER env d0 dbTx w).2 := by
  have hno : NoClaimAction (TxAction.GetLatestTrustedGERByDeposit d0.DepositCount d0.NetworkID
      d0.DestinationNetwork dbTx) := ⟨(by intro _ _ _ _ h; cases h), (by intro _ _ h; cases h)⟩
  have hsl : NoClaimAction TxAction.Sleep := ⟨(by intro _ _ _ _ h; cases h), (by intro _ _ h; cases h)⟩
  simp only [latestTrustedGER]
  have h1 := TxWorld.Adds.adds_step w _ (env.GetLatestTrustedGERByDeposit d0.DepositCount d0.NetworkID
    d0.DestinationNetwork dbTx w.db).2 hno
  split
  · exact h1
  · split
    · have h3 := (h1.adds_then _ (w.step (TxAction.GetLatestTrustedGERByDeposit d0.DepositCount
        d0.NetworkID d0.DestinationNetwork dbTx) (env.GetLatestTrustedGERByDeposit d0.DepositCount
        d0.NetworkID d0.DestinationNetwork dbTx w.db).2).db hsl).adds_then _
        (env.GetLatestTrustedGERByDeposit d0.DepositCount d0.NetworkID d0.DestinationNetwork dbTx
          ((w.step (TxAction.GetLatestTrustedGERByDeposit d0.DepositCount
            d0.NetworkID d0.DestinationNetwork dbTx) (env.GetLatestTrustedGERByDeposit
            d0.DepositCount d0.NetworkID d0.DestinationNetwork dbTx w.db).2).step TxAction.Sleep
            (w.step (TxAction.GetLatestTrustedGERByDeposit d0.DepositCount
            d0.NetworkID d0.DestinationNetwork dbTx) (env.GetLatestTrustedGERByDeposit
            d0.DepositCount d0.NetworkID d0.DestinationNetwork dbTx w.db).2).db).db).2 hno
      split
      · exact h3
      · split
        · exact h3
        · exact h3
    · exact h1
theorem processDepositStatus_selects {σ : Type} (env : ClaimEnv σ) (tm : ClaimTxManager)
    (ger : GlobalExitRoot) (dbTx : Tx) (w : TxWorld σ) :
    SelectsThenClaims env tm ger dbTx w := by
  have hno : ∀ a : TxAction, (∀ d p r g, a ≠ TxAction.BuildSendClaim d p r g) →
      (∀ mTx tx, a ≠ TxAction.AddClaimTx mTx tx) → NoClaimAction a := fun _ h1 h2 => ⟨h1, h2⟩
  unfold SelectsThenClaims
  simp only [processDepositStatus]
  split
  · split
    · exact ⟨[], [], w, TxWorld.Adds.adds_refl _ _, Or.inr ⟨rfl, by simp⟩⟩
    · rename_i root1 _
      have h1 := TxWorld.Adds.adds_step w
        (TxAction.UpdateL2DepositsStatus root1 tm.rollupID tm.l2NetworkID dbTx)
        (env.UpdateL2DepositsStatus root1 tm.rollupID tm.l2NetworkID dbTx w.db).2
        (hno _ (by intro _ _ _ _ h; cases h) (by intro _ _ h; cases h))
      cases hu : env.UpdateL2DepositsStatus root1 tm.rollupID tm.l2NetworkID dbTx w.db with
      | mk ru db1 =>
        rw [hu] at h1
        cases ru with
        | some e => exact ⟨[], [], _, h1, Or.inr ⟨rfl, by simp⟩⟩
        | none =>
          simp only
          split
          · have h2 := h1.adds_then (TxAction.GetDepositsFromOtherL2ToClaim tm.l2NetworkID dbTx)
              (env.GetDepositsFromOtherL2ToClaim tm.l2NetworkID dbTx db1).2
              (hno _ (by intro _ _ _ _ h; cases h) (by intro _ _ h; cases h))
            cases hg : env.GetDepositsFromOtherL2ToClaim tm.l2NetworkID dbTx
                (w.step (TxAction.UpdateL2DepositsStatus root1 tm.rollupID tm.l2NetworkID dbTx)
                  db1).db with
            | mk rg db2 =>
              have hg2 : (env.GetDepositsFromOtherL2ToClaim tm.l2NetworkID dbTx db1).2 = db2 := by
                have := congrArg Prod.snd hg
                exact this
              rw [hg2] at h2
              cases rg with
              | error e => exact ⟨[], [], _, h2, Or.inr ⟨rfl, by simp⟩⟩
              | ok deposits =>
                simp only
                cases deposits with
                | nil => exact ⟨ger.GlobalExitRoot, [], _, h2, Or.inl rfl⟩
                | cons d0 rest =>
                  simp only
                  have h3 := h2.adds_trans (latestTrustedGER_adds env d0 dbTx _)
                  cases hl : latestTrustedGER env d0 dbTx
                    ((w.step (TxAction.UpdateL2DepositsStatus root1 tm.rollupID tm.l2NetworkID
                      dbTx) db1).step (TxAction.GetDepositsFromOtherL2ToClaim tm.l2NetworkID dbTx)
                      db2) with
                  | mk rl w3 =>
                    rw [hl] at h3
                    cases rl with
                    | error e => exact ⟨[], [], _, h3, Or.inr ⟨rfl, by simp⟩⟩
                    | ok g => exact ⟨g, d0 :: rest, _, h3, Or.inl rfl⟩
          · exact ⟨ger.GlobalExitRoot, [], _, h1, Or.inl rfl⟩
  · split
    · exact ⟨[], [], w, TxWorld.Adds.adds_refl _ _, Or.inr ⟨rfl, by simp⟩⟩
    · rename_i root0 _
      have h1 := TxWorld.Adds.adds_step w
        (TxAction.UpdateL1DepositsStatus root0 tm.l2NetworkID dbTx)
        (env.UpdateL1DepositsStatus root0 tm.l2NetworkID dbTx w.db).2
        (hno _ (by intro _ _ _ _ h; cases h) (by intro _ _ h; cases h))
      cases hu : env.UpdateL1DepositsStatus root0 tm.l2NetworkID dbTx w.db with
      | mk ru db1 =>
        rw [hu] at h1
        cases ru with
        | error e => exact ⟨[], [], _, h1, Or.inr ⟨rfl, by simp⟩⟩
        | ok deposits => exact ⟨ger.GlobalExitRoot, deposits, _, h1, Or.inl rfl⟩

/-- An eligible deposit without a claim, every call succeeding: the loop reads
the claim, gets the proof, builds the claim, estimates the gas, takes a nonce
and writes the monitored transaction. -/
theorem claimDeposits_example :
    claimDeposits (stubEnv okStub) (exampleManager 10) [2] 7 [exampleDeposit 1 [8]] emptyTxWorld =
      (Outcome.ok (),
        { db := 6,
          trace :=
            [TxAction.GetClaim 4 0 1,
             TxAction.GetClaimProofForCompressed [2] 4 0 7,
             TxAction.BuildSendClaim (exampleDeposit 1 [8]) (List.replicate 32 zeroHash)
               (List.replicate 32 zeroHash)
               { BlockID := 0, BlockNumber := 0, ExitRoots := [zeroHash, zeroHash],
                 GlobalExitRoot := zeroHash, NetworkID := 0, ID := 0 },
             TxAction.EstimateGas exampleCall,
             TxAction.GetNextNonce [4],
             TxAction.AddClaimTx
               { DepositID := 11, From := [4], To := some [5], Nonce := 3, Value := none,
                 Data := [6], Gas := 21000, Status := "created", GlobalExitRoot := [2] } 7] }) := by
  rfl

/-- C15: in the loop of `processDepositStatus` over any list of deposits, a
deposit for which `GetDepositStatus` reports a non-empty claim transaction hash
is passed over: the loop goes on with the next deposit from the world in
which only the status was read (`GetClaim`), so no proof is fetched, no claim
is built and no monitored transaction is written for it.  The status is
non-empty whenever storage finds a claim for the deposit, and
`processDepositStatus` builds and writes claims only inside this loop. -/
theorem C15_no_double_claim {σ : Type} (env : ClaimEnv σ) (tm : ClaimTxManager)
    (ger : GlobalExitRoot) (globalExitRoot : Bytes) (dbTx : Tx) (pre post : List Deposit)
    (d : Deposit) (w w0 w1 w2 : TxWorld σ) (claimHash : String)
    (hpre : claimDeposits env tm globalExitRoot dbTx pre w0 = (Outcome.ok (), w1))
    (hstatus : GetDepositStatus env d.DepositCount d.NetworkID d.DestinationNetwork w1 =
      (Except.ok claimHash, w2))
    (hclaimed : claimHash.utf8ByteSize > 0) :
    claimDeposits env tm globalExitRoot dbTx (pre ++ d :: post) w0 =
      claimDeposits env tm globalExitRoot dbTx post
        (if tm.l2NetworkID ≠ d.DestinationNetwork then w1 else w2) ∧
    w2.trace = w1.trace ++ [TxAction.GetClaim d.DepositCount d.NetworkID d.DestinationNetwork] ∧
    (∀ claim db, env.GetClaim d.DepositCount d.NetworkID d.DestinationNetwork w1.db =
        (Except.ok claim, db) →
      claimHash = hashString claim.TxHash) ∧
    (∀ (claim : Claim), (hashString claim.TxHash).utf8ByteSize > 0) ∧
    SelectsThenClaims env tm ger dbTx w := by
  refine ⟨?_, ?_, ?_, fun claim => hashString_nonempty _, processDepositStatus_selects _ _ _ _ _⟩
  · rw [claimDeposits_append env tm globalExitRoot dbTx (d :: post) pre w0 w1 hpre]
    simp only [claimDeposits]
    rw [claimDeposit_claimed env tm globalExitRoot dbTx d w1 w2 claimHash hstatus hclaimed]
  · have h := GetDepositStatus_trace env d.DepositCount d.NetworkID d.DestinationNetwork w1
    rw [hstatus] at h
    exact h
  · intro claim db hc
    simp only [GetDepositStatus, hc, Prod.mk.injEq, Except.ok.injEq] at hstatus
    exact hstatus.1.symm

theorem C15_no_double_claim_witness :
    claimDeposits (stubEnv claimedStub) (exampleManager 10) [2] 7
        ([] ++ exampleDeposit 0 [8] :: [{ exampleDeposit 0 [8] with Id := 12, DepositCount := 5 }])
        emptyTxWorld =
      claimDeposits (stubEnv claimedStub) (exampleManager 10) [2] 7
        [{ exampleDeposit 0 [8] with Id := 12, DepositCount := 5 }]
        (if (exampleManager 10).l2NetworkID ≠ (exampleDeposit 0 [8]).DestinationNetwork
          then emptyTxWorld else { db := 1, trace := [TxAction.GetClaim 4 0 1] }) ∧
    ({ db := 1, trace := [TxAction.GetClaim 4 0 1] } : TxWorld Nat).trace =
      emptyTxWorld.trace ++ [TxAction.GetClaim (exampleDeposit 0 [8]).DepositCount
        (exampleDeposit 0 [8]).NetworkID (exampleDeposit 0 [8]).DestinationNetwork] ∧
    (∀ claim db, (stubEnv claimedStub).GetClaim (exampleDeposit 0 [8]).DepositCount
        (exampleDeposit 0 [8]).NetworkID (exampleDeposit 0 [8]).DestinationNetwork
        emptyTxWorld.db = (Except.ok claim, db) →
      hashString [171] = hashString claim.TxHash) ∧
    (∀ (claim : Claim), (hashString claim.TxHash).utf8ByteSize > 0) ∧
    SelectsThenClaims (stubEnv claimedStub) (exampleManager 10)
      (exampleGER [zeroHash, zeroHash]) 7 emptyTxWorld :=
  C15_no_double_claim (stubEnv claimedStub) (exampleManager 10) (exampleGER [zeroHash, zeroHash])
    [2] 7 [] [{ exampleDeposit 0 [8] with Id := 12, DepositCount := 5 }] (exampleDeposit 0 [8])
    emptyTxWorld emptyTxWorld emptyTxWorld { db := 1, trace := [TxAction.GetClaim 4 0 1] }
    (hashString [171]) rfl rfl (hashString_nonempty _)

/-- C16: in the loop of `processDepositStatus` over any list of deposits, every
monitored transaction written (`AddClaimTx`) is for a deposit of the list whose
destination network is the manager's `l2NetworkID` and whose original address,
if its leaf type is message (1), is one of `AuthorizedClaimMessageAddresses`;
`processDepositStatus` writes monitored transactions only inside this loop;
and `isDepositMessageAllowed` returns true exactly when the deposit's original
address occurs in that list. -/
theorem C16_claim_eligibility {σ : Type} (env : ClaimEnv σ) (tm : ClaimTxManager)
    (ger : GlobalExitRoot) (globalExitRoot : Bytes) (dbTx : Tx) (deposits : List Deposit)
    (d : Deposit) (w w0 : TxWorld σ) :
    w0.Adds (AddsOnlyEligible tm deposits)
      (claimDeposits env tm globalExitRoot dbTx deposits w0).2 ∧
    SelectsThenClaims env tm ger dbTx w ∧
    (isDepositMessageAllowed tm d = true ↔
      d.OriginalAddress ∈ tm.cfg.AuthorizedClaimMessageAddresses) :=
  ⟨claimDeposits_adds env tm globalExitRoot dbTx deposits w0,
    processDepositStatus_selects env tm ger dbTx w,
    isDepositMessageAllowedLoop_iff d _⟩

theorem rollbackAndReturn_rollsBack {σ : Type} (env : SyncEnv σ) (dbTx : Tx) (e : Err)
    (acts : List Action) (w0 w1 : World σ) (h : w1.trace = w0.trace ++ acts) :
    RollsBackAfter env dbTx e acts w1.db w0 (rollbackAndReturn env dbTx e w1) := by
  unfold RollsBackAfter rollbackAndReturn
  cases hr : env.Rollback dbTx w1.db with
  | mk rb db2 =>
    cases rb with
    | none => simp [World.step, h]
    | some e2 => simp [World.step, h]

theorem resetState_example :
    resetState (failingEnv none) (exampleChain goodChain (fun _ => Except.error Err.storageNotFound) 9)
        exampleSync 5 emptyWorld =
      (some (Err.other 2),
        { db := 6, l1RollupExitRoot := zeroHash,
          trace := [Action.BeginDBTransaction, Action.Reset 5 0 0, Action.GetNumberDeposits 0 5 0,
            Action.ReorgMT 0 0 0, Action.Commit 0, Action.Rollback 0] }) := by
  rfl

/-- C11 (counterexample): `GetLatestTrustedGERByDeposit` fails with
`ErrStorageNotFound` in a run of `updateDepositsStatus`, at the first call and
at the retry.  The manager does not call `Rollback`: it goes on, writes a
monitored transaction (`AddClaimTx`), commits and returns nil. -/
theorem C11_rollback_supersedes_counterexample :
    (stubEnv notFoundStub).GetLatestTrustedGERByDeposit 4 0 1 7 3 =
      ((zeroHash, some Err.storageNotFound), 4) ∧
    (updateDepositsStatus (stubEnv notFoundStub) (exampleManager 10) exampleL2Update
        emptyTxWorld).1 = Outcome.ok () ∧
    (updateDepositsStatus (stubEnv notFoundStub) (exampleManager 10) exampleL2Update
        emptyTxWorld).2.trace =
      [TxAction.BeginDBTransaction,
       TxAction.UpdateL2DepositsStatus zeroHash 1 1 7,
       TxAction.GetDepositsFromOtherL2ToClaim 1 7,
       TxAction.GetLatestTrustedGERByDeposit 4 0 1 7,
       TxAction.Sleep,
       TxAction.GetLatestTrustedGERByDeposit 4 0 1 7,
       TxAction.GetClaim 4 0 1,
       TxAction.GetClaimProofForCompressed zeroHash 4 0 7,
       TxAction.BuildSendClaim (exampleDeposit 0 [8]) (List.replicate 32 zeroHash)
         (List.replicate 32 zeroHash)
         { BlockID := 0, BlockNumber := 0, ExitRoots := [zeroHash, zeroHash],
           GlobalExitRoot := zeroHash, NetworkID := 0, ID := 0 },
       TxAction.EstimateGas exampleCall,
       TxAction.GetNextNonce [4],
       TxAction.AddClaimTx
         { DepositID := 11, From := [4], To := some [5], Nonce := 3, Value := none,
           Data := [6], Gas := 21000, Status := "created", GlobalExitRoot := [2] } 7,
       TxAction.Commit 7] ∧
    TxAction.Rollback 7 ∉
      (updateDepositsStatus (stubEnv notFoundStub) (exampleManager 10) exampleL2Update
        emptyTxWorld).2.trace := by
  refine ⟨rfl, rfl, rfl, ?_⟩
  decide
/-- C11 (amended): in `processDeposit`, `processClaim`, `processTokenWrapped`,
`processRemoveL2GlobalExitRoot`, `processVerifyBatch` and `resetState`, when a
storage or tree call made inside the transaction fails with `e`, the handler
calls `Rollback` next and does nothing after it, and it returns the error of
`Rollback` if there is one and `e` otherwise.  `updateDepositsStatus` does the
same when `processDepositStatus` returns an error `e`, as it does when
`UpdateL1DepositsStatus` or `UpdateL2DepositsStatus` fails with `e`, and when
`Commit` fails with `e`. -/
theorem C11_rollback_supersedes {σ : Type} (env : SyncEnv σ) (chain : ChainEnv σ)
    (cenv : ClaimEnv σ) (s : ClientSynchronizer) (tm : ClaimTxManager) (blockID : Nat) (dbTx : Tx)
    (w : World σ) (tw : TxWorld σ) (e : Err) :
    (∀ (deposit : Deposit) db1,
      env.AddDeposit { deposit with BlockID := blockID, NetworkID := s.networkID } dbTx w.db =
        (Except.error e, db1) →
      RollsBackAfter env dbTx e
        [Action.processDeposit deposit blockID dbTx,
         Action.AddDeposit { deposit with BlockID := blockID, NetworkID := s.networkID } dbTx]
        db1 w (processDeposit env s deposit blockID dbTx w)) ∧
    (∀ (deposit : Deposit) depositID db1 db2,
      env.AddDeposit { deposit with BlockID := blockID, NetworkID := s.networkID } dbTx w.db =
        (Except.ok depositID, db1) →
      env.BridgeAddDeposit { deposit with BlockID := blockID, NetworkID := s.networkID }
        depositID dbTx db1 = (some e, db2) →
      RollsBackAfter env dbTx e
        [Action.processDeposit deposit blockID dbTx,
         Action.AddDeposit { deposit with BlockID := blockID, NetworkID := s.networkID } dbTx,
         Action.BridgeAddDeposit { deposit with BlockID := blockID, NetworkID := s.networkID }
           depositID dbTx]
        db2 w (processDeposit env s deposit blockID dbTx w)) ∧
    (∀ (claim : Claim) db1,
      env.AddClaim { claim with BlockID := blockID, NetworkID := s.networkID } dbTx w.db =
        (some e, db1) →
      RollsBackAfter env dbTx e
        [Action.processClaim claim blockID dbTx,
         Action.AddClaim { claim with BlockID := blockID, NetworkID := s.networkID } dbTx]
        db1 w (processClaim env s claim blockID dbTx w)) ∧
    (∀ (token : TokenWrapped) db1,
      env.AddTokenWrapped { token with BlockID := blockID, NetworkID := s.networkID } dbTx w.db =
        (some e, db1) →
      RollsBackAfter env dbTx e
        [Action.processTokenWrapped token blockID dbTx,
         Action.AddTokenWrapped { token with BlockID := blockID, NetworkID := s.networkID } dbTx]
        db1 w (processTokenWrapped env s token blockID dbTx w)) ∧
    (∀ (ger : GlobalExitRoot) db1,
      env.AddRemoveL2GER { ger with BlockID := blockID, NetworkID := s.networkID } dbTx w.db =
        (some e, db1) →
      RollsBackAfter env dbTx e
        [Action.processRemoveL2GlobalExitRoot ger blockID dbTx,
         Action.AddRemoveL2GER { ger with BlockID := blockID, NetworkID := s.networkID } dbTx]
        db1 w (processRemoveL2GlobalExitRoot env s ger blockID dbTx w)) ∧
    (∀ (vb : VerifiedBatch) db1,
      vb.LocalExitRoot ≠ zeroHash →
      s.allNetworkIDs.any (fun n => decide (vb.RollupID = n)) = true →
      env.CheckIfRootExists vb.LocalExitRoot vb.RollupID dbTx w.db = (Except.error e, db1) →
      RollsBackAfter env dbTx e
        [Action.processVerifyBatch vb blockID dbTx,
         Action.CheckIfRootExists vb.LocalExitRoot vb.RollupID dbTx]
        db1 w (processVerifyBatch env s vb blockID dbTx w)) ∧
    (∀ (vb : VerifiedBatch) db1 db2,
      vb.LocalExitRoot ≠ zeroHash →
      s.allNetworkIDs.any (fun n => decide (vb.RollupID = n)) = true →
      env.CheckIfRootExists vb.LocalExitRoot vb.RollupID dbTx w.db = (Except.ok true, db1) →
      env.AddRollupExitLeaf
        { ID := 0, BlockID := blockID, Leaf := vb.LocalExitRoot, RollupId := vb.RollupID,
          Root := zeroHash } dbTx db1 = (some e, db2) →
      RollsBackAfter env dbTx e
        [Action.processVerifyBatch vb blockID dbTx,
         Action.CheckIfRootExists vb.LocalExitRoot vb.RollupID dbTx,
         Action.AddRollupExitLeaf
           { ID := 0, BlockID := blockID, Leaf := vb.LocalExitRoot, RollupId := vb.RollupID,
             Root := zeroHash } dbTx]
        db2 w (processVerifyBatch env s vb blockID dbTx w)) ∧
    (∀ (vb : VerifiedBatch) db1,
      vb.LocalExitRoot ≠ zeroHash →
      s.allNetworkIDs.any (fun n => decide (vb.RollupID = n)) = false →
      env.AddRollupExitLeaf
        { ID := 0, BlockID := blockID, Leaf := vb.LocalExitRoot, RollupId := vb.RollupID,
          Root := zeroHash } dbTx w.db = (some e, db1) →
      RollsBackAfter env dbTx e
        [Action.processVerifyBatch vb blockID dbTx,
         Action.AddRollupExitLeaf
           { ID := 0, BlockID := blockID, Leaf := vb.LocalExitRoot, RollupId := vb.RollupID,
             Root := zeroHash } dbTx]
        db1 w (processVerifyBatch env s vb blockID dbTx w)) ∧
    (∀ (blockNumber : Nat) db1 db2,
      env.BeginDBTransaction w.db = (Except.ok dbTx, db1) →
      chain.Reset blockNumber s.networkID dbTx db1 = (some e, db2) →
      RollsBackAfter env dbTx e
        [Action.BeginDBTransaction, Action.Reset blockNumber s.networkID dbTx]
        db2 w (resetState env chain s blockNumber w)) ∧
    (∀ (blockNumber : Nat) db1 db2 db3,
      env.BeginDBTransaction w.db = (Except.ok dbTx, db1) →
      chain.Reset blockNumber s.networkID dbTx db1 = (none, db2) →
      chain.GetNumberDeposits s.networkID blockNumber dbTx db2 = (Except.error e, db3) →
      RollsBackAfter env dbTx e
        [Action.BeginDBTransaction, Action.Reset blockNumber s.networkID dbTx,
         Action.GetNumberDeposits s.networkID blockNumber dbTx]
        db3 w (resetState env chain s blockNumber w)) ∧
    (∀ (blockNumber : Nat) db1 db2 depositCnt db3 db4,
      env.BeginDBTransaction w.db = (Except.ok dbTx, db1) →
      chain.Reset blockNumber s.networkID dbTx db1 = (none, db2) →
      chain.GetNumberDeposits s.networkID blockNumber dbTx db2 = (Except.ok depositCnt, db3) →
      chain.ReorgMT depositCnt s.networkID dbTx db3 = (some e, db4) →
      RollsBackAfter env dbTx e
        [Action.BeginDBTransaction, Action.Reset blockNumber s.networkID dbTx,
         Action.GetNumberDeposits s.networkID blockNumber dbTx,
         Action.ReorgMT depositCnt s.networkID dbTx]
        db4 w (resetState env chain s blockNumber w)) ∧
    (∀ (blockNumber : Nat) db1 db2 depositCnt db3 db4 db5,
      env.BeginDBTransaction w.db = (Except.ok dbTx, db1) →
      chain.Reset blockNumber s.networkID dbTx db1 = (none, db2) →
      chain.GetNumberDeposits s.networkID blockNumber dbTx db2 = (Except.ok depositCnt, db3) →
      chain.ReorgMT depositCnt s.networkID dbTx db3 = (none, db4) →
      env.Commit dbTx db4 = (some e, db5) →
      RollsBackAfter env dbTx e
        [Action.BeginDBTransaction, Action.Reset blockNumber s.networkID dbTx,
         Action.GetNumberDeposits s.networkID blockNumber dbTx,
         Action.ReorgMT depositCnt s.networkID dbTx, Action.Commit dbTx]
        db5 w (resetState env chain s blockNumber w)) ∧
    (∀ (ger : GlobalExitRoot) db1 w2,
      cenv.BeginDBTransaction tw.db = (Except.ok dbTx, db1) →
      processDepositStatus cenv tm ger dbTx (tw.step TxAction.BeginDBTransaction db1) =
        (Outcome.error e, w2) →
      TxRollsBackAfter cenv dbTx e [] w2.db w2 (updateDepositsStatus cenv tm ger tw)) ∧
    (∀ (ger : GlobalExitRoot) db1 root0 db2,
      cenv.BeginDBTransaction tw.db = (Except.ok dbTx, db1) →
      ¬ (ger.BlockID ≠ 0 ∧ ger.NetworkID = 0) →
      ger.ExitRoots.get? 0 = some root0 →
      cenv.UpdateL1DepositsStatus root0 tm.l2NetworkID dbTx db1 = (Except.error e, db2) →
      TxRollsBackAfter cenv dbTx e
        [TxAction.BeginDBTransaction, TxAction.UpdateL1DepositsStatus root0 tm.l2NetworkID dbTx]
        db2 tw (updateDepositsStatus cenv tm ger tw)) ∧
    (∀ (ger : GlobalExitRoot) db1 root1 db2,
      cenv.BeginDBTransaction tw.db = (Except.ok dbTx, db1) →
      (ger.BlockID ≠ 0 ∧ ger.NetworkID = 0) →
      ger.ExitRoots.get? 1 = some root1 →
      cenv.UpdateL2DepositsStatus root1 tm.rollupID tm.l2NetworkID dbTx db1 = (some e, db2) →
      TxRollsBackAfter cenv dbTx e
        [TxAction.BeginDBTransaction,
         TxAction.UpdateL2DepositsStatus root1 tm.rollupID tm.l2NetworkID dbTx]
        db2 tw (updateDepositsStatus cenv tm ger tw)) ∧
    (∀ (ger : GlobalExitRoot) db1 w2 db3,
      cenv.BeginDBTransaction tw.db = (Except.ok dbTx, db1) →
      processDepositStatus cenv tm ger dbTx (tw.step TxAction.BeginDBTransaction db1) =
        (Outcome.ok (), w2) →
      cenv.Commit dbTx w2.db = (some e, db3) →
      TxRollsBackAfter cenv dbTx e [TxAction.Commit dbTx] db3 w2
        (updateDepositsStatus cenv tm ger tw)) := by
  refine ⟨?_, ?_, ?_, ?_, ?_, ?_, ?_, ?_, ?_, ?_, ?_, ?_, ?_, ?_, ?_, ?_⟩
  · intro deposit db1 h
    simp only [processDeposit, World.step, h]
    exact rollbackAndReturn_rollsBack env dbTx e _ w _ (by simp)
  · intro deposit depositID db1 db2 h1 h2
    simp only [processDeposit, World.step, h1, h2]
    exact rollbackAndReturn_rollsBack env dbTx e _ w _ (by simp)
  · intro claim db1 h
    simp only [processClaim, World.step, h]
    exact rollbackAndReturn_rollsBack env dbTx e _ w _ (by simp)
  · intro token db1 h
    simp only [processTokenWrapped, World.step, h]
    exact rollbackAndReturn_rollsBack env dbTx e _ w _ (by simp)
  · intro ger db1 h
    simp only [processRemoveL2GlobalExitRoot, World.step, h]
    exact rollbackAndReturn_rollsBack env dbTx e _ w _ (by simp)
  · intro vb db1 hz hs h
    simp only [processVerifyBatch, World.step, h, hz, hs, if_false, if_true]
    exact rollbackAndReturn_rollsBack env dbTx e _ w _ (by simp)
  · intro vb db1 db2 hz hs h1 h2
    simp only [processVerifyBatch, World.step, h1, h2, hz, hs, if_false, if_true]
    exact rollbackAndReturn_rollsBack env dbTx e _ w _ (by simp)
  · intro vb db1 hz hs h
    simp only [processVerifyBatch, World.step, h, hz, hs, if_false]
    exact rollbackAndReturn_rollsBack env dbTx e _ w _ (by simp)
  · intro blockNumber db1 db2 h1 h2
    simp only [resetState, World.step, h1, h2]
    exact rollbackAndReturn_rollsBack env dbTx e _ w _ (by simp)
  · intro blockNumber db1 db2 db3 h1 h2 h3
    simp only [resetState, World.step, h1, h2, h3]
    exact rollbackAndReturn_rollsBack env dbTx e _ w _ (by simp)
  · intro blockNumber db1 db2 depositCnt db3 db4 h1 h2 h3 h4
    simp only [resetState, World.step, h1, h2, h3, h4]
    exact rollbackAndReturn_rollsBack env dbTx e _ w _ (by simp)
  · intro blockNumber db1 db2 depositCnt db3 db4 db5 h1 h2 h3 h4 h5
    simp only [resetState, World.step, h1, h2, h3, h4, h5]
    exact rollbackAndReturn_rollsBack env dbTx e _ w _ (by simp)
  · intro ger db1 w2 h1 h2
    simp only [updateDepositsStatus, h1, h2, TxRollsBackAfter]
    cases hr : cenv.Rollback dbTx w2.db with
    | mk rb db3 => cases rb <;> simp [TxWorld.step]
  · intro ger db1 root0 db2 h1 hb h0 h2
    simp only [updateDepositsStatus, h1, processDepositStatus, if_neg hb, h0, TxWorld.step, h2,
      TxRollsBackAfter]
    cases hr : cenv.Rollback dbTx db2 with
    | mk rb db3 => cases rb <;> simp
  · intro ger db1 root1 db2 h1 hb h0 h2
    simp only [updateDepositsStatus, h1, processDepositStatus, if_pos hb, h0, TxWorld.step, h2,
      TxRollsBackAfter]
    cases hr : cenv.Rollback dbTx db2 with
    | mk rb db3 => cases rb <;> simp
  · intro ger db1 w2 db3 h1 h2 h3
    simp only [updateDepositsStatus, h1, h2, h3, TxRollsBackAfter]
    cases hr : cenv.Rollback dbTx db3 with
    | mk rb db4 => cases rb <;> simp [TxWorld.step, hr]
theorem C11_rollback_supersedes_witness :
    ((processDeposit (failingEnv (some (Err.other 9))) exampleSync (exampleDeposit 0 [8]) 1 0
        emptyWorld).1 = some (Err.other 9) ∧
      (processDeposit (failingEnv (some (Err.other 9))) exampleSync (exampleDeposit 0 [8]) 1 0
        emptyWorld).2.trace =
        emptyWorld.trace ++
          [Action.processDeposit (exampleDeposit 0 [8]) 1 0,
           Action.AddDeposit { exampleDeposit 0 [8] with BlockID := 1, NetworkID := 0 } 0] ++
          [Action.Rollback 0] ∧
      (processDeposit (failingEnv (some (Err.other 9))) exampleSync (exampleDeposit 0 [8]) 1 0
        emptyWorld).2.db = 2) ∧
    ((resetState (failingEnv none)
        (exampleChain goodChain (fun _ => Except.error Err.storageNotFound) 9) exampleSync 5
        emptyWorld).1 = some (Err.other 2) ∧
      (resetState (failingEnv none)
        (exampleChain goodChain (fun _ => Except.error Err.storageNotFound) 9) exampleSync 5
        emptyWorld).2.trace =
        emptyWorld.trace ++
          [Action.BeginDBTransaction, Action.Reset 5 0 0, Action.GetNumberDeposits 0 5 0,
           Action.ReorgMT 0 0 0, Action.Commit 0] ++ [Action.Rollback 0] ∧
      (resetState (failingEnv none)
        (exampleChain goodChain (fun _ => Except.error Err.storageNotFound) 9) exampleSync 5
        emptyWorld).2.db = 6) ∧
    ((updateDepositsStatus (stubEnv { okStub with CommitErr := some (Err.other 3) })
        (exampleManager 10) exampleL2Update emptyTxWorld).1 = Outcome.error (Err.other 3) ∧
      (updateDepositsStatus (stubEnv { okStub with CommitErr := some (Err.other 3) })
        (exampleManager 10) exampleL2Update emptyTxWorld).2.trace =
        [TxAction.BeginDBTransaction, TxAction.UpdateL2DepositsStatus zeroHash 1 1 7,
         TxAction.GetDepositsFromOtherL2ToClaim 1 7] ++ [TxAction.Commit 7] ++
          [TxAction.Rollback 7] ∧
      (updateDepositsStatus (stubEnv { okStub with CommitErr := some (Err.other 3) })
        (exampleManager 10) exampleL2Update emptyTxWorld).2.db = 5) :=
  ⟨(C11_rollback_supersedes (failingEnv (some (Err.other 9)))
      (exampleChain goodChain (fun _ => Except.error Err.storageNotFound) 9)
      (stubEnv okStub) exampleSync (exampleManager 10) 1 0 emptyWorld emptyTxWorld
      (Err.other 1)).1 (exampleDeposit 0 [8]) 1 rfl,
   (C11_rollback_supersedes (failingEnv none)
      (exampleChain goodChain (fun _ => Except.error Err.storageNotFound) 9)
      (stubEnv okStub) exampleSync (exampleManager 10) 1 0 emptyWorld emptyTxWorld
      (Err.other 2)).2.2.2.2.2.2.2.2.2.2.2.1 5 1 2 0 3 4 5 rfl rfl rfl rfl rfl,
   (C11_rollback_supersedes (failingEnv none)
      (exampleChain goodChain (fun _ => Except.error Err.storageNotFound) 9)
      (stubEnv { okStub with CommitErr := some (Err.other 3) }) exampleSync (exampleManager 10)
      1 7 emptyWorld emptyTxWorld (Err.other 3)).2.2.2.2.2.2.2.2.2.2.2.2.2.2.2
      exampleL2Update 1
      { db := 3, trace := [TxAction.BeginDBTransaction,
          TxAction.UpdateL2DepositsStatus zeroHash 1 1 7,
          TxAction.GetDepositsFromOtherL2ToClaim 1 7] } 4 rfl rfl rfl⟩

/-! ## Theorems: the event loop of the claim transaction manager -/

theorem startStep_synced_mono (tm : ClaimTxManager) (st : StartState) (ev : ManagerEvent)
    (h : st.l2Synced = true) : (startStep tm st ev).l2Synced = true := by
  cases ev <;> simp only [startStep] <;> (repeat' split) <;> simp_all

theorem startStep_unsynced_starts_nothing (tm : ClaimTxManager) (st : StartState)
    (ev : ManagerEvent) (h : st.l2Synced = false) :
    updatesStarted (startStep tm st ev).started = updatesStarted st.started := by
  cases ev <;> simp only [startStep] <;> (repeat' split) <;>
    simp_all [updatesStarted, List.filterMap_append]

theorem startStep_becomes_synced (tm : ClaimTxManager) (st : StartState) (ev : ManagerEvent)
    (h : st.l2Synced = false) (h1 : (startStep tm st ev).l2Synced = true) :
    ev = ManagerEvent.Synced tm.l2NetworkID := by
  cases ev with
  | Synced netID =>
    simp only [startStep] at h1
    split at h1
    · rename_i hc; rw [hc.1]
    · rw [h] at h1; cases h1
  | Done => simp only [startStep] at h1; rw [h] at h1; cases h1
  | Tick => simp only [startStep] at h1; rw [h] at h1; cases h1
  | ExitRoot g =>
    simp only [startStep] at h1
    (repeat' split at h1) <;> simp_all
  | CompressorTick =>
    simp only [startStep] at h1
    (repeat' split at h1) <;> simp_all

theorem Start_synced_mono (tm : ClaimTxManager) :
    ∀ (evs : List ManagerEvent) (st : StartState), st.l2Synced = true →
      (Start tm evs st).l2Synced = true := by
  intro evs
  induction evs with
  | nil => intro st h; exact h
  | cons ev rest ih =>
    intro st h
    simp only [Start]
    split
    · exact h
    · exact ih _ (startStep_synced_mono tm st ev h)

theorem Start_unsynced_starts_nothing (tm : ClaimTxManager) :
    ∀ (evs : List ManagerEvent) (st : StartState), (Start tm evs st).l2Synced = false →
      updatesStarted (Start tm evs st).started = updatesStarted st.started := by
  intro evs
  induction evs with
  | nil => intro st _; rfl
  | cons ev rest ih =>
    intro st h
    simp only [Start] at h ⊢
    split
    · rfl
    · rename_i hr
      rw [if_neg hr] at h
      have hst : st.l2Synced = false := by
        cases hs : st.l2Synced with
        | false => rfl
        | true =>
          have := Start_synced_mono tm rest _ (startStep_synced_mono tm st ev hs)
          rw [this] at h
          cases h
      rw [ih _ h, startStep_unsynced_starts_nothing tm st ev hst]

theorem Start_becomes_synced (tm : ClaimTxManager) :
    ∀ (evs : List ManagerEvent) (st : StartState), st.l2Synced = false →
      (Start tm evs st).l2Synced = true → ManagerEvent.Synced tm.l2NetworkID ∈ evs := by
  intro evs
  induction evs with
  | nil => intro st h h1; simp only [Start] at h1; rw [h] at h1; cases h1
  | cons ev rest ih =>
    intro st h h1
    simp only [Start] at h1
    split at h1
    · rw [h] at h1; cases h1
    · cases hs : (startStep tm st ev).l2Synced with
      | false => exact List.mem_cons_of_mem _ (ih _ hs h1)
      | true =>
        rw [startStep_becomes_synced tm st ev h hs]
        exact List.mem_cons_self _ _

/-- C17: in the event loop of the manager, a round that starts with `l2Synced`
false starts no `updateDepositsStatus`, whatever the event; `l2Synced` goes
from false to true only in a round that receives the manager's own
`l2NetworkID` on the synced channel; and once true it stays true.  Hence,
over every sequence of events from every state: `l2Synced` stays true, it can
have become true only if that notification is among the events, and as long
as it is false at the end no `updateDepositsStatus` has been started. -/
theorem C17_gated_by_synced (tm : ClaimTxManager) (st : StartState) (ev : ManagerEvent)
    (evs : List ManagerEvent) :
    (st.l2Synced = false →
      updatesStarted (startStep tm st ev).started = updatesStarted st.started) ∧
    (st.l2Synced = false → (startStep tm st ev).l2Synced = true →
      ev = ManagerEvent.Synced tm.l2NetworkID) ∧
    (st.l2Synced = true → (startStep tm st ev).l2Synced = true) ∧
    (st.l2Synced = true → (Start tm evs st).l2Synced = true) ∧
    (st.l2Synced = false → (Start tm evs st).l2Synced = true →
      ManagerEvent.Synced tm.l2NetworkID ∈ evs) ∧
    ((Start tm evs st).l2Synced = false →
      updatesStarted (Start tm evs st).started = updatesStarted st.started) :=
  ⟨startStep_unsynced_starts_nothing tm st ev, startStep_becomes_synced tm st ev,
    startStep_synced_mono tm st ev, Start_synced_mono tm evs st, Start_becomes_synced tm evs st,
    Start_unsynced_starts_nothing tm evs st⟩
theorem startStep_keeps_processed (tm : ClaimTxManager) (st : StartState) (ev : ManagerEvent)
    (hev : NoExitRoot ev) (h : st.ger.GlobalExitRoot = st.latestProcessedGer) :
    (startStep tm st ev).ger.GlobalExitRoot = (startStep tm st ev).latestProcessedGer := by
  cases ev with
  | ExitRoot g => exact absurd rfl (hev g)
  | Done => exact h
  | Tick => exact h
  | Synced netID => simp only [startStep]; split <;> exact h
  | CompressorTick => simp only [startStep]; split <;> simp_all

theorem Start_keeps_processed (tm : ClaimTxManager) :
    ∀ (evs : List ManagerEvent) (st : StartState), (∀ ev, ev ∈ evs → NoExitRoot ev) →
      st.ger.GlobalExitRoot = st.latestProcessedGer →
      (Start tm evs st).ger.GlobalExitRoot = (Start tm evs st).latestProcessedGer := by
  intro evs
  induction evs with
  | nil => intro st _ h; exact h
  | cons ev rest ih =>
    intro st hevs h
    simp only [Start]
    split
    · exact h
    · exact ih _ (fun e he => hevs e (List.mem_cons_of_mem _ he))
        (startStep_keeps_processed tm st ev (hevs ev (List.mem_cons_self _ _)) h)

/-- C18: with `GroupingClaims.Enabled`, a round that receives a global exit
root only stores it in `ger` and starts nothing; a compressor tick starts
`updateDepositsStatus(ger)` and sets `latestProcessedGer` to that root exactly
when `l2Synced` is true and `ger.GlobalExitRoot` differs from
`latestProcessedGer`, and otherwise changes nothing; and after such a tick,
whatever events other than a new global exit root follow, a further
compressor tick changes nothing. -/
theorem C18_grouping_defers (tm : ClaimTxManager) (st : StartState) (g : GlobalExitRoot)
    (evs : List ManagerEvent) (hgroup : tm.cfg.GroupingClaimsEnabled = true)
    (hevs : ∀ ev, ev ∈ evs → NoExitRoot ev) :
    startStep tm st (ManagerEvent.ExitRoot g) = { st with ger := g } ∧
    (st.l2Synced = true ∧ st.ger.GlobalExitRoot ≠ st.latestProcessedGer →
      startStep tm st ManagerEvent.CompressorTick =
        { st with
          started := st.started ++ [Started.updateDepositsStatus st.ger],
          latestProcessedGer := st.ger.GlobalExitRoot }) ∧
    (¬ (st.l2Synced = true ∧ st.ger.GlobalExitRoot ≠ st.latestProcessedGer) →
      startStep tm st ManagerEvent.CompressorTick = st) ∧
    (st.l2Synced = true ∧ st.ger.GlobalExitRoot ≠ st.latestProcessedGer →
      startStep tm (Start tm evs (startStep tm st ManagerEvent.CompressorTick))
          ManagerEvent.CompressorTick =
        Start tm evs (startStep tm st ManagerEvent.CompressorTick)) := by
  have htick : st.l2Synced = true ∧ st.ger.GlobalExitRoot ≠ st.latestProcessedGer →
      startStep tm st ManagerEvent.CompressorTick =
        { st with
          started := st.started ++ [Started.updateDepositsStatus st.ger],
          latestProcessedGer := st.ger.GlobalExitRoot } := by
    intro h
    simp only [startStep]
    rw [if_pos ⟨h.1, hgroup, h.2⟩]
  refine ⟨?_, htick, ?_, ?_⟩
  · simp only [startStep, hgroup, if_true]
    split <;> rfl
  · intro h
    simp only [startStep]
    rw [if_neg (fun hc => h ⟨hc.1, hc.2.2⟩)]
  · intro h
    have hinv := Start_keeps_processed tm evs (startStep tm st ManagerEvent.CompressorTick) hevs
      (by rw [htick h])
    simp only [startStep]
    rw [if_neg (fun hc => hc.2.2 hinv)]

theorem C18_grouping_defers_witness :
    startStep groupingManager
        { StartState.init with l2Synced := true, ger := exampleGER [zeroHash, zeroHash] }
        (ManagerEvent.ExitRoot (exampleGER [zeroHash, zeroHash])) =
      { StartState.init with l2Synced := true, ger := exampleGER [zeroHash, zeroHash] } ∧
    startStep groupingManager
        { StartState.init with l2Synced := true, ger := exampleGER [zeroHash, zeroHash] }
        ManagerEvent.CompressorTick =
      { l2Synced := true, ger := exampleGER [zeroHash, zeroHash],
        latestProcessedGer := [1],
        started := [Started.updateDepositsStatus (exampleGER [zeroHash, zeroHash])],
        returned := false } ∧
    startStep groupingManager
        (Start groupingManager [ManagerEvent.Tick, ManagerEvent.Synced 1]
          (startStep groupingManager
            { StartState.init with l2Synced := true, ger := exampleGER [zeroHash, zeroHash] }
            ManagerEvent.CompressorTick))
        ManagerEvent.CompressorTick =
      Start groupingManager [ManagerEvent.Tick, ManagerEvent.Synced 1]
        (startStep groupingManager
          { StartState.init with l2Synced := true, ger := exampleGER [zeroHash, zeroHash] }
          ManagerEvent.CompressorTick) :=
  have hevs : ∀ ev, ev ∈ [ManagerEvent.Tick, ManagerEvent.Synced 1] → NoExitRoot ev := by
    intro ev hev g
    simp only [List.mem_cons, List.mem_singleton, List.not_mem_nil, or_false] at hev
    rcases hev with h | h <;> (rw [h]; intro hc; cases hc)
  have h := C18_grouping_defers groupingManager
    { StartState.init with l2Synced := true, ger := exampleGER [zeroHash, zeroHash] }
    (exampleGER [zeroHash, zeroHash]) [ManagerEvent.Tick, ManagerEvent.Synced 1] rfl hevs
  ⟨h.1, h.2.1 ⟨rfl, by decide⟩, h.2.2.2 ⟨rfl, by decide⟩⟩

/-! ## Theorems: publication of global exit roots -/

theorem World.Keeps.keeps_refl {σ : Type} (w : World σ) : w.Keeps w := ⟨rfl, rfl⟩

theorem World.Keeps.keeps_trans {σ : Type} {w w1 w2 : World σ} (h1 : w.Keeps w1) (h2 : w1.Keeps w2) :
    w.Keeps w2 := ⟨h2.1.trans h1.1, h2.2.trans h1.2⟩

theorem World.Keeps.keeps_step {σ : Type} (w : World σ) (a : Action) (db : σ)
    (h : ∀ i g, a ≠ Action.SendExitRootEvent i g) : w.Keeps (w.step a db) := by
  refine ⟨rfl, ?_⟩
  simp only [World.sent, World.step, List.filterMap_append]
  cases a <;> first | rfl | exact absurd rfl (h _ _) | simp

theorem World.Keeps.keeps_then {σ : Type} {w w1 : World σ} (h1 : w.Keeps w1) (a : Action) (db : σ)
    (h : ∀ i g, a ≠ Action.SendExitRootEvent i g) : w.Keeps (w1.step a db) :=
  h1.keeps_trans (World.Keeps.keeps_step w1 a db h)

theorem rollbackAndReturn_keeps {σ : Type} (env : SyncEnv σ) (dbTx : Tx) (e : Err)
    (w : World σ) : w.Keeps (rollbackAndReturn env dbTx e w).2 := by
  unfold rollbackAndReturn
  split <;> exact World.Keeps.keeps_step w _ _ (by intro _ _ h; cases h)

theorem World.Keeps.keeps_rollback {σ : Type} {w w1 : World σ} (h1 : w.Keeps w1)
    (env : SyncEnv σ) (dbTx : Tx) (e : Err) : w.Keeps (rollbackAndReturn env dbTx e w1).2 :=
  h1.keeps_trans (rollbackAndReturn_keeps env dbTx e w1)

theorem processDeposit_keeps {σ : Type} (env : SyncEnv σ) (s : ClientSynchronizer)
    (deposit : Deposit) (blockID : Nat) (dbTx : Tx) (w : World σ) :
    w.Keeps (processDeposit env s deposit blockID dbTx w).2 := by
  have h0 := World.Keeps.keeps_step w (Action.processDeposit deposit blockID dbTx) w.db
    (by intro _ _ h; cases h)
  unfold processDeposit
  simp only
  split
  · exact (h0.keeps_then _ _ (by intro _ _ h; cases h)).keeps_rollback _ _ _
  · split
    · exact ((h0.keeps_then _ _ (by intro _ _ h; cases h)).keeps_then _ _
        (by intro _ _ h; cases h)).keeps_rollback _ _ _
    · exact (h0.keeps_then _ _ (by intro _ _ h; cases h)).keeps_then _ _ (by intro _ _ h; cases h)

theorem processClaim_keeps {σ : Type} (env : SyncEnv σ) (s : ClientSynchronizer)
    (claim : Claim) (blockID : Nat) (dbTx : Tx) (w : World σ) :
    w.Keeps (processClaim env s claim blockID dbTx w).2 := by
  have h0 := World.Keeps.keeps_step w (Action.processClaim claim blockID dbTx) w.db
    (by intro _ _ h; cases h)
  unfold processClaim
  simp only
  split
  · exact (h0.keeps_then _ _ (by intro _ _ h; cases h)).keeps_rollback _ _ _
  · exact h0.keeps_then _ _ (by intro _ _ h; cases h)

theorem processTokenWrapped_keeps {σ : Type} (env : SyncEnv σ) (s : ClientSynchronizer)
    (token : TokenWrapped) (blockID : Nat) (dbTx : Tx) (w : World σ) :
    w.Keeps (processTokenWrapped env s token blockID dbTx w).2 := by
  have h0 := World.Keeps.keeps_step w (Action.processTokenWrapped token blockID dbTx) w.db
    (by intro _ _ h; cases h)
  unfold processTokenWrapped
  simp only
  split
  · exact (h0.keeps_then _ _ (by intro _ _ h; cases h)).keeps_rollback _ _ _
  · exact h0.keeps_then _ _ (by intro _ _ h; cases h)

theorem processRemoveL2GlobalExitRoot_keeps {σ : Type} (env : SyncEnv σ)
    (s : ClientSynchronizer) (ger : GlobalExitRoot) (blockID : Nat) (dbTx : Tx) (w : World σ) :
    w.Keeps (processRemoveL2GlobalExitRoot env s ger blockID dbTx w).2 := by
  have h0 := World.Keeps.keeps_step w (Action.processRemoveL2GlobalExitRoot ger blockID dbTx) w.db
    (by intro _ _ h; cases h)
  unfold processRemoveL2GlobalExitRoot
  simp only
  split
  · exact (h0.keeps_then _ _ (by intro _ _ h; cases h)).keeps_rollback _ _ _
  · exact h0.keeps_then _ _ (by intro _ _ h; cases h)

theorem processVerifyBatch_keeps {σ : Type} (env : SyncEnv σ) (s : ClientSynchronizer)
    (vb : VerifiedBatch) (blockID : Nat) (dbTx : Tx) (w : World σ) :
    w.Keeps (processVerifyBatch env s vb blockID dbTx w).2 := by
  have h0 := World.Keeps.keeps_step w (Action.processVerifyBatch vb blockID dbTx) w.db
    (by intro _ _ h; cases h)
  unfold processVerifyBatch
  simp only
  split
  · exact h0
  · split
    · have h1 := h0.keeps_then
        (Action.CheckIfRootExists vb.LocalExitRoot vb.RollupID dbTx)
        (env.CheckIfRootExists vb.LocalExitRoot vb.RollupID dbTx
          (w.step (Action.processVerifyBatch vb blockID dbTx) w.db).db).2
        (by intro _ _ h; cases h)
      split
      · exact h1.keeps_rollback _ _ _
      · exact h1.keeps_rollback _ _ _
      · split
        · exact (h1.keeps_then _ _ (by intro _ _ h; cases h)).keeps_rollback _ _ _
        · exact h1.keeps_then _ _ (by intro _ _ h; cases h)
    · split
      · exact (h0.keeps_then _ _ (by intro _ _ h; cases h)).keeps_rollback _ _ _
      · exact h0.keeps_then _ _ (by intro _ _ h; cases h)
theorem updateL2GERs_keeps {σ : Type} (env : SyncEnv σ) (exitRoots : List Bytes) (dbTx : Tx) :
    ∀ (gers : List GlobalExitRoot) (w : World σ),
      w.Keeps (updateL2GERs env exitRoots dbTx gers w).2 := by
  intro gers
  induction gers with
  | nil => intro w; exact World.Keeps.keeps_refl w
  | cons ger rest ih =>
    intro w
    simp only [updateL2GERs]
    split
    · exact (World.Keeps.keeps_step w _ _ (by intro _ _ h; cases h)).keeps_rollback _ _ _
    · exact (World.Keeps.keeps_step w _ _ (by intro _ _ h; cases h)).keeps_trans (ih _)

theorem processGlobalExitRoot_keeps {σ : Type} (env : SyncEnv σ) (s : ClientSynchronizer)
    (ger : GlobalExitRoot) (blockID : Nat) (dbTx : Tx) (w : World σ) :
    w.Keeps (processGlobalExitRoot env s ger blockID dbTx w).2 := by
  have h0 := World.Keeps.keeps_step w (Action.processGlobalExitRoot ger blockID dbTx) w.db
    (by intro _ _ h; cases h)
  unfold processGlobalExitRoot
  simp only
  split
  · have h1 := h0.keeps_then
      (Action.GetL2ExitRootsByGER ger.GlobalExitRoot)
      (env.GetL2ExitRootsByGER ger.GlobalExitRoot
        (w.step (Action.processGlobalExitRoot ger blockID dbTx) w.db).db).2
      (by intro _ _ h; cases h)
    split
    · exact h1.keeps_rollback _ _ _
    · have h2 := h1.keeps_trans (updateL2GERs_keeps env ger.ExitRoots dbTx
        (env.GetL2ExitRootsByGER ger.GlobalExitRoot
          (w.step (Action.processGlobalExitRoot ger blockID dbTx) w.db).db).1.1 _)
      split
      · rename_i hu; rw [hu] at h2; exact h2
      · rename_i hu
        rw [hu] at h2
        split
        · exact (h2.keeps_then _ _ (by intro _ _ h; cases h)).keeps_rollback _ _ _
        · exact h2.keeps_then _ _ (by intro _ _ h; cases h)
  · split
    · have h1 := h0.keeps_then
        (Action.GetL1ExitRootByGER ger.GlobalExitRoot)
        (env.GetL1ExitRootByGER ger.GlobalExitRoot
          (w.step (Action.processGlobalExitRoot ger blockID dbTx) w.db).db).2
        (by intro _ _ h; cases h)
      split
      · split
        · split
          · exact (h1.keeps_then _ _ (by intro _ _ h; cases h)).keeps_rollback _ _ _
          · exact (h1.keeps_then _ _ (by intro _ _ h; cases h)).keeps_then _ _
              (by intro _ _ h; cases h)
        · exact h1.keeps_rollback _ _ _
      · split
        · exact (h1.keeps_then _ _ (by intro _ _ h; cases h)).keeps_rollback _ _ _
        · exact (h1.keeps_then _ _ (by intro _ _ h; cases h)).keeps_then _ _
            (by intro _ _ h; cases h)
    · exact h0
theorem processElement_keeps {σ : Type} (env : SyncEnv σ) (s : ClientSynchronizer)
    (block : Block) (blockID : Nat) (dbTx : Tx) (o : Order) (isNewGer : Bool) (w : World σ) :
    w.Keeps (processElement env s block blockID dbTx o isNewGer w).2.1 := by
  unfold processElement
  simp only
  repeat' split
  all_goals first
    | exact World.Keeps.keeps_refl _
    | (rename_i hp
       have e2 := congrArg Prod.snd hp
       simp only at e2
       subst e2
       first
         | exact processGlobalExitRoot_keeps _ _ _ _ _ _
         | exact processRemoveL2GlobalExitRoot_keeps _ _ _ _ _ _
         | exact processDeposit_keeps _ _ _ _ _ _
         | exact processClaim_keeps _ _ _ _ _ _
         | exact processTokenWrapped_keeps _ _ _ _ _ _
         | exact processVerifyBatch_keeps _ _ _ _ _ _)

theorem processElement_flag {σ : Type} (env : SyncEnv σ) (s : ClientSynchronizer)
    (block : Block) (blockID : Nat) (dbTx : Tx) (o : Order) (isNewGer : Bool) (w : World σ) :
    (processElement env s block blockID dbTx o isNewGer w).2.2 =
      (isNewGer || decide (o.Name = GlobalExitRootsOrder)) := by
  unfold processElement
  simp only
  by_cases h0 : o.Name = GlobalExitRootsOrder
  · simp only [if_pos h0, decide_eq_true h0, Bool.or_true]
    repeat' split
    all_goals rfl
  · simp only [if_neg h0, decide_eq_false h0, Bool.or_false]
    repeat' split
    all_goals rfl

theorem processElements_keeps {σ : Type} (env : SyncEnv σ) (s : ClientSynchronizer)
    (block : Block) (blockID : Nat) (dbTx : Tx) :
    ∀ (elements : List Order) (isNewGer : Bool) (w : World σ),
      w.Keeps (processElements env s block blockID dbTx elements isNewGer w).2.1 := by
  intro elements
  induction elements with
  | nil => intro isNewGer w; exact World.Keeps.keeps_refl w
  | cons o rest ih =>
    intro isNewGer w
    have h1 := processElement_keeps env s block blockID dbTx o isNewGer w
    simp only [processElements]
    split
    · rename_i w1 b1 hp
      rw [hp] at h1
      exact h1.keeps_trans (ih b1 w1)
    · exact h1

theorem processElements_flag {σ : Type} (env : SyncEnv σ) (s : ClientSynchronizer)
    (block : Block) (blockID : Nat) (dbTx : Tx) :
    ∀ (elements : List Order) (isNewGer : Bool) (w w1 : World σ) (b : Bool),
      processElements env s block blockID dbTx elements isNewGer w = (Outcome.ok (), w1, b) →
      b = (isNewGer || elements.any (fun o => decide (o.Name = GlobalExitRootsOrder))) := by
  intro elements
  induction elements with
  | nil =>
    intro isNewGer w w1 b h
    simp only [processElements, Prod.mk.injEq, true_and] at h
    simp [h.2]
  | cons o rest ih =>
    intro isNewGer w w1 b h
    have hf := processElement_flag env s block blockID dbTx o isNewGer w
    simp only [processElements] at h
    split at h
    · rename_i w2 b2 hp
      rw [hp] at hf
      simp only at hf
      rw [ih b2 w2 w1 b h, hf, List.any_cons, Bool.or_assoc]
    · rename_i hne
      cases hc : processElement env s block blockID dbTx o isNewGer w with
      | mk r rest1 =>
        rw [hc] at h
        cases r with
        | ok u => exact absurd hc (by intro hc2; exact hne _ _ hc2)
        | error e => simp at h
        | panic p => simp at h
theorem processBlock_keeps {σ : Type} (env : SyncEnv σ) (s : ClientSynchronizer)
    (order : Bytes → List Order) (block : Block) (isNewGer : Bool) (w : World σ) :
    w.Keeps (processBlock env s order block isNewGer w).2.1 := by
  have h0 := World.Keeps.keeps_step w Action.BeginDBTransaction (env.BeginDBTransaction w.db).2
    (by intro _ _ h; cases h)
  unfold processBlock
  simp only
  cases hb : env.BeginDBTransaction w.db with
  | mk rb db1 =>
    rw [hb] at h0
    cases rb with
    | error e => exact h0
    | ok dbTx =>
      simp only
      cases ha : env.AddBlock { block with NetworkID := s.networkID } dbTx
          (w.step Action.BeginDBTransaction db1).db with
      | mk ra db2 =>
        have h1 := h0.keeps_then (Action.AddBlock { block with NetworkID := s.networkID } dbTx) db2
          (by intro _ _ h; cases h)
        cases ra with
        | error e =>
          simp only
          have h2 := h1.keeps_rollback env dbTx e
          split
          · rename_i hr; rw [hr] at h2; exact h2
          · rename_i hr; rw [hr] at h2; exact h2
        | ok blockID =>
          simp only
          have h2 := h1.keeps_trans (processElements_keeps env s { block with NetworkID := s.networkID }
            blockID dbTx (order block.BlockHash) isNewGer _)
          split
          · rename_i w3 b1 hp
            rw [hp] at h2
            simp only at h2
            cases hc : env.Commit dbTx w3.db with
            | mk rc db4 =>
              have h3 := h2.keeps_then (Action.Commit dbTx) db4 (by intro _ _ h; cases h)
              cases rc with
              | none => exact h3
              | some e =>
                simp only
                have h4 := h3.keeps_rollback env dbTx e
                split
                · rename_i hr; rw [hr] at h4; exact h4
                · rename_i hr; rw [hr] at h4; exact h4
          · exact h2
theorem processBlock_flag {σ : Type} (env : SyncEnv σ) (s : ClientSynchronizer)
    (order : Bytes → List Order) (block : Block) (isNewGer : Bool) (w w1 : World σ) (b : Bool)
    (h : processBlock env s order block isNewGer w = (Outcome.ok (), w1, b)) :
    b = (isNewGer ||
      (order block.BlockHash).any (fun o => decide (o.Name = GlobalExitRootsOrder))) := by
  unfold processBlock at h
  simp only at h
  split at h
  · simp at h
  · split at h
    · have hr : ∀ (e : Err) (w2 : World σ), (rollbackAndReturn env (by assumption) e w2).1 ≠ none := by
        intro e w2
        unfold rollbackAndReturn
        split <;> simp
      split at h
      · simp at h
      · rename_i hc
        exact absurd (congrArg Prod.fst hc) (hr _ _)
    · split at h
      · rename_i w3 b1 hp
        have hf := processElements_flag env s _ _ _ _ _ _ _ _ hp
        split at h
        · split at h
          · simp at h
          · simp only [Prod.mk.injEq, true_and] at h
            rw [← h.2]; exact hf
        · simp only [Prod.mk.injEq, true_and] at h
          rw [← h.2]; exact hf
      · rename_i hne
        exact absurd h (hne _ _)

theorem processBlocks_keeps {σ : Type} (env : SyncEnv σ) (s : ClientSynchronizer)
    (order : Bytes → List Order) :
    ∀ (blocks : List Block) (isNewGer : Bool) (w : World σ),
      w.Keeps (processBlocks env s order blocks isNewGer w).2.1 := by
  intro blocks
  induction blocks with
  | nil => intro isNewGer w; exact World.Keeps.keeps_refl w
  | cons block rest ih =>
    intro isNewGer w
    have h1 := processBlock_keeps env s order block isNewGer w
    simp only [processBlocks]
    split
    · rename_i w1 b1 hp
      rw [hp] at h1
      exact h1.keeps_trans (ih b1 w1)
    · exact h1

theorem processBlocks_flag {σ : Type} (env : SyncEnv σ) (s : ClientSynchronizer)
    (order : Bytes → List Order) :
    ∀ (blocks : List Block) (isNewGer : Bool) (w w1 : World σ) (b : Bool),
      processBlocks env s order blocks isNewGer w = (Outcome.ok (), w1, b) →
      b = (isNewGer || blocks.any (fun blk =>
        (order blk.BlockHash).any (fun o => decide (o.Name = GlobalExitRootsOrder)))) := by
  intro blocks
  induction blocks with
  | nil =>
    intro isNewGer w w1 b h
    simp only [processBlocks, Prod.mk.injEq, true_and] at h
    simp [h.2]
  | cons block rest ih =>
    intro isNewGer w w1 b h
    simp only [processBlocks] at h
    split at h
    · rename_i w2 b2 hp
      rw [ih b2 w2 w1 b h, processBlock_flag env s order block isNewGer w w2 b2 hp,
        List.any_cons, Bool.or_assoc]
    · rename_i hne
      exact absurd h (hne _ _)

theorem processBlocks_flag_iff {σ : Type} (env : SyncEnv σ) (s : ClientSynchronizer)
    (order : Bytes → List Order) (blocks : List Block) (w w1 : World σ) (b : Bool)
    (h : processBlocks env s order blocks false w = (Outcome.ok (), w1, b)) :
    b = true ↔ HasGlobalExitRootEvent order blocks := by
  rw [processBlocks_flag env s order blocks false w w1 b h]
  simp [HasGlobalExitRootEvent]

theorem sendExitRootEvents_trace {σ : Type} (ger : GlobalExitRoot) :
    ∀ (n : Nat) (w : World σ),
      (sendExitRootEvents n ger w).trace =
        w.trace ++ (List.range n).map (fun i => Action.SendExitRootEvent i ger) ∧
      (sendExitRootEvents n ger w).l1RollupExitRoot = w.l1RollupExitRoot ∧
      (sendExitRootEvents n ger w).db = w.db := by
  intro n
  induction n with
  | zero => intro w; simp [sendExitRootEvents]
  | succ k ih =>
    intro w
    have h := ih w
    unfold sendExitRootEvents at h ⊢
    rw [List.range_succ, List.foldl_append]
    simp only [List.foldl_cons, List.foldl_nil, World.step, List.map_append, List.map_cons,
      List.map_nil]
    simp only [World.step] at h
    refine ⟨?_, h.2.1, h.2.2⟩
    rw [h.1, List.append_assoc]
/-- C13: when the block loop of `processBlockRange` has stored every block of
the range (it ends without error), it has sent nothing on the channels of
`chsExitRootEvent` and has left the cached `l1RollupExitRoot` alone.  If some
block has a `GlobalExitRootsOrder` event, storage returns its latest L1-synced
global exit root `ger` and `ger.ExitRoots[1]` differs from the cache, then
`processBlockRange` sends `ger` once on each of the channels, in order, and
sets the cache to `ger.ExitRoots[1]`; in every other case it sends nothing and
leaves the cache unchanged, and without such an event it does nothing after
the block loop. -/
theorem C13_ger_publication {σ : Type} (env : SyncEnv σ) (s : ClientSynchronizer)
    (blocks : List Block) (order : Bytes → List Order) (w w1 : World σ) (flag : Bool)
    (hstored : processBlocks env s order blocks false w = (Outcome.ok (), w1, flag)) :
    (w1.sent = w.sent ∧ w1.l1RollupExitRoot = w.l1RollupExitRoot) ∧
    (∀ ger db2 root, HasGlobalExitRootEvent order blocks →
      env.GetLatestL1SyncedExitRoot w1.db = (Except.ok ger, db2) →
      ger.ExitRoots.get? 1 = some root → w.l1RollupExitRoot ≠ root →
      (processBlockRange env s blocks order w).1 = Outcome.ok () ∧
      (processBlockRange env s blocks order w).2.sent =
        w.sent ++ (List.range s.numExitRootChannels).map (fun i => (i, ger)) ∧
      (processBlockRange env s blocks order w).2.l1RollupExitRoot = root) ∧
    (¬ (HasGlobalExitRootEvent order blocks ∧
        ∃ ger db2 root, env.GetLatestL1SyncedExitRoot w1.db = (Except.ok ger, db2) ∧
          ger.ExitRoots.get? 1 = some root ∧ w.l1RollupExitRoot ≠ root) →
      (processBlockRange env s blocks order w).2.sent = w.sent ∧
      (processBlockRange env s blocks order w).2.l1RollupExitRoot = w.l1RollupExitRoot) ∧
    (¬ HasGlobalExitRootEvent order blocks →
      processBlockRange env s blocks order w = (Outcome.ok (), w1)) := by
  have hk := processBlocks_keeps env s order blocks false w
  rw [hstored] at hk
  have hflag := processBlocks_flag_iff env s order blocks w w1 flag hstored
  have hget : ∀ db2, (w1.step Action.GetLatestL1SyncedExitRoot db2).sent = w.sent ∧
      (w1.step Action.GetLatestL1SyncedExitRoot db2).l1RollupExitRoot = w.l1RollupExitRoot :=
    fun db2 =>
      have h := hk.keeps_then Action.GetLatestL1SyncedExitRoot db2 (by intro _ _ h; cases h)
      ⟨h.2, h.1⟩
  refine ⟨⟨hk.2, hk.1⟩, ?_, ?_, ?_⟩
  · intro ger db2 root hev hg hroot hne
    have hf : flag = true := hflag.2 hev
    subst hf
    have hst := sendExitRootEvents_trace ger s.numExitRootChannels
      { w1.step Action.GetLatestL1SyncedExitRoot db2 with l1RollupExitRoot := root }
    have hne1 : (w1.step Action.GetLatestL1SyncedExitRoot db2).l1RollupExitRoot ≠ root := by
      rw [(hget db2).2]; exact hne
    simp only [processBlockRange, hstored, hg, hroot, if_pos hne1]
    refine ⟨trivial, ?_, hst.2.1⟩
    simp only [World.sent] at hget ⊢
    rw [hst.1, List.filterMap_append]
    simp only
    rw [(hget db2).1, List.filterMap_map]
    congr 1
    induction (List.range s.numExitRootChannels) with
    | nil => rfl
    | cons i rest ih => simp [List.filterMap_cons, List.map_cons, ih]
  · intro hnot
    cases flag with
    | false =>
      simp only [processBlockRange, hstored]
      exact ⟨hk.2, hk.1⟩
    | true =>
      have hev : HasGlobalExitRootEvent order blocks := hflag.1 rfl
      simp only [processBlockRange, hstored]
      cases hg : env.GetLatestL1SyncedExitRoot w1.db with
      | mk rg db2 =>
        cases rg with
        | error e => exact hget db2
        | ok ger =>
          simp only
          cases hroot : ger.ExitRoots.get? 1 with
          | none => exact hget db2
          | some root =>
            simp only
            have heq : w.l1RollupExitRoot = root := by
              by_contra hne
              exact hnot ⟨hev, ger, db2, root, hg, hroot, hne⟩
            have heq1 : ¬ (w1.step Action.GetLatestL1SyncedExitRoot db2).l1RollupExitRoot ≠
                root := by
              rw [(hget db2).2]; exact not_not.2 heq
            rw [if_neg heq1]
            exact hget db2
  · intro hno
    have hf : flag = false := by
      cases flag with
      | false => rfl
      | true => exact absurd (hflag.1 rfl) hno
    subst hf
    simp only [processBlockRange, hstored]

theorem C13_ger_publication_witness :
    (processBlockRange (okEnv true) exampleSync [exampleBlock [exampleGER [zeroHash, zeroHash]]]
        (exampleOrder [{ Name := GlobalExitRootsOrder, Pos := 0 }]) staleWorld).1 =
      Outcome.ok () ∧
    (processBlockRange (okEnv true) exampleSync [exampleBlock [exampleGER [zeroHash, zeroHash]]]
        (exampleOrder [{ Name := GlobalExitRootsOrder, Pos := 0 }]) staleWorld).2.sent =
      staleWorld.sent ++ (List.range exampleSync.numExitRootChannels).map (fun i => (i, latestGER)) ∧
    (processBlockRange (okEnv true) exampleSync [exampleBlock [exampleGER [zeroHash, zeroHash]]]
        (exampleOrder [{ Name := GlobalExitRootsOrder, Pos := 0 }]) staleWorld).2.l1RollupExitRoot =
      zeroHash :=
  (C13_ger_publication (okEnv true) exampleSync [exampleBlock [exampleGER [zeroHash, zeroHash]]]
    (exampleOrder [{ Name := GlobalExitRootsOrder, Pos := 0 }]) staleWorld
    (processBlocks (okEnv true) exampleSync
      (exampleOrder [{ Name := GlobalExitRootsOrder, Pos := 0 }])
      [exampleBlock [exampleGER [zeroHash, zeroHash]]] false staleWorld).2.1
    true rfl).2.1 latestGER 6 zeroHash
    ⟨exampleBlock [exampleGER [zeroHash, zeroHash]], List.mem_singleton.2 rfl,
      { Name := GlobalExitRootsOrder, Pos := 0 }, List.mem_singleton.2 rfl, rfl⟩
    rfl rfl (by decide)

/-! ## Theorems: reorg detection -/

theorem checkReorgLoop_result {σ : Type} (chain : ChainEnv σ) (s : ClientSynchronizer)
    (chainAt : Nat → Except Err Header) (stored : Nat → Except Err Block) (L : Block)
    (hreads : ReadsFrom chain s chainAt stored) :
    ∀ (fuel : Nat) (R : Block) (depth : Nat) (w w1 : World σ) (res : Option Block),
      depth + fuel < 2 ^ 64 →
      checkReorgLoop chain s L fuel R depth none w = (some (Except.ok res), w1) →
      (WalkEndsAt s chainAt R ∧
        res = (if L.BlockHash ≠ R.BlockHash then some R else none) ∧
        w1.trace = w.trace ++ [Action.HeaderByNumber (some R.BlockNumber)]) ∨
      (¬ WalkEndsAt s chainAt R ∧ ∃ d, depth < d ∧
        (∀ k, depth < k → k < d → ∃ b, stored k = Except.ok b ∧ ¬ WalkEndsAt s chainAt b) ∧
        ((∃ b, stored d = Except.ok b ∧ WalkEndsAt s chainAt b ∧
            res = (if L.BlockHash ≠ b.BlockHash then some b else none)) ∨
         (∃ e, stored d = Except.error e ∧ isStorageNotFound e = true ∧
            res = some { emptyBlock with BlockNumber := s.genBlockNumber }))) := by
  intro fuel
  induction fuel with
  | zero =>
    intro R depth w w1 res _ h
    simp [checkReorgLoop] at h
  | succ n ih =>
    intro R depth w w1 res hd h
    simp only [checkReorgLoop, checkReorgBlock] at h
    have hc := hreads.1 R.BlockNumber w.db
    cases hh : chain.HeaderByNumber (some R.BlockNumber) w.db with
    | mk rh db1 =>
      rw [hh] at h hc
      simp only at hc
      cases rh with
      | error e => simp at h
      | ok hdr =>
        simp only at h
        by_cases hnum : toUint64 hdr.Number = R.BlockNumber
        · rw [if_neg (not_not.2 hnum)] at h
          simp only at h
          have hmatch : HeaderMatches chainAt R ↔
              (hdr.Hash = R.BlockHash ∧ hdr.ParentHash = R.ParentHash) := by
            constructor
            · rintro ⟨h2, e2, _, e3, e4⟩
              rw [← hc] at e2
              cases e2
              exact ⟨e3, e4⟩
            · intro hm
              exact ⟨hdr, hc.symm, hnum, hm.1, hm.2⟩
          by_cases hcond : (hdr.Hash ≠ R.BlockHash ∨ hdr.ParentHash ≠ R.ParentHash) ∧
              R.BlockNumber > s.genBlockNumber
          · rw [if_pos hcond] at h
            have hnot : ¬ WalkEndsAt s chainAt R := by
              rintro (hm | hg)
              · have := hmatch.1 hm
                rcases hcond.1 with h1 | h1
                · exact h1 this.1
                · exact h1 this.2
              · omega
            have hdepth : (depth + 1) % 2 ^ 64 = depth + 1 := Nat.mod_eq_of_lt (by omega)
            rw [hdepth] at h
            have hs := hreads.2 (depth + 1)
              (w.step (Action.HeaderByNumber (some R.BlockNumber)) db1).db
            cases hp : chain.GetPreviousBlock s.networkID (depth + 1)
                (w.step (Action.HeaderByNumber (some R.BlockNumber)) db1).db with
            | mk rp db2 =>
              rw [hp] at h hs
              simp only at hs
              cases rp with
              | error e =>
                simp only at h
                by_cases hnf : isStorageNotFound e = true
                · rw [if_pos hnf] at h
                  simp only [Prod.mk.injEq, Option.some.injEq, Except.ok.injEq] at h
                  refine Or.inr ⟨hnot, depth + 1, by omega, ?_, Or.inr ⟨e, hs.symm, hnf, h.1.symm⟩⟩
                  intro k h1 h2
                  omega
                · rw [if_neg hnf] at h
                  simp at h
              | ok lb =>
                simp only at h
                rcases ih lb (depth + 1) _ w1 res (by omega) h with ⟨hend, hres, _⟩ | ⟨hne, d, hd1, hall, hfin⟩
                · refine Or.inr ⟨hnot, depth + 1, by omega, ?_, Or.inl ⟨lb, hs.symm, hend, hres⟩⟩
                  intro k h1 h2
                  omega
                · refine Or.inr ⟨hnot, d, by omega, ?_, hfin⟩
                  intro k h1 h2
                  by_cases hk : k = depth + 1
                  · rw [hk]
                    exact ⟨lb, hs.symm, hne⟩
                  · exact hall k (by omega) h2
          · rw [if_neg hcond] at h
            have hend : WalkEndsAt s chainAt R := by
              by_cases hg : R.BlockNumber > s.genBlockNumber
              · left
                apply hmatch.2
                constructor
                · by_contra h1
                  exact hcond ⟨Or.inl h1, hg⟩
                · by_contra h1
                  exact hcond ⟨Or.inr h1, hg⟩
              · right
                omega
            refine Or.inl ⟨hend, ?_, ?_⟩
            · split at h
              · rename_i hne
                simp only [Prod.mk.injEq, Option.some.injEq, Except.ok.injEq] at h
                rw [if_pos hne]
                exact h.1.symm
              · rename_i hne
                simp only [Prod.mk.injEq, Option.some.injEq, Except.ok.injEq] at h
                rw [if_neg hne]
                exact h.1.symm
            · split at h <;>
                (simp only [Prod.mk.injEq] at h
                 rw [← h.2]
                 rfl)
        · rw [if_pos hnum] at h
          simp at h
theorem checkReorgLoop_returns {σ : Type} (chain : ChainEnv σ) (s : ClientSynchronizer)
    (chainAt : Nat → Except Err Header) (stored : Nat → Except Err Block) (L : Block)
    (hreads : ReadsFrom chain s chainAt stored) :
    ∀ (fuel : Nat) (R : Block) (depth : Nat) (block : Option Block) (w : World σ),
      depth + fuel < 2 ^ 64 →
      (∃ d e, depth < d ∧ d ≤ depth + fuel ∧ stored d = Except.error e) →
      (checkReorgLoop chain s L fuel R depth block w).1 ≠ none := by
  intro fuel
  induction fuel with
  | zero =>
    intro R depth block w _ hex
    obtain ⟨d, e, h1, h2, _⟩ := hex
    omega
  | succ n ih =>
    intro R depth block w hd hex
    obtain ⟨d, e, h1, h2, h3⟩ := hex
    simp only [checkReorgLoop]
    split
    · simp
    · rename_i blk w2 _
      split
      · have hdepth : (depth + 1) % 2 ^ 64 = depth + 1 := Nat.mod_eq_of_lt (by omega)
        rw [hdepth]
        have hs := hreads.2 (depth + 1) w2.db
        cases hp : chain.GetPreviousBlock s.networkID (depth + 1) w2.db with
        | mk rp db2 =>
          rw [hp] at hs
          simp only at hs
          cases rp with
          | error e2 =>
            simp only
            split <;> simp
          | ok lb =>
            simp only
            have hne : d ≠ depth + 1 := by
              intro hd1
              rw [hd1, ← hs] at h3
              cases h3
            exact ih lb (depth + 1) none _ (by omega) ⟨d, e, by omega, by omega, h3⟩
      · split <;> simp

/-- A store with one block per block hash identifies every block it holds by
its hash: `HashIdentifiesBlock` holds for every `L` that is stored at some
depth. -/
theorem hashIdentifiesBlock_of_stored (stored : Nat → Except Err Block) (L : Block) (d0 : Nat)
    (hL : stored d0 = Except.ok L)
    (huniq : ∀ d d1 b b1, stored d = Except.ok b → stored d1 = Except.ok b1 →
      b.BlockHash = b1.BlockHash → b = b1) :
    HashIdentifiesBlock stored L := by
  intro d b _ hb hh
  have h := huniq d d0 b L hb hL hh
  rw [h]
  exact ⟨rfl, rfl⟩

/-- C12: for every latest stored block `L`, block store `stored` (by depth) and
chain `chainAt` (header by number) that the collaborators read from: when
`checkReorg(L, nil)` returns a result without error, the result is nil if the
chain header at `L.BlockNumber` has the hash and parent hash of `L`, and then
the only call made is that one `HeaderByNumber`; if the header differs and
`L.BlockNumber` is above the genesis block number, then in a store in which
the hash of `L` identifies the block there is a smallest depth `d >= 1` at
which the walk ends: every stored block at a depth from 1 up to `d - 1` exists
and neither matches the chain nor is at or below genesis, and either the block
stored at depth `d` matches the chain header at its number (or is not above
genesis) and is the result, or storage has no block at depth `d` and the
result is a block carrying only the genesis block number.  Moreover
`checkReorg` returns within `fuel` iterations whenever storage has no block at
some depth from 1 to `fuel`. -/
theorem C12_checkReorg_result {σ : Type} (chain : ChainEnv σ) (s : ClientSynchronizer)
    (chainAt : Nat → Except Err Header) (stored : Nat → Except Err Block) (fuel : Nat)
    (L : Block) (w : World σ)
    (hreads : ReadsFrom chain s chainAt stored) (hfuel : fuel < 2 ^ 64) :
    (∀ res w1, checkReorg chain s fuel L none w = (some (Except.ok res), w1) →
      (HeaderMatches chainAt L →
        res = none ∧ w1.trace = w.trace ++ [Action.HeaderByNumber (some L.BlockNumber)]) ∧
      (¬ HeaderMatches chainAt L → L.BlockNumber > s.genBlockNumber →
        HashIdentifiesBlock stored L →
        ∃ d, 1 ≤ d ∧
          (∀ k, 1 ≤ k → k < d → ∃ b, stored k = Except.ok b ∧ ¬ WalkEndsAt s chainAt b) ∧
          ((∃ b, stored d = Except.ok b ∧ WalkEndsAt s chainAt b ∧ res = some b) ∨
           (∃ e, stored d = Except.error e ∧ isStorageNotFound e = true ∧
              res = some { emptyBlock with BlockNumber := s.genBlockNumber })))) ∧
    (∀ d e, 1 ≤ d → d ≤ fuel → stored d = Except.error e →
      (checkReorg chain s fuel L none w).1 ≠ none) := by
  refine ⟨?_, ?_⟩
  · intro res w1 hret
    unfold checkReorg at hret
    have hloop := checkReorgLoop_result chain s chainAt stored L hreads fuel L 0 w w1 res
      (by omega) hret
    refine ⟨?_, ?_⟩
    · intro hm
      rcases hloop with ⟨_, hres, htr⟩ | ⟨hne, _⟩
      · refine ⟨?_, htr⟩
        rw [hres, if_neg (not_not.2 rfl)]
      · exact absurd (Or.inl hm) hne
    · intro hm hgen hid
      rcases hloop with ⟨hend, _, _⟩ | ⟨_, d, hd, hall, hfin⟩
      · rcases hend with h1 | h1
        · exact absurd h1 hm
        · omega
      · refine ⟨d, by omega, fun k h1 h2 => hall k (by omega) h2, ?_⟩
        rcases hfin with ⟨b, hb, hend, hres⟩ | hnf
        · left
          refine ⟨b, hb, hend, ?_⟩
          have hne : L.BlockHash ≠ b.BlockHash := by
            intro hc
            obtain ⟨hnum, hpar⟩ := hid d b (by omega) hb hc.symm
            rcases hend with ⟨hdr, e1, e2, e3, e4⟩ | hg
            · exact hm ⟨hdr, by rw [← hnum]; exact e1, by rw [← hnum]; exact e2,
                by rw [hc]; exact e3, by rw [← hpar]; exact e4⟩
            · omega
          rw [hres, if_pos hne]
        · exact Or.inr hnf
  · intro d e h1 h2 h3
    unfold checkReorg
    exact checkReorgLoop_returns chain s chainAt stored L hreads fuel L 0 none w (by omega)
      ⟨d, e, by omega, by omega, h3⟩

theorem forkedStore_identifies : HashIdentifiesBlock forkedStore (storedBlock 8 [80] [7]) := by
  intro d b hd h hh
  match d, hd, h with
  | 1, _, h => cases h; exact ⟨rfl, rfl⟩
  | 2, _, h => cases h; exact absurd hh (by decide)
  | n + 3, _, h => cases h

theorem C12_checkReorg_result_witness :
    forkedStore 1 = Except.ok (storedBlock 8 [80] [7]) ∧
    checkReorg (exampleChain goodChain forkedStore 9) exampleSync 5 (storedBlock 8 [80] [7]) none
        emptyWorld =
      (some (Except.ok (some (storedBlock 7 [7] [6]))),
        { db := 5, l1RollupExitRoot := zeroHash,
          trace := [Action.HeaderByNumber (some 8), Action.GetPreviousBlock 0 1,
            Action.HeaderByNumber (some 8), Action.GetPreviousBlock 0 2,
            Action.HeaderByNumber (some 7)] }) ∧
    (∃ d, 1 ≤ d ∧
      (∀ k, 1 ≤ k → k < d →
        ∃ b, forkedStore k = Except.ok b ∧ ¬ WalkEndsAt exampleSync goodChain b) ∧
      ((∃ b, forkedStore d = Except.ok b ∧ WalkEndsAt exampleSync goodChain b ∧
          some (storedBlock 7 [7] [6]) = some b) ∨
       (∃ e, forkedStore d = Except.error e ∧ isStorageNotFound e = true ∧
          some (storedBlock 7 [7] [6]) =
            some { emptyBlock with BlockNumber := exampleSync.genBlockNumber }))) ∧
    (checkReorg (exampleChain goodChain forkedStore 9) exampleSync 5 (storedBlock 8 [80] [7]) none
        emptyWorld).1 ≠ none :=
  have h := C12_checkReorg_result (exampleChain goodChain forkedStore 9) exampleSync goodChain
    forkedStore 5 (storedBlock 8 [80] [7]) emptyWorld ⟨fun _ _ => rfl, fun _ _ => rfl⟩
    (by decide)
  ⟨rfl, rfl,
    (h.1 (some (storedBlock 7 [7] [6])) _ rfl).2
      (by
        rintro ⟨hdr, e1, _, e3, _⟩
        cases e1
        exact absurd e3 (by decide))
      (by decide) forkedStore_identifies,
    h.2 3 Err.storageNotFound (by decide) (by decide) rfl⟩

/-! ## Theorems: the synced notification -/

theorem SyncedOnce.once_refl {σ : Type} (s : ClientSynchronizer) (r : SyncRun σ) : SyncedOnce s r r :=
  ⟨fun h => ⟨h, rfl⟩, fun h => Or.inl ⟨h, rfl⟩⟩

theorem SyncedOnce.once_trans {σ : Type} {s : ClientSynchronizer} {r r1 r2 : SyncRun σ}
    (h1 : SyncedOnce s r r1) (h2 : SyncedOnce s r1 r2) : SyncedOnce s r r2 := by
  constructor
  · intro h
    obtain ⟨a, b⟩ := h1.1 h
    obtain ⟨c, d⟩ := h2.1 a
    exact ⟨c, d.trans b⟩
  · intro h
    rcases h1.2 h with ⟨a, b⟩ | ⟨a, b⟩
    · rcases h2.2 a with ⟨c, d⟩ | ⟨c, d⟩
      · exact Or.inl ⟨c, d.trans b⟩
      · exact Or.inr ⟨c, by rw [d, b]⟩
    · obtain ⟨c, d⟩ := h2.1 a
      exact Or.inr ⟨c, d.trans b⟩

theorem SyncedOnce.world {σ : Type} (s : ClientSynchronizer) (r : SyncRun σ) (w : World σ) :
    SyncedOnce s r { r with w := w } :=
  ⟨fun h => ⟨h, rfl⟩, fun h => Or.inl ⟨h, rfl⟩⟩

theorem SyncedOnce.mark {σ : Type} (s : ClientSynchronizer) (r : SyncRun σ)
    (h : r.synced = false) : SyncedOnce s r (r.markSynced s) :=
  ⟨fun h1 => absurd (h.symm.trans h1) (by decide), fun _ => Or.inr ⟨rfl, rfl⟩⟩

theorem syncBlocksProcess_once {σ : Type} (env : SyncEnv σ) (s : ClientSynchronizer)
    (lastKnownBlock toBlock : Nat) (lastBlockSynced : Block) (blocks : List Block)
    (order : Bytes → List Order) (r : SyncRun σ) :
    SyncedOnce s r
      (syncBlocksProcess env s lastKnownBlock toBlock lastBlockSynced blocks order r).2 := by
  unfold syncBlocksProcess
  split
  · exact SyncedOnce.world s r _
  · exact SyncedOnce.world s r _
  · simp only
    split
    · split
      · rename_i h
        exact (SyncedOnce.world s r _).once_trans (SyncedOnce.mark s _ h)
      · exact SyncedOnce.world s r _
    · split
      · exact SyncedOnce.world s r _
      · exact SyncedOnce.world s r _

theorem syncBlocksReorg_once {σ : Type} (env : SyncEnv σ) (chain : ChainEnv σ)
    (s : ClientSynchronizer) (fuel : Nat) (lastBlockSynced : Block) (r : SyncRun σ) :
    SyncedOnce s r (syncBlocksReorg env chain s fuel lastBlockSynced r).2 := by
  unfold syncBlocksReorg
  simp only
  repeat' split
  all_goals exact SyncedOnce.world s r _
theorem syncBlocksBody_once {σ : Type} (env : SyncEnv σ) (chain : ChainEnv σ)
    (s : ClientSynchronizer) (fuel lastKnownBlock fromBlock toBlock : Nat)
    (lastBlockSynced : Block) (r : SyncRun σ) :
    SyncedOnce s r
      (syncBlocksBody env chain s fuel lastKnownBlock fromBlock toBlock lastBlockSynced r).2 := by
  unfold syncBlocksBody
  simp only
  have h0 : SyncedOnce s r
      (if toBlock > toUint64 lastKnownBlock ∧ r.synced = false then r.markSynced s else r) := by
    split
    · rename_i h; exact SyncedOnce.mark s r h.2
    · exact SyncedOnce.once_refl s r
  generalize (if toBlock > toUint64 lastKnownBlock ∧ r.synced = false then r.markSynced s else r)
    = r0 at h0 ⊢
  generalize (if toBlock > toUint64 lastKnownBlock ∧ r.synced = false
    then lastBlockSynced.BlockNumber else fromBlock) = fromBlock0
  generalize (if toBlock > toUint64 lastKnownBlock then toUint64 lastKnownBlock else toBlock)
    = toBlock0
  split
  · exact h0
  · split
    · exact h0.once_trans (SyncedOnce.world s r0 _)
    · split
      · exact h0.once_trans (SyncedOnce.world s r0 _)
      · split
        · split
          · exact h0.once_trans ((SyncedOnce.world s r0 _).once_trans (syncBlocksReorg_once env chain s _ _ _))
          · split
            · exact h0.once_trans (SyncedOnce.world s r0 _)
            · exact h0.once_trans (SyncedOnce.world s r0 _)
            · split
              · exact h0.once_trans (SyncedOnce.world s r0 _)
              · exact h0.once_trans (SyncedOnce.world s r0 _)
            · exact h0.once_trans ((SyncedOnce.world s r0 _).once_trans
                (syncBlocksProcess_once env s _ _ _ _ _ _))
        · exact h0.once_trans ((SyncedOnce.world s r0 _).once_trans
            (syncBlocksProcess_once env s _ _ _ _ _ _))

theorem syncBlocksLoop_once {σ : Type} (env : SyncEnv σ) (chain : ChainEnv σ)
    (s : ClientSynchronizer) (fuel lastKnownBlock : Nat) :
    ∀ (n fromBlock toBlock : Nat) (lastBlockSynced : Block) (r : SyncRun σ),
      SyncedOnce s r
        (syncBlocksLoop env chain s fuel lastKnownBlock n fromBlock toBlock lastBlockSynced r).2 := by
  intro n
  induction n with
  | zero => intro _ _ _ r; exact SyncedOnce.once_refl s r
  | succ k ih =>
    intro fromBlock toBlock lastBlockSynced r
    have hb := syncBlocksBody_once env chain s fuel lastKnownBlock fromBlock toBlock
      lastBlockSynced r
    simp only [syncBlocksLoop]
    split
    · rename_i h; rw [h] at hb; exact hb
    · rename_i h; rw [h] at hb; exact hb
    · rename_i h; rw [h] at hb; exact hb.once_trans (ih _ _ _ _)

theorem syncBlocks_once {σ : Type} (env : SyncEnv σ) (chain : ChainEnv σ)
    (s : ClientSynchronizer) (fuel : Nat) (lastBlockSynced : Block) (r : SyncRun σ) :
    SyncedOnce s r (syncBlocks env chain s fuel lastBlockSynced r).2 := by
  unfold syncBlocks
  split
  · exact SyncedOnce.world s r _
  · simp only
    split
    · exact SyncedOnce.world s r _
    · exact SyncedOnce.world s r _
    · split
      · exact SyncedOnce.world s r _
      · exact SyncedOnce.world s r _
    · exact (SyncedOnce.world s r _).once_trans (syncBlocksLoop_once env chain s _ _ _ _ _ _ _)

theorem syncCheck_once {σ : Type} (env : SyncEnv σ) (chain : ChainEnv σ)
    (s : ClientSynchronizer) (lastBlockSynced : Block) (r : SyncRun σ) :
    SyncedOnce s r (syncCheck env chain s lastBlockSynced r).2 := by
  unfold syncCheck
  split
  · rename_i hs
    split
    · exact SyncedOnce.world s r _
    · rename_i header db1 _
      simp only
      have h2 : SyncedOnce s r
          (if lastBlockSynced.BlockNumber = toUint64 header.Number ∧
              ({ r with w := r.w.step (Action.HeaderByNumber none) db1 } : SyncRun σ).synced = false
            then ({ r with w := r.w.step (Action.HeaderByNumber none) db1 } : SyncRun σ).markSynced s
            else { r with w := r.w.step (Action.HeaderByNumber none) db1 }) := by
        split
        · exact (SyncedOnce.world s r _).once_trans (SyncedOnce.mark s _ hs)
        · exact SyncedOnce.world s r _
      generalize (if lastBlockSynced.BlockNumber = toUint64 header.Number ∧
              ({ r with w := r.w.step (Action.HeaderByNumber none) db1 } : SyncRun σ).synced = false
            then ({ r with w := r.w.step (Action.HeaderByNumber none) db1 } : SyncRun σ).markSynced s
            else { r with w := r.w.step (Action.HeaderByNumber none) db1 }) = r2 at h2 ⊢
      split
      · split
        · exact h2
        · exact h2.once_trans (SyncedOnce.world s r2 _)
      · exact h2
  · split
    · exact SyncedOnce.once_refl s r
    · exact SyncedOnce.world s r _

theorem syncRound_once {σ : Type} (env : SyncEnv σ) (chain : ChainEnv σ)
    (s : ClientSynchronizer) (fuel : Nat) (lastBlockSynced : Block) (r : SyncRun σ) :
    SyncedOnce s r (syncRound env chain s fuel lastBlockSynced r).2 := by
  have hb := syncBlocks_once env chain s fuel lastBlockSynced r
  unfold syncRound
  split
  · rename_i h; rw [h] at hb; exact hb
  · rename_i h; rw [h] at hb; exact hb
  · rename_i h; rw [h] at hb
    exact hb.once_trans (syncCheck_once env chain s _ _)
  · rename_i r1 h
    rw [h] at hb
    simp only
    split
    · split
      · exact hb.once_trans (SyncedOnce.world s r1 _)
      · exact hb.once_trans ((SyncedOnce.world s r1 _).once_trans (syncCheck_once env chain s _ _))
    · exact hb.once_trans (SyncedOnce.world s r1 _)
    · exact hb.once_trans (SyncedOnce.world s r1 _)
theorem runCall_once {σ : Type} (env : SyncEnv σ) (chain : ChainEnv σ) (s : ClientSynchronizer)
    (call : SyncCall) (r : SyncRun σ) : SyncedOnce s r (runCall env chain s call r) := by
  cases call with
  | syncBlocks fuel b => exact syncBlocks_once env chain s fuel b r
  | round fuel b => exact syncRound_once env chain s fuel b r

theorem runCalls_once {σ : Type} (env : SyncEnv σ) (chain : ChainEnv σ) (s : ClientSynchronizer) :
    ∀ (calls : List SyncCall) (r : SyncRun σ), SyncedOnce s r (runCalls env chain s calls r) := by
  intro calls
  induction calls with
  | nil => intro r; exact SyncedOnce.once_refl s r
  | cons call rest ih =>
    intro r
    exact (runCall_once env chain s call r).once_trans (ih _)

theorem runCalls_append {σ : Type} (env : SyncEnv σ) (chain : ChainEnv σ)
    (s : ClientSynchronizer) (later : List SyncCall) :
    ∀ (before : List SyncCall) (r : SyncRun σ),
      runCalls env chain s (before ++ later) r =
        runCalls env chain s later (runCalls env chain s before r) := by
  intro before
  induction before with
  | nil => intro r; rfl
  | cons call rest ih => intro r; exact ih _

/-- An example run: a new synchronizer of network 0 whose chain tip is block 9
calls `syncBlocks` from the genesis block and becomes synced, sending its
network id; a following round of `Sync` sends nothing more. -/
theorem runCalls_example :
    (runCalls (okEnv true)
        (exampleChain goodChain (fun _ => Except.error Err.storageNotFound) 9) exampleSync
        [SyncCall.syncBlocks 5 emptyBlock] (SyncRun.init emptyWorld)).chSynced = [0] ∧
    (runCalls (okEnv true)
        (exampleChain goodChain (fun _ => Except.error Err.storageNotFound) 9) exampleSync
        [SyncCall.syncBlocks 5 emptyBlock, SyncCall.round 5 emptyBlock]
        (SyncRun.init emptyWorld)).chSynced = [0] ∧
    (runCalls (okEnv true)
        (exampleChain goodChain (fun _ => Except.error Err.storageNotFound) 9) exampleSync
        [SyncCall.syncBlocks 5 emptyBlock, SyncCall.round 5 emptyBlock]
        (SyncRun.init emptyWorld)).synced = true := by
  refine ⟨?_, ?_, ?_⟩ <;> rfl

/-- C14: every step of a run of the synchronizer, a call of `syncBlocks` or a
round of the loop of `Sync`, from any state and with any collaborators, block
and bound: the flag `synced` does not go from true to false, and the network
id is sent on `chSynced` exactly once in a step that takes the flag from
false to true and not at all in any other step.  The same holds from the
start to the end of every sequence of steps; so for a synchronizer that
starts not synced, what has been sent after any sequence of steps is the
network id once if the flag is true and nothing if it is false, and once the
flag is true after some steps it stays true and nothing more is sent in any
steps that follow. -/
theorem C14_synced_once {σ : Type} (env : SyncEnv σ) (chain : ChainEnv σ)
    (s : ClientSynchronizer) (call : SyncCall) (calls later : List SyncCall) (r : SyncRun σ)
    (w : World σ) :
    SyncedOnce s r (runCall env chain s call r) ∧
    SyncedOnce s r (runCalls env chain s calls r) ∧
    (runCalls env chain s calls (SyncRun.init w)).chSynced =
      (if (runCalls env chain s calls (SyncRun.init w)).synced = true then [s.networkID]
       else []) ∧
    ((runCalls env chain s calls (SyncRun.init w)).synced = true →
      (runCalls env chain s (calls ++ later) (SyncRun.init w)).synced = true ∧
      (runCalls env chain s (calls ++ later) (SyncRun.init w)).chSynced = [s.networkID]) := by
  have hrun := runCalls_once env chain s calls (SyncRun.init w)
  have hsent : (runCalls env chain s calls (SyncRun.init w)).chSynced =
      (if (runCalls env chain s calls (SyncRun.init w)).synced = true then [s.networkID]
       else []) := by
    rcases hrun.2 rfl with ⟨h1, h2⟩ | ⟨h1, h2⟩
    · rw [h1, h2]; rfl
    · rw [h1, h2]; rfl
  refine ⟨runCall_once env chain s call r, runCalls_once env chain s calls r, hsent, ?_⟩
  intro hs
  rw [runCalls_append]
  obtain ⟨h1, h2⟩ := (runCalls_once env chain s later _).1 hs
  refine ⟨h1, ?_⟩
  rw [h2, hsent, if_pos hs]

/-! ## Theorems: estimation failures and the review of a monitored transaction -/

/-- C21 (counterexample): with `RetryNumber = 2` and every gas estimation
failing with an error whose text is not the revert text, `addClaimTx` makes
the initial estimation and one retry, asks for the latest block for its log
message and returns nil: no error reaches the caller, no nonce is taken and no
monitored transaction is written. -/
theorem C21_estimation_failure_ignored_counterexample :
    (∀ db, (stubEnv { okStub with Gas := Except.error (Err.other 1) }).EstimateGas exampleCall db =
      (Except.error (Err.other 1), db + 1)) ∧
    (stubEnv { okStub with Gas := Except.error (Err.other 1) }).errorText (Err.other 1) ≠
      (stubEnv { okStub with Gas := Except.error (Err.other 1) }).ErrExecutionReverted ∧
    (exampleManager 2).cfg.RetryNumber = 2 ∧
    addClaimTx (stubEnv { okStub with Gas := Except.error (Err.other 1) }) (exampleManager 2)
        1 [4] (some [5]) none [6] [2] 7 emptyTxWorld =
      (none,
        { db := 3,
          trace := [TxAction.EstimateGas exampleCall, TxAction.Sleep,
            TxAction.EstimateGas exampleCall, TxAction.BlockByNumber] }) :=
  ⟨fun _ => rfl, by decide, rfl, rfl⟩

/-- C21 (what the code does): when the gas estimation of `addClaimTx`, retries
included, ends with an error, `addClaimTx` does not return it.  It asks the
node for the latest block (for the log message), returns nil, and adds to the
trace only estimations, sleeps and that `BlockByNumber` call: no nonce is
taken and no monitored transaction is written.  `ReviewMonitoredTx`, which
runs the same estimation on the same call message, is the operation that
returns the error, wrapped. -/
theorem C21_estimation_failure_ignored {σ : Type} (env : ClaimEnv σ) (tm : ClaimTxManager)
    (mTx : MonitoredTx) (reviewNonce : Bool) (ger : Bytes) (dbTx : Tx) (w : TxWorld σ) (e : Err)
    (hfail : (estimateGas env tm
      { From := mTx.From, To := mTx.To, Value := mTx.Value, Data := mTx.Data } w).1 =
        Except.error e) :
    (addClaimTx env tm mTx.DepositID mTx.From mTx.To mTx.Value mTx.Data ger dbTx w).1 = none ∧
    (addClaimTx env tm mTx.DepositID mTx.From mTx.To mTx.Value mTx.Data ger dbTx w).2.trace =
      (estimateGas env tm
        { From := mTx.From, To := mTx.To, Value := mTx.Value, Data := mTx.Data } w).2.trace ++
        [TxAction.BlockByNumber] ∧
    w.Adds (fun a => a = TxAction.Sleep ∨ a = TxAction.BlockByNumber ∨
        a = TxAction.EstimateGas
          { From := mTx.From, To := mTx.To, Value := mTx.Value, Data := mTx.Data })
      (addClaimTx env tm mTx.DepositID mTx.From mTx.To mTx.Value mTx.Data ger dbTx w).2 ∧
    (ReviewMonitoredTx env tm mTx reviewNonce w).1 =
      (some (Err.wrapped "failed to estimate gas. Error: %v, Data: %s" e), mTx) := by
  have hadds := estimateGas_adds env tm
    { From := mTx.From, To := mTx.To, Value := mTx.Value, Data := mTx.Data } w
  have hpair : estimateGas env tm
      { From := mTx.From, To := mTx.To, Value := mTx.Value, Data := mTx.Data } w =
      (Except.error e, (estimateGas env tm
        { From := mTx.From, To := mTx.To, Value := mTx.Value, Data := mTx.Data } w).2) := by
    rw [← hfail]
  refine ⟨?_, ?_, ?_, ?_⟩
  · simp only [addClaimTx]; rw [hpair]
  · simp only [addClaimTx]; rw [hpair]; simp only [TxWorld.step]
  · simp only [addClaimTx]; rw [hpair]
    exact (hadds.adds_mono (fun a ha => by
      rcases ha with h | h
      · exact Or.inl h
      · exact Or.inr (Or.inr h))).adds_then _ _ (Or.inr (Or.inl rfl))
  · simp only [ReviewMonitoredTx]; rw [hpair]

theorem C21_estimation_failure_ignored_witness :
    (addClaimTx (stubEnv { okStub with Gas := Except.error (Err.other 1) }) (exampleManager 2)
        1 [4] (some [5]) none [6] [2] 7 emptyTxWorld).1 = none ∧
    (ReviewMonitoredTx (stubEnv { okStub with Gas := Except.error (Err.other 1) })
        (exampleManager 2) exampleMTx false emptyTxWorld).1 =
      (some (Err.wrapped "failed to estimate gas. Error: %v, Data: %s" (Err.other 1)),
        exampleMTx) :=
  have h := C21_estimation_failure_ignored
    (stubEnv { okStub with Gas := Except.error (Err.other 1) }) (exampleManager 2) exampleMTx
    false [2] 7 emptyTxWorld (Err.other 1) rfl
  ⟨h.1, h.2.2.2⟩

/-- C22: `ReviewMonitoredTx` only raises gas and nonce.  Writing `g` for the
result of the gas estimation (retries included) on the call message of the
monitored transaction: without `reviewNonce` the review returns nil and the
transaction with `Gas = max(previous Gas, g)` and every other field, the nonce
included, unchanged; with `reviewNonce` and the nonce cache yielding `n` it
returns nil and the transaction with `Gas = max(previous Gas, g)`,
`Nonce = max(previous Nonce, n)` and every other field unchanged; the review
returns nil in no other case; and when the estimation fails with `e` the
review returns the wrapped error and the transaction is unchanged. -/
theorem C22_review_raises_gas_and_nonce {σ : Type} (env : ClaimEnv σ) (tm : ClaimTxManager)
    (mTx : MonitoredTx) (reviewNonce : Bool) (w : TxWorld σ) :
    (∀ g, (estimateGas env tm
        { From := mTx.From, To := mTx.To, Value := mTx.Value, Data := mTx.Data } w).1 =
          Except.ok g → reviewNonce = false →
      (ReviewMonitoredTx env tm mTx reviewNonce w).1 =
        (none, { mTx with Gas := max mTx.Gas g })) ∧
    (∀ g n, (estimateGas env tm
        { From := mTx.From, To := mTx.To, Value := mTx.Value, Data := mTx.Data } w).1 =
          Except.ok g → reviewNonce = true →
      (env.GetNextNonce mTx.From (estimateGas env tm
        { From := mTx.From, To := mTx.To, Value := mTx.Value, Data := mTx.Data } w).2.db).1 =
          Except.ok n →
      (ReviewMonitoredTx env tm mTx reviewNonce w).1 =
        (none, { mTx with Gas := max mTx.Gas g, Nonce := max mTx.Nonce n })) ∧
    ((ReviewMonitoredTx env tm mTx reviewNonce w).1.1 = none →
      ∃ g, (estimateGas env tm
        { From := mTx.From, To := mTx.To, Value := mTx.Value, Data := mTx.Data } w).1 =
          Except.ok g ∧
        (reviewNonce = false ∨
          ∃ n, (env.GetNextNonce mTx.From (estimateGas env tm
            { From := mTx.From, To := mTx.To, Value := mTx.Value, Data := mTx.Data } w).2.db).1 =
              Except.ok n)) ∧
    (∀ e, (estimateGas env tm
        { From := mTx.From, To := mTx.To, Value := mTx.Value, Data := mTx.Data } w).1 =
          Except.error e →
      (ReviewMonitoredTx env tm mTx reviewNonce w).1 =
        (some (Err.wrapped "failed to estimate gas. Error: %v, Data: %s" e), mTx)) := by
  have hgas : ∀ g : Nat, (if g > mTx.Gas then { mTx with Gas := g } else mTx) =
      { mTx with Gas := max mTx.Gas g } := by
    intro g
    by_cases h : g > mTx.Gas
    · rw [if_pos h, max_eq_right (Nat.le_of_lt h)]
    · rw [if_neg h, max_eq_left (Nat.le_of_not_lt h)]
  have hnonce : ∀ (m : MonitoredTx) (n : Nat),
      (if n > m.Nonce then { m with Nonce := n } else m) = { m with Nonce := max m.Nonce n } := by
    intro m n
    by_cases h : n > m.Nonce
    · rw [if_pos h, max_eq_right (Nat.le_of_lt h)]
    · rw [if_neg h, max_eq_left (Nat.le_of_not_lt h)]
  simp only [ReviewMonitoredTx]
  cases hc : estimateGas env tm
      { From := mTx.From, To := mTx.To, Value := mTx.Value, Data := mTx.Data } w with
  | mk r w1 =>
    cases r with
    | error err =>
      refine ⟨?_, ?_, ?_, ?_⟩
      · intro g h; cases h
      · intro g n h; cases h
      · intro h; cases h
      · intro e he
        cases he
        rfl
    | ok gas =>
      simp only [hgas]
      refine ⟨?_, ?_, ?_, ?_⟩
      · intro g hg hr
        cases hg
        subst hr
        rfl
      · intro g n hg hr hn
        cases hg
        subst hr
        simp only [if_true]
        cases hq : env.GetNextNonce mTx.From w1.db with
        | mk rn db2 =>
          rw [hq] at hn
          cases hn
          exact congrArg (fun m => ((none : Option Err), m))
            (hnonce { mTx with Gas := max mTx.Gas gas } n)
      · intro h
        refine ⟨gas, rfl, ?_⟩
        cases reviewNonce with
        | false => exact Or.inl rfl
        | true =>
          right
          simp only [if_true] at h
          cases hq : env.GetNextNonce mTx.From w1.db with
          | mk rn db2 =>
            rw [hq] at h
            cases rn with
            | error err => cases h
            | ok n => exact ⟨n, rfl⟩
      · intro e h; cases h

theorem C22_review_raises_gas_and_nonce_witness :
    (ReviewMonitoredTx (stubEnv okStub) (exampleManager 3) exampleMTx false emptyTxWorld).1 =
      (none, { exampleMTx with Gas := 21000 }) ∧
    (ReviewMonitoredTx (stubEnv okStub) (exampleManager 3) { exampleMTx with Nonce := 5 } true
        emptyTxWorld).1 =
      (none, { exampleMTx with Gas := 21000, Nonce := 5 }) :=
  ⟨(C22_review_raises_gas_and_nonce (stubEnv okStub) (exampleManager 3) exampleMTx false
      emptyTxWorld).1 21000 rfl rfl,
   (C22_review_raises_gas_and_nonce (stubEnv okStub) (exampleManager 3)
      { exampleMTx with Nonce := 5 } true emptyTxWorld).2.1 21000 3 rfl rfl rfl⟩

/-! ## Theorems: REST endpoints and the GER-pinned proof operations -/

theorem depositsGlobalIndexes_eq_map (deposits : List Deposit) :
    depositsGlobalIndexes deposits = deposits.map depositGlobalIndex := by
  have h : ∀ (ds : List Deposit) (acc : List Int),
      ds.foldl (fun pbDeposits deposit => pbDeposits ++ [depositGlobalIndex deposit]) acc =
        acc ++ ds.map depositGlobalIndex := by
    intro ds
    induction ds with
    | nil => intro acc; simp
    | cons d ds ih => intro acc; simp [List.foldl, ih]
  simpa [depositsGlobalIndexes] using h deposits []

/-- C27: for every deposit (its `NetworkID` and `DepositCount` being `uint32`
values), decoding the global index that `GetBridge`, `GetBridges` and
`GetPendingBridgesToClaim` compute for it succeeds and yields
`mainnetFlag = (NetworkID = 0)`, `rollupIndex = NetworkID - 1` when
`NetworkID > 0` and `0` otherwise, and `localExitRootIndex = DepositCount`; the
list endpoints compute one such index per deposit, in order. -/
theorem C27_api_global_index (deposit : Deposit) (deposits : List Deposit)
    (hn : deposit.NetworkID < 2 ^ 32) (hc : deposit.DepositCount < 2 ^ 32) :
    DecodeGlobalIndex (depositGlobalIndex deposit) =
      Outcome.ok (decide (deposit.NetworkID = 0),
        if deposit.NetworkID > 0 then deposit.NetworkID - 1 else 0, deposit.DepositCount) ∧
    (depositsGlobalIndexes deposits).length = deposits.length ∧
    ∀ i (h : i < deposits.length),
      (depositsGlobalIndexes deposits).get? i = some (depositGlobalIndex (deposits.get ⟨i, h⟩)) := by
  refine ⟨?_, ?_, ?_⟩
  · simp only [depositGlobalIndex]
    by_cases h0 : deposit.NetworkID = 0
    · rw [decode_generate _ _ _ (by simp [h0]) hc]
      simp [h0]
    · have hpos : deposit.NetworkID > 0 := Nat.pos_of_ne_zero h0
      have hr : (deposit.NetworkID + 2 ^ 32 - 1) % 2 ^ 32 = deposit.NetworkID - 1 := by
        omega
      rw [decode_generate _ _ _ (by simp [h0]; omega) hc]
      simp [h0, hpos]
      omega
  · simp [depositsGlobalIndexes_eq_map]
  · intro i h
    simp [depositsGlobalIndexes_eq_map, List.getElem?_eq_getElem h]

theorem C27_api_global_index_witness :
    DecodeGlobalIndex (depositGlobalIndex { exampleDeposit 0 [8] with NetworkID := 3 }) =
      Outcome.ok (false, 2, 4) ∧
    DecodeGlobalIndex (depositGlobalIndex (exampleDeposit 0 [8])) = Outcome.ok (true, 0, 4) :=
  ⟨(C27_api_global_index { exampleDeposit 0 [8] with NetworkID := 3 } [] (by decide)
      (by decide)).1,
   (C27_api_global_index (exampleDeposit 0 [8]) [] (by decide) (by decide)).1⟩

theorem encodeProofs_short (merkleProof rollupMerkleProof : List Bytes) :
    ∀ (n i : Nat) (proof rollupProof : List String),
      i + n = merkleProof.length → i ≤ rollupMerkleProof.length →
      rollupMerkleProof.length < merkleProof.length →
      encodeProofs merkleProof rollupMerkleProof n i proof rollupProof =
        Outcome.panic "index out of range" := by
  intro n
  induction n with
  | zero => intro i proof rollupProof h1 h2 h3; omega
  | succ n ih =>
    intro i proof rollupProof h1 h2 h3
    have hi : i < merkleProof.length := by omega
    simp only [encodeProofs, List.get?_eq_getElem?, List.getElem?_eq_getElem hi]
    by_cases hr : i < rollupMerkleProof.length
    · simp only [List.getElem?_eq_getElem hr]
      exact ih (i + 1) _ _ (by omega) (by omega) h3
    · simp only [List.getElem?_eq_none (Nat.le_of_not_lt hr)]

theorem encodeProofs_long (merkleProof rollupMerkleProof : List Bytes) :
    ∀ (n i : Nat) (proof rollupProof : List String),
      i + n = merkleProof.length → merkleProof.length ≤ rollupMerkleProof.length →
      encodeProofs merkleProof rollupMerkleProof n i proof rollupProof =
        Outcome.ok (proof ++ ((merkleProof.drop i).take n).map hashString,
          rollupProof ++ ((rollupMerkleProof.drop i).take n).map hashString) := by
  intro n
  induction n with
  | zero => intro i proof rollupProof h1 h2; simp [encodeProofs]
  | succ n ih =>
    intro i proof rollupProof h1 h2
    have hi : i < merkleProof.length := by omega
    have hr : i < rollupMerkleProof.length := by omega
    simp only [encodeProofs, List.get?_eq_getElem?, List.getElem?_eq_getElem hi,
      List.getElem?_eq_getElem hr]
    rw [ih (i + 1) _ _ (by omega) h2]
    rw [List.drop_eq_getElem_cons hi, List.drop_eq_getElem_cons hr]
    simp only [List.take_succ_cons, List.map_cons, List.append_assoc, List.singleton_append]

theorem proofResponse_eq (g : GlobalExitRoot) (merkleProof rollupMerkleProof : List Bytes) :
    proofResponse g merkleProof rollupMerkleProof =
      match encodeProofs merkleProof rollupMerkleProof merkleProof.length 0 [] [] with
      | Outcome.panic p => Outcome.panic p
      | Outcome.error e => Outcome.error e
      | Outcome.ok (proof, rollupProof) =>
        match exitRootAt g 0 with
        | Outcome.panic p => Outcome.panic p
        | Outcome.error e => Outcome.error e
        | Outcome.ok mainExitRoot =>
          match exitRootAt g 1 with
          | Outcome.panic p => Outcome.panic p
          | Outcome.error e => Outcome.error e
          | Outcome.ok rollupExitRoot =>
            Outcome.ok
              { RollupMerkleProof := rollupProof, MerkleProof := proof,
                MainExitRoot := hashString mainExitRoot,
                RollupExitRoot := hashString rollupExitRoot } := by
  simp [proofResponse]

theorem encodeProofs_no_error (merkleProof rollupMerkleProof : List Bytes) :
    ∀ (n i : Nat) (proof rollupProof : List String) (e : Err),
      encodeProofs merkleProof rollupMerkleProof n i proof rollupProof ≠ Outcome.error e := by
  intro n
  induction n with
  | zero => intro i proof rollupProof e h; simp [encodeProofs] at h
  | succ n ih =>
    intro i proof rollupProof e h
    simp only [encodeProofs] at h
    split at h
    · cases h
    · split at h
      · cases h
      · exact ih _ _ _ _ h

theorem exitRootAt_no_error (g : GlobalExitRoot) (i : Nat) (e : Err) :
    exitRootAt g i ≠ Outcome.error e := by
  unfold exitRootAt
  split <;> simp

/-- C28 (failing input): on the service of height 2, for the mainnet deposit
0, the claim-proof lookup returns a Merkle proof of 2 entries and a rollup
proof of 32 entries.  `GetProof` and `GetProofByGER` do not return the
`proofs have different lengths` error: they build a response with 2 entries
in each proof, the rollup proof cut to the length of the Merkle proof.  In
general the endpoints never return that error, whatever the lengths: when the
Merkle proof is not longer than the rollup proof they read the first
`len(merkleProof)` entries of both, and when it is longer they index the
rollup proof past its end and panic. -/
theorem C28_length_guard_never_fires :
    (GetClaimProof (exampleService true) 0 0 none emptyState).1 =
      Outcome.ok
        ({ BlockID := 1, BlockNumber := 1, ExitRoots := [zeroHash, zeroHash],
           GlobalExitRoot := zeroHash, NetworkID := 0, ID := 1 },
         [zeroHash, zeroHash], List.replicate 32 zeroHash) ∧
    (GetProof (exampleService true) 0 0 emptyState).1 =
      Outcome.ok
        { RollupMerkleProof := [hashString zeroHash, hashString zeroHash],
          MerkleProof := [hashString zeroHash, hashString zeroHash],
          MainExitRoot := hashString zeroHash, RollupExitRoot := hashString zeroHash } ∧
    (GetProofByGER (exampleService true) 0 0 zeroHash emptyState).1 =
      Outcome.ok
        { RollupMerkleProof := [hashString zeroHash, hashString zeroHash],
          MerkleProof := [hashString zeroHash, hashString zeroHash],
          MainExitRoot := hashString zeroHash, RollupExitRoot := hashString zeroHash } ∧
    (∀ (g : GlobalExitRoot) (merkleProof rollupMerkleProof : List Bytes) (e : Err),
      proofResponse g merkleProof rollupMerkleProof ≠ Outcome.error e) ∧
    (∀ (g : GlobalExitRoot) (merkleProof rollupMerkleProof : List Bytes) (a b : Bytes),
      merkleProof.length ≤ rollupMerkleProof.length → g.ExitRoots = [a, b] →
      proofResponse g merkleProof rollupMerkleProof =
        Outcome.ok
          { RollupMerkleProof := (rollupMerkleProof.take merkleProof.length).map hashString,
            MerkleProof := merkleProof.map hashString,
            MainExitRoot := hashString a, RollupExitRoot := hashString b }) ∧
    (∀ (g : GlobalExitRoot) (merkleProof rollupMerkleProof : List Bytes),
      rollupMerkleProof.length < merkleProof.length →
      proofResponse g merkleProof rollupMerkleProof = Outcome.panic "index out of range") := by
  have hlong : ∀ (g : GlobalExitRoot) (merkleProof rollupMerkleProof : List Bytes) (a b : Bytes),
      merkleProof.length ≤ rollupMerkleProof.length → g.ExitRoots = [a, b] →
      proofResponse g merkleProof rollupMerkleProof =
        Outcome.ok
          { RollupMerkleProof := (rollupMerkleProof.take merkleProof.length).map hashString,
            MerkleProof := merkleProof.map hashString,
            MainExitRoot := hashString a, RollupExitRoot := hashString b } := by
    intro g mp rp a b hle hg
    rw [proofResponse_eq, encodeProofs_long mp rp mp.length 0 [] [] (by simp) hle]
    simp [exitRootAt, hg]
  have hclaim : GetClaimProof (exampleService true) 0 0 none emptyState =
      (Outcome.ok
        ({ BlockID := 1, BlockNumber := 1, ExitRoots := [zeroHash, zeroHash],
           GlobalExitRoot := zeroHash, NetworkID := 0, ID := 1 },
         [zeroHash, zeroHash], List.replicate 32 zeroHash),
       (GetClaimProof (exampleService true) 0 0 none emptyState).2) := by
    rfl
  have hger : GetClaimProofbyGER (exampleService true) 0 0 zeroHash none emptyState =
      (Outcome.ok
        ({ BlockID := 1, BlockNumber := 1, ExitRoots := [zeroHash, zeroHash],
           GlobalExitRoot := zeroHash, NetworkID := 0, ID := 1 },
         [zeroHash, zeroHash], List.replicate 32 zeroHash),
       (GetClaimProofbyGER (exampleService true) 0 0 zeroHash none emptyState).2) := by
    rfl
  refine ⟨by rw [hclaim], ?_, ?_, ?_, hlong, ?_⟩
  · simp only [GetProof]
    rw [hclaim]
    simp only
    rw [hlong _ _ _ zeroHash zeroHash (by decide) rfl]
    rfl
  · simp only [GetProofByGER]
    rw [hger]
    simp only
    rw [hlong _ _ _ zeroHash zeroHash (by decide) rfl]
    rfl
  · intro g mp rp e h
    rw [proofResponse_eq] at h
    split at h
    · cases h
    · rename_i e1 he
      exact encodeProofs_no_error _ _ _ _ _ _ _ he
    · split at h
      · cases h
      · rename_i e1 he
        exact exitRootAt_no_error _ _ _ he
      · split at h
        · cases h
        · rename_i e1 he
          exact exitRootAt_no_error _ _ _ he
        · cases h
  · intro g mp rp hlt
    rw [proofResponse_eq, encodeProofs_short mp rp mp.length 0 [] [] (by simp) (by omega) hlt]

theorem SvcState.ReadsOnly.reads_refl (P : StorageRead → Prop) (st : SvcState) :
    st.ReadsOnly P st :=
  ⟨[], by simp, fun _ h => absurd h (List.not_mem_nil _)⟩

theorem SvcState.ReadsOnly.reads_trans {P : StorageRead → Prop} {st st1 st2 : SvcState}
    (h1 : st.ReadsOnly P st1) (h2 : st1.ReadsOnly P st2) : st.ReadsOnly P st2 := by
  obtain ⟨t1, e1, p1⟩ := h1
  obtain ⟨t2, e2, p2⟩ := h2
  refine ⟨t1 ++ t2, by rw [e2, e1, List.append_assoc], ?_⟩
  intro a ha
  rcases List.mem_append.1 ha with h | h
  · exact p1 a h
  · exact p2 a h

theorem SvcState.ReadsOnly.reads_one {P : StorageRead → Prop} (st : SvcState) (c : LRU)
    (a : StorageRead) (h : P a) :
    st.ReadsOnly P { cache := c, reads := st.reads ++ [a] } :=
  ⟨[a], rfl, fun b hb => by rw [List.mem_singleton.1 hb]; exact h⟩

theorem SvcState.ReadsOnly.reads_cache {P : StorageRead → Prop} (st : SvcState) (c : LRU) :
    st.ReadsOnly P { cache := c, reads := st.reads } :=
  ⟨[], by simp, fun _ h => absurd h (List.not_mem_nil _)⟩

theorem getNode_reads (s : bridgeService) (parentHash : Bytes) (dbTx : Option Tx)
    (st : SvcState) : st.ReadsOnly NoDepositRead (getNode s parentHash dbTx st).2 := by
  unfold getNode
  split
  · exact SvcState.ReadsOnly.reads_cache st _
  · split
    · exact SvcState.ReadsOnly.reads_one st _ _ trivial
    · exact SvcState.ReadsOnly.reads_one st _ _ trivial

theorem getProofLoop_reads (s : bridgeService) (index : Nat) (dbTx : Option Tx) :
    ∀ (n : Nat) (cur : Bytes) (siblings : List Bytes) (st : SvcState),
      st.ReadsOnly NoDepositRead (getProofLoop s index dbTx n cur siblings st).2 := by
  intro n
  induction n with
  | zero => intro cur siblings st; exact SvcState.ReadsOnly.reads_refl _ _
  | succ h ih =>
    intro cur siblings st
    have hn := getNode_reads s cur dbTx st
    simp only [getProofLoop]
    cases hc : getNode s cur dbTx st with
    | mk r st1 =>
      rw [hc] at hn
      cases r with
      | error e => exact hn
      | panic p => exact hn
      | ok lr =>
        obtain ⟨left, right⟩ := lr
        simp only
        split
        · exact hn.reads_trans (ih _ _ _)
        · exact hn.reads_trans (ih _ _ _)

theorem getProof_reads (s : bridgeService) (index : Nat) (root : Bytes) (dbTx : Option Tx)
    (st : SvcState) : st.ReadsOnly NoDepositRead (getProof s index root dbTx st).2 := by
  have h := getProofLoop_reads s index dbTx (proofLevels s.height) root [] st
  simp only [getProof, getProofWalk]
  cases hc : getProofLoop s index dbTx (proofLevels s.height) root [] st with
  | mk r st1 =>
    rw [hc] at h
    cases r with
    | error e => exact h
    | panic p => exact h
    | ok v => exact h

theorem getRollupExitProof_reads (s : bridgeService) (rollupIndex : Nat) (root : Bytes)
    (dbTx : Option Tx) (st : SvcState) :
    st.ReadsOnly NoDepositRead (getRollupExitProof s rollupIndex root dbTx st).2 := by
  have h : st.ReadsOnly NoDepositRead
      { st with reads := st.reads ++ [StorageRead.GetRollupExitLeavesByRoot root dbTx] } :=
    SvcState.ReadsOnly.reads_one st _ _ trivial
  unfold getRollupExitProof
  simp only
  repeat' split
  all_goals exact h

/-- The two proofs are looked up in the same way whatever the wording of the
errors: same outcome up to that wording, same cache and same storage calls,
none of them a read of the deposit row. -/
theorem claimProofs_wording (s : bridgeService) (depositCnt networkID : Nat)
    (g : GlobalExitRoot) (dbTx : Option Tx) (e1 e2 e3 f1 f2 f3 : String) (st : SvcState) :
    SameOutcome (claimProofs s depositCnt networkID g dbTx e1 e2 e3 st).1
      (claimProofs s depositCnt networkID g dbTx f1 f2 f3 st).1 ∧
    (claimProofs s depositCnt networkID g dbTx e1 e2 e3 st).2 =
      (claimProofs s depositCnt networkID g dbTx f1 f2 f3 st).2 ∧
    st.ReadsOnly NoDepositRead (claimProofs s depositCnt networkID g dbTx e1 e2 e3 st).2 := by
  unfold claimProofs
  by_cases hn : networkID = 0
  · simp only [hn, if_true]
    cases hr : exitRootAt g 0 with
    | error e => exact ⟨trivial, rfl, SvcState.ReadsOnly.reads_refl _ _⟩
    | panic p => exact ⟨rfl, rfl, SvcState.ReadsOnly.reads_refl _ _⟩
    | ok root =>
      have hp0 := getProof_reads s depositCnt root dbTx st
      simp only
      cases hp : getProof s depositCnt root dbTx st with
      | mk res stp =>
        rw [hp] at hp0
        cases res with
        | error e => exact ⟨trivial, rfl, hp0⟩
        | panic p => exact ⟨rfl, rfl, hp0⟩
        | ok mp => exact ⟨rfl, rfl, hp0⟩
  · simp only [hn, if_false]
    cases hr : exitRootAt g 1 with
    | error e => exact ⟨trivial, rfl, SvcState.ReadsOnly.reads_refl _ _⟩
    | panic p => exact ⟨rfl, rfl, SvcState.ReadsOnly.reads_refl _ _⟩
    | ok root =>
      have hq0 := getRollupExitProof_reads s ((networkID + 2 ^ 32 - 1) % 2 ^ 32) root dbTx st
      simp only
      cases hq : getRollupExitProof s ((networkID + 2 ^ 32 - 1) % 2 ^ 32) root dbTx st with
      | mk res stq =>
        rw [hq] at hq0
        cases res with
        | error e => exact ⟨trivial, rfl, hq0⟩
        | panic p => exact ⟨rfl, rfl, hq0⟩
        | ok rl =>
          obtain ⟨rollupProof, rollupLeaf⟩ := rl
          have hp0 := getProof_reads s depositCnt rollupLeaf dbTx stq
          simp only
          cases hp : getProof s depositCnt rollupLeaf dbTx stq with
          | mk res2 stp =>
            rw [hp] at hp0
            cases res2 with
            | error e => exact ⟨trivial, rfl, hq0.reads_trans hp0⟩
            | panic p => exact ⟨rfl, rfl, hq0.reads_trans hp0⟩
            | ok mp => exact ⟨rfl, rfl, hq0.reads_trans hp0⟩

/-- C29: inside a transaction (non-nil `dbTx`) `GetClaimProofForCompressed` and
`GetClaimProofbyGER` agree for every GER, deposit count, source network,
storage and cache: one returns values exactly when the other does, and then
both return the same exit root, Merkle proof and rollup proof (they also fail
together, with differently worded errors, and panic together); they leave the
same cache and make the same storage calls, none of which reads the deposit
row. -/
theorem C29_ger_pinned_agree (s : bridgeService) (ger : Bytes) (depositCnt networkID : Nat)
    (tx : Tx) (st : SvcState) :
    SameOutcome (GetClaimProofForCompressed s ger depositCnt networkID (some tx) st).1
      (GetClaimProofbyGER s depositCnt networkID ger (some tx) st).1 ∧
    (GetClaimProofForCompressed s ger depositCnt networkID (some tx) st).2 =
      (GetClaimProofbyGER s depositCnt networkID ger (some tx) st).2 ∧
    st.ReadsOnly NoDepositRead
      (GetClaimProofForCompressed s ger depositCnt networkID (some tx) st).2 ∧
    st.ReadsOnly NoDepositRead (GetClaimProofbyGER s depositCnt networkID ger (some tx) st).2 := by
  have h1 : st.ReadsOnly NoDepositRead
      { st with reads := st.reads ++ [StorageRead.GetL1ExitRootByGER ger (some tx)] } :=
    SvcState.ReadsOnly.reads_one st _ _ trivial
  simp only [GetClaimProofForCompressed, GetClaimProofbyGER, claimProofForCompressedTail,
    claimProofByGERTail]
  cases hg : s.storage.GetL1ExitRootByGER ger (some tx) with
  | error e => exact ⟨trivial, rfl, h1, h1⟩
  | ok g =>
    simp only
    have hw := claimProofs_wording s depositCnt networkID g (some tx)
      "getting the proof failed, error: %v, network: %d"
      "getting the proof failed, error: %v, network: %d"
      "getting the rollup proof failed, error: %v, network: %d"
      "getting the proof failed (MAINNET), error: %v, network: %d"
      "getting the proof failed (ROLLUP), error: %v, network: %d"
      "getting the rollupexit proof failed, error: %v, network: %d"
      { st with reads := st.reads ++ [StorageRead.GetL1ExitRootByGER ger (some tx)] }
    refine ⟨hw.1, hw.2.1, h1.reads_trans hw.2.2, ?_⟩
    rw [← hw.2.1]
    exact h1.reads_trans hw.2.2

/-- Both operations succeed on the mock storage of `TestGetClaimProofbyGER`
inside a transaction, with the proofs of a mainnet deposit. -/
theorem ger_pinned_example :
    (GetClaimProofForCompressed mockService [] 0 0 (some 7) emptyState).1 =
      Outcome.ok
        ({ BlockID := 0, BlockNumber := 0, ExitRoots := [zeroHash, zeroHash],
           GlobalExitRoot := [], NetworkID := 0, ID := 0 },
         List.replicate 32 zeroHash, emptyProof) ∧
    (GetClaimProofbyGER mockService 0 0 [] (some 7) emptyState).1 =
      (GetClaimProofForCompressed mockService [] 0 0 (some 7) emptyState).1 := by
  constructor <;> rfl

/-! ## Theorems: termination of reorg detection -/

theorem previousBlockCalls_step {σ : Type} (w : World σ) (a : Action) (db : σ) :
    (w.step a db).previousBlockCalls =
      w.previousBlockCalls + (if isGetPreviousBlock a then 1 else 0) := by
  simp [World.previousBlockCalls, World.step, List.countP_append, List.countP_cons]

theorem checkReorgBlock_calls {σ : Type} (chain : ChainEnv σ) (reorgedBlock : Block)
    (block : Option Block) (w : World σ) :
    (checkReorgBlock chain reorgedBlock block w).2.previousBlockCalls =
      w.previousBlockCalls := by
  unfold checkReorgBlock
  simp only
  repeat' split
  all_goals simp [previousBlockCalls_step, isGetPreviousBlock]

theorem checkReorgLoop_terminates {σ : Type} (chain : ChainEnv σ) (s : ClientSynchronizer)
    (n : Nat) (hn : n < 2 ^ 64) (hstore : StoreHolds chain s n) (L : Block) :
    ∀ (fuel : Nat) (R : Block) (depth : Nat) (block : Option Block) (w : World σ),
      depth < max n 1 → max n 1 ≤ depth + fuel →
      (checkReorgLoop chain s L fuel R depth block w).1 ≠ none ∧
      (checkReorgLoop chain s L fuel R depth block w).2.previousBlockCalls ≤
        w.previousBlockCalls + (max n 1 - depth) ∧
      checkReorgLoop chain s L fuel R depth block w =
        checkReorgLoop chain s L (max n 1 - depth) R depth block w := by
  intro fuel
  induction fuel with
  | zero => intro R depth block w h1 h2; omega
  | succ k ih =>
    intro R depth block w h1 h2
    obtain ⟨m, hm⟩ : ∃ m, max n 1 - depth = m + 1 := ⟨max n 1 - depth - 1, by omega⟩
    rw [hm]
    have hcalls := checkReorgBlock_calls chain R block w
    simp only [checkReorgLoop]
    cases hb : checkReorgBlock chain R block w with
    | mk rb w1 =>
      rw [hb] at hcalls
      simp only at hcalls
      cases rb with
      | error err => exact ⟨by simp, by simp only [hcalls]; omega, rfl⟩
      | ok blk =>
        simp only
        split
        · have hdepth : (depth + 1) % 2 ^ 64 = depth + 1 := Nat.mod_eq_of_lt (by omega)
          rw [hdepth]
          cases hp : chain.GetPreviousBlock s.networkID (depth + 1) w1.db with
          | mk rp db2 =>
            cases rp with
            | error e2 =>
              simp only
              split
              · exact ⟨by simp, by
                  simp only [previousBlockCalls_step, isGetPreviousBlock, if_true, hcalls]
                  omega, trivial⟩
              · exact ⟨by simp, by
                  simp only [previousBlockCalls_step, isGetPreviousBlock, if_true, hcalls]
                  omega, trivial⟩
            | ok lb =>
              simp only
              have hlt : depth + 1 < n := by
                by_contra hge
                obtain ⟨e, he, _⟩ := hstore (depth + 1) w1.db (by omega)
                rw [hp] at he
                cases he
              have hm2 : max n 1 - (depth + 1) = m := by omega
              obtain ⟨i1, i2, i3⟩ := ih lb (depth + 1) none
                (w1.step (Action.GetPreviousBlock s.networkID (depth + 1)) db2)
                (by omega) (by omega)
              rw [hm2] at i3
              refine ⟨i1, ?_, i3⟩
              refine le_trans i2 ?_
              simp only [previousBlockCalls_step, isGetPreviousBlock, if_true, hcalls]
              omega
        · split
          · exact ⟨by simp, by simp only [hcalls]; omega, rfl⟩
          · exact ⟨by simp, by simp only [hcalls]; omega, rfl⟩

/-- C30: `checkReorg` terminates.  When the block store holds `n` blocks of the
network (`GetPreviousBlock` reports not-found for every offset from `n` on,
with `n` below `2^64`, the range of the offset), then for every latest stored
block, every synced block, every chain and every starting state the loop of
`checkReorg` ends within `n + 1` iterations: unfolding `n + 1` iterations or
more gives a result, the same for every such bound, and the run makes at most
`n + 1` calls of `GetPreviousBlock`. -/
theorem C30_checkReorg_terminates {σ : Type} (chain : ChainEnv σ) (s : ClientSynchronizer)
    (n fuel : Nat) (latestStoredBlock : Block) (syncedBlock : Option Block) (w : World σ)
    (hn : n < 2 ^ 64) (hstore : StoreHolds chain s n) (hfuel : n + 1 ≤ fuel) :
    (checkReorg chain s fuel latestStoredBlock syncedBlock w).1 ≠ none ∧
    checkReorg chain s fuel latestStoredBlock syncedBlock w =
      checkReorg chain s (n + 1) latestStoredBlock syncedBlock w ∧
    (checkReorg chain s fuel latestStoredBlock syncedBlock w).2.previousBlockCalls ≤
      w.previousBlockCalls + (n + 1) := by
  obtain ⟨h1, h2, h3⟩ := checkReorgLoop_terminates chain s n hn hstore latestStoredBlock fuel
    latestStoredBlock 0 syncedBlock w (by omega) (by omega)
  obtain ⟨_, _, k3⟩ := checkReorgLoop_terminates chain s n hn hstore latestStoredBlock (n + 1)
    latestStoredBlock 0 syncedBlock w (by omega) (by omega)
  refine ⟨h1, ?_, ?_⟩
  · simp only [checkReorg]
    rw [h3, k3]
  · exact le_trans h2 (by omega)

theorem C30_checkReorg_terminates_witness :
    (checkReorg (exampleChain goodChain forkedStore 9) exampleSync 7 (storedBlock 9 [90] [80])
        none emptyWorld).1 ≠ none ∧
    checkReorg (exampleChain goodChain forkedStore 9) exampleSync 7 (storedBlock 9 [90] [80])
        none emptyWorld =
      checkReorg (exampleChain goodChain forkedStore 9) exampleSync (3 + 1)
        (storedBlock 9 [90] [80]) none emptyWorld ∧
    (checkReorg (exampleChain goodChain forkedStore 9) exampleSync 7 (storedBlock 9 [90] [80])
        none emptyWorld).2.previousBlockCalls ≤ emptyWorld.previousBlockCalls + (3 + 1) :=
  C30_checkReorg_terminates (exampleChain goodChain forkedStore 9) exampleSync 3 7
    (storedBlock 9 [90] [80]) none emptyWorld (by decide)
    (fun d _ hd =>
      match d, hd with
      | _ + 3, _ => ⟨Err.storageNotFound, rfl, rfl⟩)
    (by decide)

/-- A run that uses the whole store: no stored block is on the chain, and
`checkReorg` asks for the blocks at offsets 1, 2 and 3 before it gives up at
the genesis block. -/
theorem checkReorg_example :
    checkReorg (exampleChain (fun k => Except.ok { Number := k, Hash := [], ParentHash := [] })
        forkedStore 9) exampleSync 4 (storedBlock 9 [90] [80]) none emptyWorld =
      (some (Except.ok (some { emptyBlock with BlockNumber := 0 })),
        { db := 6, l1RollupExitRoot := zeroHash,
          trace := [Action.HeaderByNumber (some 9), Action.GetPreviousBlock 0 1,
            Action.HeaderByNumber (some 8), Action.GetPreviousBlock 0 2,
            Action.HeaderByNumber (some 7), Action.GetPreviousBlock 0 3] }) := by
  rfl

/-! ## Theorems: storage queries -/

theorem sqlMax_ge (values : List Nat) (x : Nat) (h : x ∈ values) : x ≤ sqlMax values := by
  induction values with
  | nil => cases h
  | cons v vs ih =>
    simp only [sqlMax, List.foldr_cons]
    rcases List.mem_cons.1 h with h | h
    · rw [h]; exact le_max_left _ _
    · exact le_trans (ih h) (le_max_right _ _)

theorem sqlMax_mem (values : List Nat) (h : values ≠ []) : sqlMax values ∈ values := by
  induction values with
  | nil => exact absurd rfl h
  | cons v vs ih =>
    simp only [sqlMax, List.foldr_cons]
    by_cases hvs : vs = []
    · subst hvs
      simp
    · have := ih hvs
      rcases le_total v (List.foldr max 0 vs) with hle | hle
      · rw [max_eq_right hle]
        exact List.mem_cons_of_mem _ this
      · rw [max_eq_left hle]
        exact List.mem_cons_self _ _

theorem mem_orderByAsc {α : Type} (key : α → Nat) (rows : List α) (a : α) :
    a ∈ orderByAsc key rows ↔ a ∈ rows :=
  (List.perm_insertionSort _ rows).mem_iff

theorem mem_orderByDesc {α : Type} (key : α → Nat) (rows : List α) (a : α) :
    a ∈ orderByDesc key rows ↔ a ∈ rows :=
  (List.perm_insertionSort _ rows).mem_iff

theorem orderByAsc_sorted {α : Type} (key : α → Nat) (rows : List α) :
    (orderByAsc key rows).Sorted (fun a b => key a ≤ key b) :=
  haveI : IsTotal α (fun a b => key a ≤ key b) := ⟨fun a b => le_total (key a) (key b)⟩
  haveI : IsTrans α (fun a b => key a ≤ key b) := ⟨fun _ _ _ h1 h2 => le_trans h1 h2⟩
  List.sorted_insertionSort _ rows

theorem orderByDesc_sorted {α : Type} (key : α → Nat) (rows : List α) :
    (orderByDesc key rows).Sorted (fun a b => key b ≤ key a) :=
  haveI : IsTotal α (fun a b => key b ≤ key a) := ⟨fun a b => le_total (key b) (key a)⟩
  haveI : IsTrans α (fun a b => key b ≤ key a) := ⟨fun _ _ _ h1 h2 => le_trans h2 h1⟩
  List.sorted_insertionSort _ rows

/-- The row is the latest of its rollup: no row of the table with the same
`rollup_id` has a greater `id`. -/
theorem mem_GetLatestRollupExitLeaves (rollup_exit : List RollupExitLeaf)
    (hid : (rollup_exit.map fun re => re.ID).Nodup) (l : RollupExitLeaf) :
    l ∈ GetLatestRollupExitLeaves rollup_exit ↔
      l ∈ rollup_exit ∧ ∀ m, m ∈ rollup_exit → m.RollupId = l.RollupId → m.ID ≤ l.ID := by
  have hinj : ∀ a b, a ∈ rollup_exit → b ∈ rollup_exit → a.ID = b.ID → a = b :=
    fun a b ha hb h => List.inj_on_of_nodup_map hid ha hb h
  simp only [GetLatestRollupExitLeaves, mem_orderByAsc, List.mem_dedup, List.mem_flatten,
    List.mem_map, groupedre]
  constructor
  · rintro ⟨_, ⟨re, hre, rfl⟩, hl⟩
    simp only [List.mem_filterMap, List.mem_dedup, List.mem_map] at hl
    obtain ⟨g, ⟨r, ⟨m0, hm0, hr⟩, rfl⟩, hg⟩ := hl
    simp only at hg
    split at hg
    · rename_i heq
      cases hg
      have hne : ((rollup_exit.filter fun x => x.RollupId = r).map fun x => x.ID) ≠ [] := by
        intro h0
        have : m0.ID ∈ ((rollup_exit.filter fun x => x.RollupId = r).map fun x => x.ID) :=
          List.mem_map.2 ⟨m0, List.mem_filter.2 ⟨hm0, by simpa using hr⟩, rfl⟩
        rw [h0] at this
        cases this
      have hmem := sqlMax_mem _ hne
      obtain ⟨top, htop, htopid⟩ := List.mem_map.1 hmem
      have htop2 := List.mem_filter.1 htop
      have hsame : top = l := hinj top l htop2.1 hre (by rw [htopid, heq])
      subst hsame
      refine ⟨hre, ?_⟩
      intro m hm hmr
      rw [heq]
      apply sqlMax_ge
      refine List.mem_map.2 ⟨m, List.mem_filter.2 ⟨hm, ?_⟩, rfl⟩
      have : top.RollupId = r := by simpa using htop2.2
      simp [hmr, this]
    · cases hg
  · rintro ⟨hl, hmax⟩
    refine ⟨_, ⟨l, hl, rfl⟩, ?_⟩
    simp only [List.mem_filterMap, List.mem_dedup, List.mem_map]
    refine ⟨(l.RollupId, _), ⟨l.RollupId, ⟨l, hl, rfl⟩, rfl⟩, ?_⟩
    have hlm : l.ID ∈ ((rollup_exit.filter fun x => x.RollupId = l.RollupId).map fun x => x.ID) :=
      List.mem_map.2 ⟨l, List.mem_filter.2 ⟨hl, by simp⟩, rfl⟩
    have hge := sqlMax_ge _ _ hlm
    have hmem := sqlMax_mem _ (List.ne_nil_of_mem hlm)
    obtain ⟨top, htop, htopid⟩ := List.mem_map.1 hmem
    have htop2 := List.mem_filter.1 htop
    have hle := hmax top htop2.1 (by simpa using htop2.2)
    have heq : l.ID =
        sqlMax ((rollup_exit.filter fun x => x.RollupId = l.RollupId).map fun x => x.ID) := by
      omega
    simp only
    rw [if_pos heq]

/-- C24: for every content of `mt.rollup_exit` (its `id` column holding
distinct values), a row is returned by `GetLatestRollupExitLeaves` exactly
when it is a row of the table whose `id` is the greatest among the rows of its
`rollup_id`; every `rollup_id` of the table has such a row in the result; and
the `rollup_id`s of the result are strictly ascending, so the result is sorted
and holds one leaf per `rollup_id`. -/
theorem C24_latest_leaf_per_rollup (rollup_exit : List RollupExitLeaf)
    (hid : (rollup_exit.map fun re => re.ID).Nodup) :
    (∀ l, l ∈ GetLatestRollupExitLeaves rollup_exit ↔
      l ∈ rollup_exit ∧ ∀ m, m ∈ rollup_exit → m.RollupId = l.RollupId → m.ID ≤ l.ID) ∧
    (∀ m, m ∈ rollup_exit →
      ∃ l, l ∈ GetLatestRollupExitLeaves rollup_exit ∧ l.RollupId = m.RollupId) ∧
    ((GetLatestRollupExitLeaves rollup_exit).map fun l => l.RollupId).Sorted (· < ·) := by
  have hmem := mem_GetLatestRollupExitLeaves rollup_exit hid
  have hinj : ∀ a b, a ∈ rollup_exit → b ∈ rollup_exit → a.ID = b.ID → a = b :=
    fun a b ha hb h => List.inj_on_of_nodup_map hid ha hb h
  refine ⟨hmem, ?_, ?_⟩
  · intro m hm
    have hlm : m.ID ∈ ((rollup_exit.filter fun x => x.RollupId = m.RollupId).map fun x => x.ID) :=
      List.mem_map.2 ⟨m, List.mem_filter.2 ⟨hm, by simp⟩, rfl⟩
    have hmx := sqlMax_mem _ (List.ne_nil_of_mem hlm)
    obtain ⟨top, htop, htopid⟩ := List.mem_map.1 hmx
    have htop2 := List.mem_filter.1 htop
    have hr : top.RollupId = m.RollupId := by simpa using htop2.2
    refine ⟨top, (hmem top).2 ⟨htop2.1, ?_⟩, hr⟩
    intro k hk hkr
    rw [htopid]
    apply sqlMax_ge
    exact List.mem_map.2 ⟨k, List.mem_filter.2 ⟨hk, by simp [hkr, hr]⟩, rfl⟩
  · have hsorted := orderByAsc_sorted (fun re : RollupExitLeaf => re.RollupId)
      ((rollup_exit.map fun re =>
        (groupedre rollup_exit).filterMap fun g =>
          if re.ID = g.2 then some re else none).flatten).dedup
    have hnodup : (GetLatestRollupExitLeaves rollup_exit).Nodup :=
      (List.perm_insertionSort _ _).nodup_iff.2 (List.nodup_dedup _)
    have hpw : (GetLatestRollupExitLeaves rollup_exit).Pairwise
        (fun a b => a.RollupId < b.RollupId) := by
      have h2 : (GetLatestRollupExitLeaves rollup_exit).Pairwise
          (fun a b => a.RollupId ≤ b.RollupId ∧ a ≠ b) :=
        List.Pairwise.and hsorted hnodup
      refine List.Pairwise.imp_of_mem ?_ h2
      intro a b ha hb hab
      rcases Nat.lt_or_ge a.RollupId b.RollupId with hlt | hge
      · exact hlt
      · exfalso
        have heq : a.RollupId = b.RollupId := le_antisymm hab.1 hge
        have ha2 := (hmem a).1 ha
        have hb2 := (hmem b).1 hb
        have h1 := ha2.2 b hb2.1 heq.symm
        have h3 := hb2.2 a ha2.1 heq
        exact hab.2 (hinj a b ha2.1 hb2.1 (le_antisymm h3 h1))
    exact (List.pairwise_map).2 hpw

theorem C24_latest_leaf_per_rollup_witness :
    (GetLatestRollupExitLeaves testRollupExit).map (fun l => (l.RollupId, l.ID)) =
      [(1, 5), (2, 8), (3, 7), (4, 6)] ∧
    ((GetLatestRollupExitLeaves testRollupExit).map fun l => l.RollupId).Sorted (· < ·) :=
  ⟨by decide, (C24_latest_leaf_per_rollup testRollupExit (by decide)).2.2⟩

/-- The model gives what `TestGetPendingDepositsToClaim` asserts: the deposits
with ids 2 and 3 and the total 2 without an address, and the deposit with id 2
and the total 1 for the address of the first two deposits. -/
theorem GetPendingDepositsToClaim_test :
    ((GetPendingDepositsToClaim testPendingDb zeroAddress 1 0 2 0).1.map fun d =>
        (d.Id, d.DepositCount, d.BlockNumber)) = [(2, 1, 1), (3, 2, 1)] ∧
    (GetPendingDepositsToClaim testPendingDb zeroAddress 1 0 2 0).2 = 2 ∧
    ((GetPendingDepositsToClaim testPendingDb [0xF3, 0x9F] 1 0 2 0).1.map fun d =>
        (d.Id, d.DepositCount, d.BlockNumber)) = [(2, 1, 1)] ∧
    (GetPendingDepositsToClaim testPendingDb [0xF3, 0x9F] 1 0 2 0).2 = 1 := by
  decide

/-- C25 (failing input): the only deposit is from network 0 with deposit
count 5, to network 1 and ready for claim; the only claim on network 1 has
index 5 but comes from rollup 2.  No claim row matches the deposit (and
`GetClaim` finds no claim for it), so the deposit is pending and the total is
1; `GetPendingDepositsToClaim` returns no deposit and the total 0, because its
`NOT IN` subquery compares the deposit count with the index of every claim of
the destination network, whatever the origin of the claim.  In general the
total it returns is the number of deposits that pass the filters and whose
deposit count is the index of no claim of the destination network. -/
theorem C25_pending_ignores_origin :
    specPending crossOriginDb zeroAddress 1 0 = crossOriginDb.deposit ∧
    PostgresStorage.GetClaim crossOriginDb 5 0 1 = Except.error Err.storageNotFound ∧
    GetPendingDepositsToClaim crossOriginDb zeroAddress 1 0 10 0 = ([], 0) ∧
    (∀ (db : Database) (destAddress : Bytes) (destNetwork leafType limit offset : Nat),
      (GetPendingDepositsToClaim db destAddress destNetwork leafType limit offset).2 =
        (db.deposit.filter fun d =>
          decide (d.dest_net = destNetwork) && d.ready_for_claim &&
          decide (d.leaf_type = leafType) &&
          (decide (destAddress = zeroAddress) || decide (d.dest_addr = destAddress)) &&
          !(db.claim.any fun c =>
            decide (c.network_id = destNetwork) && decide (c.index = d.deposit_cnt))).length) := by
  refine ⟨by decide, rfl, by decide, ?_⟩
  intro db destAddress destNetwork leafType limit offset
  simp only [GetPendingDepositsToClaim]
  congr 1
  apply List.filter_congr
  intro d _
  simp only [pendingWhere]
  have h1 : (if destAddress ≠ zeroAddress then decide (d.dest_addr = destAddress) else true) =
      (decide (destAddress = zeroAddress) || decide (d.dest_addr = destAddress)) := by
    by_cases h : destAddress = zeroAddress <;> simp [h]
  have h2 : ((db.claim.filter fun c => c.network_id = destNetwork).map fun c => c.index).contains
        d.deposit_cnt =
      db.claim.any fun c =>
        decide (c.network_id = destNetwork) && decide (c.index = d.deposit_cnt) := by
    rw [Bool.eq_iff_iff]
    simp only [List.contains, List.elem_iff, List.mem_map, List.mem_filter, List.any_eq_true,
      Bool.and_eq_true, decide_eq_true_eq]
    constructor
    · rintro ⟨c, ⟨hc, hn⟩, hi⟩
      exact ⟨c, hc, hn, hi⟩
    · rintro ⟨c, hc, hn, hi⟩
      exact ⟨c, ⟨hc, hn⟩, hi⟩
  rw [h1, h2]

/-- C26 (counterexample): the removed GER witnesses the deposit with id 3 and
the previous GER of network 1 the deposit with id 1, so the range is (1, 3].
The deposit with id 2 lies in it and is destined to network 1, the network of
the marker, but it is a deposit of network 2: `AddRemoveL2GER` leaves its
`ready_for_claim` flag set and rewinds only the deposit with id 3. -/
theorem C26_remove_ger_rewind_counterexample :
    depositIDByGER removeGerDb [1] 1 0 = Except.ok 1 ∧
    depositIDByGER removeGerDb [2] 1 (2 ^ 64 - 1) = Except.ok 3 ∧
    (AddRemoveL2GER removeGerDb removeGerMarker).1 = none ∧
    ((AddRemoveL2GER removeGerDb removeGerMarker).2.deposit.map fun d =>
        (d.id, d.network_id, d.dest_net, d.ready_for_claim)) =
      [(1, 0, 1, true), (2, 2, 1, true), (3, 0, 1, false)] := by
  refine ⟨rfl, rfl, rfl, ?_⟩
  decide

theorem orderByDesc_head {α : Type} (key : α → Nat) (rows : List α) (a : α) (ha : a ∈ rows) :
    ∃ p rest, orderByDesc key rows = p :: rest ∧ p ∈ rows ∧ ∀ q, q ∈ rows → key q ≤ key p := by
  have hs := orderByDesc_sorted key rows
  cases h : orderByDesc key rows with
  | nil =>
    have := (mem_orderByDesc key rows a).2 ha
    rw [h] at this
    cases this
  | cons p rest =>
    rw [h] at hs
    refine ⟨p, rest, rfl, (mem_orderByDesc key rows p).1 (by rw [h]; exact List.mem_cons_self _ _), ?_⟩
    intro q hq
    have hq2 := (mem_orderByDesc key rows q).2 hq
    rw [h] at hq2
    rcases List.mem_cons.1 hq2 with h1 | h1
    · rw [h1]
    · exact List.rel_of_sorted_cons hs q h1

theorem GetDepositCountByGER_frame (db db1 : Database) (f : ExitRootRow → ExitRootRow)
    (hd : db1.deposit = db.deposit) (hr : db1.root = db.root)
    (he : db1.exit_root = db.exit_root.map f)
    (hf : ∀ e, (f e).exit_roots = e.exit_roots ∧ (f e).global_exit_root = e.global_exit_root ∧
      (f e).network_id = e.network_id)
    (ger : Bytes) (network : Nat) (rollupsTree : Bool) :
    GetDepositCountByGER db1 ger network rollupsTree =
      GetDepositCountByGER db ger network rollupsTree := by
  simp only [GetDepositCountByGER, hd, hr, he, List.filterMap_map]
  have hfun : ∀ (d : DepositRow) (r : RootRow),
      ((fun e : ExitRootRow =>
        if d.id = r.deposit_id ∧
            e.exit_roots.get? ((if rollupsTree then 2 else 1) - 1) = some r.root ∧
            e.global_exit_root = ger ∧ e.network_id = network ∧
            r.network = (if rollupsTree then network else 0)
        then some (d.id, d.deposit_cnt) else none) ∘ f) =
      (fun e : ExitRootRow =>
        if d.id = r.deposit_id ∧
            e.exit_roots.get? ((if rollupsTree then 2 else 1) - 1) = some r.root ∧
            e.global_exit_root = ger ∧ e.network_id = network ∧
            r.network = (if rollupsTree then network else 0)
        then some (d.id, d.deposit_cnt) else none) := by
    intro d r
    funext e
    simp only [Function.comp, (hf e).1, (hf e).2.1, (hf e).2.2]
  simp only [hfun]

theorem depositIDByGER_ok (db : Database) (ger : Bytes) (network fallback : Nat) :
    ∃ n, depositIDByGER db ger network fallback = Except.ok n := by
  simp only [depositIDByGER, GetDepositCountByGER]
  split
  · rename_i err h
    split at h
    · cases h
      exact ⟨fallback, by simp [isStorageNotFound]⟩
    · cases h
  · rename_i depositID cnt h
    exact ⟨depositID, rfl⟩

theorem clearAllowed_fields (g : GlobalExitRoot) (e : ExitRootRow) :
    (if removedGER g e then { e with allowed := false } else e).exit_roots = e.exit_roots ∧
    (if removedGER g e then { e with allowed := false } else e).global_exit_root =
      e.global_exit_root ∧
    (if removedGER g e then { e with allowed := false } else e).network_id = e.network_id ∧
    (if removedGER g e then { e with allowed := false } else e).id = e.id := by
  split <;> exact ⟨rfl, rfl, rfl, rfl⟩

theorem depositIDByGER_clearAllowed (db : Database) (g : GlobalExitRoot)
    (markers : List RemoveExitRootRow) (ger : Bytes) (network fallback : Nat) :
    depositIDByGER
      { db with
        remove_exit_root := markers
        exit_root := db.exit_root.map fun e =>
          if removedGER g e then { e with allowed := false } else e }
      ger network fallback = depositIDByGER db ger network fallback := by
  simp only [depositIDByGER]
  rw [GetDepositCountByGER_frame db
    { db with
      remove_exit_root := markers
      exit_root := db.exit_root.map fun e =>
        if removedGER g e then { e with allowed := false } else e }
    (fun e => if removedGER g e then { e with allowed := false } else e) rfl rfl rfl
    (fun e => ⟨(clearAllowed_fields g e).1, (clearAllowed_fields g e).2.1,
      (clearAllowed_fields g e).2.2.1⟩)]

/-- C26 (what the code does): when the removed GER has a row for the network of
the marker (`row` is the first such row) and an earlier row exists for that
network, `AddRemoveL2GER` returns nil, having recorded the marker, set
`allowed = false` on the rows of the removed GER for that network, and set
`ready_for_claim = false` on exactly the deposits of network 0 that are
destined to the network of the marker and whose id lies in
`(prevDepositID, CurrentDepositID]`.  Here `prev` is an earlier row of the
network with the greatest id, and the two deposit ids are those that
`GetDepositCountByGER` finds for the GER of `prev` and for the removed GER
(0 and `2^64 - 1` when it finds none).  Every other row and column is as
before. -/
theorem C26_remove_ger_rewind (db : Database) (g : GlobalExitRoot) (row : ExitRootRow)
    (hrow : (db.exit_root.filter (removedGER g)).head? = some row)
    (hprev : ∃ p, p ∈ db.exit_root ∧ p.network_id = g.NetworkID ∧ p.id < row.id) :
    ∃ prev prevDepositID CurrentDepositID,
      prev ∈ db.exit_root ∧ prev.network_id = g.NetworkID ∧ prev.id < row.id ∧
      (∀ q, q ∈ db.exit_root → q.network_id = g.NetworkID → q.id < row.id → q.id ≤ prev.id) ∧
      depositIDByGER db prev.global_exit_root g.NetworkID 0 = Except.ok prevDepositID ∧
      depositIDByGER db g.GlobalExitRoot g.NetworkID (2 ^ 64 - 1) = Except.ok CurrentDepositID ∧
      AddRemoveL2GER db g =
        (none,
          { db with
            remove_exit_root := db.remove_exit_root ++
              [{ block_id := g.BlockID, global_exit_root := g.GlobalExitRoot,
                 network_id := g.NetworkID }]
            exit_root := db.exit_root.map fun e =>
              if e.global_exit_root = g.GlobalExitRoot ∧ e.network_id = g.NetworkID then
                { e with allowed := false }
              else e
            deposit := db.deposit.map fun d =>
              if prevDepositID < d.id ∧ d.id ≤ CurrentDepositID ∧ d.network_id = 0 ∧
                  d.dest_net = g.NetworkID then
                { d with ready_for_claim := false }
              else d }) := by
  obtain ⟨p0, hp0, hp0n, hp0i⟩ := hprev
  -- the rows the previous GER is chosen from
  have hfilter : (List.map (fun e => if removedGER g e then { e with allowed := false } else e)
        db.exit_root).filter (fun e => decide (e.network_id = g.NetworkID ∧ e.id < row.id)) =
      (db.exit_root.filter fun e => decide (e.network_id = g.NetworkID ∧ e.id < row.id)).map
        (fun e => if removedGER g e then { e with allowed := false } else e) := by
    rw [List.filter_map]
    congr 1
    apply List.filter_congr
    intro e _
    simp only [Function.comp, (clearAllowed_fields g e).2.2.1, (clearAllowed_fields g e).2.2.2]
  have hmem : (if removedGER g p0 then { p0 with allowed := false } else p0) ∈
      (db.exit_root.filter fun e => decide (e.network_id = g.NetworkID ∧ e.id < row.id)).map
        (fun e => if removedGER g e then { e with allowed := false } else e) :=
    List.mem_map.2 ⟨p0, List.mem_filter.2 ⟨hp0, by simp [hp0n, hp0i]⟩, rfl⟩
  obtain ⟨p, rest, hsorted, hpmem, hpmax⟩ := orderByDesc_head (fun e : ExitRootRow => e.id) _ _ hmem
  obtain ⟨prev, hprevmem, hprevp⟩ := List.mem_map.1 hpmem
  have hprev2 := List.mem_filter.1 hprevmem
  have hprevc : prev.network_id = g.NetworkID ∧ prev.id < row.id := by simpa using hprev2.2
  have hpger : p.global_exit_root = prev.global_exit_root := by
    rw [← hprevp]; exact (clearAllowed_fields g prev).2.1
  have hpid : p.id = prev.id := by
    rw [← hprevp]; exact (clearAllowed_fields g prev).2.2.2
  obtain ⟨prevDepositID, hprevID⟩ := depositIDByGER_ok db prev.global_exit_root g.NetworkID 0
  obtain ⟨CurrentDepositID, hcurID⟩ :=
    depositIDByGER_ok db g.GlobalExitRoot g.NetworkID (2 ^ 64 - 1)
  refine ⟨prev, prevDepositID, CurrentDepositID, hprev2.1, hprevc.1, hprevc.2, ?_, hprevID,
    hcurID, ?_⟩
  · intro q hq hqn hqi
    have hqmem : (if removedGER g q then { q with allowed := false } else q) ∈
        (db.exit_root.filter fun e => decide (e.network_id = g.NetworkID ∧ e.id < row.id)).map
          (fun e => if removedGER g e then { e with allowed := false } else e) :=
      List.mem_map.2 ⟨q, List.mem_filter.2 ⟨hq, by simp [hqn, hqi]⟩, rfl⟩
    have := hpmax _ hqmem
    simp only [(clearAllowed_fields g q).2.2.2] at this
    omega
  · have hhead : ∃ tl, db.exit_root.filter (removedGER g) = row :: tl := by
      cases hf : db.exit_root.filter (removedGER g) with
      | nil => rw [hf] at hrow; cases hrow
      | cons r tl =>
        rw [hf] at hrow
        simp only [List.head?_cons, Option.some.injEq] at hrow
        exact ⟨tl, by rw [hrow]⟩
    obtain ⟨tl, hf⟩ := hhead
    simp only [AddRemoveL2GER, hf, hfilter, hsorted, depositIDByGER_clearAllowed, hpger, hprevID,
      hcurID]
    simp only [removedGER, rewound, Bool.and_eq_true, decide_eq_true_eq, gt_iff_lt, and_assoc]

theorem C26_remove_ger_rewind_witness :
    ∃ prev prevDepositID CurrentDepositID,
      prev ∈ removeGerDb.exit_root ∧ prev.network_id = removeGerMarker.NetworkID ∧ prev.id < 2 ∧
      (∀ q, q ∈ removeGerDb.exit_root → q.network_id = removeGerMarker.NetworkID → q.id < 2 →
        q.id ≤ prev.id) ∧
      depositIDByGER removeGerDb prev.global_exit_root removeGerMarker.NetworkID 0 =
        Except.ok prevDepositID ∧
      depositIDByGER removeGerDb removeGerMarker.GlobalExitRoot removeGerMarker.NetworkID
        (2 ^ 64 - 1) = Except.ok CurrentDepositID ∧
      AddRemoveL2GER removeGerDb removeGerMarker =
        (none,
          { removeGerDb with
            remove_exit_root := removeGerDb.remove_exit_root ++
              [{ block_id := removeGerMarker.BlockID,
                 global_exit_root := removeGerMarker.GlobalExitRoot,
                 network_id := removeGerMarker.NetworkID }]
            exit_root := removeGerDb.exit_root.map fun e =>
              if e.global_exit_root = removeGerMarker.GlobalExitRoot ∧
                  e.network_id = removeGerMarker.NetworkID then
                { e with allowed := false }
              else e
            deposit := removeGerDb.deposit.map fun d =>
              if prevDepositID < d.id ∧ d.id ≤ CurrentDepositID ∧ d.network_id = 0 ∧
                  d.dest_net = removeGerMarker.NetworkID then
                { d with ready_for_claim := false }
              else d }) :=
  C26_remove_ger_rewind removeGerDb removeGerMarker
    { id := 2, block_id := 1, global_exit_root := [2], exit_roots := [[12], [0]],
      network_id := 1, allowed := true }
    rfl
    ⟨{ id := 1, block_id := 1, global_exit_root := [1], exit_roots := [[11], [0]],
       network_id := 1, allowed := true }, by decide, rfl, by decide⟩

/-! ## Theorems: event ingestion -/

theorem processEvent_decode {σ : Type} (c : EventClient σ) (sigs : SignatureHashes) (vLog : Log)
    (st : Ingest σ) :
    processEvent c sigs vLog st =
      match decodeEvent c sigs vLog with
      | Outcome.panic p => (Outcome.panic p, st)
      | Outcome.error err => (Outcome.error err, st)
      | Outcome.ok none => (Outcome.ok (), st)
      | Outcome.ok (some (ev, errText)) => appendEvent c vLog ev errText st := by
  unfold processEvent decodeEvent
  cases h0 : vLog.Topics.get? 0 with
  | none => rfl
  | some topic =>
    dsimp only
    by_cases h1 : topic = sigs.updateGlobalExitRootSignatureHash
    · rw [if_pos h1, if_pos h1]
      unfold updateGlobalExitRootEvent processUpdateGlobalExitRootEvent
      cases vLog.Topics.get? 1 <;> cases vLog.Topics.get? 2 <;> rfl
    rw [if_neg h1, if_neg h1]
    by_cases h2 : topic = sigs.updateL1InfoTreeSignatureHash
    · rw [if_pos h2, if_pos h2]
      unfold updateL1InfoTreeEvent processUpdateGlobalExitRootEvent
      cases c.ParseUpdateL1InfoTree vLog <;> rfl
    rw [if_neg h2, if_neg h2]
    by_cases h3 : topic = sigs.depositEventSignatureHash
    · rw [if_pos h3, if_pos h3]
      unfold depositEvent
      cases c.ParseBridgeEvent vLog <;> rfl
    rw [if_neg h3, if_neg h3]
    by_cases h4 : topic = sigs.claimEventSignatureHash
    · rw [if_pos h4, if_pos h4]
      unfold newClaimEvent claimEvent
      cases c.ParseClaimEvent vLog with
      | error err => rfl
      | ok ev =>
        dsimp only
        cases DecodeGlobalIndex ev.GlobalIndex <;> rfl
    rw [if_neg h4, if_neg h4]
    by_cases h5 : topic = sigs.oldClaimEventSignatureHash
    · rw [if_pos h5, if_pos h5]
      unfold oldClaimEvent claimEvent
      cases c.ParseOldClaimEvent vLog <;> rfl
    rw [if_neg h5, if_neg h5]
    by_cases h6 : topic = sigs.newWrappedTokenEventSignatureHash
    · rw [if_pos h6, if_pos h6]
      unfold tokenWrappedEvent
      cases c.ParseNewWrappedToken vLog <;> rfl
    rw [if_neg h6, if_neg h6]
    by_cases h7 : topic ∈ sigs.ignoredBeforeVerifyBatches
    · rw [if_pos h7, if_pos h7]
    rw [if_neg h7, if_neg h7]
    by_cases h8 : topic = sigs.verifyBatchesTrustedAggregatorSignatureHash
    · rw [if_pos h8, if_pos h8]
      unfold verifyBatchesTrustedAggregatorEvent verifyBatches
      cases c.ParseVerifyBatchesTrustedAggregator vLog <;> rfl
    rw [if_neg h8, if_neg h8]
    by_cases h9 : topic = sigs.rollupManagerVerifyBatchesSignatureHash
    · rw [if_pos h9, if_pos h9]
      unfold verifyBatchesEvent verifyBatches
      cases c.ParseVerifyBatches vLog <;> rfl
    rw [if_neg h9, if_neg h9]
    by_cases h10 : topic ∈ sigs.ignoredBeforeInsertGlobalExitRoot
    · rw [if_pos h10, if_pos h10]
    rw [if_neg h10, if_neg h10]
    by_cases h11 : topic = sigs.insertGlobalExitRootSignatureHash
    · rw [if_pos h11, if_pos h11]
      unfold insertSovereignChainL2GER
      cases c.ParseInsertGlobalExitRoot vLog <;> rfl
    rw [if_neg h11, if_neg h11]
    by_cases h12 : topic = sigs.removeLastGlobalExitRootSignatureHash
    · rw [if_pos h12, if_pos h12]
      unfold removeLastL2GER
      cases c.ParseRemoveLastGlobalExitRoot vLog <;> rfl
    rw [if_neg h12, if_neg h12]

theorem indexAt_append_last {α : Type} (arr : List α) (x : α) :
    indexAt (arr ++ [x]) (Int.ofNat (arr ++ [x]).length - 1) = some x := by
  have h : Int.ofNat (arr ++ [x]).length - 1 = Int.ofNat arr.length := by
    simp only [List.length_append, List.length_singleton, Int.ofNat_eq_coe]
    push_cast
    omega
  rw [h]
  simp [indexAt]

theorem indexAt_append_mono {α : Type} (arr : List α) (x e : α) (pos : Int)
    (h : indexAt arr pos = some e) : indexAt (arr ++ [x]) pos = some e := by
  unfold indexAt at h ⊢
  split at h
  · rename_i hp
    rw [if_pos hp]
    rw [List.get?_eq_getElem?] at h ⊢
    have hlt : pos.toNat < arr.length := by
      by_contra hge
      rw [List.getElem?_eq_none (Nat.le_of_not_lt hge)] at h
      cases h
    rw [List.getElem?_append_left hlt]
    exact h
  · cases h

theorem Block.key_append (b : Block) (ev : Event) : (b.append ev).key = b.key := by
  cases ev <;> rfl

theorem Block.hash_append (b : Block) (ev : Event) : (b.append ev).BlockHash = b.BlockHash := by
  cases ev <;> rfl

theorem orderNames_ne :
    RemoveL2GEROrder ≠ GlobalExitRootsOrder ∧ DepositsOrder ≠ GlobalExitRootsOrder ∧
    DepositsOrder ≠ RemoveL2GEROrder ∧ ClaimsOrder ≠ GlobalExitRootsOrder ∧
    ClaimsOrder ≠ RemoveL2GEROrder ∧ ClaimsOrder ≠ DepositsOrder ∧
    TokensOrder ≠ GlobalExitRootsOrder ∧ TokensOrder ≠ RemoveL2GEROrder ∧
    TokensOrder ≠ DepositsOrder ∧ TokensOrder ≠ ClaimsOrder ∧
    VerifyBatchOrder ≠ GlobalExitRootsOrder ∧ VerifyBatchOrder ≠ RemoveL2GEROrder ∧
    VerifyBatchOrder ≠ DepositsOrder ∧ VerifyBatchOrder ≠ ClaimsOrder ∧
    VerifyBatchOrder ≠ TokensOrder := by
  decide

theorem Block.eventAt_append_last (b : Block) (ev : Event) :
    (b.append ev).eventAt { Name := ev.Name, Pos := Int.ofNat ((b.append ev).len ev) - 1 } =
      some ev := by
  obtain ⟨n1, n2, n3, n4, n5, n6, n7, n8, n9, n10, n11, n12, n13, n14, n15⟩ := orderNames_ne
  cases ev <;>
    simp only [Block.eventAt, Event.Name, Block.append, Block.len, if_true, if_false, n1, n2, n3,
      n4, n5, n6, n7, n8, n9, n10, n11, n12, n13, n14, n15, indexAt_append_last, Option.map_some']

theorem Block.eventAt_append_mono (b : Block) (ev e : Event) (o : Order)
    (h : b.eventAt o = some e) : (b.append ev).eventAt o = some e := by
  have hm : ∀ {α : Type} (arr : List α) (x : α) (f : α → Event),
      (indexAt arr o.Pos).map f = some e → (indexAt (arr ++ [x]) o.Pos).map f = some e := by
    intro α arr x f h1
    cases hi : indexAt arr o.Pos with
    | none => rw [hi] at h1; cases h1
    | some y =>
      rw [hi] at h1
      rw [indexAt_append_mono arr x y o.Pos hi]
      exact h1
  unfold Block.eventAt at h ⊢
  cases ev <;> simp only [Block.append] <;>
    (repeat' split) <;> (repeat' split at h) <;>
    first
      | exact h
      | exact hm _ _ _ h
      | contradiction

theorem processEvents_snoc {σ : Type} (c : EventClient σ) (sigs : SignatureHashes) (l : Log) :
    ∀ (pre : List Log) (st : Ingest σ),
      processEvents c sigs (pre ++ [l]) st =
        match processEvents c sigs pre st with
        | (Outcome.ok (), st1) => processEvent c sigs l st1
        | r => r := by
  intro pre
  induction pre with
  | nil =>
    intro st
    simp only [List.nil_append, processEvents]
    cases h : processEvent c sigs l st with
    | mk r st1 => cases r <;> rfl
  | cons a pre ih =>
    intro st
    simp only [List.cons_append, processEvents]
    cases h : processEvent c sigs a st with
    | mk r st1 =>
      cases r with
      | ok u => cases u; exact ih st1
      | error e => rfl
      | panic p => rfl

theorem recognised_snoc {σ : Type} (c : EventClient σ) (sigs : SignatureHashes)
    (pre : List Log) (l : Log) :
    recognised c sigs (pre ++ [l]) =
      recognised c sigs pre ++
        (match decodeEvent c sigs l with
         | Outcome.ok (some (ev, _)) => [(l, ev)]
         | _ => []) := by
  simp only [recognised, List.filterMap_append]
  congr 1
  simp only [List.filterMap_cons, List.filterMap_nil]
  cases hd : decodeEvent c sigs l with
  | panic p => rfl
  | error e => rfl
  | ok r =>
    cases r with
    | none => rfl
    | some q => rfl

theorem recognised_sublist {σ : Type} (c : EventClient σ) (sigs : SignatureHashes) :
    ∀ logs : List Log, ((recognised c sigs logs).map Prod.fst).Sublist logs := by
  intro logs
  induction logs with
  | nil => simp [recognised]
  | cons a logs ih =>
    simp only [recognised, List.filterMap_cons] at ih ⊢
    split
    · exact ih.cons a
    · rename_i b hb
      split at hb
      · cases hb
        simp only [List.map_cons]
        exact ih.cons₂ a
      · cases hb

theorem recognised_mem {σ : Type} (c : EventClient σ) (sigs : SignatureHashes)
    (logs : List Log) (p : Log × Event) (h : p ∈ recognised c sigs logs) : p.1 ∈ logs :=
  (recognised_sublist c sigs logs).subset (List.mem_map.2 ⟨p, h, rfl⟩)

theorem BlockLogsAdjacent.adjacent_init {pre : List Log} {l : Log} (h : BlockLogsAdjacent (pre ++ [l])) :
    BlockLogsAdjacent pre :=
  fun a m b hs => h a m b (hs.trans (List.sublist_append_left pre [l]))

theorem HashFixesNumber.fixes_init {pre : List Log} {l : Log} (h : HashFixesNumber (pre ++ [l])) :
    HashFixesNumber pre :=
  fun a b ha hb => h a b (List.mem_append_left _ ha) (List.mem_append_left _ hb)

theorem Ingested.block_hash {σ : Type} {c : EventClient σ} {sigs : SignatureHashes}
    {pre : List Log} {l : Log} {blocks : List Block} {blocksOrder : Bytes → List Order}
    (hinv : Ingested c sigs pre blocks blocksOrder) (hhash : HashFixesNumber (pre ++ [l]))
    (b : Block) (hb : b ∈ blocks) (hh : b.BlockHash = l.BlockHash) : b.key = l.key := by
  obtain ⟨p, hp, hpk⟩ := List.mem_map.1 ((hinv.2.1 b.key).1 (List.mem_map.2 ⟨b, hb, rfl⟩))
  have hpm := recognised_mem c sigs pre p hp
  have hnum := hhash p.1 l (List.mem_append_left _ hpm) (by simp)
    (by
      have : p.1.BlockHash = b.BlockHash := congrArg Prod.fst hpk
      rw [this, hh])
  have h1 : p.1.BlockNumber = b.BlockNumber := congrArg Prod.snd hpk
  simp only [Block.key, Log.key, Prod.mk.injEq]
  exact ⟨hh, by rw [← h1, hnum]⟩

theorem appendBlock_ingested {σ : Type} (c : EventClient σ) (sigs : SignatureHashes)
    (pre : List Log) (l : Log) (ev : Event) (errText : String) (st : Ingest σ)
    (hdec : decodeEvent c sigs l = Outcome.ok (some (ev, errText)))
    (hhdr : ∀ h d, ∃ hd, (c.HeaderByHash h d).1 = Except.ok hd)
    (hhash : HashFixesNumber (pre ++ [l]))
    (hinv : Ingested c sigs pre st.blocks st.blocksOrder)
    (hk : l.key ∉ st.blocks.map Block.key) :
    ∃ st1, appendBlock c l ev st = (Outcome.ok (), st1) ∧
      Ingested c sigs (pre ++ [l]) st1.blocks st1.blocksOrder := by
  have hbh := hinv.block_hash hhash
  obtain ⟨I1, I2, I3, I4, I5⟩ := hinv
  obtain ⟨hd, hhd⟩ := hhdr l.BlockHash st.db
  cases hq : c.HeaderByHash l.BlockHash st.db with
  | mk r db1 =>
    rw [hq] at hhd
    simp only at hhd
    subst hhd
    simp only [appendBlock, hq, recordOrder]
    refine ⟨_, rfl, ?_⟩
    dsimp only
    have hnbkey : ((prepareBlock l hd.Time hd).append ev).key = l.key := by
      rw [Block.key_append]; rfl
    have hnbhash : ((prepareBlock l hd.Time hd).append ev).BlockHash = l.BlockHash := by
      rw [Block.hash_append]; rfl
    have hnohash : ∀ b, b ∈ st.blocks → b.BlockHash ≠ l.BlockHash :=
      fun b hb hh => hk (List.mem_map.2 ⟨b, hb, hbh b hb hh⟩)
    have hrec : recognised c sigs (pre ++ [l]) = recognised c sigs pre ++ [(l, ev)] := by
      rw [recognised_snoc, hdec]
    have hnone : (recognised c sigs pre).filter (fun p => p.1.key = l.key) = [] := by
      rw [List.filter_eq_nil_iff]
      intro p hp hpk
      exact hk ((I2 l.key).2 (List.mem_map.2 ⟨p, hp, by simpa using hpk⟩))
    rw [hnbhash]
    refine ⟨?_, ?_, ?_, ?_, ?_⟩
    · rw [List.map_append, List.map_singleton, hnbkey]
      exact List.Nodup.append I1 (List.nodup_singleton _)
        (by
          intro k hk1 hk2
          rw [List.mem_singleton] at hk2
          exact hk (hk2 ▸ hk1))
    · intro k
      rw [hrec, List.map_append, List.map_append, List.mem_append, List.mem_append, I2 k]
      simp only [List.map_singleton, List.mem_singleton, hnbkey]
    · intro b hb
      rw [hrec, List.filter_append, List.map_append]
      rcases List.mem_append.1 hb with hb | hb
      · have hne : b.BlockHash ≠ l.BlockHash := hnohash b hb
        have hkne : ¬ l.key = b.key := by
          intro h
          exact hk (List.mem_map.2 ⟨b, hb, h.symm⟩)
        dsimp only
        rw [if_neg hne, I3 b hb]
        simp [hkne]
      · rw [List.mem_singleton] at hb
        subst hb
        dsimp only
        rw [hnbhash, if_pos rfl, I5 l.BlockHash hnohash, hnbkey, hnone]
        simp only [List.nil_append, List.map_cons, List.map_nil, Block.eventAt_append_last,
          decide_True, List.filter_cons_of_pos, List.filter_nil]
    · intro b hb
      rw [List.getLast?_append_of_ne_nil _ (by simp), List.getLast?_singleton] at hb
      cases hb
      refine ⟨(l, ev), ?_, hnbkey.symm⟩
      rw [hrec, List.getLast?_append_of_ne_nil _ (by simp), List.getLast?_singleton]
    · intro h hh
      have hne : h ≠ l.BlockHash := by
        intro heq
        exact hh _ (List.mem_append_right _ (List.mem_singleton_self _)) (by rw [hnbhash, heq])
      dsimp only
      rw [if_neg hne]
      exact I5 h (fun b hb => hh b (List.mem_append_left _ hb))

theorem appendLast_ingested {σ : Type} (c : EventClient σ) (sigs : SignatureHashes)
    (pre : List Log) (l : Log) (ev : Event) (errText : String) (db : σ)
    (init : List Block) (last : Block) (blocksOrder : Bytes → List Order)
    (hdec : decodeEvent c sigs l = Outcome.ok (some (ev, errText)))
    (hhash : HashFixesNumber (pre ++ [l]))
    (hinv : Ingested c sigs pre (init ++ [last]) blocksOrder)
    (hlast : last.key = l.key) :
    Ingested c sigs (pre ++ [l]) (init ++ [last.append ev])
      (recordOrder ev (last.append ev)
        ({ db := db, blocks := init ++ [last.append ev], blocksOrder := blocksOrder } :
          Ingest σ)).blocksOrder := by
  have hbh := hinv.block_hash hhash
  obtain ⟨I1, I2, I3, I4, I5⟩ := hinv
  have hrec : recognised c sigs (pre ++ [l]) = recognised c sigs pre ++ [(l, ev)] := by
    rw [recognised_snoc, hdec]
  have hkeys : (init ++ [last.append ev]).map Block.key = (init ++ [last]).map Block.key := by
    simp only [List.map_append, List.map_singleton, Block.key_append]
  have hlh : last.BlockHash = l.BlockHash := congrArg Prod.fst hlast
  have hinit : ∀ b, b ∈ init → b.key ≠ l.key := by
    intro b hb hbk
    rw [List.map_append, List.map_singleton] at I1
    have hdis := (List.nodup_append.1 I1).2.2
    exact hdis (List.mem_map.2 ⟨b, hb, rfl⟩) (by rw [hbk, hlast]; exact List.mem_singleton_self _)
  have hinith : ∀ b, b ∈ init → b.BlockHash ≠ l.BlockHash :=
    fun b hb hh => hinit b hb (hbh b (List.mem_append_left _ hb) hh)
  simp only [recordOrder, Block.hash_append]
  refine ⟨?_, ?_, ?_, ?_, ?_⟩
  · rw [hkeys]; exact I1
  · intro k
    rw [hkeys, I2 k, hrec, List.map_append, List.mem_append]
    simp only [List.map_singleton, List.mem_singleton]
    constructor
    · exact Or.inl
    · rintro (h | h)
      · exact h
      · rw [h, ← hlast]
        exact (I2 last.key).1 (List.mem_map.2 ⟨last, by simp, rfl⟩)
  · intro b hb
    rw [hrec, List.filter_append, List.map_append]
    rcases List.mem_append.1 hb with hb | hb
    · have hne : b.BlockHash ≠ last.BlockHash := by rw [hlh]; exact hinith b hb
      have hkne : ¬ l.key = b.key := fun h => hinit b hb h.symm
      dsimp only
      rw [if_neg hne, I3 b (List.mem_append_left _ hb)]
      simp [hkne]
    · rw [List.mem_singleton] at hb
      subst hb
      have hold := I3 last (by simp)
      have hsame : (blocksOrder last.BlockHash).map (last.append ev).eventAt =
          (blocksOrder last.BlockHash).map last.eventAt := by
        apply List.map_congr_left
        intro o ho
        have hmem : last.eventAt o ∈ (blocksOrder last.BlockHash).map last.eventAt :=
          List.mem_map.2 ⟨o, ho, rfl⟩
        rw [hold] at hmem
        obtain ⟨p, _, hp⟩ := List.mem_map.1 hmem
        rw [← hp]
        exact Block.eventAt_append_mono last ev p.2 o hp.symm
      dsimp only
      rw [Block.hash_append, if_pos rfl, List.map_append, hsame, hold, Block.key_append, hlast]
      simp only [List.map_cons, List.map_nil, Block.eventAt_append_last, decide_True,
        List.filter_cons_of_pos, List.filter_nil]
  · intro b hb
    rw [List.getLast?_append_of_ne_nil _ (by simp), List.getLast?_singleton] at hb
    cases hb
    refine ⟨(l, ev), ?_, ?_⟩
    · rw [hrec, List.getLast?_append_of_ne_nil _ (by simp), List.getLast?_singleton]
    · rw [Block.key_append, hlast]
  · intro h hh
    have hne : h ≠ last.BlockHash := by
      intro heq
      exact hh _ (List.mem_append_right _ (List.mem_singleton_self _))
        (by rw [Block.hash_append, heq])
    dsimp only
    rw [if_neg hne]
    apply I5 h
    intro b hb
    rcases List.mem_append.1 hb with hb | hb
    · exact hh b (List.mem_append_left _ hb)
    · rw [List.mem_singleton] at hb
      subst hb
      exact fun heq => hne heq.symm

theorem appendEvent_ingested {σ : Type} (c : EventClient σ) (sigs : SignatureHashes)
    (pre : List Log) (l : Log) (ev : Event) (errText : String) (st : Ingest σ)
    (hdec : decodeEvent c sigs l = Outcome.ok (some (ev, errText)))
    (hhdr : ∀ h d, ∃ hd, (c.HeaderByHash h d).1 = Except.ok hd)
    (hadj : BlockLogsAdjacent (pre ++ [l])) (hhash : HashFixesNumber (pre ++ [l]))
    (hinv : Ingested c sigs pre st.blocks st.blocksOrder) :
    ∃ st1, appendEvent c l ev errText st = (Outcome.ok (), st1) ∧
      Ingested c sigs (pre ++ [l]) st1.blocks st1.blocksOrder := by
  obtain ⟨db, blocks, blocksOrder⟩ := st
  rcases List.eq_nil_or_concat blocks with hnil | ⟨init, last, hcons⟩
  · subst hnil
    simp only [appendEvent, List.getLast?_nil]
    exact appendBlock_ingested c sigs pre l ev errText _ hdec hhdr hhash hinv (by simp)
  · rw [List.concat_eq_append] at hcons
    subst hcons
    simp only [appendEvent, List.getLast?_append_of_ne_nil _ (List.cons_ne_nil _ _),
      List.getLast?_singleton, List.dropLast_concat]
    by_cases hne : last.BlockHash ≠ l.BlockHash ∨ last.BlockNumber ≠ l.BlockNumber
    · rw [if_pos hne]
      apply appendBlock_ingested c sigs pre l ev errText _ hdec hhdr hhash hinv
      intro hmem
      have hlk : last.key ≠ l.key := by
        intro h
        simp only [Block.key, Log.key, Prod.mk.injEq] at h
        rcases hne with h1 | h1
        · exact h1 h.1
        · exact h1 h.2
      obtain ⟨p, hp, hpk⟩ := List.mem_map.1 ((hinv.2.1 l.key).1 hmem)
      obtain ⟨q, hq, hqk⟩ := hinv.2.2.2.1 last
        (by rw [List.getLast?_append_of_ne_nil _ (List.cons_ne_nil _ _), List.getLast?_singleton])
      have hsplit : recognised c sigs pre = (recognised c sigs pre).dropLast ++ [q] :=
        (List.dropLast_append_getLast? q hq).symm
      rw [hsplit] at hp
      rcases List.mem_append.1 hp with hp1 | hp1
      · have hs2 : [p, q].Sublist (recognised c sigs pre) := by
          rw [hsplit]
          exact (List.singleton_sublist.2 hp1).append (List.Sublist.refl [q])
        have hs3 : [p.1, q.1, l].Sublist (pre ++ [l]) :=
          ((hs2.map Prod.fst).trans (recognised_sublist c sigs pre)).append
            (List.Sublist.refl [l])
        have := hadj p.1 q.1 l hs3 hpk
        exact hlk (by rw [← hqk, this, hpk])
      · rw [List.mem_singleton] at hp1
        subst hp1
        exact hlk (by rw [← hqk, hpk])
    · rw [if_neg hne]
      have heq : last.BlockHash = l.BlockHash ∧ last.BlockNumber = l.BlockNumber := by
        constructor
        · by_contra h; exact hne (Or.inl h)
        · by_contra h; exact hne (Or.inr h)
      rw [if_pos heq]
      refine ⟨_, rfl, ?_⟩
      exact appendLast_ingested c sigs pre l ev errText db init last blocksOrder hdec hhash hinv
        (by simp only [Block.key, Log.key, heq.1, heq.2])

theorem processEvents_ingested {σ : Type} (c : EventClient σ) (sigs : SignatureHashes)
    (hhdr : ∀ h d, ∃ hd, (c.HeaderByHash h d).1 = Except.ok hd) (db : σ) :
    ∀ logs : List Log,
      (∀ l, l ∈ logs → ∃ r, decodeEvent c sigs l = Outcome.ok r) →
      BlockLogsAdjacent logs → HashFixesNumber logs →
      ∃ st, processEvents c sigs logs { db := db, blocks := [], blocksOrder := fun _ => [] } =
          (Outcome.ok (), st) ∧
        Ingested c sigs logs st.blocks st.blocksOrder := by
  intro logs
  induction logs using List.reverseRecOn with
  | nil =>
    intro _ _ _
    refine ⟨_, rfl, ?_⟩
    refine ⟨by simp, by simp [recognised], by simp, by simp, fun _ _ => rfl⟩
  | append_singleton pre l ih =>
    intro hdec hadj hhash
    obtain ⟨st, hrun, hinv⟩ := ih (fun a ha => hdec a (List.mem_append_left _ ha)) hadj.adjacent_init
      hhash.fixes_init
    obtain ⟨r, hr⟩ := hdec l (by simp)
    rw [processEvents_snoc, hrun]
    simp only
    rw [processEvent_decode, hr]
    cases r with
    | none =>
      refine ⟨st, rfl, ?_⟩
      have hrec : recognised c sigs (pre ++ [l]) = recognised c sigs pre := by
        rw [recognised_snoc, hr]; simp
      unfold Ingested
      rw [hrec]
      exact hinv
    | some q =>
      obtain ⟨ev, errText⟩ := q
      exact appendEvent_ingested c sigs pre l ev errText st hr hhdr hadj hhash hinv

theorem recognised_all {σ : Type} (c : EventClient σ) (sigs : SignatureHashes) :
    ∀ logs : List Log, (∀ l, l ∈ logs → ∃ q, decodeEvent c sigs l = Outcome.ok (some q)) →
      (recognised c sigs logs).map Prod.fst = logs := by
  intro logs
  induction logs with
  | nil => intro _; rfl
  | cons a logs ih =>
    intro h
    obtain ⟨q, hq⟩ := h a (List.mem_cons_self _ _)
    obtain ⟨ev, errText⟩ := q
    have ih2 := ih (fun l hl => h l (List.mem_cons_of_mem _ hl))
    simp only [recognised, List.filterMap_cons, hq, List.map_cons] at ih2 ⊢
    rw [ih2]

/-- C23: when `FilterLogs` returns `logs`, every header lookup succeeds, every
log of `logs` is decoded without error, the logs of one block are adjacent
and the block hash of a log determines its block number, then `readEvents`
returns blocks and order lists such that: the blocks have pairwise different
(block hash, block number), and these are exactly those of the recognised
event logs; and for every returned block `b`, the list `blocksOrder[b.BlockHash]`
has one entry per recognised event log of `b`, in log order, the entry of a log
pointing (by `Name` and `Pos`) to the event decoded from that log in the
arrays of `b`. -/
theorem C23_positional_order_tags {σ : Type} (c : EventClient σ) (sigs : SignatureHashes)
    (query : FilterQuery) (db db1 : σ) (logs : List Log)
    (hlogs : c.FilterLogs query db = (Except.ok logs, db1))
    (hdec : ∀ l, l ∈ logs → ∃ r, decodeEvent c sigs l = Outcome.ok r)
    (hhdr : ∀ h d, ∃ hd, (c.HeaderByHash h d).1 = Except.ok hd)
    (hadj : BlockLogsAdjacent logs) (hhash : HashFixesNumber logs) :
    ∃ blocks blocksOrder db2,
      readEvents c sigs query db = (Outcome.ok (blocks, blocksOrder), db2) ∧
      (blocks.map Block.key).Nodup ∧
      (∀ k, k ∈ blocks.map Block.key ↔ k ∈ (recognised c sigs logs).map fun p => p.1.key) ∧
      ((∀ l, l ∈ logs → ∃ q, decodeEvent c sigs l = Outcome.ok (some q)) →
        ∀ k, k ∈ blocks.map Block.key ↔ k ∈ logs.map Log.key) ∧
      ∀ b, b ∈ blocks →
        (blocksOrder b.BlockHash).map b.eventAt =
          ((recognised c sigs logs).filter fun p => p.1.key = b.key).map fun p => some p.2 := by
  obtain ⟨st, hrun, I1, I2, I3, _, _⟩ :=
    processEvents_ingested c sigs hhdr db1 logs hdec hadj hhash
  refine ⟨st.blocks, st.blocksOrder, st.db, ?_, I1, I2, ?_, I3⟩
  · simp only [readEvents, hlogs, hrun]
  · intro hall k
    have hkeys : logs.map Log.key = (recognised c sigs logs).map fun p => p.1.key := by
      conv_lhs => rw [← recognised_all c sigs logs hall]
      rw [List.map_map]
      rfl
    rw [I2 k, hkeys]

theorem C23_positional_order_tags_witness :
    ∃ blocks blocksOrder db2,
      readEvents (exampleClient [exampleLog 3 [] 7, exampleLog 3 [1] 7, exampleLog 5 [] 8])
        exampleSignatures { FromBlock := 7, ToBlock := some 8, Addresses := [], Topics := [] } 0 =
          (Outcome.ok (blocks, blocksOrder), db2) ∧
      (blocks.map Block.key).Nodup ∧
      (∀ k, k ∈ blocks.map Block.key ↔
        k ∈ (recognised
            (exampleClient [exampleLog 3 [] 7, exampleLog 3 [1] 7, exampleLog 5 [] 8])
            exampleSignatures [exampleLog 3 [] 7, exampleLog 3 [1] 7, exampleLog 5 [] 8]).map
          fun p => p.1.key) ∧
      ((∀ l, l ∈ [exampleLog 3 [] 7, exampleLog 3 [1] 7, exampleLog 5 [] 8] →
          ∃ q, decodeEvent
            (exampleClient [exampleLog 3 [] 7, exampleLog 3 [1] 7, exampleLog 5 [] 8])
            exampleSignatures l = Outcome.ok (some q)) →
        ∀ k, k ∈ blocks.map Block.key ↔
          k ∈ [exampleLog 3 [] 7, exampleLog 3 [1] 7, exampleLog 5 [] 8].map Log.key) ∧
      ∀ b, b ∈ blocks →
        (blocksOrder b.BlockHash).map b.eventAt =
          ((recognised
              (exampleClient [exampleLog 3 [] 7, exampleLog 3 [1] 7, exampleLog 5 [] 8])
              exampleSignatures [exampleLog 3 [] 7, exampleLog 3 [1] 7, exampleLog 5 [] 8]).filter
            fun p => p.1.key = b.key).map fun p => some p.2 :=
  C23_positional_order_tags
    (exampleClient [exampleLog 3 [] 7, exampleLog 3 [1] 7, exampleLog 5 [] 8]) exampleSignatures
    { FromBlock := 7, ToBlock := some 8, Addresses := [], Topics := [] } 0 1
    [exampleLog 3 [] 7, exampleLog 3 [1] 7, exampleLog 5 [] 8] rfl
    (by
      intro l hl
      simp only [List.mem_cons, List.mem_singleton, List.not_mem_nil, or_false] at hl
      rcases hl with h | h | h <;> subst h <;> exact ⟨_, rfl⟩)
    (fun _ _ => ⟨_, rfl⟩)
    (by
      intro a m b hs hk
      have h := hs.eq_of_length rfl
      simp only [List.cons.injEq, and_true] at h
      obtain ⟨rfl, rfl, rfl⟩ := h
      exact absurd hk (by decide))
    (by
      intro a b ha hb hh
      simp only [List.mem_cons, List.mem_singleton, List.not_mem_nil, or_false] at ha hb
      rcases ha with h | h | h <;> subst h <;> rcases hb with h | h | h <;> subst h <;>
        first
          | rfl
          | exact absurd hh (by decide))

/-- C23, counterexample: two deposit logs with one block hash and two block
numbers.  The logs of one block are adjacent, and every decoder and header
lookup succeeds.  `readEvents` returns one block per (block hash, block
number), each with one deposit, but the order list of their common hash has
two entries, one more than the one recognised event log of either block, and
both entries have `Pos = 0`: in the block of number 7 the second entry points
to the deposit of the first log, not to the event decoded from the second. -/
theorem C23_positional_order_tags_counterexample :
    BlockLogsAdjacent sameHashLogs ∧
    (∀ l, l ∈ sameHashLogs →
      ∃ q, decodeEvent (exampleClient sameHashLogs) exampleSignatures l = Outcome.ok (some q)) ∧
    (∀ h d, ∃ hd, ((exampleClient sameHashLogs).HeaderByHash h d).1 = Except.ok hd) ∧
    ∃ blocks blocksOrder,
      (readEvents (exampleClient sameHashLogs) exampleSignatures
          { FromBlock := 7, ToBlock := some 8, Addresses := [], Topics := [] } 0).1 =
        Outcome.ok (blocks, blocksOrder) ∧
      blocks =
        [{ emptyBlock with
           BlockNumber := 7, BlockHash := [7], ParentHash := [0], ReceivedAt := 5,
           Deposits := [exampleDepositEvent 0 7] },
         { emptyBlock with
           BlockNumber := 8, BlockHash := [7], ParentHash := [0], ReceivedAt := 5,
           Deposits := [exampleDepositEvent 1 8] }] ∧
      blocksOrder [7] =
        [{ Name := DepositsOrder, Pos := 0 }, { Name := DepositsOrder, Pos := 0 }] ∧
      ((recognised (exampleClient sameHashLogs) exampleSignatures sameHashLogs).filter
        fun p => p.1.key = ([7], 7)).length = 1 ∧
      ((recognised (exampleClient sameHashLogs) exampleSignatures sameHashLogs).filter
        fun p => p.1.key = ([7], 8)).length = 1 :=
  ⟨by
      intro a m b hs
      have h := hs.length_le
      simp [sameHashLogs] at h,
    by
      intro l hl
      simp only [sameHashLogs, List.mem_cons, List.mem_singleton, List.not_mem_nil,
        or_false] at hl
      rcases hl with h | h <;> subst h <;> exact ⟨_, rfl⟩,
    fun _ _ => ⟨_, rfl⟩,
    _, _, rfl, rfl, by decide, by decide, by decide⟩

/-- A run on five logs of two blocks, the second log being ignored: block 7
gets two deposits and a global exit root, block 8 a claim, and the order lists
give the positions 0, 1, 0 and 0. -/
theorem readEvents_example :
    ∃ blocks blocksOrder,
      (readEvents
          (exampleClient [exampleLog 3 [] 7, exampleLog 20 [] 7, exampleLog 3 [1] 7,
            exampleLog 9 [4] 7, exampleLog 5 [] 8])
          exampleSignatures { FromBlock := 7, ToBlock := some 8, Addresses := [], Topics := [] } 0).1 =
        Outcome.ok (blocks, blocksOrder) ∧
      blocks =
        [{ emptyBlock with
           BlockNumber := 7, BlockHash := [7], ParentHash := [0], ReceivedAt := 5,
           Deposits := [exampleDepositEvent 0 7, exampleDepositEvent 1 7],
           GlobalExitRoots :=
             [{ BlockID := 0, BlockNumber := 7, ExitRoots := [], GlobalExitRoot := [4],
                NetworkID := 0, ID := 0 }] },
         { emptyBlock with
           BlockNumber := 8, BlockHash := [8], ParentHash := [0], ReceivedAt := 5,
           Claims := [exampleClaimEvent 0 8] }] ∧
      blocksOrder [7] =
        [{ Name := DepositsOrder, Pos := 0 }, { Name := DepositsOrder, Pos := 1 },
         { Name := GlobalExitRootsOrder, Pos := 0 }] ∧
      blocksOrder [8] = [{ Name := ClaimsOrder, Pos := 0 }] ∧
      blocksOrder [9] = [] :=
  ⟨_, _, rfl, rfl, by decide, by decide, by decide⟩

theorem decodeEvent_paired {σ : Type} (c : EventClient σ) (sigs : SignatureHashes) (vLog : Log)
    (ev : Event) (t : String) (h : decodeEvent c sigs vLog = Outcome.ok (some (ev, t))) :
    ev.Paired := by
  unfold decodeEvent at h
  cases h0 : vLog.Topics.get? 0 with
  | none => rw [h0] at h; cases h
  | some topic =>
    rw [h0] at h
    dsimp only at h
    by_cases h1 : topic = sigs.updateGlobalExitRootSignatureHash
    · rw [if_pos h1] at h
      cases h11 : vLog.Topics.get? 1 <;> cases h12 : vLog.Topics.get? 2 <;>
        rw [h11, h12] at h <;> cases h
      exact Or.inl rfl
    rw [if_neg h1] at h
    by_cases h2 : topic = sigs.updateL1InfoTreeSignatureHash
    · rw [if_pos h2] at h
      cases hp : c.ParseUpdateL1InfoTree vLog <;> rw [hp] at h <;> cases h
      exact Or.inl rfl
    rw [if_neg h2] at h
    by_cases h3 : topic = sigs.depositEventSignatureHash
    · rw [if_pos h3] at h
      cases hp : c.ParseBridgeEvent vLog <;> rw [hp] at h <;> cases h
      trivial
    rw [if_neg h3] at h
    by_cases h4 : topic = sigs.claimEventSignatureHash
    · rw [if_pos h4] at h
      cases hp : c.ParseClaimEvent vLog with
      | error err => rw [hp] at h; cases h
      | ok e =>
        rw [hp] at h
        dsimp only at h
        cases hg : DecodeGlobalIndex e.GlobalIndex <;> rw [hg] at h <;> cases h
        trivial
    rw [if_neg h4] at h
    by_cases h5 : topic = sigs.oldClaimEventSignatureHash
    · rw [if_pos h5] at h
      cases hp : c.ParseOldClaimEvent vLog <;> rw [hp] at h <;> cases h
      trivial
    rw [if_neg h5] at h
    by_cases h6 : topic = sigs.newWrappedTokenEventSignatureHash
    · rw [if_pos h6] at h
      cases hp : c.ParseNewWrappedToken vLog <;> rw [hp] at h <;> cases h
      trivial
    rw [if_neg h6] at h
    by_cases h7 : topic ∈ sigs.ignoredBeforeVerifyBatches
    · rw [if_pos h7] at h
      cases h
    rw [if_neg h7] at h
    by_cases h8 : topic = sigs.verifyBatchesTrustedAggregatorSignatureHash
    · rw [if_pos h8] at h
      cases hp : c.ParseVerifyBatchesTrustedAggregator vLog <;> rw [hp] at h <;> cases h
      trivial
    rw [if_neg h8] at h
    by_cases h9 : topic = sigs.rollupManagerVerifyBatchesSignatureHash
    · rw [if_pos h9] at h
      cases hp : c.ParseVerifyBatches vLog <;> rw [hp] at h <;> cases h
      trivial
    rw [if_neg h9] at h
    by_cases h10 : topic ∈ sigs.ignoredBeforeInsertGlobalExitRoot
    · rw [if_pos h10] at h
      cases h
    rw [if_neg h10] at h
    by_cases h11 : topic = sigs.insertGlobalExitRootSignatureHash
    · rw [if_pos h11] at h
      cases hp : c.ParseInsertGlobalExitRoot vLog <;> rw [hp] at h <;> cases h
      exact Or.inr rfl
    rw [if_neg h11] at h
    by_cases h12 : topic = sigs.removeLastGlobalExitRootSignatureHash
    · rw [if_pos h12] at h
      cases hp : c.ParseRemoveLastGlobalExitRoot vLog <;> rw [hp] at h <;> cases h
      trivial
    rw [if_neg h12] at h
    cases h

theorem Block.append_paired (b : Block) (ev : Event) (hev : ev.Paired)
    (hb : ∀ g, g ∈ b.GlobalExitRoots → g.ExitRoots.length = 2 ∨ g.ExitRoots.length = 0) :
    ∀ g, g ∈ (b.append ev).GlobalExitRoots →
      g.ExitRoots.length = 2 ∨ g.ExitRoots.length = 0 := by
  intro g hg
  cases ev with
  | GlobalExitRoots e =>
    simp only [Block.append, List.mem_append, List.mem_singleton] at hg
    rcases hg with hg | hg
    · exact hb g hg
    · rw [hg]; exact hev
  | RemoveL2GER e => exact hb g hg
  | Deposits e => exact hb g hg
  | Claims e => exact hb g hg
  | Tokens e => exact hb g hg
  | VerifiedBatches e => exact hb g hg

theorem appendBlock_paired {σ : Type} (c : EventClient σ) (vLog : Log) (ev : Event)
    (st : Ingest σ) (hev : ev.Paired) (hst : ExitRootsPaired st.blocks) :
    ExitRootsPaired (appendBlock c vLog ev st).2.blocks := by
  unfold appendBlock
  cases hh : c.HeaderByHash vLog.BlockHash st.db with
  | mk r db1 =>
    cases r with
    | error err => exact hst
    | ok fullBlock =>
      intro b hb
      simp only [recordOrder, List.mem_append, List.mem_singleton] at hb
      rcases hb with hb | hb
      · exact hst b hb
      · rw [hb]
        exact Block.append_paired _ ev hev (fun g hg => by cases hg)

theorem appendEvent_paired {σ : Type} (c : EventClient σ) (vLog : Log) (ev : Event)
    (errText : String) (st : Ingest σ) (hev : ev.Paired) (hst : ExitRootsPaired st.blocks) :
    ExitRootsPaired (appendEvent c vLog ev errText st).2.blocks := by
  unfold appendEvent
  cases hl : st.blocks.getLast? with
  | none => exact appendBlock_paired c vLog ev st hev hst
  | some last =>
    dsimp only
    split
    · exact appendBlock_paired c vLog ev st hev hst
    · split
      · intro b hb
        simp only [recordOrder, List.mem_append, List.mem_singleton] at hb
        rcases hb with hb | hb
        · exact hst b (List.mem_of_mem_dropLast hb)
        · rw [hb]
          exact Block.append_paired _ ev hev (hst last (List.mem_of_getLast?_eq_some hl))
      · exact hst

theorem processEvent_paired {σ : Type} (c : EventClient σ) (sigs : SignatureHashes) (vLog : Log)
    (st : Ingest σ) (hst : ExitRootsPaired st.blocks) :
    ExitRootsPaired (processEvent c sigs vLog st).2.blocks := by
  rw [processEvent_decode]
  cases hd : decodeEvent c sigs vLog with
  | panic p => exact hst
  | error err => exact hst
  | ok r =>
    cases r with
    | none => exact hst
    | some p =>
      obtain ⟨ev, t⟩ := p
      exact appendEvent_paired c vLog ev t st (decodeEvent_paired c sigs vLog ev t hd) hst

theorem processEvents_paired {σ : Type} (c : EventClient σ) (sigs : SignatureHashes) :
    ∀ (logs : List Log) (st : Ingest σ), ExitRootsPaired st.blocks →
      ExitRootsPaired (processEvents c sigs logs st).2.blocks := by
  intro logs
  induction logs with
  | nil => intro st hst; exact hst
  | cons vLog rest ih =>
    intro st hst
    have h1 := processEvent_paired c sigs vLog st hst
    unfold processEvents
    cases hp : processEvent c sigs vLog st with
    | mk r st1 =>
      rw [hp] at h1
      cases r with
      | ok u => cases u; exact ih st1 h1
      | error e => exact h1
      | panic p => exact h1

/-- The blocks that `readEvents` returns carry only global exit root events
with two exit roots or none. -/
theorem readEvents_paired {σ : Type} (c : EventClient σ) (sigs : SignatureHashes)
    (query : FilterQuery) (db db1 : σ) (blocks : List Block) (blocksOrder : Bytes → List Order)
    (h : readEvents c sigs query db = (Outcome.ok (blocks, blocksOrder), db1)) :
    ExitRootsPaired blocks := by
  unfold readEvents at h
  cases hf : c.FilterLogs query db with
  | mk r db2 =>
    rw [hf] at h
    cases r with
    | error err => cases h
    | ok logs =>
      dsimp only at h
      have hp := processEvents_paired c sigs logs
        { db := db2, blocks := [], blocksOrder := fun _ => [] } (fun b hb => by cases hb)
      cases hr : processEvents c sigs logs
          { db := db2, blocks := [], blocksOrder := fun _ => [] } with
      | mk o st =>
        rw [hr] at h hp
        cases o with
        | ok u =>
          cases u
          simp only [Prod.mk.injEq, Outcome.ok.injEq] at h
          rw [← h.1.1]
          exact hp
        | error e => cases h
        | panic p => cases h

end Bridge
